import Mathlib

/-!
# Class lowering of `gen/classes.cpp`

A shallow embedding of the class-ABI lowering stage (`src/gen/classes.cpp`):
the layout scan of `DtoResolveClass`, the interface walk of
`LLVM_AddBaseClassInterfaces`, the index computation of
`ClassDeclaration::offsetToIndex`, the per-class phase functions, the descriptor
builder (`DtoDefineClassInfo`, `build_classinfo_flags`, `build_offti_array`), and
the per-expression lowerings `DtoCastClass`, `DtoIndexClass`, `DtoNewClass`,
`DtoInitClass`, `DtoCallClassCtor` and `DtoVirtualFunctionPointer`; and of the
pointer arithmetic of
`src/gen/binops.cpp` (`undoStrideMul`, `emitPointerOffset`, `binAdd`, `binMin`).

Conventions.
* Pointers to declarations (`ClassDeclaration*`, `VarDeclaration*`) are natural
  numbers; two pointers are equal iff the numbers are.
* `unsigned` is a natural number below `2^32`; arithmetic that the source does in
  `unsigned` is reduced modulo `2^32` explicitly (`u32`, `usub`).
* `std::vector::push_back` is `xs ++ [x]`.
* The code emitted into the current block is a list of instructions; the result
  of the instruction at position `k` is the value `reg k`.
* A failing `assert`, a division by zero, an exhausted recursion budget and
  a dereferenced null pointer are the ways a run can stop without a result
  (`Fatal`).
-/

namespace LDC

/-! ## Basic data -/

abbrev ClassId := Nat

abbrev VarId := Nat

/-- Ways in which a run stops without producing a result. `assertion n` is the
`assert` on source line `n` of the file the stopping function is in (`classes.cpp`
unless said otherwise). -/
inductive Fatal where
  | assertion (line : Nat)
  | divisionByZero
  | nullDeref (line : Nat)
  | outOfFuel
  deriving DecidableEq, Repr

/-- The `llvm::Type` values the class lowering builds or receives. `classRef cd`
and `vtblRef cd` are the types held by the holders `ts->llvmType` and
`ts->llvmVtblType` of class `cd` (referred to by identity, so that refining a
placeholder is seen by every user); `funcType f` is `DtoBaseFunctionType(f)`,
`interfaceInfo` is `DtoInterfaceInfoType()`, and `prim k` is any other type handed
over by the frontend. -/
inductive LLType where
  | null
  | int8
  | prim (k : Nat)
  | classRef (cd : ClassId)
  | vtblRef (cd : ClassId)
  | funcType (f : Nat)
  | interfaceInfo
  | pointer (t : LLType)
  | array (t : LLType) (n : Nat)
  deriving DecidableEq, Repr

/-- `getPtrToType`. -/
def getPtrToType (t : LLType) : LLType := LLType.pointer t

/-- `(unsigned)-1`. -/
def UINT_MAX : Nat := 4294967295

/-- Truncation to `unsigned`. -/
def u32 (n : Nat) : Nat := n % 4294967296

/-- Subtraction in `unsigned`. -/
def usub (a b : Nat) : Nat := (a + 4294967296 - b % 4294967296) % 4294967296

/-- An entry of `IrStruct::OffsetMap` together with its key: `first` is the byte
offset (`i->first`), `var` the field (`i->second.var`), `type` its lowered type
(`i->second.type`). -/
structure Offset where
  first : Nat
  var : VarId
  type : LLType
  deriving DecidableEq, Repr

/-- The part of `IrField` written by the layout scan. -/
structure IrField where
  index : Int
  indexOffset : Nat
  deriving DecidableEq, Repr

/-- Assignment `v->irField->index = idx`. -/
def setIndex (f : VarId → IrField) (v : VarId) (idx : Int) : VarId → IrField :=
  fun w => if w = v then { f w with index := idx } else f w

/-- Assignment `v->irField->indexOffset = k`. -/
def setIndexOffset (f : VarId → IrField) (v : VarId) (k : Nat) : VarId → IrField :=
  fun w => if w = v then { f w with indexOffset := k } else f w

/-! ## The layout scan of `DtoResolveClass` (lines 143-211) -/

/-- The local variables of the scan together with the state it writes:
`fieldtypes` (the local vector that becomes the composite type),
`irstruct->defaultFields`, `irstruct->hasUnions` and the `irField` records. -/
structure ScanState where
  prevsize : Nat
  lastoffset : Nat
  fieldtype : LLType
  fieldinit : Option VarId
  fieldpad : Nat
  idx : Int
  fieldtypes : List LLType
  defaultFields : List (Option VarId)
  hasUnions : Bool
  irField : VarId → IrField

/-- State at loop entry (lines 150-155). -/
def scanInit (fieldtypes : List LLType) (defaultFields : List (Option VarId))
    (hasUnions : Bool) (irField : VarId → IrField) : ScanState :=
  { prevsize := UINT_MAX, lastoffset := UINT_MAX, fieldtype := LLType.null,
    fieldinit := none, fieldpad := 0, idx := 0, fieldtypes := fieldtypes,
    defaultFields := defaultFields, hasUnions := hasUnions, irField := irField }

/-- One iteration of the loop at lines 156-204. `sz` is `getABITypeSize`. -/
def scanStep (sz : LLType → Nat) (st : ScanState) (e : Offset) : Except Fatal ScanState :=
  if st.lastoffset = UINT_MAX then
    -- first iteration
    .ok { st with
      lastoffset := e.first, fieldtype := e.type, fieldinit := some e.var,
      prevsize := u32 (sz e.type), irField := setIndex st.irField e.var st.idx }
  else if st.lastoffset = e.first then
    -- colliding offset
    let s := sz e.type
    let st1 : ScanState :=
      if s > st.prevsize then
        { st with fieldpad := st.fieldpad + (s - st.prevsize), prevsize := u32 s }
      else st
    .ok { st1 with hasUnions := true, irField := setIndex st1.irField e.var st1.idx }
  else if e.first < u32 (st.lastoffset + st.prevsize) then
    -- intersecting offset
    let s := sz e.type
    if ¬ (e.first + s ≤ u32 (st.lastoffset + st.prevsize)) then
      .error (Fatal.assertion 178)
    else if s = 0 then
      .error Fatal.divisionByZero
    else
      .ok { st with
        hasUnions := true,
        irField := setIndexOffset (setIndex st.irField e.var st.idx) e.var
          (usub e.first st.lastoffset / s) }
  else
    -- fresh offset: commit the field
    let ft := st.fieldtypes ++ [st.fieldtype]
    let df := st.defaultFields ++ [st.fieldinit]
    let ft1 := if st.fieldpad ≠ 0 then ft ++ [LLType.array LLType.int8 st.fieldpad] else ft
    let df1 := if st.fieldpad ≠ 0 then df ++ [none] else df
    let idx1 := if st.fieldpad ≠ 0 then st.idx + 1 else st.idx
    let idx2 := idx1 + 1
    -- start new
    .ok { st with
      fieldtypes := ft1, defaultFields := df1, idx := idx2,
      lastoffset := e.first, fieldtype := e.type, fieldinit := some e.var,
      prevsize := u32 (sz e.type), irField := setIndex st.irField e.var idx2,
      fieldpad := 0 }

/-- The loop at lines 156-204 over the entries in iteration order. -/
def scanLoop (sz : LLType → Nat) : ScanState → List Offset → Except Fatal ScanState
  | st, [] => .ok st
  | st, e :: es =>
    match scanStep sz st e with
    | .ok st1 => scanLoop sz st1 es
    | .error err => .error err

/-- The commit after the loop (lines 205-210). -/
def scanFinish (st : ScanState) : ScanState :=
  let ft := st.fieldtypes ++ [st.fieldtype]
  let df := st.defaultFields ++ [st.fieldinit]
  if st.fieldpad ≠ 0 then
    { st with fieldtypes := ft ++ [LLType.array LLType.int8 st.fieldpad],
              defaultFields := df ++ [none] }
  else
    { st with fieldtypes := ft, defaultFields := df }

/-- What the field resolution leaves behind. -/
structure ScanResult where
  fieldtypes : List LLType
  defaultFields : List (Option VarId)
  hasUnions : Bool
  irField : VarId → IrField

/-- Lines 143-211: nothing happens when `irstruct->offsets` is empty, otherwise
the loop runs and the last slot is committed. -/
def resolveFields (sz : LLType → Nat) (offsets : List Offset) (fieldtypes : List LLType)
    (defaultFields : List (Option VarId)) (hasUnions : Bool) (irField : VarId → IrField) :
    Except Fatal ScanResult :=
  if offsets.isEmpty then
    .ok { fieldtypes := fieldtypes, defaultFields := defaultFields,
          hasUnions := hasUnions, irField := irField }
  else
    match scanLoop sz (scanInit fieldtypes defaultFields hasUnions irField) offsets with
    | .ok st =>
      let st1 := scanFinish st
      .ok { fieldtypes := st1.fieldtypes, defaultFields := st1.defaultFields,
            hasUnions := st1.hasUnions, irField := st1.irField }
    | .error err => .error err

/-! ## Frontend declarations (read-only input) -/

abbrev FuncId := Nat

/-- A field declaration: identity, byte offset (`vd->offset`), the lowered type
`DtoType(vd->type)`, the class named by the field's type when that type is a
class type, and `vd->hasPointers()`. -/
structure VarDeclaration where
  id : VarId
  offset : Nat
  type : LLType
  classType : Option ClassId
  hasPointers : Bool
  deriving DecidableEq, Repr

/-- A `Dsymbol*` as it occurs in `cd->members`, `cd->vtbl` and `bc->vtbl`. `other p`
is any declaration of another kind, `p` being the answer of its virtual
`hasPointers()` (a frontend query). -/
inductive Dsymbol where
  | null
  | func (f : FuncId)
  | classDecl (c : ClassId)
  | var (v : VarDeclaration)
  | other (hasPointers : Bool)
  deriving DecidableEq, Repr

/-- An element of `cd->baseclasses`: the class or interface it names and its
table `bc->vtbl` (as filled by the frontend). -/
structure BaseClass where
  base : ClassId
  vtbl : List Dsymbol
  deriving DecidableEq, Repr

/-- The frontend part of a `ClassDeclaration` that the lowering reads. `inModule`
is `cd->getModule() == gIR->dmodule`, `ctor` is `cd->ctor != NULL`. -/
structure ClassDeclaration where
  isInterfaceDeclaration : Bool
  isAbstract : Bool
  baseClass : Option ClassId
  baseclasses : List BaseClass
  fields : List VarDeclaration
  members : List Dsymbol
  vtbl : List Dsymbol
  vtblInterfacesDim : Nat
  inModule : Bool
  ctor : Bool
  defaultCtor : Option FuncId
  dtors : List FuncId
  deriving Repr

/-- The declaration graph: every class by identity, and `ClassDeclaration::classinfo`. -/
structure Program where
  decl : ClassId → ClassDeclaration
  classinfo : ClassId

/-! ## Backend state -/

/-- Contents of a `PATypeHolder*`: not allocated, holding an abstract placeholder,
or holding a struct type with the given elements. -/
inductive TypeHolder where
  | unset
  | placeholder
  | struct (elems : List LLType)
  deriving DecidableEq, Repr

/-- Module-level globals created by the class lowering, by role. -/
inductive GlobalName where
  | vtbl (cd : ClassId)
  | interfaceInfos (cd : ClassId)
  | interfaceVtbl (cd : ClassId) (id : ClassId)
  | init (cd : ClassId)
  | classInfo (cd : ClassId)
  | offsetTypeInfos (cd : ClassId)
  deriving DecidableEq, Repr

/-- Constants built by the class lowering. -/
inductive Const where
  | nullValue (t : LLType)
  | global (g : GlobalName)
  | fieldInit (v : VarId)
  | zeroBytes (n : Nat)
  | func (f : FuncId)
  | infoElem (cd : ClassId) (k : Nat)
  | uint (n : Nat)
  | slice (len : Nat) (ptr : Option GlobalName)
  | cinfoOperand (k : Nat)
  | name (cd : ClassId)
  | dtor (cd : ClassId)
  | size_t (n : Nat)
  | typeInfo (v : VarId)
  deriving DecidableEq, Repr

/-- An initializer: a constant struct or a constant array of structs. -/
inductive Initializer where
  | struct (cs : List Const)
  | array (rows : List (List Const))
  deriving DecidableEq, Repr

/-- An `IrInterface`. `decl` is the key `bc->base` of the entry. -/
structure IrInterface where
  base : BaseClass
  decl : ClassId
  vtblTy : Option ClassId
  index : Int
  vtbl : Option GlobalName
  info : Option Const
  infoInit : Option (List Const)
  vtblInit : Option (List Const)
  deriving DecidableEq, Repr

/-- An `IrStruct` of a class. -/
structure IrStruct where
  offsets : List Offset
  defaultFields : List (Option VarId)
  hasUnions : Bool
  interfaces : List IrInterface
  recty : TypeHolder
  vtbl : Option GlobalName
  init : Option GlobalName
  interfaceInfos : Option GlobalName
  interfaceInfosTy : Option Nat
  classInfo : Option GlobalName
  constInit : Option (List Const)
  constVtbl : Option (List Const)
  constClassInfo : Option (List Const)
  classDeclared : Bool
  classDefined : Bool
  deriving DecidableEq, Repr

/-- The mutable compilation state: the per-class flags and artifacts hanging off
each `ClassDeclaration` / `TypeClass`, the `irField` records, and the parts of
`gIR` the class lowering touches. -/
structure IRState where
  llvmResolved : ClassId → Bool
  llvmDeclared : ClassId → Bool
  llvmInitialized : ClassId → Bool
  llvmDefined : ClassId → Bool
  irStruct : ClassId → Option IrStruct
  llvmType : ClassId → TypeHolder
  llvmVtblType : ClassId → TypeHolder
  irField : VarId → IrField
  fieldConstInit : VarId → Option Const
  structs : List ClassId
  classes : List ClassId
  declareList : List ClassId
  constInitList : List ClassId
  defineList : List ClassId
  typeNames : List ClassId
  vtblTypeNames : List ClassId
  globals : List GlobalName
  initializers : List (GlobalName × Option Initializer)

/-- Pointwise update of a per-declaration attribute. -/
def upd {β : Type} (f : Nat → β) (k : Nat) (v : β) : Nat → β :=
  fun j => if j = k then v else f j

/-! ## Pieces declared outside `classes.cpp` -/

/-- Modelled from the spec: the constructor `IrStruct::IrStruct` (ir/irstruct.cpp is
not part of the sources). It "publishes a forward-declared placeholder type" in
`recty`; every other member starts empty or null. -/
def IrStruct.new : IrStruct :=
  { offsets := [], defaultFields := [], hasUnions := false, interfaces := [],
    recty := TypeHolder.placeholder, vtbl := none, init := none, interfaceInfos := none,
    interfaceInfosTy := none, classInfo := none, constInit := none, constVtbl := none,
    constClassInfo := none, classDeclared := false, classDefined := false }

/-- Modelled from the spec: the constructor `IrInterface::IrInterface(bc, NULL)`
(not part of the sources): the entry remembers its `BaseClass`, has no table type
yet and no slot index yet (`-1`). -/
def IrInterface.new (bc : BaseClass) : IrInterface :=
  { base := bc, decl := bc.base, vtblTy := none, index := -1, vtbl := none,
    info := none, infoInit := none, vtblInit := none }

/-- Modelled from the spec: `IrStruct::InterfaceMap::insert` (the container type is
declared in ir/irstruct.h, not part of the sources). "If the interface declaration
is not yet in the class's interface set, adds an entry"; "order of discovery is
the final slot order", so a new entry goes to the end of the iteration order. -/
def InterfaceMap.insert (m : List IrInterface) (iri : IrInterface) : List IrInterface :=
  if m.any (fun x => decide (x.decl = iri.decl)) then m else m ++ [iri]

/-- Modelled from the spec: `IrStruct::OffsetMap::insert` (a multimap keyed by byte
offset, declared in ir/irstruct.h): "an offset-ordered mapping"; an entry goes
behind the entries with a smaller or equal key. -/
def OffsetMap.insert : List Offset → Offset → List Offset
  | [], e => [e]
  | x :: xs, e => if e.first < x.first then e :: x :: xs else x :: OffsetMap.insert xs e

/-- Modelled from the spec: `VarDeclaration::toObjFile` for an instance field while
class `cd` is being resolved (toobj.cpp is not part of the sources). Lowering the
field's type triggers the resolve transition "on a field's class type" (`rec`),
then the field is entered in the offset map of the class being resolved. -/
def VarDeclaration.toObjFile (rec : ClassId → IRState → Except Fatal IRState)
    (cd : ClassId) (v : VarDeclaration) (s : IRState) : Except Fatal IRState :=
  match (match v.classType with
         | some c => rec c s
         | none => .ok s) with
  | .error err => .error err
  | .ok s1 =>
    match s1.irStruct cd with
    | none => .error (Fatal.nullDeref 0)
    | some irs =>
      let e : Offset := { first := v.offset, var := v.id, type := v.type }
      let irs1 : IrStruct := { irs with offsets := OffsetMap.insert irs.offsets e }
      .ok { s1 with irStruct := upd s1.irStruct cd (some irs1) }

/-- Modelled from the spec: `Dsymbol::toObjFile` on a member of the class being
resolved: a field goes through `VarDeclaration.toObjFile`; other members do not
touch the class layout. -/
def Dsymbol.toObjFile (rec : ClassId → IRState → Except Fatal IRState)
    (cd : ClassId) (d : Dsymbol) (s : IRState) : Except Fatal IRState :=
  match d with
  | Dsymbol.var v => VarDeclaration.toObjFile rec cd v s
  | _ => .ok s

/-- Sequential loop over a list with early exit on failure. -/
def forEach {α : Type} (f : α → IRState → Except Fatal IRState) :
    List α → IRState → Except Fatal IRState
  | [], s => .ok s
  | x :: xs, s =>
    match f x s with
    | .ok s1 => forEach f xs s1
    | .error err => .error err

/-! ## `LLVM_AddBaseClassInterfaces` and `LLVM_AddBaseClassData` -/

/-- Lines 31-41: the body of `if (bc->base->isInterfaceDeclaration())`.
`bc->fillVtbl` only writes frontend tables; `rec` is `DtoResolveClass`. -/
def addInterface (P : Program) (rec : ClassId → IRState → Except Fatal IRState)
    (target : ClassId) (bc : BaseClass) (s : IRState) : Except Fatal IRState :=
  if (P.decl bc.base).isInterfaceDeclaration then
    match s.irStruct target with
    | none => .error (Fatal.nullDeref 35)
    | some irs =>
      let irs1 : IrStruct :=
        { irs with interfaces := InterfaceMap.insert irs.interfaces (IrInterface.new bc) }
      rec bc.base { s with irStruct := upd s.irStruct target (some irs1) }
  else .ok s

/-- Lines 23-46. `fuel` bounds the depth of the walk through the inheritance
graph. -/
def LLVM_AddBaseClassInterfaces (P : Program) (rec : ClassId → IRState → Except Fatal IRState)
    (target : ClassId) : Nat → List BaseClass → IRState → Except Fatal IRState
  | 0, bcs, s => if bcs.isEmpty then .ok s else .error Fatal.outOfFuel
  | fuel + 1, bcs, s =>
    forEach (fun bc s =>
      match addInterface P rec target bc s with
      | .error err => .error err
      | .ok s1 =>
        LLVM_AddBaseClassInterfaces P rec target fuel (P.decl bc.base).baseclasses s1) bcs s

/-- Lines 50-76, for the class `cd` being resolved. -/
def LLVM_AddBaseClassData (P : Program) (rec : ClassId → IRState → Except Fatal IRState)
    (cd : ClassId) : Nat → List BaseClass → IRState → Except Fatal IRState
  | 0, bcs, s => if bcs.isEmpty then .ok s else .error Fatal.outOfFuel
  | fuel + 1, bcs, s =>
    forEach (fun bc s =>
      if (P.decl bc.base).isInterfaceDeclaration then .ok s
      else
        match LLVM_AddBaseClassData P rec cd fuel (P.decl bc.base).baseclasses s with
        | .error err => .error err
        | .ok s1 =>
          forEach (fun v s => VarDeclaration.toObjFile rec cd v s) (P.decl bc.base).fields s1)
      bcs s

/-! ## `DtoResolveClass` -/

/-- `isaStruct(itc->llvmVtblType->get())`: the struct type of interface `id` when
its holder holds a struct, null otherwise. -/
def isaStruct (h : TypeHolder) (id : ClassId) : Option ClassId :=
  match h with
  | TypeHolder.struct _ => some id
  | _ => none

/-- Lines 221-238: one dispatch-table pointer per interface entry, in the
iteration order of the interface map; `interIdx` starts at `fieldtypes.size()`. -/
def addInterfaceVtables (llvmVtblType : ClassId → TypeHolder) :
    List IrInterface → Int → List LLType → Except Fatal (List IrInterface × List LLType)
  | [], _, ft => .ok ([], ft)
  | iri :: rest, interIdx, ft =>
    match llvmVtblType iri.decl with
    | TypeHolder.unset => .error (Fatal.nullDeref 230)
    | h =>
      let iri1 : IrInterface := { iri with vtblTy := isaStruct h iri.decl, index := interIdx }
      match addInterfaceVtables llvmVtblType rest (interIdx + 1)
              (ft ++ [getPtrToType (LLType.vtblRef iri.decl)]) with
      | .error err => .error err
      | .ok (rest1, ft1) => .ok (iri1 :: rest1, ft1)

/-- Lines 241-258: refine the placeholder `recty` to the struct type, make it the
class's official type and name it. -/
def publishType (cd : ClassId) (fieldtypes : List LLType) (s : IRState) :
    Except Fatal IRState :=
  match s.irStruct cd with
  | none => .error (Fatal.nullDeref 245)
  | some irs =>
    match irs.recty with
    | TypeHolder.unset => .error (Fatal.assertion 245)
    | TypeHolder.struct _ => .error (Fatal.assertion 247)
    | TypeHolder.placeholder =>
      let irs1 : IrStruct := { irs with recty := TypeHolder.struct fieldtypes }
      .ok { s with
        irStruct := upd s.irStruct cd (some irs1),
        llvmType := upd s.llvmType cd (TypeHolder.struct fieldtypes),
        typeNames := s.typeNames ++ [cd] }

/-- Lines 269-299: the slot type for one entry of `cd->vtbl`. -/
def vtblSlotType (P : Program) (s : IRState) (cd : ClassId) : Dsymbol → Except Fatal LLType
  | Dsymbol.null => .error (Fatal.assertion 270)
  | Dsymbol.func f => .ok (getPtrToType (LLType.funcType f))
  | Dsymbol.classDecl _ =>
    if (P.decl cd).isInterfaceDeclaration then .ok (getPtrToType LLType.interfaceInfo)
    else if cd ≠ P.classinfo then
      match s.llvmType P.classinfo with
      | TypeHolder.unset => .error (Fatal.nullDeref 289)
      | _ => .ok (getPtrToType (LLType.classRef P.classinfo))
    else .ok (getPtrToType (LLType.classRef cd))
  | _ => .error (Fatal.assertion 299)

/-- Lines 267-300: the loop over `cd->vtbl`. -/
def vtblSlotTypes (P : Program) (s : IRState) (cd : ClassId) :
    List Dsymbol → Except Fatal (List LLType)
  | [] => .ok []
  | d :: ds =>
    match vtblSlotType P s cd d with
    | .error err => .error err
    | .ok t =>
      match vtblSlotTypes P s cd ds with
      | .error err => .error err
      | .ok ts => .ok (t :: ts)

/-- Lines 263-315: build and publish the dispatch-table type, leave the scope
stacks and queue the class for declaration. -/
def finishResolve (P : Program) (cd : ClassId) (s : IRState) : Except Fatal IRState :=
  match vtblSlotTypes P s cd (P.decl cd).vtbl with
  | .error err => .error err
  | .ok sinits_ty =>
    if sinits_ty.isEmpty then .error (Fatal.assertion 302)
    else
      .ok { s with
        vtblTypeNames := s.vtblTypeNames ++ [cd],
        llvmVtblType := upd s.llvmVtblType cd (TypeHolder.struct sinits_ty),
        classes := s.classes.dropLast,
        structs := s.structs.dropLast,
        declareList := s.declareList ++ [cd] }

/-- Lines 140-258: the layout scan, the interface walk, the interface slots and
the publication of the composite type. `fieldtypes` is the local vector. -/
def resolveLayout (P : Program) (sz : LLType → Nat) (fuel : Nat)
    (rec : ClassId → IRState → Except Fatal IRState) (cd : ClassId)
    (fieldtypes : List LLType) (s : IRState) : Except Fatal IRState :=
  match s.irStruct cd with
  | none => .error (Fatal.nullDeref 143)
  | some irs =>
    match resolveFields sz irs.offsets fieldtypes irs.defaultFields irs.hasUnions s.irField with
    | .error err => .error err
    | .ok r =>
      let irs1 : IrStruct := { irs with defaultFields := r.defaultFields, hasUnions := r.hasUnions }
      let s1 : IRState := { s with irField := r.irField, irStruct := upd s.irStruct cd (some irs1) }
      match LLVM_AddBaseClassInterfaces P rec cd fuel (P.decl cd).baseclasses s1 with
      | .error err => .error err
      | .ok s2 =>
        match s2.irStruct cd with
        | none => .error (Fatal.nullDeref 223)
        | some irs2 =>
          match addInterfaceVtables s2.llvmVtblType irs2.interfaces r.fieldtypes.length
                  r.fieldtypes with
          | .error err => .error err
          | .ok (ifs, ft) =>
            let irs3 : IrStruct := { irs2 with interfaces := ifs }
            publishType cd ft { s2 with irStruct := upd s2.irStruct cd (some irs3) }

/-- Lines 83-97: set the flag and make sure the `IrStruct` is created. -/
def beginResolve (cd : ClassId) (s : IRState) : IRState :=
  let s1 : IRState := { s with llvmResolved := upd s.llvmResolved cd true }
  if (s1.irStruct cd).isNone then { s1 with irStruct := upd s1.irStruct cd (some IrStruct.new) }
  else s1

/-- Lines 118-122: enter the scope stacks and allocate the placeholder for the
dispatch-table type. -/
def enterScope (cd : ClassId) (s : IRState) : IRState :=
  { s with structs := s.structs ++ [cd], classes := s.classes ++ [cd],
           llvmVtblType := upd s.llvmVtblType cd TypeHolder.placeholder }

/-- The header of every composite type (lines 123-129): dispatch-table pointer,
monitor. -/
def classHeader (cd : ClassId) : List LLType :=
  [getPtrToType (LLType.vtblRef cd), getPtrToType LLType.int8]

/-- The body of `DtoResolveClass` (lines 80-316) with the recursive calls going
through `rec`; `fuel` bounds the depth of the inheritance walks. -/
def resolveBody (P : Program) (sz : LLType → Nat) (fuel : Nat)
    (rec : ClassId → IRState → Except Fatal IRState) (cd : ClassId) (s : IRState) :
    Except Fatal IRState :=
  if s.llvmResolved cd = true then .ok s
  else
    -- resolve the base class
    match (match (P.decl cd).baseClass with
           | some b => rec b (beginResolve cd s)
           | none => Except.ok (beginResolve cd s)) with
    | .error err => .error err
    | .ok s3 =>
      -- add base class data fields first
      match LLVM_AddBaseClassData P rec cd fuel (P.decl cd).baseclasses (enterScope cd s3) with
      | .error err => .error err
      | .ok s5 =>
        -- then add own members
        match forEach (fun d s => Dsymbol.toObjFile rec cd d s) (P.decl cd).members s5 with
        | .error err => .error err
        | .ok s6 =>
          match resolveLayout P sz fuel rec cd (classHeader cd) s6 with
          | .error err => .error err
          | .ok s7 => finishResolve P cd s7

/-- `DtoResolveClass`. `fuel` bounds the depth of nested calls; with `fuel = 0`
only the guard at line 82 can still answer. -/
def DtoResolveClass (P : Program) (sz : LLType → Nat) : Nat → ClassId → IRState →
    Except Fatal IRState
  | 0, cd, s => if s.llvmResolved cd = true then .ok s else .error Fatal.outOfFuel
  | fuel + 1, cd, s => resolveBody P sz fuel (DtoResolveClass P sz fuel) cd s

/-! ## `DtoDeclareClassInfo` and `DtoDeclareClass` -/

/-- `!cd->isInterfaceDeclaration() && !cd->isAbstract()`. -/
def isConcrete (P : Program) (cd : ClassId) : Bool :=
  !(P.decl cd).isInterfaceDeclaration && !(P.decl cd).isAbstract

/-- `DtoDeclareClassInfo` (lines 1172-1193). -/
def DtoDeclareClassInfo (P : Program) (sz : LLType → Nat) (fuel : Nat) (cd : ClassId)
    (s : IRState) : Except Fatal IRState :=
  match s.irStruct cd with
  | none => .error (Fatal.nullDeref 1174)
  | some irs =>
    if irs.classDeclared = true then .ok s
    else
      let irs1 : IrStruct := { irs with classDeclared := true }
      match DtoResolveClass P sz fuel P.classinfo
              { s with irStruct := upd s.irStruct cd (some irs1) } with
      | .error err => .error err
      | .ok s1 =>
        match s1.llvmType P.classinfo with
        | TypeHolder.unset => .error (Fatal.nullDeref 1190)
        | _ =>
          match s1.irStruct cd with
          | none => .error (Fatal.nullDeref 1192)
          | some irs2 =>
            let irs3 : IrStruct := { irs2 with classInfo := some (GlobalName.classInfo cd) }
            .ok { s1 with irStruct := upd s1.irStruct cd (some irs3),
                          globals := s1.globals ++ [GlobalName.classInfo cd] }

/-- Lines 377-393: a global for every interface dispatch table and the address of
its element in the interface-info array. Returns the updated entries and the
globals created. -/
def declareInterfaceVtbls (cd : ClassId) :
    List IrInterface → Nat → Except Fatal (List IrInterface × List GlobalName)
  | [], _ => .ok ([], [])
  | iri :: rest, idx =>
    match iri.vtblTy with
    | none => .error (Fatal.assertion 388)
    | some _ =>
      let g := GlobalName.interfaceVtbl cd iri.decl
      let iri1 : IrInterface := { iri with vtbl := some g, info := some (Const.infoElem cd idx) }
      match declareInterfaceVtbls cd rest (idx + 1) with
      | .error err => .error err
      | .ok (rest1, gs) => .ok (iri1 :: rest1, g :: gs)

/-- Lines 346-354: the dispatch-table global of a concrete class. -/
def declareVtbl (P : Program) (cd : ClassId) (s : IRState) (irs : IrStruct) :
    Except Fatal (IrStruct × List GlobalName) :=
  if isConcrete P cd = true then
    match s.llvmVtblType cd with
    | TypeHolder.unset => .error (Fatal.nullDeref 352)
    | TypeHolder.placeholder => .error (Fatal.nullDeref 353)
    | TypeHolder.struct _ => .ok ({ irs with vtbl := some (GlobalName.vtbl cd) }, [GlobalName.vtbl cd])
  else .ok (irs, [])

/-- Lines 360-370: the interface-info array global. -/
def declareInterfaceInfos (cd : ClassId) (irs : IrStruct) : IrStruct × List GlobalName :=
  if irs.interfaces.isEmpty then (irs, [])
  else
    ({ irs with interfaceInfosTy := some irs.interfaces.length,
                interfaceInfos := some (GlobalName.interfaceInfos cd) },
     [GlobalName.interfaceInfos cd])

/-- Lines 374-402: interface dispatch-table globals and the default image global
of a concrete class. -/
def declareInit (P : Program) (cd : ClassId) (s : IRState) (irs : IrStruct) :
    Except Fatal (IrStruct × List GlobalName) :=
  if isConcrete P cd = true then
    match declareInterfaceVtbls cd irs.interfaces 0 with
    | .error err => .error err
    | .ok (ifs, gs) =>
      match s.llvmType cd with
      | TypeHolder.unset => .error (Fatal.nullDeref 400)
      | _ =>
        .ok ({ irs with interfaces := ifs, init := some (GlobalName.init cd) },
             gs ++ [GlobalName.init cd])
  else .ok (irs, [])

/-- `DtoDeclareClass` (lines 320-417). `cd->type->getTypeInfo` works on frontend
data only. -/
def DtoDeclareClass (P : Program) (sz : LLType → Nat) (fuel : Nat) (cd : ClassId)
    (s : IRState) : Except Fatal IRState :=
  if s.llvmDeclared cd = true then .ok s
  else
    let s1 : IRState := { s with llvmDeclared := upd s.llvmDeclared cd true }
    match s1.irStruct cd with
    | none => .error (Fatal.assertion 331)
    | some irs =>
      let s2 : IRState := { s1 with structs := s1.structs ++ [cd], classes := s1.classes ++ [cd] }
      let needs_definition : Bool := (P.decl cd).inModule
      match declareVtbl P cd s2 irs with
      | .error err => .error err
      | .ok (irs1, g1) =>
        let (irs2, g2) := declareInterfaceInfos cd irs1
        match declareInit P cd s2 irs2 with
        | .error err => .error err
        | .ok (irs3, g3) =>
          let s3 : IRState :=
            { s2 with
              irStruct := upd s2.irStruct cd (some irs3),
              globals := s2.globals ++ g1 ++ g2 ++ g3,
              classes := s2.classes.dropLast,
              structs := s2.structs.dropLast,
              constInitList := s2.constInitList ++ [cd],
              defineList := if needs_definition then s2.defineList ++ [cd] else s2.defineList }
          DtoDeclareClassInfo P sz fuel cd s3

/-! ## `DtoConstInitClass` -/

/-- The target data layout queries used when constants are built:
`getABITypeSize` of a struct type, `StructLayout::getElementOffset`, and
`global.params.is64bit`. -/
structure Target where
  structSize : List LLType → Nat
  elementOffset : List LLType → Nat → Nat
  is64bit : Bool

/-- Elements of the struct type held by a holder; `none` when `isaStruct` yields
null. -/
def TypeHolder.elems? : TypeHolder → Option (List LLType)
  | TypeHolder.struct es => some es
  | _ => none

/-- Lines 443-449: every offset entry gets its default initializer
(`DtoConstFieldInitializer`, kept symbolic as `Const.fieldInit`). -/
def initOffsets (offsets : List Offset) (f : VarId → Option Const) : VarId → Option Const :=
  offsets.foldl (fun g e => upd g e.var (some (Const.fieldInit e.var))) f

/-- Lines 475-489: one initializer per `defaultFields` entry, `i` being the
position in `defaultFields`. -/
def defaultFieldInits (structtype : Option (List LLType)) (f : VarId → Option Const) :
    List (Option VarId) → Nat → Except Fatal (List Const)
  | [], _ => .ok []
  | d :: rest, i =>
    match (match d with
           | some v =>
             match f v with
             | some c => Except.ok c
             | none => Except.error (Fatal.assertion 480)
           | none =>
             match structtype with
             | none => Except.error (Fatal.nullDeref 483)
             | some es =>
               match es.get? (i + 2) with
               | some (LLType.array _ n) => Except.ok (Const.zeroBytes n)
               | _ => Except.error (Fatal.assertion 484)) with
    | .error err => .error err
    | .ok c =>
      match defaultFieldInits structtype f rest (i + 1) with
      | .error err => .error err
      | .ok cs => .ok (c :: cs)

/-- Lines 493-506: one initializer per interface entry. -/
def interfaceFieldInits (isAbstract : Bool) (structtype : Option (List LLType)) :
    List IrInterface → Except Fatal (List Const)
  | [] => .ok []
  | iri :: rest =>
    match (if isAbstract = true then
             match structtype with
             | none => Except.error (Fatal.nullDeref 499)
             | some es =>
               if iri.index < 0 then Except.error (Fatal.assertion 499)
               else
                 match es.get? iri.index.toNat with
                 | some t => Except.ok (Const.nullValue t)
                 | none => Except.error (Fatal.assertion 499)
           else
             match iri.vtbl with
             | none => Except.error (Fatal.assertion 503)
             | some g => Except.ok (Const.global g)) with
    | .error err => .error err
    | .ok c =>
      match interfaceFieldInits isAbstract structtype rest with
      | .error err => .error err
      | .ok cs => .ok (c :: cs)

/-- Lines 536-558: the dispatch-table constant, one slot per entry of `cd->vtbl`. -/
def vtblInits (classInfo : Option GlobalName) : List Dsymbol → Except Fatal (List Const)
  | [] => .ok []
  | d :: ds =>
    match (match d with
           | Dsymbol.null => Except.error (Fatal.assertion 539)
           | Dsymbol.func f => Except.ok (Const.func f)
           | Dsymbol.classDecl _ =>
             match classInfo with
             | none => Except.error (Fatal.assertion 552)
             | some g => Except.ok (Const.global g)
           | _ => Except.error (Fatal.assertion 557)) with
    | .error err => .error err
    | .ok c =>
      match vtblInits classInfo ds with
      | .error err => .error err
      | .ok cs => .ok (c :: cs)

/-- Lines 619-633: the method slots of an interface dispatch table (entries
`1 ..` of `b->vtbl`). -/
def interfaceMethodInits : List Dsymbol → Except Fatal (List Const)
  | [] => .ok []
  | d :: ds =>
    match (match d with
           | Dsymbol.null => Except.error (Fatal.assertion 623)
           | Dsymbol.func f => Except.ok (Const.func f)
           | _ => Except.error (Fatal.assertion 625)) with
    | .error err => .error err
    | .ok c =>
      match interfaceMethodInits ds with
      | .error err => .error err
      | .ok cs => .ok (c :: cs)

/-- Lines 575-646 for one interface entry: its metadata record and its dispatch
table constant. -/
def interfaceConstInit (T : Target) (s : IRState) (cd : ClassId) (iri : IrInterface) :
    Except Fatal IrInterface :=
  match s.llvmVtblType iri.decl with
  | TypeHolder.unset => .error (Fatal.nullDeref 584)
  | _ =>
    match s.irStruct iri.decl with
    | none => .error (Fatal.nullDeref 590)
    | some idirs =>
      match idirs.classInfo with
      | none => .error (Fatal.assertion 590)
      | some ci =>
        match iri.vtbl with
        | none => .error (Fatal.nullDeref 596)
        | some g =>
          if iri.index < 0 then .error (Fatal.assertion 606)
          else
            match (s.llvmType cd).elems? with
            | none => .error (Fatal.nullDeref 607)
            | some es =>
              let infoInits : List Const :=
                [Const.global ci, Const.slice iri.base.vtbl.length (some g),
                 Const.uint (T.elementOffset es iri.index.toNat)]
              match iri.info with
              | none => .error (Fatal.nullDeref 617)
              | some info =>
                match interfaceMethodInits (iri.base.vtbl.drop 1) with
                | .error err => .error err
                | .ok ms =>
                  .ok { iri with infoInit := some infoInits, vtblInit := some (info :: ms) }

/-- The loop at lines 575-646. -/
def interfaceConstInits (T : Target) (s : IRState) (cd : ClassId) :
    List IrInterface → Except Fatal (List IrInterface)
  | [] => .ok []
  | iri :: rest =>
    match interfaceConstInit T s cd iri with
    | .error err => .error err
    | .ok iri1 =>
      match interfaceConstInits T s cd rest with
      | .error err => .error err
      | .ok rest1 => .ok (iri1 :: rest1)

/-- Lines 451-527: the default image, `fieldinits`. -/
def buildFieldInits (P : Program) (cd : ClassId) (s : IRState) (irs : IrStruct) :
    Except Fatal (List Const) :=
  let structtype := (s.llvmType cd).elems?
  match (if (P.decl cd).isAbstract = true then
           Except.ok (Const.nullValue (getPtrToType (LLType.vtblRef cd)))
         else
           match irs.vtbl with
           | none => Except.error (Fatal.assertion 467)
           | some g => Except.ok (Const.global g)) with
  | .error err => .error err
  | .ok c0 =>
    let c1 := Const.nullValue (getPtrToType LLType.int8)
    match defaultFieldInits structtype s.fieldConstInit irs.defaultFields 0 with
    | .error err => .error err
    | .ok ds =>
      match interfaceFieldInits (P.decl cd).isAbstract structtype irs.interfaces with
      | .error err => .error err
      | .ok is => .ok ([c0, c1] ++ ds ++ is)

/-- Lines 531-647: the dispatch-table constant and the interface constants of a
concrete class. -/
def buildVtblConsts (P : Program) (T : Target) (cd : ClassId) (s : IRState) (irs : IrStruct) :
    Except Fatal IrStruct :=
  if isConcrete P cd = true then
    match vtblInits irs.classInfo (P.decl cd).vtbl with
    | .error err => .error err
    | .ok sinits =>
      match interfaceConstInits T s cd irs.interfaces with
      | .error err => .error err
      | .ok ifs => .ok { irs with constVtbl := some sinits, interfaces := ifs }
  else .ok irs

/-- `DtoConstInitClass` (lines 421-683). -/
def DtoConstInitClass (P : Program) (T : Target) (cd : ClassId) (s : IRState) :
    Except Fatal IRState :=
  if s.llvmInitialized cd = true then .ok s
  else
    let s1 : IRState := { s with llvmInitialized := upd s.llvmInitialized cd true }
    if (P.decl cd).isInterfaceDeclaration = true then .ok s1
    else
      let s2 : IRState := { s1 with structs := s1.structs ++ [cd], classes := s1.classes ++ [cd] }
      match s2.llvmType cd, s2.llvmVtblType cd with
      | TypeHolder.unset, _ => .error (Fatal.nullDeref 439)
      | _, TypeHolder.unset => .error (Fatal.nullDeref 440)
      | _, _ =>
        match s2.irStruct cd with
        | none => .error (Fatal.nullDeref 443)
        | some irs =>
          let s3 : IRState := { s2 with fieldConstInit := initOffsets irs.offsets s2.fieldConstInit }
          match buildFieldInits P cd s3 irs with
          | .error err => .error err
          | .ok fieldinits =>
            let irs1 : IrStruct := { irs with constInit := some fieldinits }
            match buildVtblConsts P T cd s3 irs1 with
            | .error err => .error err
            | .ok irs2 =>
              .ok { s3 with irStruct := upd s3.irStruct cd (some irs2),
                            classes := s3.classes.dropLast,
                            structs := s3.structs.dropLast }

/-! ## `DtoDefineClassInfo` and `DtoDefineClass` -/

/-- `sm->isVarDeclaration()`. -/
def Dsymbol.isVarDeclaration : Dsymbol → Bool
  | Dsymbol.var _ => true
  | _ => false

/-- `sm->hasPointers()`: a field answers for its type, a declaration of another
kind gives the frontend's answer, functions and classes hold no data. -/
def Dsymbol.hasPointers : Dsymbol → Bool
  | Dsymbol.var v => v.hasPointers
  | Dsymbol.other p => p
  | _ => false

/-- The classes visited by `for (cd2 = cd; cd2; cd2 = cd2->baseClass)`. -/
def baseChain (P : Program) : Nat → ClassId → Except Fatal (List ClassId)
  | 0, _ => .error Fatal.outOfFuel
  | fuel + 1, cd =>
    match (P.decl cd).baseClass with
    | none => .ok [cd]
    | some b =>
      match baseChain P fuel b with
      | .error err => .error err
      | .ok cs => .ok (cd :: cs)

/-- `build_offti_entry` (lines 1195-1223): the offset column and the type-info
column of one table row. -/
def build_offti_entry (T : Target) (vd : VarDeclaration) : List Const :=
  let offset := if T.is64bit = true then vd.offset + 8 else vd.offset + 4
  [Const.size_t offset, Const.typeInfo vd.id]

/-- The inner loop of `build_offti_array` over `cd2->members`. -/
def offtiMembers (T : Target) : List Dsymbol → List (List Const)
  | [] => []
  | Dsymbol.var vd :: rest => build_offti_entry T vd :: offtiMembers T rest
  | _ :: rest => offtiMembers T rest

/-- The outer loop of `build_offti_array` over the inheritance chain. -/
def offtiChain (P : Program) (T : Target) : List ClassId → List (List Const)
  | [] => []
  | c :: cs => offtiMembers T (P.decl c).members ++ offtiChain P T cs

/-- `build_offti_array` (lines 1225-1274): the rows, and the slice that goes into
the descriptor (with the internal global holding the rows when there are any). -/
def build_offti_array (P : Program) (T : Target) (fuel : Nat) (cd : ClassId) (s : IRState) :
    Except Fatal (Const × IRState) :=
  match baseChain P fuel cd with
  | .error err => .error err
  | .ok chain =>
    let arrayInits := offtiChain P T chain
    let ninits := arrayInits.length
    if ninits > 0 then
      let g := GlobalName.offsetTypeInfos cd
      .ok (Const.slice ninits (some g),
           { s with globals := s.globals ++ [g],
                    initializers := s.initializers ++ [(g, some (Initializer.array arrayInits))] })
    else .ok (Const.slice ninits none, s)

/-- `build_class_dtor` (lines 1276-1315), kept symbolic except for the null case. -/
def build_class_dtor (P : Program) (cd : ClassId) : Const :=
  match (P.decl cd).dtors with
  | [] => Const.nullValue (getPtrToType LLType.int8)
  | [d] => Const.func d
  | _ => Const.dtor cd

/-- The inner loop of `build_classinfo_flags`: the new `hasOffTi`, and whether the
`goto L2` was taken. -/
def flagsMembers : List Dsymbol → Bool → Bool × Bool
  | [], h => (h, false)
  | sm :: rest, h =>
    let h1 := if sm.isVarDeclaration = true then true else h
    if sm.hasPointers = true then (h1, true) else flagsMembers rest h1

/-- The outer loop of `build_classinfo_flags` over the inheritance chain. -/
def flagsChain (P : Program) : List ClassId → Bool → Bool × Bool
  | [], h => (h, false)
  | c :: cs, h =>
    match flagsMembers (P.decl c).members h with
    | (h1, true) => (h1, true)
    | (h1, false) => flagsChain P cs h1

/-- `build_classinfo_flags` (lines 1317-1344). -/
def build_classinfo_flags (P : Program) (fuel : Nat) (cd : ClassId) : Except Fatal Nat :=
  match baseChain P fuel cd with
  | .error err => .error err
  | .ok chain =>
    let flags0 : Nat := if (P.decl cd).ctor = true then 0 ||| 8 else 0
    let r := flagsChain P chain false
    let flags1 : Nat := if r.2 = true then flags0 else flags0 ||| 2
    .ok (if r.1 = true then flags1 ||| 4 else flags1)

/-- Modelled from the spec: `DtoForceConstInitDsymbol` (gen/tollvm.cpp is not part
of the sources) brings a declaration through Resolved, Declared and
ConstInitialized in this order, each step being "a no-op if the class is already
at or past that state". -/
def DtoForceConstInitDsymbol (P : Program) (sz : LLType → Nat) (T : Target) (fuel : Nat)
    (cd : ClassId) (s : IRState) : Except Fatal IRState :=
  match DtoResolveClass P sz fuel cd s with
  | .error err => .error err
  | .ok s1 =>
    match DtoDeclareClass P sz fuel cd s1 with
    | .error err => .error err
    | .ok s2 => DtoConstInitClass P T cd s2

/-- Lines 1452-1463: the base descriptor slot. -/
def baseClassInfo (P : Program) (sz : LLType → Nat) (fuel : Nat) (cd : ClassId) (s : IRState) :
    Except Fatal (Const × IRState) :=
  match (P.decl cd).baseClass with
  | some b =>
    if isConcrete P cd = true then
      match DtoDeclareClassInfo P sz fuel b s with
      | .error err => .error err
      | .ok s1 =>
        match s1.irStruct b with
        | none => .error (Fatal.nullDeref 1455)
        | some birs =>
          match birs.classInfo with
          | none => .error (Fatal.assertion 1456)
          | some g => .ok (Const.global g, s1)
    else .ok (Const.cinfoOperand 6, s)
  | none => .ok (Const.cinfoOperand 6, s)

/-- Lines 1371-1379: the assertions at the start of `DtoDefineClassInfo`. -/
def classInfoAsserts (concrete : Bool) (irs : IrStruct) : Except Fatal Unit :=
  if irs.classInfo.isNone then .error (Fatal.assertion 1372)
  else if concrete = true ∧ irs.init.isNone then .error (Fatal.assertion 1376)
  else if concrete = true ∧ irs.constInit.isNone then .error (Fatal.assertion 1377)
  else if concrete = true ∧ irs.vtbl.isNone then .error (Fatal.assertion 1378)
  else if concrete = true ∧ irs.constVtbl.isNone then .error (Fatal.assertion 1379)
  else .ok ()

/-- Lines 1400-1450: the default-image span, the vtable span and the interface
span of the descriptor of `cd`, read from its record `irs`. -/
def classInfoSpans (P : Program) (T : Target) (cd : ClassId) (s : IRState) (irs : IrStruct) :
    Const × Const × Const :=
  let concrete := isConcrete P cd
  let c2 : Const :=
    if concrete = true then
      Const.slice (T.structSize ((s.llvmType cd).elems?.getD [])) irs.init
    else Const.cinfoOperand 2
  let c4 : Const :=
    if concrete = true then Const.slice (irs.constVtbl.getD []).length irs.vtbl
    else Const.cinfoOperand 4
  let c5 : Const :=
    if (P.decl cd).isInterfaceDeclaration = true ∨ irs.interfaceInfos.isNone
        ∨ (P.decl cd).isAbstract = true then Const.cinfoOperand 5
    else Const.slice (irs.interfaceInfosTy.getD 0) irs.interfaceInfos
  (c2, c4, c5)

/-- Lines 1479-1487: the flags slot. -/
def classInfoFlags (P : Program) (fuel : Nat) (cd : ClassId) : Except Fatal Const :=
  if isConcrete P cd = true then
    match build_classinfo_flags P fuel cd with
    | .error err => .error err
    | .ok flags => .ok (Const.uint flags)
  else .ok (Const.cinfoOperand 9)

/-- Lines 1494-1501: the field-offset table slot. -/
def classInfoOffTi (P : Program) (T : Target) (fuel : Nat) (cd : ClassId) (s : IRState) :
    Except Fatal (Const × IRState) :=
  if isConcrete P cd = true then build_offti_array P T fuel cd s
  else .ok (Const.cinfoOperand 11, s)

/-- Lines 1503-1513: the default-constructor slot. -/
def classInfoDefaultCtor (P : Program) (cd : ClassId) : Const :=
  match (P.decl cd).defaultCtor with
  | some f => if isConcrete P cd = true then Const.func f else Const.cinfoOperand 12
  | none => Const.cinfoOperand 12

/-- Lines 1389-1513: the thirteen initializers of the descriptor of `cd`, in
record order, and the state after building them. -/
def classInfoInits (P : Program) (sz : LLType → Nat) (T : Target) (fuel : Nat)
    (cd : ClassId) (s1 : IRState) : Except Fatal (List Const × IRState) :=
  match s1.irStruct cd with
  | none => .error (Fatal.nullDeref 1402)
  | some irs =>
    let spans := classInfoSpans P T cd s1 irs
    match baseClassInfo P sz fuel cd s1 with
    | .error err => .error err
    | .ok (c6, s2) =>
      let c7 : Const :=
        if isConcrete P cd = true then build_class_dtor P cd else Const.cinfoOperand 7
      match classInfoFlags P fuel cd with
      | .error err => .error err
      | .ok c9 =>
        match classInfoOffTi P T fuel cd s2 with
        | .error err => .error err
        | .ok (c11, s3) =>
          .ok ([Const.cinfoOperand 0, Const.cinfoOperand 1, spans.1, Const.name cd, spans.2.1,
                spans.2.2, c6, c7, Const.cinfoOperand 8, c9, Const.cinfoOperand 10, c11,
                classInfoDefaultCtor P cd], s3)

/-- Lines 1521-1527: store the descriptor constant and set it as the initializer
of the descriptor global. -/
def storeClassInfo (cd : ClassId) (inits : List Const) (s3 : IRState) : Except Fatal IRState :=
  match s3.irStruct cd with
  | none => .error (Fatal.nullDeref 1526)
  | some irs3 =>
    match irs3.classInfo with
    | none => .error (Fatal.nullDeref 1527)
    | some g =>
      let irs4 : IrStruct := { irs3 with constClassInfo := some inits }
      .ok { s3 with
        irStruct := upd s3.irStruct cd (some irs4),
        initializers := s3.initializers ++ [(g, some (Initializer.struct inits))] }

/-- `DtoDefineClassInfo` (lines 1346-1528). -/
def DtoDefineClassInfo (P : Program) (sz : LLType → Nat) (T : Target) (fuel : Nat)
    (cd : ClassId) (s : IRState) : Except Fatal IRState :=
  match s.irStruct cd with
  | none => .error (Fatal.nullDeref 1365)
  | some irs0 =>
    if irs0.classDefined = true then .ok s
    else
      let irsD : IrStruct := { irs0 with classDefined := true }
      match classInfoAsserts (isConcrete P cd) irsD with
      | .error err => .error err
      | .ok _ =>
        match DtoForceConstInitDsymbol P sz T fuel P.classinfo
                { s with irStruct := upd s.irStruct cd (some irsD) } with
        | .error err => .error err
        | .ok s1 =>
          match s1.irStruct P.classinfo with
          | none => .error (Fatal.nullDeref 1387)
          | some cirs =>
            if cirs.constInit.isNone then .error (Fatal.assertion 1387)
            else
              match classInfoInits P sz T fuel cd s1 with
              | .error err => .error err
              | .ok (inits, s3) => storeClassInfo cd inits s3

/-- Lines 710-715: the initializers of the interface dispatch tables and the
collected metadata records. -/
def defineInterfaceVtbls :
    List IrInterface → Except Fatal (List (GlobalName × Option Initializer) × List (List Const))
  | [] => .ok ([], [])
  | iri :: rest =>
    match iri.vtbl with
    | none => .error (Fatal.nullDeref 713)
    | some g =>
      match iri.infoInit with
      | none => .error (Fatal.nullDeref 714)
      | some info =>
        match defineInterfaceVtbls rest with
        | .error err => .error err
        | .ok (is, infos) =>
          .ok ((g, iri.vtblInit.map Initializer.struct) :: is, info :: infos)

/-- Lines 700-722: the initializers written for a concrete class. -/
def defineInitializers (P : Program) (cd : ClassId) (s : IRState) : Except Fatal IRState :=
  if isConcrete P cd = true then
    match s.irStruct cd with
    | none => .error (Fatal.nullDeref 704)
    | some irs =>
      match irs.init, irs.vtbl with
      | none, _ => .error (Fatal.nullDeref 704)
      | _, none => .error (Fatal.nullDeref 705)
      | some gi, some gv =>
        match defineInterfaceVtbls irs.interfaces with
        | .error err => .error err
        | .ok (is, infoInits) =>
          let base : List (GlobalName × Option Initializer) :=
            [(gi, irs.constInit.map Initializer.struct), (gv, irs.constVtbl.map Initializer.struct)]
              ++ is
          if infoInits.isEmpty then .ok { s with initializers := s.initializers ++ base }
          else
            match irs.interfaceInfos with
            | none => .error (Fatal.nullDeref 720)
            | some ga =>
              .ok { s with initializers :=
                      s.initializers ++ base ++ [(ga, some (Initializer.array infoInits))] }
  else .ok s

/-- `DtoDefineClass` (lines 687-727). -/
def DtoDefineClass (P : Program) (sz : LLType → Nat) (T : Target) (fuel : Nat) (cd : ClassId)
    (s : IRState) : Except Fatal IRState :=
  if s.llvmDefined cd = true then .ok s
  else
    let s1 : IRState := { s with llvmDefined := upd s.llvmDefined cd true }
    if (P.decl cd).inModule = true then
      match defineInitializers P cd s1 with
      | .error err => .error err
      | .ok s2 => DtoDefineClassInfo P sz T fuel cd s2
    else .ok s1

/-! ## `ClassDeclaration::offsetToIndex` -/

/-- `LLVM_ClassOffsetToIndex` (lines 1036-1055): the result and the final value
of the reference parameter `idx`. `none` among the fields means the loop ran to
its end. -/
def LLVM_ClassOffsetToIndex (P : Program) : Nat → ClassId → Nat → Nat → Except Fatal (Nat × Nat)
  | 0, _, _, _ => .error Fatal.outOfFuel
  | fuel + 1, cd, os, idx =>
    -- start at the bottom of the inheritance chain
    match (match (P.decl cd).baseClass with
           | some b => LLVM_ClassOffsetToIndex P fuel b os idx
           | none => Except.ok (UINT_MAX, idx)) with
    | .error err => .error err
    | .ok (o, idx1) =>
      if o ≠ UINT_MAX then .ok (o, idx1)
      else
        -- check this class
        match (P.decl cd).fields.findIdx? (fun vd => decide (os = vd.offset)) with
        | some i => .ok (u32 (i + idx1), idx1)
        | none => .ok (UINT_MAX, u32 (idx1 + (P.decl cd).fields.length))

/-- `ClassDeclaration::offsetToIndex` (lines 1059-1070): the vector `result` after
the call. -/
def offsetToIndex (P : Program) (fuel : Nat) (cd : ClassId) (os : Nat) (result : List Nat) :
    Except Fatal (List Nat) :=
  match LLVM_ClassOffsetToIndex P fuel cd os 0 with
  | .error err => .error err
  | .ok (r, _) =>
    if r = UINT_MAX then .error (Fatal.assertion 1063)
    else
      -- vtable is 0, monitor is 1
      let r1 := u32 (r + 2)
      -- interface offset further
      let r2 := u32 (r1 + (P.decl cd).vtblInterfacesDim)
      .ok (result ++ [r2])

/-! ## The footprint of `DtoResolveClass` -/

/-- What a run leaves untouched at a class `x` that was already marked resolved. -/
def Keeps (x : ClassId) (s s' : IRState) : Prop :=
  s'.llvmResolved x = true ∧ s'.irStruct x = s.irStruct x ∧ s'.llvmType x = s.llvmType x ∧
    s'.llvmVtblType x = s.llvmVtblType x

/-- The footprint of the steps of `DtoResolveClass` working on class `cd`. -/
structure Frame (cd : ClassId) (s s' : IRState) : Prop where
  declared : s'.llvmDeclared = s.llvmDeclared
  initialized : s'.llvmInitialized = s.llvmInitialized
  defined : s'.llvmDefined = s.llvmDefined
  keeps : ∀ x, x ≠ cd → s.llvmResolved x = true → Keeps x s s'
  untouched : ∀ x, x ≠ cd → s'.llvmResolved x = false → s'.irStruct x = s.irStruct x
  owner : s.llvmResolved cd = true → s'.llvmResolved cd = true

/-- The footprint of a complete run of `DtoResolveClass`. -/
structure ResolveRel (s s' : IRState) : Prop where
  declared : s'.llvmDeclared = s.llvmDeclared
  initialized : s'.llvmInitialized = s.llvmInitialized
  defined : s'.llvmDefined = s.llvmDefined
  keeps : ∀ x, s.llvmResolved x = true → Keeps x s s'
  untouched : ∀ x, s'.llvmResolved x = false → s'.irStruct x = s.irStruct x

/-- The dispatch-table pointer slots appended for the interface entries. -/
def interfaceSlots (ifs : List IrInterface) : List LLType :=
  ifs.map (fun x => getPtrToType (LLType.vtblRef x.decl))

/-- What the steps working on `cd` keep of `cd`'s own record, up to the part
erased by `e`. -/
def OwnerKeeps (e : IrStruct → IrStruct) (cd : ClassId) (s s' : IRState) : Prop :=
  s'.llvmResolved cd = true ∧ (s'.irStruct cd).map e = (s.irStruct cd).map e

/-- The interface entries of `bcs` met by the depth-first walk of
`LLVM_AddBaseClassInterfaces`, in the order in which they are met (repetitions
included). -/
def walkVisits (P : Program) : Nat → List BaseClass → List BaseClass
  | 0, _ => []
  | fuel + 1, bcs =>
    bcs.flatMap (fun bc =>
      (if (P.decl bc.base).isInterfaceDeclaration then [bc] else [])
        ++ walkVisits P fuel (P.decl bc.base).baseclasses)

/-- The recursion budget `fuel` covers the whole inheritance graph below `bcs`. -/
def walkComplete (P : Program) : Nat → List BaseClass → Prop
  | 0, bcs => bcs = []
  | fuel + 1, bcs => ∀ bc ∈ bcs, walkComplete P fuel (P.decl bc.base).baseclasses

/-- The record `irs` with its interface map replaced. -/
def IrStruct.withInterfaces (irs : IrStruct) (ifs : List IrInterface) : IrStruct :=
  { irs with interfaces := ifs }

/-- The interface map after inserting the visited entries one after the other. -/
def insertAll (m : List IrInterface) (vs : List BaseClass) : List IrInterface :=
  vs.foldl (fun m bc => InterfaceMap.insert m (IrInterface.new bc)) m

/-- An entry `d` is reachable from the list `bcs` through the base-class and
interface lists. -/
inductive ReachesVia (P : Program) : List BaseClass → BaseClass → Prop where
  | direct {bcs : List BaseClass} {bc : BaseClass} : bc ∈ bcs → ReachesVia P bcs bc
  | through {bcs : List BaseClass} {bc d : BaseClass} :
      bc ∈ bcs → ReachesVia P (P.decl bc.base).baseclasses d → ReachesVia P bcs d

/-- Erasure of the interface table of a record. -/
def eraseInterfaces (irs : IrStruct) : IrStruct := { irs with interfaces := [] }

/-- Erasure of the offset map of a record. -/
def eraseOffsets (irs : IrStruct) : IrStruct := { irs with offsets := [] }

/-! ## Concrete declarations used to exercise the theorems -/

/-- A class declaration with nothing in it but one virtual function. -/
def plainClass : ClassDeclaration :=
  { isInterfaceDeclaration := false, isAbstract := false, baseClass := none, baseclasses := [],
    fields := [], members := [], vtbl := [Dsymbol.func 0], vtblInterfacesDim := 0,
    inModule := true, ctor := false, defaultCtor := none, dtors := [] }

/-- The state before anything has been lowered. -/
def initialState : IRState :=
  { llvmResolved := fun _ => false, llvmDeclared := fun _ => false,
    llvmInitialized := fun _ => false, llvmDefined := fun _ => false,
    irStruct := fun _ => none, llvmType := fun _ => TypeHolder.unset,
    llvmVtblType := fun _ => TypeHolder.unset,
    irField := fun _ => { index := 0, indexOffset := 0 },
    fieldConstInit := fun _ => none, structs := [], classes := [], declareList := [],
    constInitList := [], defineList := [], typeNames := [], vtblTypeNames := [], globals := [],
    initializers := [] }

/-- The field `C next;` of class 1 (at offset 8). -/
def fieldNext : VarDeclaration :=
  { id := 7, offset := 8, type := LLType.pointer (LLType.classRef 1), classType := some 1,
    hasPointers := true }

/-- A 4-byte field at offset 12. -/
def fieldA : VarDeclaration :=
  { id := 8, offset := 12, type := LLType.prim 4, classType := none, hasPointers := false }

/-- An 8-byte field sharing offset 12 with `fieldA`. -/
def fieldB : VarDeclaration :=
  { id := 9, offset := 12, type := LLType.prim 8, classType := none, hasPointers := false }

/-- Class 1 is `class C : I2, I3 { C next; union { int a; long b; } }`, interface 2
extends interface 3, every other identity is an empty class. -/
def sampleProgram : Program :=
  { classinfo := 0,
    decl := fun c =>
      if c = 1 then
        { plainClass with
          fields := [fieldNext, fieldA, fieldB],
          members := [Dsymbol.var fieldNext, Dsymbol.var fieldA, Dsymbol.var fieldB],
          baseclasses := [{ base := 2, vtbl := [] }, { base := 3, vtbl := [] }],
          vtblInterfacesDim := 2 }
      else if c = 2 then
        { plainClass with isInterfaceDeclaration := true, baseclasses := [{ base := 3, vtbl := [] }] }
      else if c = 3 then { plainClass with isInterfaceDeclaration := true }
      else plainClass }

/-- A size function: `prim k` has `k` bytes, pointers have 4. -/
def sampleSize : LLType → Nat
  | LLType.prim k => k
  | LLType.pointer _ => 4
  | _ => 1

/-- The state of a successful run (the initial state for a failed one). -/
def resultState (r : Except Fatal IRState) : IRState :=
  match r with
  | .ok s => s
  | .error _ => initialState

/-! ## Union slots -/

/-- An offset-map entry whose offset is a proper `unsigned` offset (not the
sentinel `(unsigned)-1`) and whose type size fits in `unsigned`. -/
def InRange (sz : LLType → Nat) (x : Offset) : Prop :=
  x.first < UINT_MAX ∧ sz x.type ≤ UINT_MAX

instance (sz : LLType → Nat) (x : Offset) : Decidable (InRange sz x) := by
  unfold InRange
  exact inferInstance

/-- The state of a successful scan (the given state for a failed one). -/
def scanState (d : ScanState) (r : Except Fatal ScanState) : ScanState :=
  match r with
  | .ok st => st
  | .error _ => d

/-- The largest field size in a group of entries `g0 :: rest`. -/
def groupMax (sz : LLType → Nat) (g0 : Offset) (rest : List Offset) : Nat :=
  rest.foldl (fun m x => max m (sz x.type)) (sz g0.type)

/-- The types a committed slot contributes: its type, and a byte array of `pad`
bytes exactly when `pad` is positive. -/
def slotTypes (t : LLType) (pad : Nat) : List LLType :=
  if 0 < pad then [t, LLType.array LLType.int8 pad] else [t]

/-- Entry `g0` starts a slot in state `st`: by the branch of the first iteration
or by the fresh-offset branch. -/
def StartsSlot (st : ScanState) (g0 : Offset) : Prop :=
  (st.lastoffset = UINT_MAX ∧ st.fieldpad = 0) ∨
  (st.lastoffset ≠ UINT_MAX ∧ st.lastoffset ≠ g0.first ∧
    ¬ g0.first < u32 (st.lastoffset + st.prevsize))

/-! ## Field indexing by `offsetToIndex` -/

/-- The field `int x;` at offset 8. -/
def fieldX : VarDeclaration :=
  { id := 20, offset := 8, type := LLType.prim 4, classType := none, hasPointers := false }

/-- Class 1 is `class C : I { int x; }` with interface 2 as `I`. -/
def oneInterfaceProgram : Program :=
  { classinfo := 0,
    decl := fun c =>
      if c = 1 then
        { plainClass with
          fields := [fieldX], members := [Dsymbol.var fieldX],
          baseclasses := [{ base := 2, vtbl := [] }], vtblInterfacesDim := 1 }
      else if c = 2 then { plainClass with isInterfaceDeclaration := true }
      else plainClass }

/-- The field `int a;` at offset 8. -/
def fieldUa : VarDeclaration :=
  { id := 30, offset := 8, type := LLType.prim 4, classType := none, hasPointers := false }

/-- The field `int b;` sharing offset 8 with `fieldUa`. -/
def fieldUb : VarDeclaration :=
  { id := 31, offset := 8, type := LLType.prim 4, classType := none, hasPointers := false }

/-- The field `int c;` at offset 12. -/
def fieldUc : VarDeclaration :=
  { id := 32, offset := 12, type := LLType.prim 4, classType := none, hasPointers := false }

/-- Class 1 is `class C { union { int a; int b; } int c; }`, without interfaces. -/
def unionProgram : Program :=
  { classinfo := 0,
    decl := fun c =>
      if c = 1 then
        { plainClass with
          fields := [fieldUa, fieldUb, fieldUc],
          members := [Dsymbol.var fieldUa, Dsymbol.var fieldUb, Dsymbol.var fieldUc] }
      else plainClass }

/-- What Field Indexing needs from a resolved class `cd` about field `v`: the
composite index `irField->index + 2` assigned by the layout scan, and the
composite type. -/
def scanIndexAndType (r : Except Fatal IRState) (cd : ClassId) (v : VarId) :
    Except Fatal (Int × TypeHolder) :=
  match r with
  | .ok s => .ok ((s.irField v).index + 2, s.llvmType cd)
  | .error err => .error err

/-! ## The phase functions -/

/-- A 32-bit target whose structs are laid out with 4-byte elements. -/
def sampleTarget : Target :=
  { structSize := fun es => 4 * es.length, elementOffset := fun _ k => 4 * k, is64bit := false }

/-- Sequencing of phase calls. -/
def andThen (r : Except Fatal IRState) (f : IRState → Except Fatal IRState) :
    Except Fatal IRState :=
  match r with
  | .ok s => f s
  | .error err => .error err

/-- The sample program taken through all phases in work-list order: resolve
class 1 (which resolves interfaces 3 and 2), then declare, const-initialize and
define 3, 2 and 1. -/
def samplePipeline : Except Fatal IRState :=
  andThen (andThen (andThen (andThen (andThen (andThen (andThen (andThen (andThen
    (DtoResolveClass sampleProgram sampleSize 5 1 initialState)
    (DtoDeclareClass sampleProgram sampleSize 5 3))
    (DtoDeclareClass sampleProgram sampleSize 5 2))
    (DtoDeclareClass sampleProgram sampleSize 5 1))
    (DtoConstInitClass sampleProgram sampleTarget 3))
    (DtoConstInitClass sampleProgram sampleTarget 2))
    (DtoConstInitClass sampleProgram sampleTarget 1))
    (DtoDefineClass sampleProgram sampleSize sampleTarget 5 3))
    (DtoDefineClass sampleProgram sampleSize sampleTarget 5 2))
    (DtoDefineClass sampleProgram sampleSize sampleTarget 5 1)

/-! ## The per-class phase state machine -/

/-- A call of one of the four phase functions on a class. -/
inductive PhaseCall where
  | resolve (cd : ClassId)
  | declare (cd : ClassId)
  | constInit (cd : ClassId)
  | define (cd : ClassId)
  deriving DecidableEq, Repr

/-- The phase function a call stands for, run with recursion budget `fuel`. -/
def runPhase (P : Program) (sz : LLType → Nat) (T : Target) (fuel : Nat) :
    PhaseCall → IRState → Except Fatal IRState
  | PhaseCall.resolve cd, s => DtoResolveClass P sz fuel cd s
  | PhaseCall.declare cd, s => DtoDeclareClass P sz fuel cd s
  | PhaseCall.constInit cd, s => DtoConstInitClass P T cd s
  | PhaseCall.define cd, s => DtoDefineClass P sz T fuel cd s

/-- The flags are ordered along Resolved, Declared, ConstInitialized, Defined: a
later mark implies the earlier ones. -/
def PhaseOrdered (s : IRState) : Prop :=
  ∀ c, (s.llvmDefined c = true → s.llvmInitialized c = true) ∧
    (s.llvmInitialized c = true → s.llvmDeclared c = true) ∧
    (s.llvmDeclared c = true → s.llvmResolved c = true)

/-- A state in which no class has been touched. -/
def Pristine (s : IRState) : Prop :=
  ∀ c, s.llvmResolved c = false ∧ s.llvmDeclared c = false ∧ s.llvmInitialized c = false ∧
    s.llvmDefined c = false ∧ s.irStruct c = none

/-- No restriction on the calls. -/
def AnyCall (_ : IRState) (_ : PhaseCall) : Prop := True

/-- The calls as the work lists issue them: `DtoConstInitClass` on a class marked
declared, `DtoDefineClass` on a class marked const-initialized. -/
def InWorkListOrder (s : IRState) : PhaseCall → Prop
  | PhaseCall.resolve _ => True
  | PhaseCall.declare _ => True
  | PhaseCall.constInit cd => s.llvmDeclared cd = true
  | PhaseCall.define cd => s.llvmInitialized cd = true

/-- States reachable from a pristine state by successful phase calls admitted
by `G`. -/
inductive Reaches (P : Program) (sz : LLType → Nat) (T : Target)
    (G : IRState → PhaseCall → Prop) : IRState → Prop where
  | start {s : IRState} : Pristine s → Reaches P sz T G s
  | call {s s' : IRState} (c : PhaseCall) (fuel : Nat) :
      Reaches P sz T G s → G s c → runPhase P sz T fuel c s = .ok s' → Reaches P sz T G s'

/-- The ordering of the flags together with the fact that only resolved classes
have an `IrStruct`. -/
def PhaseInv (s : IRState) : Prop :=
  PhaseOrdered s ∧ ∀ c, s.irStruct c ≠ none → s.llvmResolved c = true
/-- The sample interface 3 taken through resolve, declare, const-init, define. -/
def interfacePipeline : Except Fatal IRState :=
  andThen (andThen (andThen
    (DtoResolveClass sampleProgram sampleSize 2 3 initialState)
    (DtoDeclareClass sampleProgram sampleSize 2 3))
    (DtoConstInitClass sampleProgram sampleTarget 3))
    (DtoDefineClass sampleProgram sampleSize sampleTarget 2 3)

/-! ## Termination of `DtoResolveClass` -/

/-- The number of classes with identity below `n` not yet marked resolved. -/
def unresolvedCount (n : Nat) (s : IRState) : Nat :=
  ((Finset.range n).filter (fun c => s.llvmResolved c = false)).card

/-- The declaration graph on the identities below `n` is closed: base classes,
implemented interfaces and the classes named by field types stay below `n`. -/
structure Closed (P : Program) (n : Nat) : Prop where
  baseClass : ∀ c, c < n → ∀ b, (P.decl c).baseClass = some b → b < n
  baseclasses : ∀ c, c < n → ∀ bc ∈ (P.decl c).baseclasses, bc.base < n
  fields : ∀ c, c < n → ∀ v ∈ (P.decl c).fields, ∀ k, v.classType = some k → k < n
  members : ∀ c, c < n → ∀ v, Dsymbol.var v ∈ (P.decl c).members →
    ∀ k, v.classType = some k → k < n

/-- Inheritance is acyclic: `depth` strictly decreases from a class to the entries
of its `baseclasses`, and is bounded by `D`. Field types are not restricted. -/
structure Acyclic (P : Program) (depth : ClassId → Nat) (D : Nat) : Prop where
  decreases : ∀ c, ∀ bc ∈ (P.decl c).baseclasses, depth bc.base < depth c
  bounded : ∀ c, depth c ≤ D

/-- The nesting depth used for `sampleProgram`: class 1 implements interface 2, which
extends interface 3. -/
def sampleDepth (c : ClassId) : Nat :=
  if c = 1 then 2 else if c = 2 then 1 else 0

/-- The field `B b;` of class 0 of `mutualProgram`. -/
def fieldToB : VarDeclaration :=
  { id := 0, offset := 8, type := LLType.pointer (LLType.classRef 1), classType := some 1,
    hasPointers := true }

/-- The field `A a;` of class 1 of `mutualProgram`. -/
def fieldToA : VarDeclaration :=
  { id := 1, offset := 8, type := LLType.pointer (LLType.classRef 0), classType := some 0,
    hasPointers := true }

/-- Two classes that refer to each other: class 0 is `class A { B b; }` and class 1
is `class B { A a; }`. -/
def mutualProgram : Program :=
  { classinfo := 5,
    decl := fun c =>
      if c = 0 then { plainClass with fields := [fieldToB], members := [Dsymbol.var fieldToB] }
      else if c = 1 then
        { plainClass with fields := [fieldToA], members := [Dsymbol.var fieldToA] }
      else plainClass }

/-! ## The inheritance chain seen by the descriptor builder -/

/-- The list `cs` is `cd`, its base class, the base class of that, and so on up to
a class without base class. -/
inductive IsBaseChain (P : Program) : ClassId → List ClassId → Prop where
  | root {c : ClassId} : (P.decl c).baseClass = none → IsBaseChain P c [c]
  | step {c b : ClassId} {cs : List ClassId} :
      (P.decl c).baseClass = some b → IsBaseChain P b cs → IsBaseChain P c (c :: cs)

/-- The members of the classes of a chain, in the order of the two nested loops. -/
def chainMembers (P : Program) (chain : List ClassId) : List Dsymbol :=
  chain.flatMap (fun c => (P.decl c).members)

/-- The field behind a member, if the member is a `VarDeclaration`. -/
def Dsymbol.asVar : Dsymbol → Option VarDeclaration
  | Dsymbol.var v => some v
  | _ => none

/-- The members of a chain that are fields, in scan order. -/
def chainFields (P : Program) (chain : List ClassId) : List VarDeclaration :=
  (chainMembers P chain).filterMap Dsymbol.asVar

/-- Class 0 is `class C { align(1) { void* p; } int x; }`: its first member is
a declaration block that reports pointers, its second the field `x`. Class 1
is `class D : C { this() {} int x; }`. -/
def flagsProgram : Program :=
  { classinfo := 9,
    decl := fun c =>
      if c = 0 then { plainClass with members := [Dsymbol.other true, Dsymbol.var fieldX] }
      else if c = 1 then
        { plainClass with baseClass := some 0, ctor := true, members := [Dsymbol.var fieldX] }
      else plainClass }

/-! ## The base link of the descriptor -/

/-- The descriptor global of a class, `cd->irStruct->classInfo`. -/
def descriptorOf (s : IRState) (cd : ClassId) : Option GlobalName :=
  (s.irStruct cd).bind (fun irs => irs.classInfo)

/-- Slot 6 (`ClassInfo *base`) of the descriptor constant stored for a class. -/
def baseSlot (s : IRState) (cd : ClassId) : Option Const :=
  ((s.irStruct cd).bind (fun irs => irs.constClassInfo)).bind (fun cs => cs.get? 6)

/-- The class has a record and `DtoDefineClassInfo` has not run on it yet. -/
def NotDefined (s : IRState) (cd : ClassId) : Prop :=
  (s.irStruct cd).map (fun irs => irs.classDefined) = some false

/-- Class 0 is the `ClassInfo` class; 1 is `class A`, 2 is `class B : A`, 3 is
`class C : B`; 4 is `abstract class D : A` and 5 is `class E : D`. -/
def hierarchyProgram : Program :=
  { classinfo := 0,
    decl := fun c =>
      if c = 2 then { plainClass with baseClass := some 1, baseclasses := [{ base := 1, vtbl := [] }] }
      else if c = 3 then
        { plainClass with baseClass := some 2, baseclasses := [{ base := 2, vtbl := [] }] }
      else if c = 4 then
        { plainClass with isAbstract := true, baseClass := some 1,
                          baseclasses := [{ base := 1, vtbl := [] }] }
      else if c = 5 then
        { plainClass with baseClass := some 4, baseclasses := [{ base := 4, vtbl := [] }] }
      else plainClass }

/-- The state in which class `cd` of `hierarchyProgram` has been resolved, declared
and const-initialized, starting from scratch. -/
def hierarchyReady (cd : ClassId) : IRState :=
  resultState (DtoForceConstInitDsymbol hierarchyProgram sampleSize sampleTarget 6 cd initialState)

/-! ## Values and instructions of the function being lowered -/

/-- The functions the emitted code calls: the runtime entry points (looked up by
name with `LLVM_D_GetRuntimeFunction`), the `memcpy` intrinsic, and functions of
the program. -/
inductive Callee where
  | d_newclass
  | d_dynamic_cast
  | d_toObject
  | d_interface_cast
  | memcpy32
  | func (f : FuncId)
  deriving DecidableEq, Repr

/-- An `llvm::Value*` with its type: a value handed over by the caller or by the
expression lowering (`param`, by identity), a global, a null constant, an `i32`
constant, or the result of the instruction at position `k` of the code emitted so
far (`reg`). -/
inductive Value where
  | param (k : Nat) (ty : LLType)
  | global (g : GlobalName) (ty : LLType)
  | nullValue (ty : LLType)
  | uint (n : Nat)
  | reg (k : Nat) (ty : LLType)
  deriving DecidableEq, Repr

/-- `v->getType()`; `prim 4` is `Int32Ty`. -/
def Value.type : Value → LLType
  | Value.param _ ty => ty
  | Value.global _ ty => ty
  | Value.nullValue ty => ty
  | Value.uint _ => LLType.prim 4
  | Value.reg _ ty => ty

/-- The instructions emitted by the class lowering. `bitcast v t` reinterprets `v`
as `t` (through `DtoBitCast` or `CreateBitCast`), `gep p idxs` is a
`GetElementPtrInst` with constant indices. -/
inductive Instr where
  | alloca (t : LLType)
  | call (fn : Callee) (args : List Value)
  | bitcast (v : Value) (t : LLType)
  | gep (ptr : Value) (idxs : List Nat)
  | store (v : Value) (ptr : Value)
  | load (ptr : Value)
  deriving DecidableEq, Repr

/-- The part of `gIR` an expression lowering works on: the compilation state and
the instructions appended to the current block so far. -/
structure Emit where
  ir : IRState
  code : List Instr

/-- Append an instruction; its result is the register with its position. -/
def emit (e : Emit) (i : Instr) (ty : LLType) : Value × Emit :=
  (Value.reg e.code.length ty, { e with code := e.code ++ [i] })

/-- `DtoBitCast(v, t)`. -/
def DtoBitCast (e : Emit) (v : Value) (t : LLType) : Value × Emit :=
  emit e (Instr.bitcast v t) t

/-- The callees of the calls in a piece of code, in order. -/
def callsOf (code : List Instr) : List Callee :=
  code.filterMap (fun i => match i with
    | Instr.call fn _ => some fn
    | _ => none)

/-! ## Frontend types and queries of the expression lowering -/

/-- A frontend `Type*` after `DtoDType`: a pointer type, a class type, a struct
type, or any other type (by identity). -/
inductive DType where
  | pointer (id : Nat)
  | classType (cd : ClassId)
  | structType (sd : Nat)
  | basic (id : Nat)
  deriving DecidableEq, Repr

/-- A `DValue` as the cast and construction code sees it: its frontend type and
its r-value. -/
structure DValue where
  type : DType
  rval : Value
  deriving DecidableEq, Repr

/-- Frontend and runtime queries that `classes.cpp` makes but does not define:
`ClassDeclaration::object`, `isBaseOf`, `isNested`, `DtoType` on types other than
class types, `Type::size`, and the signatures of the runtime functions. -/
structure Frontend where
  object : ClassId
  isBaseOf : ClassId → ClassId → Bool
  isNested : ClassId → Bool
  lltype : DType → LLType
  size : DType → Nat
  paramType : Callee → Nat → LLType
  returnType : Callee → LLType

/-- `DtoType`: a class type lowers to a pointer to the composite type of the class. -/
def DtoType (F : Frontend) : DType → LLType
  | DType.classType cd => getPtrToType (LLType.classRef cd)
  | t => F.lltype t

/-- Modelled from the spec: `DtoForceDeclareDsymbol` (gen/tollvm.cpp is not part of
the sources) brings a declaration through Resolved and Declared in this order, each
step being "a no-op if the class is already at or past that state". -/
def DtoForceDeclareDsymbol (P : Program) (sz : LLType → Nat) (fuel : Nat) (cd : ClassId)
    (s : IRState) : Except Fatal IRState :=
  match DtoResolveClass P sz fuel cd s with
  | .error err => .error err
  | .ok s1 => DtoDeclareClass P sz fuel cd s1

/-! ## `DtoCastClass` and the runtime casts -/

/-- Lines 935-936 and 950-953 (the same in `DtoDynamicCastInterface`): declare
`Object`, `ClassInfo` and the target class, and fetch the descriptor of the
target. -/
def castTarget (P : Program) (F : Frontend) (sz : LLType → Nat) (fuel : Nat) (tc : ClassId)
    (s : IRState) (line : Nat) : Except Fatal (GlobalName × IRState) :=
  match DtoForceDeclareDsymbol P sz fuel F.object s with
  | .error err => .error err
  | .ok s1 =>
    match DtoForceDeclareDsymbol P sz fuel P.classinfo s1 with
    | .error err => .error err
    | .ok s2 =>
      match DtoForceDeclareDsymbol P sz fuel tc s2 with
      | .error err => .error err
      | .ok s3 =>
        match s3.irStruct tc with
        | none => .error (Fatal.nullDeref line)
        | some irs =>
          match irs.classInfo with
          | none => .error (Fatal.assertion line)
          | some g => .ok (g, s3)

/-- The call `fn(val, classInfo of the target)` with both arguments and the result
reinterpreted, shared by `DtoDynamicCastObject` and `DtoDynamicCastInterface`. -/
def dynamicCastCall (P : Program) (F : Frontend) (fn : Callee) (val : DValue) (tc : ClassId)
    (g : GlobalName) (e : Emit) : DValue × Emit :=
  let (a0, e1) := DtoBitCast e val.rval (F.paramType fn 0)
  let ci := Value.global g (getPtrToType (LLType.classRef P.classinfo))
  let (a1, e2) := DtoBitCast e1 ci (F.paramType fn 1)
  let (ret, e3) := emit e2 (Instr.call fn [a0, a1]) (F.returnType fn)
  let (ret1, e4) := DtoBitCast e3 ret (DtoType F (DType.classType tc))
  ({ type := DType.classType tc, rval := ret1 }, e4)

/-- `DtoDynamicCastObject` (lines 930-967): `Object _d_dynamic_cast(Object o,
ClassInfo c)`. -/
def DtoDynamicCastObject (P : Program) (F : Frontend) (sz : LLType → Nat) (fuel : Nat)
    (val : DValue) (tc : ClassId) (e : Emit) : Except Fatal (DValue × Emit) :=
  match castTarget P F sz fuel tc e.ir 952 with
  | .error err => .error err
  | .ok (g, s3) => .ok (dynamicCastCall P F Callee.d_dynamic_cast val tc g { e with ir := s3 })

/-- `DtoCastInterfaceToObject` (lines 971-993) with a non-null target type:
`Object _d_toObject(void* p)`. -/
def DtoCastInterfaceToObject (F : Frontend) (val : DValue) (tc : ClassId) (e : Emit) :
    DValue × Emit :=
  let (tmp, e1) := DtoBitCast e val.rval (F.paramType Callee.d_toObject 0)
  let (ret, e2) := emit e1 (Instr.call Callee.d_toObject [tmp]) (F.returnType Callee.d_toObject)
  let (ret1, e3) := DtoBitCast e2 ret (DtoType F (DType.classType tc))
  ({ type := DType.classType tc, rval := ret1 }, e3)

/-- `DtoDynamicCastInterface` (lines 997-1032): `Object _d_interface_cast(void* p,
ClassInfo c)`. -/
def DtoDynamicCastInterface (P : Program) (F : Frontend) (sz : LLType → Nat) (fuel : Nat)
    (val : DValue) (tc : ClassId) (e : Emit) : Except Fatal (DValue × Emit) :=
  match castTarget P F sz fuel tc e.ir 1018 with
  | .error err => .error err
  | .ok (g, s3) => .ok (dynamicCastCall P F Callee.d_interface_cast val tc g { e with ir := s3 })

/-- `DtoCastClass` (lines 879-926). The source type is read as a class type without
a check (`(TypeClass*)from`); another source type is an invalid access. -/
def DtoCastClass (P : Program) (F : Frontend) (sz : LLType → Nat) (fuel : Nat)
    (val : DValue) (_to : DType) (e : Emit) : Except Fatal (DValue × Emit) :=
  match _to with
  | DType.pointer _ =>
    let (rval, e1) := DtoBitCast e val.rval (DtoType F _to)
    .ok ({ type := _to, rval := rval }, e1)
  | DType.classType tc =>
    match val.type with
    | DType.classType fc =>
      if (P.decl tc).isInterfaceDeclaration = true then
        -- to interface
        if (P.decl fc).isInterfaceDeclaration = true then
          DtoDynamicCastInterface P F sz fuel val tc e
        else
          DtoDynamicCastObject P F sz fuel val tc e
      else
        -- to object
        if (P.decl fc).isInterfaceDeclaration = true then
          .ok (DtoCastInterfaceToObject F val tc e)
        else if (!(P.decl tc).isInterfaceDeclaration && F.isBaseOf tc fc) = true then
          let (rval, e1) := DtoBitCast e val.rval (DtoType F _to)
          .ok ({ type := _to, rval := rval }, e1)
        else
          DtoDynamicCastObject P F sz fuel val tc e
    | _ => .error (Fatal.nullDeref 895)
  | _ => .error (Fatal.assertion 891)

/-- The code of a runtime-checked cast through `fn`: both arguments reinterpreted to
the parameter types, the call, and the result reinterpreted to the target class
type; `n` is the position of the first of the four instructions. -/
def runtimeCastCode (P : Program) (F : Frontend) (fn : Callee) (val : DValue) (tc : ClassId)
    (g : GlobalName) (n : Nat) : List Instr :=
  [Instr.bitcast val.rval (F.paramType fn 0),
   Instr.bitcast (Value.global g (getPtrToType (LLType.classRef P.classinfo))) (F.paramType fn 1),
   Instr.call fn [Value.reg n (F.paramType fn 0), Value.reg (n + 1) (F.paramType fn 1)],
   Instr.bitcast (Value.reg (n + 2) (F.returnType fn)) (DtoType F (DType.classType tc))]

/-- The code of the interface-to-object conversion. -/
def toObjectCode (F : Frontend) (val : DValue) (tc : ClassId) (n : Nat) : List Instr :=
  [Instr.bitcast val.rval (F.paramType Callee.d_toObject 0),
   Instr.call Callee.d_toObject [Value.reg n (F.paramType Callee.d_toObject 0)],
   Instr.bitcast (Value.reg (n + 1) (F.returnType Callee.d_toObject))
     (DtoType F (DType.classType tc))]

/-- The result of a plain reinterpretation of `val` as `t`: one `bitcast`, no call. -/
def reinterpretResult (F : Frontend) (val : DValue) (t : DType) (e : Emit) : DValue × Emit :=
  ({ type := t, rval := Value.reg e.code.length (DtoType F t) },
   { e with code := e.code ++ [Instr.bitcast val.rval (DtoType F t)] })

/-- Frontend answers for `hierarchyProgram`: class 1 is `Object`; `isBaseOf` follows
the declared base classes; pointers take 4 bytes; every runtime function takes and
returns untyped pointers. -/
def sampleFrontend : Frontend :=
  { object := 1,
    isBaseOf := fun tc fc => decide ((tc, fc) ∈ [(1, 2), (1, 3), (2, 3), (1, 4), (1, 5), (4, 5)]),
    isNested := fun _ => false,
    lltype := fun _ => getPtrToType LLType.int8,
    size := fun _ => 4,
    paramType := fun _ _ => getPtrToType LLType.int8,
    returnType := fun _ => getPtrToType LLType.int8 }

/-- An incoming object reference of class `cd`. -/
def objectValue (cd : ClassId) : DValue :=
  { type := DType.classType cd, rval := Value.param 0 (getPtrToType (LLType.classRef cd)) }

/-- The result of a successful lowering (the given value and state for a failed
one). -/
def lowered (d : DValue × Emit) (r : Except Fatal (DValue × Emit)) : DValue × Emit :=
  match r with
  | .ok x => x
  | .error _ => d

/-- Nothing lowered yet, nothing emitted yet. -/
def emptyEmit : Emit := { ir := initialState, code := [] }

/-! ## `DtoIndexClass` -/

/-- What `DtoIndexClass` reads through the `VarDeclaration*` of an offset-map entry:
`vd->offset` and `DtoDType(vd->type)`. -/
structure FieldDecl where
  offset : Nat
  dtype : DType
  deriving DecidableEq, Repr

/-- `ts->sym` of a struct type; `none` when `ty != Tstruct`. -/
def DType.structSym : DType → Option Nat
  | DType.structType sd => some sd
  | _ => none

/-- The element type reached by one index inside a type: an element of the
composite type or of the dispatch-table type of a class, or the element type of an
array (`null` where the class lowering has no layout at hand). -/
def elemType (s : IRState) (t : LLType) (k : Nat) : LLType :=
  match t with
  | LLType.classRef cd =>
    match (s.llvmType cd).elems? with
    | some es => es.getD k LLType.null
    | none => LLType.null
  | LLType.vtblRef cd =>
    match (s.llvmVtblType cd).elems? with
    | some es => es.getD k LLType.null
    | none => LLType.null
  | LLType.array el _ => el
  | _ => LLType.null

/-- The type of a `GetElementPtrInst`: the first index steps over the pointer, the
others walk into the pointee. -/
def gepType (s : IRState) (t : LLType) (idxs : List Nat) : LLType :=
  match t, idxs with
  | LLType.pointer el, _ :: rest => LLType.pointer (rest.foldl (elemType s) el)
  | _, _ => LLType.null

/-- `DtoGEP(ptr, idxs)` and `new llvm::GetElementPtrInst(ptr, DtoConstUint(k))`. -/
def DtoGEP (e : Emit) (ptr : Value) (idxs : List Nat) : Value × Emit :=
  emit e (Instr.gep ptr idxs) (gepType e.ir ptr.type idxs)

/-- `if (ptr->getType() != ty) ptr = gIR->ir->CreateBitCast(ptr, ty, "tmp")`. -/
def castUnless (e : Emit) (ptr : Value) (ty : LLType) : Value × Emit :=
  if ptr.type ≠ ty then emit e (Instr.bitcast ptr ty) ty else (ptr, e)

/-- How `DtoIndexClass` ends: with a pointer of its own, or with the call
`DtoIndexStruct(ptr, ssd, t, os, idxs)` into the struct lowering (gen/structs.cpp),
recorded with its arguments. -/
inductive IndexResult where
  | pointer (v : Value)
  | indexStruct (ptr : Value) (ssd : Nat) (t : DType) (os : Nat) (idxs : List Nat)
  deriving DecidableEq, Repr

/-- Line 1100: `os == vd->offset && vdtype == t`. -/
def exactMatch (vd : FieldDecl) (t : DType) (os : Nat) : Bool :=
  decide (os = vd.offset) && decide (vd.dtype = t)

/-- Line 1112: `vdtype->ty == Tstruct && (vd->offset + vdtype->size()) > os`; the
sum is formed in 64 bits. -/
def descends (F : Frontend) (vd : FieldDecl) (os : Nat) : Bool :=
  vd.dtype.structSym.isSome && decide ((vd.offset + F.size vd.dtype) % 18446744073709551616 > os)

/-- Lines 1101-1110: the access path of an exactly matching entry. -/
def indexExact (irf : IrField) (llt : LLType) (ptr : Value) (idxs : List Nat) (e : Emit) :
    IndexResult × List Nat × Emit :=
  let idxs1 := idxs ++ [u32 (irf.index.toNat + 2)]
  let (p1, e1) := DtoGEP e ptr idxs1
  let (p2, e2) := castUnless e1 p1 llt
  if irf.indexOffset ≠ 0 then
    let (p3, e3) := DtoGEP e2 p2 [irf.indexOffset]
    (IndexResult.pointer p3, idxs1, e3)
  else (IndexResult.pointer p2, idxs1, e2)

/-- Lines 1113-1135: the hand-over to `DtoIndexStruct` for a struct-typed entry,
with the offset rebased in `unsigned`. -/
def indexDescend (F : Frontend) (vd : FieldDecl) (ssd : Nat) (irf : IrField) (t : DType)
    (os : Nat) (llt : LLType) (ptr : Value) (idxs : List Nat) (e : Emit) :
    IndexResult × List Nat × Emit :=
  let idxs1 := idxs ++ [u32 (irf.index.toNat + 2)]
  if irf.indexOffset ≠ 0 then
    -- has union field offset
    let (p1, e1) := DtoGEP e ptr idxs1
    let (p2, e2) := castUnless e1 p1 llt
    let (p3, e3) := DtoGEP e2 p2 [irf.indexOffset]
    (IndexResult.indexStruct p3 ssd t (usub os vd.offset) [], idxs1, e3)
  else
    let sty := getPtrToType (DtoType F vd.dtype)
    if ptr.type ≠ sty then
      let (p1, e1) := emit e (Instr.bitcast ptr sty) sty
      (IndexResult.indexStruct p1 ssd t (usub os vd.offset) [], idxs1, e1)
    else (IndexResult.indexStruct ptr ssd t (usub os vd.offset) idxs1, idxs1, e)

/-- Lines 1141-1144, behind the `assert(0)`: a pointer computed from
`os / llt_sz`. -/
def indexFallback (sz : LLType → Nat) (llt : LLType) (os : Nat) (ptr : Value)
    (idxs : List Nat) (e : Emit) : Except Fatal (IndexResult × List Nat × Emit) :=
  match llt with
  | LLType.pointer el =>
    let llt_sz := sz el
    if llt_sz = 0 then .error Fatal.divisionByZero
    else if os % llt_sz ≠ 0 then .error (Fatal.assertion 1142)
    else
      let (p1, e1) := emit e (Instr.bitcast ptr llt) llt
      let (p2, e2) := DtoGEP e1 p1 [os / llt_sz]
      .ok (IndexResult.pointer p2, idxs, e2)
  | _ => .error (Fatal.nullDeref 1141)

/-- `assert(cond)` on source line `line`. -/
def assertAt (line : Nat) (cond : Bool) : Except Fatal Unit :=
  if cond = true then .ok () else .error (Fatal.assertion line)

/-- The loop at lines 1092-1137 over the offset map in iteration order, and what
follows it (lines 1139-1144). -/
def indexLoop (F : Frontend) (V : VarId → FieldDecl) (sz : LLType → Nat) (t : DType) (os : Nat)
    (llt : LLType) (ptr : Value) (idxs : List Nat) (e : Emit) :
    List Offset → Except Fatal (IndexResult × List Nat × Emit)
  | [] =>
    match assertAt 1139 false with
    | .error err => .error err
    | .ok _ => indexFallback sz llt os ptr idxs e
  | x :: rest =>
    let vd := V x.var
    let irf := e.ir.irField x.var
    if irf.index < 0 then .error (Fatal.assertion 1099)
    else if exactMatch vd t os = true then .ok (indexExact irf llt ptr idxs e)
    else if descends F vd os = true then
      match vd.dtype.structSym with
      | some ssd => .ok (indexDescend F vd ssd irf t os llt ptr idxs e)
      | none => indexLoop F V sz t os llt ptr idxs e rest
    else indexLoop F V sz t os llt ptr idxs e rest

/-- `DtoIndexClass` (lines 1074-1145): the result and the vector `idxs` after the
call. -/
def DtoIndexClass (F : Frontend) (V : VarId → FieldDecl) (sz : LLType → Nat) (ptr : Value)
    (cd : ClassId) (t : DType) (os : Nat) (idxs : List Nat) (e : Emit) :
    Except Fatal (IndexResult × List Nat × Emit) :=
  let idxs1 := if idxs.isEmpty then idxs ++ [0] else idxs
  let llt := getPtrToType (DtoType F t)
  let st := DtoType F (DType.classType cd)
  match e.ir.irStruct cd with
  | none => .error (Fatal.nullDeref (if ptr.type ≠ st then 1085 else 1092))
  | some irs =>
    if ptr.type ≠ st then
      if irs.hasUnions = true then
        let (p1, e1) := emit e (Instr.bitcast ptr st) st
        indexLoop F V sz t os llt p1 idxs1 e1 irs.offsets
      else .error (Fatal.assertion 1085)
    else indexLoop F V sz t os llt ptr idxs1 e irs.offsets

/-- A class with the fields `int a` (offset 8) and `S s` (offset 12, 8 bytes): the
offset map as left by the layout scan, with the slots 0 and 1 of the data area. -/
def indexState : IRState :=
  { initialState with
    irStruct := upd initialState.irStruct 1
      (some { IrStruct.new with
        offsets := [{ first := 8, var := 40, type := LLType.prim 4 },
                    { first := 12, var := 41, type := LLType.prim 8 }] }),
    irField := fun v => if v = 41 then { index := 1, indexOffset := 0 }
                        else { index := 0, indexOffset := 0 } }

/-- The declarations behind the two entries of `indexState`: variable 40 is
`int a` at offset 8 (type `basic 0`), variable 41 is `S s` at offset 12 (struct 7). -/
def indexVars (v : VarId) : FieldDecl :=
  if v = 41 then { offset := 12, dtype := DType.structType 7 }
  else { offset := 8, dtype := DType.basic 0 }

/-- Frontend answers for `indexState`: the struct `S` has 8 bytes, everything else 4. -/
def indexFrontend : Frontend :=
  { sampleFrontend with size := fun t => if t = DType.structType 7 then 8 else 4 }

/-- The instance pointer handed to `DtoIndexClass`. -/
def indexPtr : Value := Value.param 0 (getPtrToType (LLType.classRef 1))

/-! ## `DtoNewClass`, `DtoInitClass`, `DtoCallClassCtor` -/

/-- An `Expression*` of the frontend, by identity. -/
abbrev Expr := Nat

/-- What the construction code reads of a `CtorDeclaration`: the lowered function
`ctor->irFunc->func` with the parameter types and the return type of its function
type (parameter 0 is the instance), and the frontend parameters `tf->parameters`. -/
structure CtorDeclaration where
  func : FuncId
  paramTypes : List LLType
  returnType : LLType
  parameters : List Nat
  deriving DecidableEq, Repr

/-- A `NewExp`: `onstack`, `thisexp`, `arguments` and `member` (null pointers are
`none`). -/
structure NewExp where
  onstack : Bool
  thisexp : Option Expr
  arguments : Option (List Expr)
  member : Option CtorDeclaration
  deriving DecidableEq, Repr

/-- The expression lowering that `classes.cpp` calls into and the function being
lowered: `Expression::toElem`, `DtoArgument(fnarg, ex)` (`fnarg` is
`Argument::getNth(tf->parameters, i)`, null beyond the declared parameters), and
`irFunc->nestedVar`, `irFunc->thisVar` of `gIR->func()`. -/
structure Lowering where
  toElem : Expr → Emit → Except Fatal (DValue × Emit)
  DtoArgument : Option Nat → Expr → Emit → Except Fatal (DValue × Emit)
  nestedVar : Option Value
  thisVar : Option Value

/-- `getABITypeSize(DtoSize_t())`: `size_t` has 64 bits on a 64-bit target and 32
bits otherwise. -/
def sizeOfSize_t (T : Target) : Nat := if T.is64bit = true then 8 else 4

/-- `ty->getContainedType(0)` of a pointer type: the pointee. -/
def pointee : LLType → LLType
  | LLType.pointer t => t
  | _ => LLType.null

/-- `DtoGEPi(ptr, i0, i1)`. -/
def DtoGEPi (e : Emit) (ptr : Value) (i0 i1 : Nat) : Value × Emit :=
  DtoGEP e ptr [i0, i1]

/-- `DtoStore(v, ptr)`. -/
def DtoStore (e : Emit) (v ptr : Value) : Emit :=
  (emit e (Instr.store v ptr) LLType.null).2

/-- Line 796: `n`, computed in 64 bits. -/
def initCopySize (T : Target) (elems : List LLType) : Nat :=
  (T.structSize elems + 18446744073709551616 - (2 * sizeOfSize_t T) % 18446744073709551616)
    % 18446744073709551616

/-- Lines 814-829 of `DtoInitClass`: the bulk copy of `n` bytes from slot 2 of the
default image to slot 2 of the destination; the length operand is an `i32`. -/
def initCopy (cd : ClassId) (init : GlobalName) (n : Nat) (dst : Value) (e : Emit) : Emit :=
  let arrty := getPtrToType LLType.int8
  let (d1, e1) := DtoGEPi e dst 0 2
  let (dstarr, e2) := DtoBitCast e1 d1 arrty
  let (s1, e3) := DtoGEPi e2 (Value.global init (getPtrToType (LLType.classRef cd))) 0 2
  let (srcarr, e4) := DtoBitCast e3 s1 arrty
  (emit e4 (Instr.call Callee.memcpy32
    [dstarr, srcarr, Value.uint (u32 n), Value.uint 0]) LLType.null).2

/-- `DtoInitClass` (lines 793-831). -/
def DtoInitClass (T : Target) (cd : ClassId) (dst : Value) (e : Emit) : Except Fatal Emit :=
  match (e.ir.llvmType cd).elems? with
  | none => .error (Fatal.nullDeref 796)
  | some elems =>
    let n := initCopySize T elems
    match e.ir.irStruct cd with
    | none => .error (Fatal.nullDeref 799)
    | some irs =>
      match irs.vtbl with
      | none => .error (Fatal.assertion 799)
      | some vtbl =>
        -- set vtable field seperately
        let (p0, e1) := DtoGEPi e dst 0 0
        let e2 := DtoStore e1 (Value.global vtbl (getPtrToType (LLType.vtblRef cd))) p0
        -- monitor always defaults to zero
        let (tmp, e3) := DtoGEPi e2 dst 0 1
        let e4 := DtoStore e3 (Value.nullValue (pointee tmp.type)) tmp
        -- done?
        if n = 0 then .ok e4
        else
          -- copy the rest from the static initializer
          match irs.init with
          | none => .error (Fatal.assertion 811)
          | some init =>
            if dst.type ≠ getPtrToType (LLType.classRef cd) then .error (Fatal.assertion 812)
            else .ok (initCopy cd init n dst e4)

/-- The loop of `DtoCallClassCtor` (lines 847-857) from argument `i` on: every
argument is lowered by `DtoArgument` and reinterpreted to the type of parameter
`i+1` of the constructor function unless it has that type. Reading a parameter type
the function type does not have is an invalid access. -/
def ctorArgs (L : Lowering) (ctor : CtorDeclaration) :
    List Expr → Nat → Emit → Except Fatal (List Value × Emit)
  | [], _, e => .ok ([], e)
  | ex :: rest, i, e =>
    match L.DtoArgument (ctor.parameters.get? i) ex e with
    | .error err => .error err
    | .ok (argval, e1) =>
      match ctor.paramTypes.get? (i + 1) with
      | none => .error (Fatal.nullDeref 853)
      | some aty =>
        let (a, e2) := castUnless e1 argval.rval aty
        match ctorArgs L ctor rest (i + 1) e2 with
        | .error err => .error err
        | .ok (as, e3) => .ok (a :: as, e3)

/-- `DtoCallClassCtor` (lines 835-862). Declaring the constructor function does not
touch the class state. -/
def DtoCallClassCtor (L : Lowering) (cd : ClassId) (ctor : Option CtorDeclaration)
    (arguments : List Expr) (mem : Value) (e : Emit) : Except Fatal (DValue × Emit) :=
  match ctor with
  | none => .error (Fatal.assertion 840)
  | some c =>
    match ctorArgs L c arguments 0 e with
    | .error err => .error err
    | .ok (as, e1) =>
      let (call, e2) := emit e1 (Instr.call (Callee.func c.func) (mem :: as)) c.returnType
      .ok ({ type := DType.classType cd, rval := call }, e2)

/-- Lines 736-748 of `DtoNewClass`: the storage, on the stack (the `alloca` goes to
the alloca point of the function; it is listed in emission order here) or from
`_d_newclass`. -/
def newClassAlloc (P : Program) (F : Frontend) (cd : ClassId) (newexp : NewExp) (e : Emit) :
    Except Fatal (Value × Emit) :=
  if newexp.onstack = true then
    .ok (emit e (Instr.alloca (pointee (DtoType F (DType.classType cd))))
      (DtoType F (DType.classType cd)))
  else
    match e.ir.irStruct cd with
    | none => .error (Fatal.nullDeref 746)
    | some irs =>
      match irs.classInfo with
      | none => .error (Fatal.nullDeref 747)
      | some g =>
        let (m1, e1) := emit e (Instr.call Callee.d_newclass
          [Value.global g (getPtrToType (LLType.classRef P.classinfo))])
          (F.returnType Callee.d_newclass)
        .ok (DtoBitCast e1 m1 (DtoType F (DType.classType cd)))

/-- Lines 754-781 of `DtoNewClass`: the reference to the enclosing instance, from
`newexp->thisexp` or, for a nested class, from the context of the function being
lowered. -/
def newClassOuter (F : Frontend) (L : Lowering) (cd : ClassId) (newexp : NewExp) (mem : Value)
    (e : Emit) : Except Fatal Emit :=
  match newexp.thisexp with
  | some ex =>
    -- resolving outer class
    match L.toElem ex e with
    | .error err => .error err
    | .ok (thisval, e1) =>
      match e1.ir.irStruct cd with
      | none => .error (Fatal.nullDeref 761)
      | some irs =>
        let idx := 2 + irs.interfaces.length
        let dst := thisval.rval
        let (src, e2) := DtoGEPi e1 mem 0 idx
        .ok (DtoStore e2 dst src)
  | none =>
    if F.isNested cd = true then
      -- resolving nested context
      match e.ir.irStruct cd with
      | none => .error (Fatal.nullDeref 773)
      | some irs =>
        let idx := 2 + irs.interfaces.length
        match (match L.nestedVar with
               | some v => some v
               | none => L.thisVar) with
        | none => .error (Fatal.assertion 777)
        | some nest =>
          let (gep, e1) := DtoGEPi e mem 0 idx
          let (nest1, e2) := DtoBitCast e1 nest (pointee gep.type)
          .ok (DtoStore e2 nest1 gep)
    else .ok e

/-- Lines 733-781 of `DtoNewClass`: declare the class, allocate, initialize, and
store the outer reference; the result is the instance `mem`. -/
def newInstance (P : Program) (F : Frontend) (L : Lowering) (sz : LLType → Nat) (T : Target)
    (fuel : Nat) (cd : ClassId) (newexp : NewExp) (e : Emit) : Except Fatal (Value × Emit) :=
  match DtoForceDeclareDsymbol P sz fuel cd e.ir with
  | .error err => .error err
  | .ok s1 =>
    match newClassAlloc P F cd newexp { e with ir := s1 } with
    | .error err => .error err
    | .ok (mem, e1) =>
      match DtoInitClass T cd mem e1 with
      | .error err => .error err
      | .ok e2 =>
        match newClassOuter F L cd newexp mem e2 with
        | .error err => .error err
        | .ok e3 => .ok (mem, e3)

/-- `DtoNewClass` (lines 731-789). -/
def DtoNewClass (P : Program) (F : Frontend) (L : Lowering) (sz : LLType → Nat) (T : Target)
    (fuel : Nat) (cd : ClassId) (newexp : NewExp) (e : Emit) : Except Fatal (DValue × Emit) :=
  match newInstance P F L sz T fuel cd newexp e with
  | .error err => .error err
  | .ok (mem, e3) =>
    -- call constructor
    match newexp.arguments with
    | some arguments => DtoCallClassCtor L cd newexp.member arguments mem e3
    -- return default constructed class
    | none => .ok ({ type := DType.classType cd, rval := mem }, e3)

/-- A lowering service for the examples: expression `k` lowers to the incoming value
`param k` of 4-byte integer type, without emitting code; the function being lowered
has a `this`. -/
def sampleLowering : Lowering :=
  { toElem := fun ex e =>
      .ok ({ type := DType.classType 3, rval := Value.param ex (getPtrToType (LLType.classRef 3)) }, e),
    DtoArgument := fun _ ex e =>
      .ok ({ type := DType.basic 0, rval := Value.param ex (LLType.prim 4) }, e),
    nestedVar := none,
    thisVar := some (Value.param 100 (getPtrToType (LLType.classRef 3))) }

/-- A constructor `this(int, long)`: function 50 with the parameter types (instance,
4-byte integer, 8-byte integer). -/
def sampleCtor (cd : ClassId) : CtorDeclaration :=
  { func := 50, paramTypes := [getPtrToType (LLType.classRef cd), LLType.prim 4, LLType.prim 8],
    returnType := getPtrToType (LLType.classRef cd), parameters := [0, 1] }

/-- The value and state of a successful construction lowering (the given ones for a
failed one). -/
def constructed (r : Except Fatal (DValue × Emit)) : DValue × Emit :=
  lowered (objectValue 0, emptyEmit) r

/-- The two stores every initialization starts with, as instructions `k .. k+3`:
the dispatch-table global into slot 0 and a null into slot 1 of `dst`. -/
def initHeaderCode (s : IRState) (cd : ClassId) (vtbl : GlobalName) (dst : Value) (k : Nat) :
    List Instr :=
  [Instr.gep dst [0, 0],
   Instr.store (Value.global vtbl (getPtrToType (LLType.vtblRef cd)))
     (Value.reg k (gepType s dst.type [0, 0])),
   Instr.gep dst [0, 1],
   Instr.store (Value.nullValue (pointee (gepType s dst.type [0, 1])))
     (Value.reg (k + 2) (gepType s dst.type [0, 1]))]

/-- The bulk copy of `len` bytes from slot 2 of the default image `init` to slot 2
of `dst`, as instructions `k .. k+4`. -/
def initCopyCode (s : IRState) (cd : ClassId) (init : GlobalName) (len : Nat) (dst : Value)
    (k : Nat) : List Instr :=
  [Instr.gep dst [0, 2],
   Instr.bitcast (Value.reg k (gepType s dst.type [0, 2])) (getPtrToType LLType.int8),
   Instr.gep (Value.global init (getPtrToType (LLType.classRef cd))) [0, 2],
   Instr.bitcast (Value.reg (k + 2) (gepType s (getPtrToType (LLType.classRef cd)) [0, 2]))
     (getPtrToType LLType.int8),
   Instr.call Callee.memcpy32
     [Value.reg (k + 1) (getPtrToType LLType.int8), Value.reg (k + 3) (getPtrToType LLType.int8),
      Value.uint len, Value.uint 0]]

/-- Class 1 of `oneInterfaceProgram` resolved and declared, nothing emitted yet. -/
def declaredEmit : Emit :=
  { ir := resultState (DtoForceDeclareDsymbol oneInterfaceProgram sampleSize 6 1 initialState),
    code := [] }

/-- A pointer to storage for an instance of class 1. -/
def instancePtr : Value := Value.param 0 (getPtrToType (LLType.classRef 1))

/-- The state of a successful initialization (the given one for a failed one). -/
def initialized (e : Emit) (r : Except Fatal Emit) : Emit :=
  match r with
  | .ok e1 => e1
  | .error _ => e

/-- The instance and state of a successful instance set-up (a dummy for a failed
one). -/
def instanceOf (r : Except Fatal (Value × Emit)) : Value × Emit :=
  match r with
  | .ok x => x
  | .error _ => (Value.uint 0, emptyEmit)

/-- The expression `new C(e1, e2)` with the constructor `sampleCtor`. -/
def newWithArgs : NewExp :=
  { onstack := false, thisexp := none, arguments := some [1, 2], member := some (sampleCtor 1) }

/-- The expression `e9.new C` (explicit enclosing instance, no argument list). -/
def newWithOuter : NewExp :=
  { onstack := false, thisexp := some 9, arguments := none, member := none }

/-- The expression `new C` without enclosing instance and without argument list. -/
def newPlain : NewExp :=
  { onstack := false, thisexp := none, arguments := none, member := none }

/-- The frontend answers of `sampleFrontend`, with class 1 nested. -/
def nestedFrontend : Frontend :=
  { sampleFrontend with isNested := fun c => decide (c = 1) }

/-! ## Pointer arithmetic (`gen/binops.cpp`) -/

/-- A frontend type after `toBasetype()` as the binary operations read it: a pointer
type with `nextOf()->size()`, an integral type, or another type (by identity). -/
inductive ArithType where
  | pointer (elemSize : Nat)
  | integral (id : Nat)
  | other (id : Nat)
  deriving DecidableEq, Repr

/-- `t->isintegral()`. -/
def ArithType.isintegral : ArithType → Bool
  | ArithType.integral _ => true
  | _ => false

/-- `undoStrideMul` (binops.cpp, lines 22-29); `dinteger_t` and `d_uns64` values are
natural numbers below `2^64`, and no operation here leaves that range. The
assertions are those of lines 23 and 25 of `binops.cpp`. -/
def undoStrideMul (t : ArithType) (offset : Nat) : Except Fatal Nat :=
  match t with
  | ArithType.pointer elemSize =>
    if elemSize = 0 then .error Fatal.divisionByZero
    else if offset % elemSize ≠ 0 then .error (Fatal.assertion 25)
    else .ok (offset / elemSize)
  | _ => .error (Fatal.assertion 23)

/-- A frontend `Expression*` as the pointer arithmetic reads it: an integer constant
(`isConst()`, with `toInteger()`), a negation (`TOKneg`), a multiplication
(`TOKmul`), or any other expression (by identity). -/
inductive Expression where
  | integer (v : Nat)
  | neg (e1 : Expression)
  | mul (e1 e2 : Expression)
  | other (id : Nat)
  deriving DecidableEq, Repr

/-- `e->isConst()`. -/
def Expression.isConst : Expression → Bool
  | Expression.integer _ => true
  | _ => false

/-- `extractNoStrideInc` (lines 36-63): the result (`none` for `nullptr`) and the
value left in the reference parameter `negate`. -/
def extractNoStrideInc : Expression → Nat → Bool → Option Expression × Bool
  | Expression.neg e1, baseSize, negate => extractNoStrideInc e1 baseSize (!negate)
  | Expression.mul e1 e2, baseSize, negate =>
    match e2 with
    | Expression.integer stride => if stride ≠ baseSize then (none, negate) else (some e1, negate)
    | _ => (none, negate)
  | _, _, negate => (none, negate)

/-- The LLVM values built by the binary operations, as terms. `rval e` is
`DtoRVal` of the lowered expression `e`; `gep1 stride p i` is `DtoGEP1(p, i)` on a
pointer whose pointee takes `stride` bytes; `bitcast` and `cast` are pointer
casts. -/
inductive LLValue where
  | rval (e : Expression)
  | constSize_t (n : Nat)
  | neg (v : LLValue)
  | gep1 (stride : Nat) (ptr idx : LLValue)
  | bitcast (v : LLValue)
  | cast (v : LLValue)
  | add (l r : LLValue)
  | fadd (l r : LLValue)
  | sub (l r : LLValue)
  | fsub (l r : LLValue)
  | complexAdd (l r : LLValue)
  | complexMin (l r : LLValue)
  | ptrDiff (l r : LLValue)
  deriving DecidableEq, Repr

/-- `t->ty == Tpointer`. -/
def ArithType.isPointer : ArithType → Bool
  | ArithType.pointer _ => true
  | _ => false

/-- The stride of `DtoGEP1` on a value of the given type: the size of the pointee. -/
def ArithType.stride : ArithType → Nat
  | ArithType.pointer elemSize => elemSize
  | _ => 0

/-- Lines 88-94: the element-wise step from the base pointer. -/
def strideGep (baseType : ArithType) (baseVal noStrideInc : LLValue) (negateOffset : Bool) :
    LLValue :=
  LLValue.gep1 baseType.stride baseVal
    (if negateOffset = true then LLValue.neg noStrideInc else noStrideInc)

/-- `emitPointerOffset` (lines 65-102). An `Expression.integer` is the offset with
`isConst()`. Reading `nextOf()` of a base type that is not a pointer type is an
invalid access. -/
def emitPointerOffset (baseType : ArithType) (base offset : Expression) (negateOffset : Bool) :
    Except Fatal LLValue :=
  let baseVal := LLValue.rval base
  match offset with
  | Expression.integer byteOffset =>
    if byteOffset = 0 then .ok baseVal
    else
      match undoStrideMul baseType byteOffset with
      | .error err => .error err
      | .ok q => .ok (strideGep baseType baseVal (LLValue.constSize_t q) negateOffset)
  | _ =>
    match baseType with
    | ArithType.pointer elemSize =>
      match extractNoStrideInc offset elemSize negateOffset with
      | (some inc, negate1) => .ok (strideGep baseType baseVal (LLValue.rval inc) negate1)
      | (none, negate1) =>
        -- this might not actually be generated by the frontend, just to be safe
        let inc := LLValue.rval offset
        let inc1 := if negate1 = true then LLValue.neg inc else inc
        let bytePtr := LLValue.bitcast baseVal
        .ok (LLValue.cast (LLValue.gep1 1 bytePtr inc1))
    | _ => .error (Fatal.nullDeref 84)

/-- The operands of a binary operation: the two expressions, their base types
(`type->toBasetype()`), and the answers of `type->iscomplex()` and
`lhs->type->isfloating()`. -/
structure BinOperands where
  lhs : Expression
  rhs : Expression
  lhsType : ArithType
  rhsType : ArithType
  iscomplex : Bool
  isfloating : Bool

/-- Lines 134 and 156: `lhsType != rhsType && lhsType->ty == Tpointer &&
rhsType->isintegral()`. -/
def BinOperands.pointerAndInteger (b : BinOperands) : Bool :=
  decide (b.lhsType ≠ b.rhsType) && b.lhsType.isPointer && b.rhsType.isintegral

/-- `binAdd` (lines 130-150). -/
def binAdd (b : BinOperands) : Except Fatal LLValue :=
  if b.pointerAndInteger = true then
    -- adding integer to pointer
    emitPointerOffset b.lhsType b.lhs b.rhs false
  else if b.iscomplex = true then
    .ok (LLValue.complexAdd (LLValue.rval b.lhs) (LLValue.rval b.rhs))
  else if b.isfloating = true then .ok (LLValue.fadd (LLValue.rval b.lhs) (LLValue.rval b.rhs))
  else .ok (LLValue.add (LLValue.rval b.lhs) (LLValue.rval b.rhs))

/-- `binMin` (lines 154-187). -/
def binMin (b : BinOperands) : Except Fatal LLValue :=
  if b.pointerAndInteger = true then
    -- subtracting integer from pointer
    emitPointerOffset b.lhsType b.lhs b.rhs true
  else if (b.lhsType.isPointer && b.rhsType.isPointer) = true then
    .ok (LLValue.ptrDiff (LLValue.rval b.lhs) (LLValue.rval b.rhs))
  else if b.iscomplex = true then
    .ok (LLValue.complexMin (LLValue.rval b.lhs) (LLValue.rval b.rhs))
  else if b.isfloating = true then .ok (LLValue.fsub (LLValue.rval b.lhs) (LLValue.rval b.rhs))
  else .ok (LLValue.sub (LLValue.rval b.lhs) (LLValue.rval b.rhs))

/-- The value of an expression when the expressions of other kinds take the values
`env`: integers are read at pointer width, without wrap-around. -/
def Expression.value (env : Nat → Int) : Expression → Int
  | Expression.integer v => (v : Int)
  | Expression.neg e1 => - e1.value env
  | Expression.mul e1 e2 => e1.value env * e2.value env
  | Expression.other id => env id

/-- The value of a term built of the integer and pointer operations (`none` for the
floating-point and complex operations): a `gep1` advances the pointer by `stride`
bytes per index unit, a pointer cast keeps the address. -/
def LLValue.value (env : Nat → Int) : LLValue → Option Int
  | LLValue.rval e => some (e.value env)
  | LLValue.constSize_t n => some (n : Int)
  | LLValue.neg v => (v.value env).map (fun x => - x)
  | LLValue.gep1 stride p i =>
    match p.value env, i.value env with
    | some a, some k => some (a + k * (stride : Int))
    | _, _ => none
  | LLValue.bitcast v => v.value env
  | LLValue.cast v => v.value env
  | LLValue.add l r =>
    match l.value env, r.value env with
    | some a, some k => some (a + k)
    | _, _ => none
  | LLValue.sub l r =>
    match l.value env, r.value env with
    | some a, some k => some (a - k)
    | _, _ => none
  | LLValue.ptrDiff l r =>
    match l.value env, r.value env with
    | some a, some k => some (a - k)
    | _, _ => none
  | _ => none

/-- The address a pointer operation yields (`none` when lowering fails or the
result is no address). -/
def addressOf (env : Nat → Int) (r : Except Fatal LLValue) : Option Int :=
  match r with
  | .ok v => v.value env
  | .error _ => none

/-- The operands of `p + off` and `p - off` for a pointer `p` (expression
`other 0`) to elements of `elemSize` bytes and an integral `off`. -/
def pointerOperands (elemSize : Nat) (off : Expression) : BinOperands :=
  { lhs := Expression.other 0, rhs := off, lhsType := ArithType.pointer elemSize,
    rhsType := ArithType.integral 0, iscomplex := false, isfloating := false }

/-- Values for the examples: the pointer `other 0` is 1000, `other 1` is 3. -/
def sampleEnv (id : Nat) : Int := if id = 0 then 1000 else 3

/-! ## `DtoVirtualFunctionPointer` -/

/-- What the virtual call lowering reads of a `FuncDeclaration`: `isVirtual()` and
`vtblIndex`. -/
structure FuncDeclaration where
  isVirtual : Bool
  vtblIndex : Int
  deriving DecidableEq, Repr

/-- `DtoLoad(ptr)`. -/
def DtoLoad (e : Emit) (ptr : Value) : Value × Emit :=
  emit e (Instr.load ptr) (pointee ptr.type)

/-- `DtoVirtualFunctionPointer` (lines 1149-1168). -/
def DtoVirtualFunctionPointer (inst : DValue) (fdecl : FuncDeclaration) (e : Emit) :
    Except Fatal (Value × Emit) :=
  if fdecl.isVirtual ≠ true then .error (Fatal.assertion 1151)
  else if ¬ (fdecl.vtblIndex > 0) then .error (Fatal.assertion 1152)
  else
    match inst.type with
    | DType.classType _ =>
      let vthis := inst.rval
      let (f1, e1) := DtoGEPi e vthis 0 0
      let (f2, e2) := DtoLoad e1 f1
      let (f3, e3) := DtoGEPi e2 f2 0 fdecl.vtblIndex.toNat
      let (f4, e4) := DtoLoad e3 f3
      .ok (f4, e4)
    | _ => .error (Fatal.assertion 1153)

/-- The four instructions of a virtual function lookup, as instructions
`n .. n+3`: the address of slot 0 of the instance, the load of the dispatch-table
pointer, the address of slot `i` of the table, the load of the function pointer. -/
def virtualLookupCode (s : IRState) (vthis : Value) (i : Nat) (n : Nat) : List Instr :=
  [Instr.gep vthis [0, 0],
   Instr.load (Value.reg n (gepType s vthis.type [0, 0])),
   Instr.gep (Value.reg (n + 1) (pointee (gepType s vthis.type [0, 0]))) [0, i],
   Instr.load (Value.reg (n + 2) (gepType s (pointee (gepType s vthis.type [0, 0])) [0, i]))]

/-- The type of the function pointer loaded by a virtual function lookup. -/
def virtualLookupType (s : IRState) (vthis : Value) (i : Nat) : LLType :=
  pointee (gepType s (pointee (gepType s vthis.type [0, 0])) [0, i])

/-- A virtual method with dispatch index 2. -/
def sampleMethod : FuncDeclaration := { isVirtual := true, vtblIndex := 2 }

/-- A method that is not virtual. -/
def finalMethod : FuncDeclaration := { isVirtual := false, vtblIndex := 2 }

/-! ## Module-level output of the phases -/

/-- The module-level output of the lowering that `DtoResolveClass` does not touch:
the globals created, the const-init and define work lists, and the initializers
set. -/
def moduleOutput (s : IRState) :
    List GlobalName × List ClassId × List ClassId × List (GlobalName × Option Initializer) :=
  (s.globals, s.constInitList, s.defineList, s.initializers)

/-- The record after `DtoDeclareClassInfo` has created the descriptor global `g`. -/
def IrStruct.withClassInfo (irs : IrStruct) (g : GlobalName) : IrStruct :=
  { irs with classDeclared := true, classInfo := some g }

/-- The globals created between two states. -/
def createdGlobals (s s' : IRState) : List GlobalName :=
  s'.globals.drop s.globals.length

/-- Class 0 is the `ClassInfo` class, class 1 is `abstract class A : I` with
interface 2 as `I`, class 3 is `class C` (concrete, no interface) owned by another
module. -/
def abstractProgram : Program :=
  { classinfo := 0,
    decl := fun c =>
      if c = 1 then
        { plainClass with isAbstract := true, baseclasses := [{ base := 2, vtbl := [] }],
                          vtblInterfacesDim := 1 }
      else if c = 2 then { plainClass with isInterfaceDeclaration := true }
      else if c = 3 then { plainClass with inModule := false }
      else plainClass }

/-- Class `cd` of `abstractProgram` resolved, starting from scratch. -/
def abstractResolved (cd : ClassId) : IRState :=
  resultState (DtoResolveClass abstractProgram sampleSize 6 cd initialState)

/-- The globals `DtoDeclareClass` creates for a class whose record is `irs`, in
the order of creation (lines 342-351, 359-370, 374-402, and `DtoDeclareClassInfo`). -/
def declaredGlobals (P : Program) (cd : ClassId) (irs : IrStruct) : List GlobalName :=
  (if isConcrete P cd = true then [GlobalName.vtbl cd] else [])
    ++ (if irs.interfaces.isEmpty then [] else [GlobalName.interfaceInfos cd])
    ++ (if isConcrete P cd = true then
          irs.interfaces.map (fun iri => GlobalName.interfaceVtbl cd iri.decl)
            ++ [GlobalName.init cd]
        else [])
    ++ (if irs.classDeclared = true then [] else [GlobalName.classInfo cd])

/-- The record of class `cd` (a fresh record when the class has none). -/
def recordOf (s : IRState) (cd : ClassId) : IrStruct :=
  (s.irStruct cd).getD IrStruct.new

/-- The slot under construction in state `st` sits at position `n0 + idx` of the
composite type: the vector holds the `n0` elements present at the start of the scan
and `idx` elements of the slots committed so far. -/
def SlotPosition (n0 : Nat) (st : ScanState) : Prop :=
  0 ≤ st.idx ∧ (st.fieldtypes.length : Int) = n0 + st.idx

/-- The offset-map entries of the three fields of class 1 of `sampleProgram`. -/
def offsetNext : Offset := { first := 8, var := 7, type := LLType.pointer (LLType.classRef 1) }

def offsetA : Offset := { first := 12, var := 8, type := LLType.prim 4 }

def offsetB : Offset := { first := 12, var := 9, type := LLType.prim 8 }

/-- The state component of a successful field resolution (the inputs for a failed
one). -/
def fieldsResult (r : Except Fatal ScanResult) : ScanResult :=
  match r with
  | .ok x => x
  | .error _ => { fieldtypes := [], defaultFields := [], hasUnions := false,
                  irField := fun _ => { index := 0, indexOffset := 0 } }


/-- The scan of the offset map of class 1 of `sampleProgram` after the entry of
`next`, after the entry of `a` (which starts the union slot), and after the entry
of `b` (which widens it). -/
def sampleScanPre : ScanState :=
  scanState (scanInit (classHeader 1) [] false initialState.irField)
    (scanLoop sampleSize (scanInit (classHeader 1) [] false initialState.irField) [offsetNext])

def sampleScanStart : ScanState :=
  scanState sampleScanPre (scanStep sampleSize sampleScanPre offsetA)

def sampleScanGroup : ScanState :=
  scanState sampleScanStart (scanLoop sampleSize sampleScanStart [offsetB])

/-- The field resolution of class 1 of `sampleProgram`. -/
def sampleFields : ScanResult :=
  fieldsResult (resolveFields sampleSize ([offsetNext] ++ offsetA :: ([offsetB] ++ []))
    (classHeader 1) [] false initialState.irField)

/-- The offset map of `class C { union { long a; align(1) struct { byte pad; int b; } } }`:
`a` (8 bytes) and `pad` (1 byte) at offset 8, `b` (4 bytes) at offset 9. -/
def packedOffsets : List Offset :=
  [{ first := 8, var := 40, type := LLType.prim 8 },
   { first := 8, var := 42, type := LLType.prim 1 },
   { first := 9, var := 41, type := LLType.prim 4 }]

/-- The byte offset of the pointer `indexExact` returns for an entry with record
`irf`, when the slot of the entry starts at byte `slotOffset` and the entry's type
has `size` bytes: the GEP to the slot's element, then `indexOffset` elements of
the entry's type. -/
def indexedOffset (slotOffset size : Nat) (irf : IrField) : Nat :=
  slotOffset + irf.indexOffset * size

/-- The state in which class 1 has the composite type the scan of `packedOffsets`
produces: the header and the 8-byte slot. -/
def packedState : IRState :=
  { initialState with
    llvmType := upd initialState.llvmType 1 (TypeHolder.struct (classHeader 1 ++ [LLType.prim 8])) }

/-- Class 1 is `class C` whose virtual-method table holds its descriptor and two
functions; class 2 has an empty virtual-method table. Class 0 is `ClassInfo`. -/
def vtblProgram : Program :=
  { classinfo := 0,
    decl := fun c =>
      if c = 1 then { plainClass with vtbl := [Dsymbol.classDecl 1, Dsymbol.func 5, Dsymbol.func 6] }
      else if c = 2 then { plainClass with vtbl := [] }
      else plainClass }

/-- The `ClassInfo` class of `vtblProgram` resolved, starting from scratch. -/
def vtblStart : IRState :=
  resultState (DtoResolveClass vtblProgram sampleSize 6 0 initialState)

/-- Class 1 of `vtblProgram` resolved and declared after `ClassInfo`. -/
def vtblDeclared : IRState :=
  resultState (DtoForceDeclareDsymbol vtblProgram sampleSize 6 1 vtblStart)

/-- A pair (element type, default field) committed by the layout scan is backed by
the entries `seen`: a pair without a field is a padding array of positive length,
a pair with field `v` carries the type of an entry of `v`. -/
def PairOk (seen : List Offset) (p : LLType × Option VarId) : Prop :=
  match p.2 with
  | none => ∃ n, 0 < n ∧ p.1 = LLType.array LLType.int8 n
  | some v => ∃ e ∈ seen, e.var = v ∧ e.type = p.1

/-- The scan state after the entries `seen`: the vectors `fieldtypes` and
`defaultFields` have grown in parallel by backed pairs, and the open slot is
that of an entry of `seen`. -/
def ScanPairs (ft0 : List LLType) (df0 : List (Option VarId)) (seen : List Offset)
    (st : ScanState) : Prop :=
  (∃ ps : List (LLType × Option VarId),
    st.fieldtypes = ft0 ++ ps.map Prod.fst ∧ st.defaultFields = df0 ++ ps.map Prod.snd ∧
    ∀ p ∈ ps, PairOk seen p) ∧
  (seen ≠ [] → st.lastoffset ≠ UINT_MAX) ∧
  (st.lastoffset ≠ UINT_MAX → ∃ e ∈ seen, st.fieldinit = some e.var ∧ st.fieldtype = e.type)

/-- What the later phases read of the layout scan's work in a record: the offset
map, `defaultFields`, and the number of interface entries. -/
def scanOutput (irs : IrStruct) : List Offset × List (Option VarId) × Nat :=
  (irs.offsets, irs.defaultFields, irs.interfaces.length)

/-- Class 1 of `sampleProgram` resolved from scratch (which resolves the
interfaces 3 and 2). -/
def sampleResolved : IRState :=
  resultState (DtoResolveClass sampleProgram sampleSize 5 1 initialState)

/-- The interfaces 3 and 2 and class 1 of `sampleProgram` declared after that. -/
def sampleDeclared : IRState :=
  resultState (andThen (andThen
    (DtoDeclareClass sampleProgram sampleSize 5 3 sampleResolved)
    (DtoDeclareClass sampleProgram sampleSize 5 2))
    (DtoDeclareClass sampleProgram sampleSize 5 1))

/-- The interfaces 3 and 2 of `sampleProgram` resolved and declared, starting from
scratch, before class 1 is touched. -/
def interfacesDeclared : IRState :=
  resultState (andThen
    (DtoForceDeclareDsymbol sampleProgram sampleSize 5 3 initialState)
    (DtoForceDeclareDsymbol sampleProgram sampleSize 5 2))

/-- Class 1 of `sampleProgram` resolved, then declared, then const-initialized
after its interfaces have been declared. -/
def classResolved : IRState :=
  resultState (DtoResolveClass sampleProgram sampleSize 5 1 interfacesDeclared)

def classDeclared : IRState :=
  resultState (DtoDeclareClass sampleProgram sampleSize 5 1 classResolved)

def classInitialized : IRState :=
  resultState (DtoConstInitClass sampleProgram sampleTarget 1 classDeclared)

/-! # Theorems -/

/-! ## Lemmas on the layout scan and the interface slots -/

theorem addInterfaceVtables_spec (vt : ClassId → TypeHolder) :
    ∀ (ifs : List IrInterface) (i : Int) (ft : List LLType) (ifs' : List IrInterface)
      (ft' : List LLType),
      addInterfaceVtables vt ifs i ft = .ok (ifs', ft') →
      ft' = ft ++ ifs.map (fun x => getPtrToType (LLType.vtblRef x.decl)) ∧
      ifs'.map (fun x => x.decl) = ifs.map (fun x => x.decl) ∧
      ifs'.map (fun x => x.index) = (List.range ifs.length).map (fun (k : Nat) => i + (k : Int)) := by
  intro ifs
  induction ifs with
  | nil =>
    intro i ft ifs' ft' h
    simp only [addInterfaceVtables, Except.ok.injEq, Prod.mk.injEq] at h
    obtain ⟨h1, h2⟩ := h
    subst h1; subst h2
    simp
  | cons iri rest ih =>
    intro i ft ifs' ft' h
    unfold addInterfaceVtables at h
    split at h
    · exact absurd h (by simp)
    · dsimp only at h
      split at h
      · exact absurd h (by simp)
      · rename_i rest1 ft1 hrec
        simp only [Except.ok.injEq, Prod.mk.injEq] at h
        obtain ⟨h1, h2⟩ := h
        subst h1; subst h2
        obtain ⟨a, b, c⟩ := ih _ _ _ _ hrec
        refine ⟨?_, ?_, ?_⟩
        · simp [a]
        · simp [b]
        · simp only [List.map_cons, c, List.length_cons, List.range_succ_eq_map, Nat.cast_zero,
            add_zero, List.map_map, List.cons.injEq, true_and]
          apply List.map_congr_left
          intro k _
          simp only [Function.comp_apply, Nat.cast_succ]
          ring

theorem scanStep_fieldtypes (sz : LLType → Nat) (st st' : ScanState) (e : Offset)
    (h : scanStep sz st e = .ok st') :
    ∃ data, st'.fieldtypes = st.fieldtypes ++ data := by
  unfold scanStep at h
  split at h
  · simp only [Except.ok.injEq] at h; subst h; exact ⟨[], by simp⟩
  · split at h
    · simp only [Except.ok.injEq] at h; subst h
      refine ⟨[], ?_⟩
      by_cases hs : sz e.type > st.prevsize <;> simp [hs]
    · split at h
      · dsimp only at h
        split at h
        · exact absurd h (by simp)
        · split at h
          · exact absurd h (by simp)
          · simp only [Except.ok.injEq] at h; subst h; exact ⟨[], by simp⟩
      · simp only [Except.ok.injEq] at h; subst h
        by_cases hp : st.fieldpad = 0
        · exact ⟨[st.fieldtype], by simp [hp]⟩
        · exact ⟨[st.fieldtype, LLType.array LLType.int8 st.fieldpad], by simp [hp]⟩

theorem scanLoop_fieldtypes (sz : LLType → Nat) :
    ∀ (es : List Offset) (st st' : ScanState), scanLoop sz st es = .ok st' →
      ∃ data, st'.fieldtypes = st.fieldtypes ++ data := by
  intro es
  induction es with
  | nil =>
    intro st st' h
    simp only [scanLoop, Except.ok.injEq] at h
    subst h
    exact ⟨[], by simp⟩
  | cons e es ih =>
    intro st st' h
    unfold scanLoop at h
    split at h
    · rename_i st1 h1
      obtain ⟨d1, hd1⟩ := scanStep_fieldtypes sz st st1 e h1
      obtain ⟨d2, hd2⟩ := ih st1 st' h
      exact ⟨d1 ++ d2, by rw [hd2, hd1, List.append_assoc]⟩
    · exact absurd h (by simp)

theorem scanFinish_fieldtypes (st : ScanState) :
    ∃ data, (scanFinish st).fieldtypes = st.fieldtypes ++ data ∧ data ≠ [] := by
  unfold scanFinish
  by_cases hp : st.fieldpad = 0
  · exact ⟨[st.fieldtype], by simp [hp]⟩
  · exact ⟨[st.fieldtype, LLType.array LLType.int8 st.fieldpad], by simp [hp]⟩

theorem resolveFields_fieldtypes (sz : LLType → Nat) (offsets : List Offset) (ft : List LLType)
    (df : List (Option VarId)) (hu : Bool) (irf : VarId → IrField) (r : ScanResult)
    (h : resolveFields sz offsets ft df hu irf = .ok r) :
    ∃ data, r.fieldtypes = ft ++ data ∧ (offsets = [] → data = []) := by
  unfold resolveFields at h
  split at h
  · rename_i he
    simp only [Except.ok.injEq] at h
    subst h
    exact ⟨[], by simp⟩
  · rename_i he
    split at h
    · rename_i st hst
      simp only [Except.ok.injEq] at h
      subst h
      obtain ⟨d1, hd1⟩ := scanLoop_fieldtypes sz offsets _ st hst
      obtain ⟨d2, hd2, _⟩ := scanFinish_fieldtypes st
      refine ⟨d1 ++ d2, ?_, ?_⟩
      · simp only [hd2, hd1, scanInit, List.append_assoc]
      · intro h0
        subst h0
        simp at he
    · exact absurd h (by simp)

theorem ResolveRel.rel_refl (s : IRState) : ResolveRel s s :=
  ⟨rfl, rfl, rfl, fun _ h => ⟨h, rfl, rfl, rfl⟩, fun _ _ => rfl⟩

theorem Frame.frame_refl (cd : ClassId) (s : IRState) : Frame cd s s :=
  ⟨rfl, rfl, rfl, fun _ _ h => ⟨h, rfl, rfl, rfl⟩, fun _ _ _ => rfl, fun h => h⟩

theorem ResolveRel.toFrame {s s' : IRState} (h : ResolveRel s s') (cd : ClassId) :
    Frame cd s s' :=
  ⟨h.declared, h.initialized, h.defined, fun x _ hx => h.keeps x hx,
   fun x _ hx => h.untouched x hx, fun hc => (h.keeps cd hc).1⟩

theorem Frame.frame_trans {cd : ClassId} {s s' s'' : IRState} (h1 : Frame cd s s')
    (h2 : Frame cd s' s'') : Frame cd s s'' := by
  refine ⟨h2.declared.trans h1.declared, h2.initialized.trans h1.initialized,
    h2.defined.trans h1.defined, ?_, ?_, fun hc => h2.owner (h1.owner hc)⟩
  · intro x hx hr
    obtain ⟨a1, a2, a3, a4⟩ := h1.keeps x hx hr
    obtain ⟨b1, b2, b3, b4⟩ := h2.keeps x hx a1
    exact ⟨b1, b2.trans a2, b3.trans a3, b4.trans a4⟩
  · intro x hx hr
    have hmid : s'.llvmResolved x = false := by
      cases hm : s'.llvmResolved x with
      | false => rfl
      | true => rw [(h2.keeps x hx hm).1] at hr; exact absurd hr (by simp)
    exact (h2.untouched x hx hr).trans (h1.untouched x hx hmid)

theorem Frame.toResolveRel {cd : ClassId} {s s' : IRState} (h : Frame cd s s')
    (h0 : s.llvmResolved cd = false) (h1 : s'.llvmResolved cd = true) : ResolveRel s s' := by
  refine ⟨h.declared, h.initialized, h.defined, ?_, ?_⟩
  · intro x hx
    apply h.keeps x _ hx
    rintro rfl
    rw [h0] at hx
    exact absurd hx (by simp)
  · intro x hx
    apply h.untouched x _ hx
    rintro rfl
    rw [h1] at hx
    exact absurd hx (by simp)

/-- A step that only writes attributes of `cd` itself (and state outside the
per-class tables) stays within the frame of `cd`. -/
theorem Frame.of_local {cd : ClassId} {s s' : IRState}
    (h1 : s'.llvmDeclared = s.llvmDeclared) (h2 : s'.llvmInitialized = s.llvmInitialized)
    (h3 : s'.llvmDefined = s.llvmDefined)
    (hr : ∀ x, x ≠ cd → s'.llvmResolved x = s.llvmResolved x)
    (hc : s.llvmResolved cd = true → s'.llvmResolved cd = true)
    (hi : ∀ x, x ≠ cd → s'.irStruct x = s.irStruct x)
    (ht : ∀ x, x ≠ cd → s'.llvmType x = s.llvmType x)
    (hv : ∀ x, x ≠ cd → s'.llvmVtblType x = s.llvmVtblType x) : Frame cd s s' :=
  ⟨h1, h2, h3, fun x hx hres => ⟨(hr x hx).trans hres, hi x hx, ht x hx, hv x hx⟩,
   fun x hx _ => hi x hx, hc⟩

theorem upd_ne {β : Type} (f : Nat → β) (k : Nat) (v : β) (j : Nat) (h : j ≠ k) :
    upd f k v j = f j := by
  simp [upd, h]

theorem upd_same {β : Type} (f : Nat → β) (k : Nat) (v : β) : upd f k v k = v := by
  simp [upd]

theorem forEach_frame {α : Type} (cd : ClassId) (f : α → IRState → Except Fatal IRState)
    (l : List α)
    (hf : ∀ a, a ∈ l → ∀ s s', f a s = .ok s' → Frame cd s s') :
    ∀ s s', forEach f l s = .ok s' → Frame cd s s' := by
  induction l with
  | nil =>
    intro s s' h
    simp only [forEach, Except.ok.injEq] at h
    subst h
    exact Frame.frame_refl cd s
  | cons a l ih =>
    intro s s' h
    unfold forEach at h
    split at h
    · rename_i s1 h1
      exact (hf a (List.mem_cons_self a l) s s1 h1).frame_trans
        (ih (fun b hb => hf b (List.mem_cons_of_mem a hb)) s1 s' h)
    · exact absurd h (by simp)

theorem toObjFile_frame (rec : ClassId → IRState → Except Fatal IRState) (cd : ClassId)
    (hrec : ∀ c s s', rec c s = .ok s' → ResolveRel s s')
    (v : VarDeclaration) (s s' : IRState)
    (h : VarDeclaration.toObjFile rec cd v s = .ok s') : Frame cd s s' := by
  unfold VarDeclaration.toObjFile at h
  split at h
  · exact absurd h (by simp)
  · rename_i s1 h1
    have hf1 : Frame cd s s1 := by
      split at h1
      · exact (hrec _ _ _ h1).toFrame cd
      · simp only [Except.ok.injEq] at h1
        subst h1
        exact Frame.frame_refl cd s
    split at h
    · exact absurd h (by simp)
    · dsimp only at h
      simp only [Except.ok.injEq] at h
      subst h
      refine hf1.frame_trans (Frame.of_local rfl rfl rfl (fun _ _ => rfl) (fun hc => hc) ?_
        (fun _ _ => rfl) (fun _ _ => rfl))
      intro x hx
      exact upd_ne _ _ _ _ hx

theorem Dsymbol_toObjFile_frame (rec : ClassId → IRState → Except Fatal IRState) (cd : ClassId)
    (hrec : ∀ c s s', rec c s = .ok s' → ResolveRel s s')
    (d : Dsymbol) (s s' : IRState)
    (h : Dsymbol.toObjFile rec cd d s = .ok s') : Frame cd s s' := by
  unfold Dsymbol.toObjFile at h
  split at h
  · exact toObjFile_frame rec cd hrec _ s s' h
  · simp only [Except.ok.injEq] at h
    subst h
    exact Frame.frame_refl cd s

theorem LLVM_AddBaseClassData_frame (P : Program) (rec : ClassId → IRState → Except Fatal IRState)
    (cd : ClassId) (hrec : ∀ c s s', rec c s = .ok s' → ResolveRel s s') :
    ∀ (fuel : Nat) (bcs : List BaseClass) (s s' : IRState),
      LLVM_AddBaseClassData P rec cd fuel bcs s = .ok s' → Frame cd s s' := by
  intro fuel
  induction fuel with
  | zero =>
    intro bcs s s' h
    unfold LLVM_AddBaseClassData at h
    split at h
    · simp only [Except.ok.injEq] at h
      subst h
      exact Frame.frame_refl cd s
    · exact absurd h (by simp)
  | succ fuel ih =>
    intro bcs s s' h
    unfold LLVM_AddBaseClassData at h
    refine forEach_frame cd _ bcs ?_ s s' h
    intro bc _ t t' ht
    split at ht
    · simp only [Except.ok.injEq] at ht
      subst ht
      exact Frame.frame_refl cd t
    · split at ht
      · exact absurd ht (by simp)
      · rename_i t1 h1
        exact (ih _ _ _ h1).frame_trans
          (forEach_frame cd _ _ (fun v _ u u' hu => toObjFile_frame rec cd hrec v u u' hu) t1 t' ht)

theorem addInterface_frame (P : Program) (rec : ClassId → IRState → Except Fatal IRState)
    (cd : ClassId) (hrec : ∀ c s s', rec c s = .ok s' → ResolveRel s s')
    (bc : BaseClass) (s s' : IRState) (h : addInterface P rec cd bc s = .ok s') :
    Frame cd s s' := by
  unfold addInterface at h
  split at h
  · split at h
    · exact absurd h (by simp)
    · dsimp only at h
      have hB := (hrec _ _ _ h).toFrame cd
      refine Frame.frame_trans ?_ hB
      refine Frame.of_local rfl rfl rfl (fun _ _ => rfl) (fun hc => hc) ?_
        (fun _ _ => rfl) (fun _ _ => rfl)
      intro x hx
      exact upd_ne _ _ _ _ hx
  · simp only [Except.ok.injEq] at h
    subst h
    exact Frame.frame_refl cd s

theorem LLVM_AddBaseClassInterfaces_frame (P : Program)
    (rec : ClassId → IRState → Except Fatal IRState)
    (cd : ClassId) (hrec : ∀ c s s', rec c s = .ok s' → ResolveRel s s') :
    ∀ (fuel : Nat) (bcs : List BaseClass) (s s' : IRState),
      LLVM_AddBaseClassInterfaces P rec cd fuel bcs s = .ok s' → Frame cd s s' := by
  intro fuel
  induction fuel with
  | zero =>
    intro bcs s s' h
    unfold LLVM_AddBaseClassInterfaces at h
    split at h
    · simp only [Except.ok.injEq] at h
      subst h
      exact Frame.frame_refl cd s
    · exact absurd h (by simp)
  | succ fuel ih =>
    intro bcs s s' h
    unfold LLVM_AddBaseClassInterfaces at h
    refine forEach_frame cd _ bcs ?_ s s' h
    intro bc _ t t' ht
    split at ht
    · exact absurd ht (by simp)
    · rename_i t1 h1
      exact (addInterface_frame P rec cd hrec bc t t1 h1).frame_trans (ih _ _ _ ht)

theorem publishType_frame (cd : ClassId) (ft : List LLType) (s s' : IRState)
    (h : publishType cd ft s = .ok s') : Frame cd s s' := by
  unfold publishType at h
  split at h
  · exact absurd h (by simp)
  · split at h
    · exact absurd h (by simp)
    · exact absurd h (by simp)
    · dsimp only at h
      simp only [Except.ok.injEq] at h
      subst h
      exact Frame.of_local rfl rfl rfl (fun _ _ => rfl) (fun hc => hc)
        (fun x hx => upd_ne _ _ _ _ hx) (fun x hx => upd_ne _ _ _ _ hx) (fun _ _ => rfl)

theorem publishType_result (cd : ClassId) (ft : List LLType) (s s' : IRState)
    (h : publishType cd ft s = .ok s') :
    ∃ irs, s.irStruct cd = some irs ∧ irs.recty = TypeHolder.placeholder ∧
      s'.irStruct cd = some { irs with recty := TypeHolder.struct ft } ∧
      s'.llvmType cd = TypeHolder.struct ft := by
  unfold publishType at h
  split at h
  · exact absurd h (by simp)
  · rename_i irs hirs
    split at h
    · exact absurd h (by simp)
    · exact absurd h (by simp)
    · rename_i hrec
      dsimp only at h
      simp only [Except.ok.injEq] at h
      subst h
      exact ⟨irs, hirs, hrec, upd_same _ _ _, upd_same _ _ _⟩

theorem finishResolve_frame (P : Program) (cd : ClassId) (s s' : IRState)
    (h : finishResolve P cd s = .ok s') :
    Frame cd s s' ∧ s'.irStruct = s.irStruct ∧ s'.llvmType = s.llvmType := by
  unfold finishResolve at h
  split at h
  · exact absurd h (by simp)
  · split at h
    · exact absurd h (by simp)
    · simp only [Except.ok.injEq] at h
      subst h
      exact ⟨Frame.of_local rfl rfl rfl (fun _ _ => rfl) (fun hc => hc)
        (fun _ _ => rfl) (fun _ _ => rfl) (fun x hx => upd_ne _ _ _ _ hx), rfl, rfl⟩

theorem interfaceSlots_congr (a b : List IrInterface)
    (h : a.map (fun x => x.decl) = b.map (fun x => x.decl)) :
    interfaceSlots a = interfaceSlots b := by
  have e : ∀ l : List IrInterface, interfaceSlots l
      = (l.map (fun x => x.decl)).map (fun d => getPtrToType (LLType.vtblRef d)) := by
    intro l
    simp [interfaceSlots, List.map_map, Function.comp_def]
  rw [e a, e b, h]

/-- What `resolveLayout` establishes (and its footprint). -/
theorem resolveLayout_result (P : Program) (sz : LLType → Nat) (fuel : Nat)
    (rec : ClassId → IRState → Except Fatal IRState) (cd : ClassId)
    (hrec : ∀ c s s', rec c s = .ok s' → ResolveRel s s')
    (ft : List LLType) (s s' : IRState)
    (h : resolveLayout P sz fuel rec cd ft s = .ok s') :
    Frame cd s s' ∧
    ∃ (irs : IrStruct) (r : ScanResult) (data : List LLType) (irs' : IrStruct),
      s.irStruct cd = some irs ∧
      resolveFields sz irs.offsets ft irs.defaultFields irs.hasUnions s.irField = .ok r ∧
      r.fieldtypes = ft ++ data ∧ (irs.offsets = [] → data = []) ∧
      s'.irStruct cd = some irs' ∧
      s'.llvmType cd = TypeHolder.struct (ft ++ data ++ interfaceSlots irs'.interfaces) ∧
      irs'.recty = TypeHolder.struct (ft ++ data ++ interfaceSlots irs'.interfaces) ∧
      irs'.interfaces.map (fun x => x.index)
        = (List.range irs'.interfaces.length).map
            (fun (k : Nat) => ((ft.length + data.length : Nat) : Int) + (k : Int)) := by
  unfold resolveLayout at h
  split at h
  · exact absurd h (by simp)
  · rename_i irs hirs
    split at h
    · exact absurd h (by simp)
    · rename_i r hr
      dsimp only at h
      split at h
      · exact absurd h (by simp)
      · rename_i s2 hs2
        split at h
        · exact absurd h (by simp)
        · rename_i irs2 hirs2
          split at h
          · exact absurd h (by simp)
          · rename_i ifs ft' hifs
            obtain ⟨data, hdata, hempty⟩ := resolveFields_fieldtypes sz _ _ _ _ _ r hr
            obtain ⟨hft', hdecl, hidx⟩ := addInterfaceVtables_spec _ _ _ _ _ _ hifs
            obtain ⟨irs3, hirs3, _, hres, hty⟩ := publishType_result _ _ _ _ h
            have hirs3' : irs3 = { irs2 with interfaces := ifs } := by
              simp only [upd_same, Option.some.injEq] at hirs3
              exact hirs3.symm
            have hslots : interfaceSlots irs2.interfaces = interfaceSlots ifs :=
              interfaceSlots_congr _ _ hdecl.symm
            have hlen : ifs.length = irs2.interfaces.length := by
              have := congrArg List.length hdecl
              simpa using this
            have hftfinal : ft' = ft ++ data ++ interfaceSlots ifs := by
              rw [hft', hdata, ← hslots]
              rfl
            constructor
            · have f2 := LLVM_AddBaseClassInterfaces_frame P rec cd hrec _ _ _ _ hs2
              have f4 := publishType_frame _ _ _ _ h
              have f12 : Frame cd s s2 := by
                refine Frame.frame_trans ?_ f2
                exact Frame.of_local rfl rfl rfl (fun _ _ => rfl) (fun hc => hc)
                  (fun x hx => upd_ne _ _ _ _ hx) (fun _ _ => rfl) (fun _ _ => rfl)
              have f34 : Frame cd s2 s' := by
                refine Frame.frame_trans ?_ f4
                exact Frame.of_local rfl rfl rfl (fun _ _ => rfl) (fun hc => hc)
                  (fun x hx => upd_ne _ _ _ _ hx) (fun _ _ => rfl) (fun _ _ => rfl)
              exact f12.frame_trans f34
            · refine ⟨irs, r, data, { irs3 with recty := TypeHolder.struct ft' }, hirs, hr, hdata,
                hempty, hres, ?_, ?_, ?_⟩
              · rw [hty, hftfinal, hirs3']
              · rw [hftfinal, hirs3']
              · rw [hirs3']
                dsimp only
                rw [hidx, hlen, hdata]
                simp

theorem OwnerKeeps.owner_trans {e : IrStruct → IrStruct} {cd : ClassId} {s s' s'' : IRState}
    (h1 : OwnerKeeps e cd s s') (h2 : OwnerKeeps e cd s' s'') : OwnerKeeps e cd s s'' :=
  ⟨h2.1, h2.2.trans h1.2⟩

theorem OwnerKeeps.of_rel {e : IrStruct → IrStruct} {cd : ClassId} {s s' : IRState}
    (h : ResolveRel s s') (hc : s.llvmResolved cd = true) : OwnerKeeps e cd s s' := by
  obtain ⟨a, b, _, _⟩ := h.keeps cd hc
  exact ⟨a, by rw [b]⟩

theorem forEach_owner {α : Type} (e : IrStruct → IrStruct) (cd : ClassId)
    (f : α → IRState → Except Fatal IRState) (l : List α)
    (hf : ∀ a s s', s.llvmResolved cd = true → f a s = .ok s' → OwnerKeeps e cd s s') :
    ∀ s s', s.llvmResolved cd = true → forEach f l s = .ok s' → OwnerKeeps e cd s s' := by
  induction l with
  | nil =>
    intro s s' hc h
    simp only [forEach, Except.ok.injEq] at h
    subst h
    exact ⟨hc, rfl⟩
  | cons a l ih =>
    intro s s' hc h
    unfold forEach at h
    split at h
    · rename_i s1 h1
      have k1 := hf a s s1 hc h1
      exact k1.owner_trans (ih s1 s' k1.1 h)
    · exact absurd h (by simp)

theorem toObjFile_owner (e : IrStruct → IrStruct)
    (he : ∀ (irs : IrStruct) (offs : List Offset), e { irs with offsets := offs } = e irs)
    (rec : ClassId → IRState → Except Fatal IRState) (cd : ClassId)
    (hrec : ∀ c s s', rec c s = .ok s' → ResolveRel s s')
    (v : VarDeclaration) (s s' : IRState) (hc : s.llvmResolved cd = true)
    (h : VarDeclaration.toObjFile rec cd v s = .ok s') : OwnerKeeps e cd s s' := by
  unfold VarDeclaration.toObjFile at h
  split at h
  · exact absurd h (by simp)
  · rename_i s1 h1
    have k1 : OwnerKeeps e cd s s1 := by
      split at h1
      · exact OwnerKeeps.of_rel (hrec _ _ _ h1) hc
      · simp only [Except.ok.injEq] at h1
        subst h1
        exact ⟨hc, rfl⟩
    split at h
    · exact absurd h (by simp)
    · rename_i irs hirs
      dsimp only at h
      simp only [Except.ok.injEq] at h
      subst h
      refine k1.owner_trans ⟨k1.1, ?_⟩
      simp only [upd_same, hirs, Option.map_some', he]

theorem LLVM_AddBaseClassData_owner (e : IrStruct → IrStruct)
    (he : ∀ (irs : IrStruct) (offs : List Offset), e { irs with offsets := offs } = e irs)
    (P : Program) (rec : ClassId → IRState → Except Fatal IRState)
    (cd : ClassId) (hrec : ∀ c s s', rec c s = .ok s' → ResolveRel s s') :
    ∀ (fuel : Nat) (bcs : List BaseClass) (s s' : IRState), s.llvmResolved cd = true →
      LLVM_AddBaseClassData P rec cd fuel bcs s = .ok s' → OwnerKeeps e cd s s' := by
  intro fuel
  induction fuel with
  | zero =>
    intro bcs s s' hc h
    unfold LLVM_AddBaseClassData at h
    split at h
    · simp only [Except.ok.injEq] at h
      subst h
      exact ⟨hc, rfl⟩
    · exact absurd h (by simp)
  | succ fuel ih =>
    intro bcs s s' hc h
    unfold LLVM_AddBaseClassData at h
    refine forEach_owner e cd _ bcs ?_ s s' hc h
    intro bc t t' htc ht
    split at ht
    · simp only [Except.ok.injEq] at ht
      subst ht
      exact ⟨htc, rfl⟩
    · split at ht
      · exact absurd ht (by simp)
      · rename_i t1 h1
        have k1 := ih _ _ _ htc h1
        exact k1.owner_trans (forEach_owner e cd _ _
          (fun v u u' huc hu => toObjFile_owner e he rec cd hrec v u u' huc hu) t1 t' k1.1 ht)

theorem addInterface_owner (e : IrStruct → IrStruct)
    (he : ∀ (irs : IrStruct) (ifs : List IrInterface), e { irs with interfaces := ifs } = e irs)
    (P : Program) (rec : ClassId → IRState → Except Fatal IRState)
    (cd : ClassId) (hrec : ∀ c s s', rec c s = .ok s' → ResolveRel s s')
    (bc : BaseClass) (s s' : IRState) (hc : s.llvmResolved cd = true)
    (h : addInterface P rec cd bc s = .ok s') : OwnerKeeps e cd s s' := by
  unfold addInterface at h
  split at h
  · split at h
    · exact absurd h (by simp)
    · rename_i irs hirs
      dsimp only at h
      have k2 : OwnerKeeps e cd _ s' := OwnerKeeps.of_rel (hrec _ _ _ h) hc
      refine OwnerKeeps.owner_trans ?_ k2
      refine ⟨hc, ?_⟩
      simp only [upd_same, hirs, Option.map_some', he]
  · simp only [Except.ok.injEq] at h
    subst h
    exact ⟨hc, rfl⟩

theorem LLVM_AddBaseClassInterfaces_owner (e : IrStruct → IrStruct)
    (he : ∀ (irs : IrStruct) (ifs : List IrInterface), e { irs with interfaces := ifs } = e irs)
    (P : Program) (rec : ClassId → IRState → Except Fatal IRState)
    (cd : ClassId) (hrec : ∀ c s s', rec c s = .ok s' → ResolveRel s s') :
    ∀ (fuel : Nat) (bcs : List BaseClass) (s s' : IRState), s.llvmResolved cd = true →
      LLVM_AddBaseClassInterfaces P rec cd fuel bcs s = .ok s' → OwnerKeeps e cd s s' := by
  intro fuel
  induction fuel with
  | zero =>
    intro bcs s s' hc h
    unfold LLVM_AddBaseClassInterfaces at h
    split at h
    · simp only [Except.ok.injEq] at h
      subst h
      exact ⟨hc, rfl⟩
    · exact absurd h (by simp)
  | succ fuel ih =>
    intro bcs s s' hc h
    unfold LLVM_AddBaseClassInterfaces at h
    refine forEach_owner e cd _ bcs ?_ s s' hc h
    intro bc t t' htc ht
    split at ht
    · exact absurd ht (by simp)
    · rename_i t1 h1
      have k1 := addInterface_owner e he P rec cd hrec bc t t1 htc h1
      exact k1.owner_trans (ih _ _ _ k1.1 ht)

theorem scanStep_parallel (sz : LLType → Nat) (st st' : ScanState) (e : Offset)
    (h : scanStep sz st e = .ok st') :
    st'.fieldtypes.length + st.defaultFields.length
      = st.fieldtypes.length + st'.defaultFields.length := by
  unfold scanStep at h
  split at h
  · simp only [Except.ok.injEq] at h; subst h; rfl
  · split at h
    · simp only [Except.ok.injEq] at h; subst h
      by_cases hs : sz e.type > st.prevsize <;> simp [hs]
    · split at h
      · dsimp only at h
        split at h
        · exact absurd h (by simp)
        · split at h
          · exact absurd h (by simp)
          · simp only [Except.ok.injEq] at h; subst h; rfl
      · simp only [Except.ok.injEq] at h; subst h
        by_cases hp : st.fieldpad = 0
        · simp [hp]; omega
        · simp [hp]; omega

theorem scanLoop_parallel (sz : LLType → Nat) :
    ∀ (es : List Offset) (st st' : ScanState), scanLoop sz st es = .ok st' →
      st'.fieldtypes.length + st.defaultFields.length
        = st.fieldtypes.length + st'.defaultFields.length := by
  intro es
  induction es with
  | nil =>
    intro st st' h
    simp only [scanLoop, Except.ok.injEq] at h
    subst h
    rfl
  | cons e es ih =>
    intro st st' h
    unfold scanLoop at h
    split at h
    · rename_i st1 h1
      have a := scanStep_parallel sz st st1 e h1
      have b := ih st1 st' h
      omega
    · exact absurd h (by simp)

theorem resolveFields_parallel (sz : LLType → Nat) (offsets : List Offset) (ft : List LLType)
    (df : List (Option VarId)) (hu : Bool) (irf : VarId → IrField) (r : ScanResult)
    (h : resolveFields sz offsets ft df hu irf = .ok r) :
    r.fieldtypes.length + df.length = ft.length + r.defaultFields.length := by
  unfold resolveFields at h
  split at h
  · simp only [Except.ok.injEq] at h
    subst h
    rfl
  · split at h
    · rename_i st hst
      simp only [Except.ok.injEq] at h
      subst h
      have a := scanLoop_parallel sz offsets _ st hst
      simp only [scanInit] at a
      unfold scanFinish
      by_cases hp : st.fieldpad = 0
      · simp [hp]; omega
      · simp [hp]; omega
    · exact absurd h (by simp)

theorem insertAll_append (m : List IrInterface) (a b : List BaseClass) :
    insertAll m (a ++ b) = insertAll (insertAll m a) b := by
  simp [insertAll, List.foldl_append]

theorem walkVisits_cons (P : Program) (fuel : Nat) (bc : BaseClass) (rest : List BaseClass) :
    walkVisits P (fuel + 1) (bc :: rest)
      = ((if (P.decl bc.base).isInterfaceDeclaration then [bc] else [])
          ++ walkVisits P fuel (P.decl bc.base).baseclasses)
        ++ walkVisits P (fuel + 1) rest := by
  simp [walkVisits]

/-- The walk, seen from the record of the class it works for: it succeeds only
with a sufficient budget and leaves the interface map with the visited entries
inserted in visiting order; nothing else of the record changes. -/
theorem LLVM_AddBaseClassInterfaces_table (P : Program)
    (rec : ClassId → IRState → Except Fatal IRState)
    (cd : ClassId) (hrec : ∀ c s s', rec c s = .ok s' → ResolveRel s s') :
    ∀ (fuel : Nat) (bcs : List BaseClass) (s s' : IRState) (irs : IrStruct),
      s.llvmResolved cd = true → s.irStruct cd = some irs →
      LLVM_AddBaseClassInterfaces P rec cd fuel bcs s = .ok s' →
      walkComplete P fuel bcs ∧ s'.llvmResolved cd = true ∧
      s'.irStruct cd
        = some (irs.withInterfaces (insertAll irs.interfaces (walkVisits P fuel bcs))) := by
  intro fuel
  induction fuel with
  | zero =>
    intro bcs s s' irs hc hirs h
    unfold LLVM_AddBaseClassInterfaces at h
    split at h
    · rename_i he
      simp only [Except.ok.injEq] at h
      subst h
      refine ⟨by simpa [walkComplete] using he, hc, ?_⟩
      rw [hirs]
      simp [walkVisits, insertAll, IrStruct.withInterfaces]
    · exact absurd h (by simp)
  | succ fuel ih =>
    intro bcs
    induction bcs with
    | nil =>
      intro s s' irs hc hirs h
      unfold LLVM_AddBaseClassInterfaces at h
      simp only [forEach, Except.ok.injEq] at h
      subst h
      refine ⟨by simp [walkComplete], hc, ?_⟩
      rw [hirs]
      simp [walkVisits, insertAll, IrStruct.withInterfaces]
    | cons bc rest ihl =>
      intro s s' irs hc hirs h
      unfold LLVM_AddBaseClassInterfaces at h
      unfold forEach at h
      split at h
      · rename_i s2 h2
        split at h2
        · exact absurd h2 (by simp)
        · rename_i s1 h1
          -- the interface test and insertion
          have hA : s1.llvmResolved cd = true ∧ s1.irStruct cd = some (irs.withInterfaces
              (insertAll irs.interfaces
                (if (P.decl bc.base).isInterfaceDeclaration then [bc] else []))) := by
            unfold addInterface at h1
            split at h1
            · rename_i hi
              rw [hirs] at h1
              dsimp only at h1
              obtain ⟨k1, k2, _, _⟩ := (hrec _ _ _ h1).keeps cd hc
              refine ⟨k1, ?_⟩
              rw [k2]
              simp only [upd_same, hi, if_true, insertAll, List.foldl_cons, List.foldl_nil,
                IrStruct.withInterfaces]
            · rename_i hi
              simp only [Except.ok.injEq] at h1
              subst h1
              refine ⟨hc, ?_⟩
              rw [hirs]
              simp [hi, insertAll, IrStruct.withInterfaces]
          obtain ⟨hA1, hA2⟩ := hA
          obtain ⟨b1, b2, b3⟩ := ih _ _ _ _ hA1 hA2 h2
          have hrest : LLVM_AddBaseClassInterfaces P rec cd (fuel + 1) rest s2 = .ok s' := by
            unfold LLVM_AddBaseClassInterfaces
            exact h
          obtain ⟨c1, c2, c3⟩ := ihl _ _ _ b2 b3 hrest
          refine ⟨?_, c2, ?_⟩
          · intro x hx
            rcases List.mem_cons.mp hx with hx | hx
            · rw [hx]; exact b1
            · exact c1 x hx
          · rw [c3, walkVisits_cons, insertAll_append, insertAll_append]
            rfl
      · exact absurd h (by simp)

theorem resolveLayout_owner (P : Program) (sz : LLType → Nat) (fuel : Nat)
    (rec : ClassId → IRState → Except Fatal IRState) (cd : ClassId)
    (hrec : ∀ c s s', rec c s = .ok s' → ResolveRel s s')
    (ft : List LLType) (s s' : IRState) (hc : s.llvmResolved cd = true)
    (h : resolveLayout P sz fuel rec cd ft s = .ok s')
    (irs : IrStruct) (hirs : s.irStruct cd = some irs) (r : ScanResult)
    (hr : resolveFields sz irs.offsets ft irs.defaultFields irs.hasUnions s.irField = .ok r) :
    s'.llvmResolved cd = true ∧
    ∃ irs', s'.irStruct cd = some irs' ∧ irs'.offsets = irs.offsets ∧
      irs'.defaultFields = r.defaultFields ∧ irs'.hasUnions = r.hasUnions ∧
      walkComplete P fuel (P.decl cd).baseclasses ∧
      irs'.interfaces.map (fun x => x.decl)
        = (insertAll irs.interfaces (walkVisits P fuel (P.decl cd).baseclasses)).map
            (fun x => x.decl) := by
  unfold resolveLayout at h
  rw [hirs] at h
  dsimp only at h
  rw [hr] at h
  dsimp only at h
  split at h
  · exact absurd h (by simp)
  · rename_i s2 hs2
    split at h
    · exact absurd h (by simp)
    · rename_i irs2 hirs2
      split at h
      · exact absurd h (by simp)
      · rename_i ifs ft' hifs
        obtain ⟨k0, k1, k2⟩ := LLVM_AddBaseClassInterfaces_table P rec cd hrec _ _ _ _ _
          (by exact hc) (upd_same _ _ _) hs2
        rw [hirs2] at k2
        have k2' := Option.some.inj k2
        obtain ⟨hft', hdecl, _⟩ := addInterfaceVtables_spec _ _ _ _ _ _ hifs
        obtain ⟨irs3, hirs3, _, hres, _⟩ := publishType_result _ _ _ _ h
        simp only [upd_same, Option.some.injEq] at hirs3
        have f4 := publishType_frame _ _ _ _ h
        refine ⟨f4.owner k1, _, hres, ?_, ?_, ?_, k0, ?_⟩
        · rw [← hirs3, k2']
          rfl
        · rw [← hirs3, k2']
          rfl
        · rw [← hirs3, k2']
          rfl
        · rw [← hirs3]
          dsimp only
          rw [hdecl, k2']
          rfl

theorem beginResolve_frame (cd : ClassId) (s : IRState) :
    Frame cd s (beginResolve cd s) ∧ (beginResolve cd s).llvmResolved cd = true ∧
    (s.irStruct cd = none → (beginResolve cd s).irStruct cd = some IrStruct.new) := by
  unfold beginResolve
  dsimp only
  split
  · refine ⟨Frame.of_local rfl rfl rfl (fun x hx => upd_ne _ _ _ _ hx) (fun _ => upd_same _ _ _)
      (fun x hx => upd_ne _ _ _ _ hx) (fun _ _ => rfl) (fun _ _ => rfl), upd_same _ _ _, ?_⟩
    intro _
    exact upd_same _ _ _
  · rename_i hn
    refine ⟨Frame.of_local rfl rfl rfl (fun x hx => upd_ne _ _ _ _ hx) (fun _ => upd_same _ _ _)
      (fun _ _ => rfl) (fun _ _ => rfl) (fun _ _ => rfl), upd_same _ _ _, ?_⟩
    intro h0
    rw [h0] at hn
    exact absurd rfl hn

theorem enterScope_frame (cd : ClassId) (s : IRState) :
    Frame cd s (enterScope cd s) ∧ (enterScope cd s).irStruct = s.irStruct ∧
    (enterScope cd s).llvmResolved = s.llvmResolved :=
  ⟨Frame.of_local rfl rfl rfl (fun _ _ => rfl) (fun hc => hc) (fun _ _ => rfl) (fun _ _ => rfl)
    (fun _ hx => upd_ne _ _ _ _ hx), rfl, rfl⟩

/-- What a run of the body of `DtoResolveClass` on a not yet resolved class
establishes. -/
theorem resolveBody_result (P : Program) (sz : LLType → Nat) (fuel : Nat)
    (rec : ClassId → IRState → Except Fatal IRState) (cd : ClassId)
    (hrec : ∀ c s s', rec c s = .ok s' → ResolveRel s s')
    (s s' : IRState) (hnew : s.llvmResolved cd = false)
    (h : resolveBody P sz fuel rec cd s = .ok s') :
    ResolveRel s s' ∧ s'.llvmResolved cd = true ∧
    ∃ (irs6 : IrStruct) (irf : VarId → IrField) (r : ScanResult) (data : List LLType)
      (irs' : IrStruct),
      resolveFields sz irs6.offsets (classHeader cd) irs6.defaultFields irs6.hasUnions irf
        = .ok r ∧
      r.fieldtypes = classHeader cd ++ data ∧ (irs6.offsets = [] → data = []) ∧
      (s.irStruct cd = none → irs6.defaultFields = [] ∧ irs6.hasUnions = false) ∧
      s'.irStruct cd = some irs' ∧ irs'.offsets = irs6.offsets ∧
      irs'.defaultFields = r.defaultFields ∧ irs'.hasUnions = r.hasUnions ∧
      s'.llvmType cd = TypeHolder.struct (classHeader cd ++ data ++ interfaceSlots irs'.interfaces) ∧
      irs'.recty = TypeHolder.struct (classHeader cd ++ data ++ interfaceSlots irs'.interfaces) ∧
      irs'.interfaces.map (fun x => x.index)
        = (List.range irs'.interfaces.length).map
            (fun (k : Nat) => (((classHeader cd).length + data.length : Nat) : Int) + (k : Int)) ∧
      walkComplete P fuel (P.decl cd).baseclasses ∧
      (s.irStruct cd = none →
        irs'.interfaces.map (fun x => x.decl)
          = (insertAll [] (walkVisits P fuel (P.decl cd).baseclasses)).map (fun x => x.decl)) := by
  unfold resolveBody at h
  rw [if_neg (by rw [hnew]; simp)] at h
  obtain ⟨fb, hb1, hb2⟩ := beginResolve_frame cd s
  split at h
  · exact absurd h (by simp)
  · rename_i s3 h3
    -- the base class
    have f3 : Frame cd (beginResolve cd s) s3 ∧ OwnerKeeps eraseOffsets cd (beginResolve cd s) s3 := by
      split at h3
      · exact ⟨(hrec _ _ _ h3).toFrame cd, OwnerKeeps.of_rel (hrec _ _ _ h3) hb1⟩
      · simp only [Except.ok.injEq] at h3
        subst h3
        exact ⟨Frame.frame_refl cd _, hb1, rfl⟩
    obtain ⟨f3, o3⟩ := f3
    obtain ⟨fe, he1, he2⟩ := enterScope_frame cd s3
    have o4 : OwnerKeeps eraseOffsets cd s3 (enterScope cd s3) := ⟨by rw [he2]; exact o3.1, by rw [he1]⟩
    split at h
    · exact absurd h (by simp)
    · rename_i s5 h5
      have f5 := LLVM_AddBaseClassData_frame P rec cd hrec _ _ _ _ h5
      have o5 := LLVM_AddBaseClassData_owner eraseOffsets (fun _ _ => rfl) P rec cd hrec
        _ _ _ _ o4.1 h5
      split at h
      · exact absurd h (by simp)
      · rename_i s6 h6
        have f6 := forEach_frame cd _ _
          (fun d _ u u' hu => Dsymbol_toObjFile_frame rec cd hrec d u u' hu) _ _ h6
        have o6 : OwnerKeeps eraseOffsets cd s5 s6 := by
          refine forEach_owner eraseOffsets cd _ _ ?_ _ _ o5.1 h6
          intro d u u' huc hu
          unfold Dsymbol.toObjFile at hu
          split at hu
          · exact toObjFile_owner eraseOffsets (fun _ _ => rfl) rec cd hrec _ u u' huc hu
          · simp only [Except.ok.injEq] at hu
            subst hu
            exact ⟨huc, rfl⟩
        have o06 := ((o3.owner_trans o4).owner_trans o5).owner_trans o6
        split at h
        · exact absurd h (by simp)
        · rename_i s7 h7
          obtain ⟨f7, irs6, r, data, irs', hirs6, hr, hdata, hempty, hirs', hty, hrecty, hidx⟩ :=
            resolveLayout_result P sz fuel rec cd hrec _ _ _ h7
          obtain ⟨hres7, irs'', hirs'', ho, hd, hu, hwc, htab⟩ :=
            resolveLayout_owner P sz fuel rec cd hrec _ _ _ o06.1 h7 irs6 hirs6 r hr
          rw [hirs'] at hirs''
          obtain rfl := Option.some.inj hirs''
          obtain ⟨f8, hi8, ht8⟩ := finishResolve_frame P cd _ _ h
          have fall : Frame cd s s' :=
            ((((fb.frame_trans f3).frame_trans fe).frame_trans f5).frame_trans f6).frame_trans (f7.frame_trans f8)
          have hres : s'.llvmResolved cd = true := f8.owner hres7
          have hnewrec : s.irStruct cd = none → eraseOffsets irs6 = eraseOffsets IrStruct.new := by
            intro h0
            have e := o06.2
            rw [hirs6, hb2 h0] at e
            simpa only [Option.map_some', Option.some.injEq] using e
          refine ⟨fall.toResolveRel hnew hres, hres, irs6, s6.irField, r, data, irs', hr, hdata,
            hempty, ?_, ?_, ho, hd, hu, ?_, hrecty, hidx, hwc, ?_⟩
          · intro h0
            have e := hnewrec h0
            have e1 := congrArg IrStruct.defaultFields e
            have e2 := congrArg IrStruct.hasUnions e
            exact ⟨by simpa [IrStruct.new, eraseOffsets] using e1,
              by simpa [IrStruct.new, eraseOffsets] using e2⟩
          · rw [hi8]; exact hirs'
          · rw [ht8]; exact hty
          · intro h0
            have e3 := congrArg IrStruct.interfaces (hnewrec h0)
            have e4 : irs6.interfaces = [] := by simpa [IrStruct.new, eraseOffsets] using e3
            rw [htab, e4]

/-- The footprint of `DtoResolveClass`. -/
theorem DtoResolveClass_rel (P : Program) (sz : LLType → Nat) :
    ∀ (fuel : Nat) (cd : ClassId) (s s' : IRState),
      DtoResolveClass P sz fuel cd s = .ok s' → ResolveRel s s' := by
  intro fuel
  induction fuel with
  | zero =>
    intro cd s s' h
    unfold DtoResolveClass at h
    split at h
    · simp only [Except.ok.injEq] at h
      subst h
      exact ResolveRel.rel_refl s
    · exact absurd h (by simp)
  | succ fuel ih =>
    intro cd s s' h
    unfold DtoResolveClass at h
    cases hnew : s.llvmResolved cd with
    | true =>
      unfold resolveBody at h
      rw [if_pos hnew] at h
      simp only [Except.ok.injEq] at h
      subst h
      exact ResolveRel.rel_refl s
    | false => exact (resolveBody_result P sz fuel _ cd ih s s' hnew h).1

theorem DtoResolveClass_resolved (P : Program) (sz : LLType → Nat) (fuel : Nat) (cd : ClassId)
    (s s' : IRState) (h : DtoResolveClass P sz fuel cd s = .ok s') :
    s'.llvmResolved cd = true := by
  cases fuel with
  | zero =>
    unfold DtoResolveClass at h
    split at h
    · rename_i hc
      simp only [Except.ok.injEq] at h
      subst h
      exact hc
    · exact absurd h (by simp)
  | succ fuel =>
    unfold DtoResolveClass at h
    cases hnew : s.llvmResolved cd with
    | true =>
      unfold resolveBody at h
      rw [if_pos hnew] at h
      simp only [Except.ok.injEq] at h
      subst h
      exact hnew
    | false =>
      exact (resolveBody_result P sz fuel _ cd (DtoResolveClass_rel P sz fuel) s s' hnew h).2.1

theorem sample_resolve_ok :
    DtoResolveClass sampleProgram sampleSize 5 1 initialState
      = .ok (resultState (DtoResolveClass sampleProgram sampleSize 5 1 initialState)) := by
  rfl

/-! ## The composite type -/

/-- C1: for a class resolved by `DtoResolveClass`, the published composite type is
the two header pointers, then the `d` data entries emitted by the layout scan over
the class's offset map, then one dispatch-table pointer per interface-table entry
in table order; the entries carry the indices `2+d, ..., 2+d+n-1`, the type has
`2+d+n` elements, and without fields and interfaces it is the bare header. -/
theorem C1_composite_layout (P : Program) (sz : LLType → Nat) (fuel : Nat) (cd : ClassId)
    (s s' : IRState) (hnew : s.llvmResolved cd = false) (hfresh : s.irStruct cd = none)
    (h : DtoResolveClass P sz fuel cd s = .ok s') :
    ∃ (irs : IrStruct) (irf : VarId → IrField) (r : ScanResult) (data : List LLType),
      s'.irStruct cd = some irs ∧
      resolveFields sz irs.offsets
        [getPtrToType (LLType.vtblRef cd), getPtrToType LLType.int8] [] false irf = .ok r ∧
      r.fieldtypes = [getPtrToType (LLType.vtblRef cd), getPtrToType LLType.int8] ++ data ∧
      data.length = irs.defaultFields.length ∧
      s'.llvmType cd = TypeHolder.struct
        ([getPtrToType (LLType.vtblRef cd), getPtrToType LLType.int8] ++ data
          ++ irs.interfaces.map (fun x => getPtrToType (LLType.vtblRef x.decl))) ∧
      irs.interfaces.map (fun x => x.index)
        = (List.range irs.interfaces.length).map (fun (k : Nat) => ((2 + data.length + k : Nat) : Int)) ∧
      ([getPtrToType (LLType.vtblRef cd), getPtrToType LLType.int8] ++ data
          ++ irs.interfaces.map (fun x => getPtrToType (LLType.vtblRef x.decl))).length
        = 2 + data.length + irs.interfaces.length ∧
      (irs.offsets = [] → irs.interfaces = [] →
        s'.llvmType cd
          = TypeHolder.struct [getPtrToType (LLType.vtblRef cd), getPtrToType LLType.int8]) := by
  cases fuel with
  | zero => simp [DtoResolveClass, hnew] at h
  | succ fuel =>
    unfold DtoResolveClass at h
    obtain ⟨_, _, irs6, irf, r, data, irs', hr, hdata, hempty, hinit, hirs', ho, hd, _, hty, _, hidx,
        _, _⟩ :=
      resolveBody_result P sz fuel _ cd (DtoResolveClass_rel P sz fuel) s s' hnew h
    obtain ⟨hdf, hhu⟩ := hinit hfresh
    rw [hdf, hhu, ← ho] at hr
    have hpar := resolveFields_parallel sz _ _ _ _ _ r hr
    rw [hdata] at hpar
    simp only [classHeader, List.length_append, List.length_cons, List.length_nil] at hpar
    refine ⟨irs', irf, r, data, hirs', hr, hdata, ?_, hty, ?_, ?_, ?_⟩
    · rw [hd]; omega
    · rw [hidx]
      apply List.map_congr_left
      intro k _
      simp only [classHeader, List.length_cons, List.length_nil]
      push_cast
      ring
    · simp
      omega
    · intro h0 h1
      rw [hty, h1, hempty (ho ▸ h0)]
      rfl

/-- Witness for C1: the sample class (a self-referential field, a two-member union
and two interfaces) resolves from the initial state. -/
theorem C1_composite_layout_witness :
    initialState.llvmResolved 1 = false ∧ initialState.irStruct 1 = none ∧
    ∃ (irs : IrStruct) (irf : VarId → IrField) (r : ScanResult) (data : List LLType),
      (resultState (DtoResolveClass sampleProgram sampleSize 5 1 initialState)).irStruct 1
        = some irs ∧
      resolveFields sampleSize irs.offsets
        [getPtrToType (LLType.vtblRef 1), getPtrToType LLType.int8] [] false irf = .ok r ∧
      r.fieldtypes = [getPtrToType (LLType.vtblRef 1), getPtrToType LLType.int8] ++ data ∧
      data.length = irs.defaultFields.length ∧
      (resultState (DtoResolveClass sampleProgram sampleSize 5 1 initialState)).llvmType 1
        = TypeHolder.struct
          ([getPtrToType (LLType.vtblRef 1), getPtrToType LLType.int8] ++ data
            ++ irs.interfaces.map (fun x => getPtrToType (LLType.vtblRef x.decl))) ∧
      irs.interfaces.map (fun x => x.index)
        = (List.range irs.interfaces.length).map (fun (k : Nat) => ((2 + data.length + k : Nat) : Int)) ∧
      ([getPtrToType (LLType.vtblRef 1), getPtrToType LLType.int8] ++ data
          ++ irs.interfaces.map (fun x => getPtrToType (LLType.vtblRef x.decl))).length
        = 2 + data.length + irs.interfaces.length ∧
      (irs.offsets = [] → irs.interfaces = [] →
        (resultState (DtoResolveClass sampleProgram sampleSize 5 1 initialState)).llvmType 1
          = TypeHolder.struct [getPtrToType (LLType.vtblRef 1), getPtrToType LLType.int8]) :=
  ⟨rfl, rfl, C1_composite_layout sampleProgram sampleSize 5 1 initialState _ rfl rfl
    sample_resolve_ok⟩

/-- C2: for every class resolved by `DtoResolveClass`, element 0 of the composite
type is the pointer to the class's dispatch-table type and element 1 is the
monitor byte pointer; the default image built by `DtoConstInitClass` starts with
the matching two constants. -/
theorem C2_header_invariant (P : Program) (sz : LLType → Nat) (fuel : Nat) (cd : ClassId)
    (s s' : IRState) (hnew : s.llvmResolved cd = false)
    (h : DtoResolveClass P sz fuel cd s = .ok s') :
    (∃ rest, s'.llvmType cd = TypeHolder.struct
        (getPtrToType (LLType.vtblRef cd) :: getPtrToType LLType.int8 :: rest)) ∧
    (∀ (t : IRState) (irs : IrStruct) (fieldinits : List Const),
        buildFieldInits P cd t irs = .ok fieldinits →
        ∃ c0 rest, fieldinits = c0 :: Const.nullValue (getPtrToType LLType.int8) :: rest ∧
          (c0 = Const.nullValue (getPtrToType (LLType.vtblRef cd)) ∨
            ∃ g, irs.vtbl = some g ∧ c0 = Const.global g)) := by
  constructor
  · cases fuel with
    | zero => simp [DtoResolveClass, hnew] at h
    | succ fuel =>
      unfold DtoResolveClass at h
      obtain ⟨_, _, irs6, irf, r, data, irs', _, _, _, _, _, _, _, _, hty, _, _, _, _⟩ :=
        resolveBody_result P sz fuel _ cd (DtoResolveClass_rel P sz fuel) s s' hnew h
      exact ⟨data ++ interfaceSlots irs'.interfaces, by rw [hty]; simp [classHeader]⟩
  · intro t irs fieldinits hb
    unfold buildFieldInits at hb
    dsimp only at hb
    split at hb
    · exact absurd hb (by simp)
    · rename_i c0 hc0
      split at hb
      · exact absurd hb (by simp)
      · rename_i ds _
        split at hb
        · exact absurd hb (by simp)
        · rename_i is _
          simp only [Except.ok.injEq] at hb
          subst hb
          refine ⟨c0, ds ++ is, by simp, ?_⟩
          split at hc0
          · simp only [Except.ok.injEq] at hc0
            exact Or.inl hc0.symm
          · split at hc0
            · exact absurd hc0 (by simp)
            · rename_i g hg
              simp only [Except.ok.injEq] at hc0
              exact Or.inr ⟨g, hg, hc0.symm⟩

/-- Witness for C2: interface 3 of the sample program (no fields, no interfaces of
its own, not concrete) resolves from the initial state. -/
theorem C2_header_invariant_witness :
    initialState.llvmResolved 3 = false ∧
    (∃ rest, (resultState (DtoResolveClass sampleProgram sampleSize 1 3 initialState)).llvmType 3
      = TypeHolder.struct
        (getPtrToType (LLType.vtblRef 3) :: getPtrToType LLType.int8 :: rest)) :=
  ⟨rfl, (C2_header_invariant sampleProgram sampleSize 1 3 initialState _ rfl rfl).1⟩

theorem u32_of_le (n : Nat) (h : n ≤ UINT_MAX) : u32 n = n := by
  unfold u32
  unfold UINT_MAX at h
  omega

theorem u32_le (n : Nat) : u32 n ≤ n := by
  unfold u32
  exact Nat.mod_le _ _

theorem scanLoop_append (sz : LLType → Nat) :
    ∀ (a b : List Offset) (st st' : ScanState),
      scanLoop sz st (a ++ b) = .ok st' ↔
        ∃ st1, scanLoop sz st a = .ok st1 ∧ scanLoop sz st1 b = .ok st' := by
  intro a
  induction a with
  | nil =>
    intro b st st'
    simp [scanLoop]
  | cons x a ih =>
    intro b st st'
    simp only [List.cons_append, scanLoop]
    cases hx : scanStep sz st x with
    | error err => simp
    | ok st1 => simpa using ih b st1 st'

/-- One step of the scan, seen from the entry it processes: the entry ends inside
the slot it is assigned to, the slot is not the sentinel, and nothing but the
entry's own record is written. -/
theorem scanStep_contains (sz : LLType → Nat) (st st' : ScanState) (e : Offset)
    (hr : InRange sz e) (h : scanStep sz st e = .ok st') :
    e.first + sz e.type ≤ st'.lastoffset + st'.prevsize ∧ st'.lastoffset ≠ UINT_MAX := by
  obtain ⟨h1, h2⟩ := hr
  unfold scanStep at h
  split at h
  · simp only [Except.ok.injEq] at h; subst h
    simp only [u32_of_le _ h2]
    exact ⟨le_refl _, Nat.ne_of_lt h1⟩
  · rename_i hne
    split at h
    · rename_i heq
      simp only [Except.ok.injEq] at h; subst h
      by_cases hs : sz e.type > st.prevsize
      · simp only [hs, if_true, u32_of_le _ h2, heq]
        exact ⟨le_refl _, Nat.ne_of_lt h1⟩
      · simp only [hs, if_false, heq]
        exact ⟨by omega, Nat.ne_of_lt h1⟩
    · split at h
      · dsimp only at h
        split at h
        · exact absurd h (by simp)
        · rename_i hle
          split at h
          · exact absurd h (by simp)
          · simp only [Except.ok.injEq] at h; subst h
            simp only [not_not] at hle
            exact ⟨le_trans hle (u32_le _), hne⟩
      · simp only [Except.ok.injEq] at h; subst h
        simp only [u32_of_le _ h2]
        exact ⟨le_refl _, Nat.ne_of_lt h1⟩

/-- One step of the scan, seen from the open slot: the slot index never decreases,
and while it stays the same the slot keeps its offset and its size only grows. -/
theorem scanStep_mono (sz : LLType → Nat) (st st' : ScanState) (x : Offset)
    (hl : st.lastoffset ≠ UINT_MAX) (hr : InRange sz x) (h : scanStep sz st x = .ok st') :
    st.idx ≤ st'.idx ∧ st'.lastoffset ≠ UINT_MAX ∧
    (st'.idx = st.idx → st'.lastoffset = st.lastoffset ∧ st.prevsize ≤ st'.prevsize) := by
  obtain ⟨h1, h2⟩ := hr
  unfold scanStep at h
  rw [if_neg hl] at h
  split at h
  · simp only [Except.ok.injEq] at h; subst h
    by_cases hs : sz x.type > st.prevsize
    · rw [if_pos hs, u32_of_le _ h2]
      exact ⟨le_refl _, hl, fun _ => ⟨rfl, Nat.le_of_lt hs⟩⟩
    · rw [if_neg hs]
      exact ⟨le_refl _, hl, fun _ => ⟨rfl, le_refl _⟩⟩
  · split at h
    · dsimp only at h
      split at h
      · exact absurd h (by simp)
      · split at h
        · exact absurd h (by simp)
        · simp only [Except.ok.injEq] at h; subst h
          exact ⟨le_refl _, hl, fun _ => ⟨rfl, le_refl _⟩⟩
    · simp only [Except.ok.injEq] at h; subst h
      dsimp only
      refine ⟨?_, Nat.ne_of_lt h1, ?_⟩
      · split <;> omega
      · intro hc
        exfalso
        split at hc <;> omega

theorem scanLoop_mono (sz : LLType → Nat) :
    ∀ (xs : List Offset) (st st' : ScanState), st.lastoffset ≠ UINT_MAX →
      (∀ x ∈ xs, InRange sz x) → scanLoop sz st xs = .ok st' →
      st.idx ≤ st'.idx ∧
      (st'.idx = st.idx → st'.lastoffset = st.lastoffset ∧ st.prevsize ≤ st'.prevsize) := by
  intro xs
  induction xs with
  | nil =>
    intro st st' _ _ h
    simp only [scanLoop, Except.ok.injEq] at h
    subst h
    exact ⟨le_refl _, fun _ => ⟨rfl, le_refl _⟩⟩
  | cons x xs ih =>
    intro st st' hl hr h
    unfold scanLoop at h
    split at h
    · rename_i st1 h1
      obtain ⟨a1, a2, a3⟩ := scanStep_mono sz st st1 x hl (hr x (List.mem_cons_self x xs)) h1
      obtain ⟨b1, b2⟩ := ih st1 st' a2 (fun y hy => hr y (List.mem_cons_of_mem x hy)) h
      refine ⟨le_trans a1 b1, ?_⟩
      intro hc
      have e1 : st1.idx = st.idx := by omega
      have e2 : st'.idx = st1.idx := by omega
      obtain ⟨c1, c2⟩ := a3 e1
      obtain ⟨d1, d2⟩ := b2 e2
      exact ⟨d1.trans c1, le_trans c2 d2⟩
    · exact absurd h (by simp)

/-- C3: whenever the layout scan gets through a prefix of the offset map without
a fatal assertion, an entry `e` of that prefix ends inside the slot it was
assigned to, `fieldOffset + fieldSize <= slotOffset + slotSize`, for the slot's
offset and (widened) size at any later moment at which that slot is still the
open one, in particular when it is committed. -/
theorem C3_union_slot_containment (sz : LLType → Nat) (st0 : ScanState)
    (pre : List Offset) (e : Offset) (mid : List Offset) (st_e st_c : ScanState)
    (hrange : ∀ x ∈ pre ++ e :: mid, InRange sz x)
    (he : scanLoop sz st0 (pre ++ [e]) = .ok st_e)
    (hc : scanLoop sz st0 (pre ++ e :: mid) = .ok st_c)
    (hsame : st_c.idx = st_e.idx) :
    e.first + sz e.type ≤ st_c.lastoffset + st_c.prevsize := by
  obtain ⟨st1, hpre, hstep⟩ := (scanLoop_append sz pre [e] st0 st_e).mp he
  obtain ⟨st1', hpre', hrest⟩ := (scanLoop_append sz pre (e :: mid) st0 st_c).mp hc
  rw [hpre] at hpre'
  obtain rfl := Except.ok.inj hpre'
  unfold scanLoop at hstep hrest
  split at hstep
  · rename_i st2 h2
    simp only [scanLoop, Except.ok.injEq] at hstep
    subst hstep
    rw [h2] at hrest
    dsimp only at hrest
    have hre : InRange sz e := hrange e (by simp)
    obtain ⟨c1, c2⟩ := scanStep_contains sz st1 st2 e hre h2
    obtain ⟨_, m2⟩ := scanLoop_mono sz mid st2 st_c c2
      (fun x hx => hrange x (by simp [hx])) hrest
    obtain ⟨d1, d2⟩ := m2 hsame
    rw [d1]
    omega
  · exact absurd hstep (by simp)

/-- Witness for C3: a 4-byte and an 8-byte field share offset 12; the first one
lies inside the widened slot. -/
theorem C3_union_slot_containment_witness :
    (∀ x ∈ ([] : List Offset) ++ { first := 12, var := 8, type := LLType.prim 4 }
        :: [{ first := 12, var := 9, type := LLType.prim 8 }], InRange sampleSize x) ∧
    12 + sampleSize (LLType.prim 4)
      ≤ (scanState (scanInit [] [] false initialState.irField)
          (scanLoop sampleSize (scanInit [] [] false initialState.irField)
            ([] ++ { first := 12, var := 8, type := LLType.prim 4 }
              :: [{ first := 12, var := 9, type := LLType.prim 8 }]))).lastoffset
        + (scanState (scanInit [] [] false initialState.irField)
          (scanLoop sampleSize (scanInit [] [] false initialState.irField)
            ([] ++ { first := 12, var := 8, type := LLType.prim 4 }
              :: [{ first := 12, var := 9, type := LLType.prim 8 }]))).prevsize :=
  ⟨by decide,
   C3_union_slot_containment sampleSize (scanInit [] [] false initialState.irField) []
    { first := 12, var := 8, type := LLType.prim 4 }
    [{ first := 12, var := 9, type := LLType.prim 8 }] _ _ (by decide) rfl rfl rfl⟩

theorem setIndex_index_self (f : VarId → IrField) (v : VarId) (i : Int) :
    (setIndex f v i v).index = i := by
  simp [setIndex]

theorem setIndex_index_of (f : VarId → IrField) (v w : VarId) (i : Int)
    (h : (f w).index = i) : (setIndex f v i w).index = i := by
  unfold setIndex
  split
  · rfl
  · exact h

theorem setIndexOffset_index (f : VarId → IrField) (v w : VarId) (k : Nat) :
    (setIndexOffset f v k w).index = (f w).index := by
  unfold setIndexOffset
  split <;> rfl

theorem scanStep_start (sz : LLType → Nat) (st : ScanState) (g0 : Offset)
    (hstart : StartsSlot st g0) (hr : InRange sz g0) :
    ∃ st1, scanStep sz st g0 = .ok st1 ∧ st1.lastoffset = g0.first ∧ st1.fieldtype = g0.type ∧
      st1.prevsize = sz g0.type ∧ st1.fieldpad = 0 ∧ (st1.irField g0.var).index = st1.idx := by
  obtain ⟨_, h2⟩ := hr
  unfold scanStep
  rcases hstart with ⟨a, b⟩ | ⟨a, b, c⟩
  · rw [if_pos a]
    exact ⟨_, rfl, rfl, rfl, u32_of_le _ h2, b, setIndex_index_self _ _ _⟩
  · rw [if_neg a, if_neg b, if_neg c]
    exact ⟨_, rfl, rfl, rfl, u32_of_le _ h2, rfl, setIndex_index_self _ _ _⟩

theorem scanLoop_colliding (sz : LLType → Nat) (o : Nat) (ho : o ≠ UINT_MAX) :
    ∀ (rest : List Offset) (st : ScanState), st.lastoffset = o →
      (∀ x ∈ rest, x.first = o ∧ sz x.type ≤ UINT_MAX) →
      ∃ st', scanLoop sz st rest = .ok st' ∧ st'.lastoffset = o ∧
        st'.fieldtype = st.fieldtype ∧
        st'.prevsize = rest.foldl (fun m x => max m (sz x.type)) st.prevsize ∧
        st.prevsize ≤ st'.prevsize ∧
        st'.fieldpad + st.prevsize = st.fieldpad + st'.prevsize ∧
        st'.idx = st.idx ∧ st'.fieldtypes = st.fieldtypes ∧
        (∀ v, (st.irField v).index = st.idx ∨ v ∈ rest.map (fun x => x.var) →
          (st'.irField v).index = st.idx) ∧
        (rest ≠ [] → st'.hasUnions = true) ∧ (st.hasUnions = true → st'.hasUnions = true) := by
  intro rest
  induction rest with
  | nil =>
    intro st hl _
    refine ⟨st, rfl, hl, rfl, rfl, le_refl _, rfl, rfl, rfl, ?_, fun h => absurd rfl h, fun h => h⟩
    intro v hv
    rcases hv with hv | hv
    · exact hv
    · simp at hv
  | cons x rest ih =>
    intro st hl hx
    obtain ⟨hx1, hx2⟩ := hx x (List.mem_cons_self x rest)
    have hstep : ∃ st1, scanStep sz st x = .ok st1 ∧ st1.lastoffset = o ∧
        st1.fieldtype = st.fieldtype ∧ st1.prevsize = max st.prevsize (sz x.type) ∧
        st1.fieldpad + st.prevsize = st.fieldpad + st1.prevsize ∧ st1.idx = st.idx ∧
        st1.fieldtypes = st.fieldtypes ∧ st1.hasUnions = true ∧
        st1.irField = setIndex st.irField x.var st.idx := by
      unfold scanStep
      rw [if_neg (by rw [hl]; exact ho), if_pos (by rw [hl, hx1])]
      by_cases hs : sz x.type > st.prevsize
      · simp only [hs, if_true, u32_of_le _ hx2]
        refine ⟨_, rfl, hl, rfl, ?_, ?_, rfl, rfl, rfl, rfl⟩
        · exact (max_eq_right (Nat.le_of_lt hs)).symm
        · dsimp only; omega
      · simp only [hs, if_false]
        refine ⟨_, rfl, hl, rfl, ?_, rfl, rfl, rfl, rfl, rfl⟩
        exact (max_eq_left (Nat.le_of_not_lt hs)).symm
    obtain ⟨st1, h1, a1, a2, a3, a4, a5, a6, a7, a8⟩ := hstep
    obtain ⟨st', b0, b1, b2, b3, b4, b5, b6, b7, b8, _, b10⟩ :=
      ih st1 a1 (fun y hy => hx y (List.mem_cons_of_mem x hy))
    refine ⟨st', ?_, b1, b2.trans a2, ?_, ?_, ?_, b6.trans a5, b7.trans a6, ?_,
      fun _ => b10 a7, fun _ => b10 a7⟩
    · unfold scanLoop
      rw [h1]
      exact b0
    · rw [b3, a3]
      rfl
    · rw [a3] at b4
      exact le_trans (le_max_left _ _) b4
    · omega
    · intro v hv
      rw [← a5]
      apply b8
      rcases hv with hv | hv
      · left
        rw [a8, a5]
        exact setIndex_index_of _ _ _ _ hv
      · simp only [List.map_cons, List.mem_cons] at hv
        rcases hv with hv | hv
        · left
          rw [a8, a5, hv]
          exact setIndex_index_self _ _ _
        · right
          exact hv

theorem scanLoop_inner (sz : LLType → Nat) :
    ∀ (inner : List Offset) (st st2 : ScanState), st.lastoffset ≠ UINT_MAX →
      (∀ x ∈ inner, InRange sz x ∧ x.first ≠ st.lastoffset) →
      scanLoop sz st inner = .ok st2 → st2.idx = st.idx →
      st2.fieldtype = st.fieldtype ∧ st2.fieldpad = st.fieldpad ∧
      st2.fieldtypes = st.fieldtypes ∧
      (st.hasUnions = true → st2.hasUnions = true) ∧
      (∀ v, (st.irField v).index = st.idx → (st2.irField v).index = st.idx) := by
  intro inner
  induction inner with
  | nil =>
    intro st st2 _ _ h _
    simp only [scanLoop, Except.ok.injEq] at h
    subst h
    exact ⟨rfl, rfl, rfl, fun h => h, fun _ h => h⟩
  | cons x inner ih =>
    intro st st2 hl hx h hidx
    obtain ⟨hx1, hx2⟩ := hx x (List.mem_cons_self x inner)
    unfold scanLoop at h
    split at h
    · rename_i st1 h1
      obtain ⟨m1, m2, m3⟩ := scanStep_mono sz st st1 x hl hx1 h1
      obtain ⟨n1, _⟩ := scanLoop_mono sz inner st1 st2 m2
        (fun y hy => (hx y (List.mem_cons_of_mem x hy)).1) h
      have e1 : st1.idx = st.idx := by omega
      have e2 : st2.idx = st1.idx := by omega
      obtain ⟨l1, _⟩ := m3 e1
      have hstep : st1.fieldtype = st.fieldtype ∧ st1.fieldpad = st.fieldpad ∧
          st1.fieldtypes = st.fieldtypes ∧ (st.hasUnions = true → st1.hasUnions = true) ∧
          (∀ v, (st.irField v).index = st.idx → (st1.irField v).index = st.idx) := by
        unfold scanStep at h1
        rw [if_neg hl, if_neg (fun hh => hx2 hh.symm)] at h1
        split at h1
        · dsimp only at h1
          split at h1
          · exact absurd h1 (by simp)
          · split at h1
            · exact absurd h1 (by simp)
            · simp only [Except.ok.injEq] at h1
              subst h1
              refine ⟨rfl, rfl, rfl, fun _ => rfl, ?_⟩
              intro v hv
              dsimp only
              rw [setIndexOffset_index]
              exact setIndex_index_of _ _ _ _ hv
        · simp only [Except.ok.injEq] at h1
          subst h1
          exfalso
          dsimp only at e1
          split at e1 <;> omega
      obtain ⟨p1, p2, p3, p4, p5⟩ := hstep
      obtain ⟨q1, q2, q3, q4, q5⟩ := ih st1 st2 m2
        (fun y hy => by rw [l1]; exact hx y (List.mem_cons_of_mem x hy)) h e2
      refine ⟨q1.trans p1, q2.trans p2, q3.trans p3, fun hu => q4 (p4 hu), ?_⟩
      intro v hv
      rw [← e1]
      exact q5 v (by rw [e1]; exact p5 v hv)
    · exact absurd h (by simp)

theorem scanFinish_emits (st : ScanState) :
    (scanFinish st).fieldtypes = st.fieldtypes ++ slotTypes st.fieldtype st.fieldpad := by
  unfold scanFinish slotTypes
  by_cases hp : st.fieldpad = 0
  · simp [hp]
  · have : 0 < st.fieldpad := Nat.pos_of_ne_zero hp
    simp [hp, this]

theorem scanStep_emits (sz : LLType → Nat) (st st3 : ScanState) (n : Offset)
    (h : scanStep sz st n = .ok st3) (hidx : st3.idx ≠ st.idx) :
    st3.fieldtypes = st.fieldtypes ++ slotTypes st.fieldtype st.fieldpad := by
  unfold scanStep at h
  split at h
  · simp only [Except.ok.injEq] at h; subst h; exact absurd rfl hidx
  · split at h
    · simp only [Except.ok.injEq] at h; subst h
      exfalso
      apply hidx
      by_cases hs : sz n.type > st.prevsize <;> simp [hs]
    · split at h
      · dsimp only at h
        split at h
        · exact absurd h (by simp)
        · split at h
          · exact absurd h (by simp)
          · simp only [Except.ok.injEq] at h; subst h; exact absurd rfl hidx
      · simp only [Except.ok.injEq] at h; subst h
        unfold slotTypes
        by_cases hp : st.fieldpad = 0
        · simp [hp]
        · have : 0 < st.fieldpad := Nat.pos_of_ne_zero hp
          simp [hp, this]

theorem groupMax_ge (sz : LLType → Nat) (rest : List Offset) :
    ∀ m : Nat, m ≤ rest.foldl (fun m x => max m (sz x.type)) m := by
  induction rest with
  | nil => intro m; exact le_refl _
  | cons x rest ih =>
    intro m
    exact le_trans (le_max_left _ _) (ih (max m (sz x.type)))

/-- C4: a group of entries sharing a slot's starting offset (`g0` starting the
slot, `rest` colliding with it) is scanned without a fatal stop; all its entries
record the open slot's index and the class is marked union-bearing; and when the
slot is committed (by the end of the scan or by the next fresh offset, possibly
after entries lying inside the slot) the scan emits the first entry's type
followed by a byte array of (largest size - first size) bytes exactly when that
difference is positive, so that the emitted size plus pad is the largest size. -/
theorem C4_union_group (sz : LLType → Nat) (st : ScanState) (g0 : Offset) (rest : List Offset)
    (hstart : StartsSlot st g0) (hrange : ∀ x ∈ g0 :: rest, InRange sz x)
    (hrest : ∀ x ∈ rest, x.first = g0.first) (hne : rest ≠ []) :
    ∃ st', scanLoop sz st (g0 :: rest) = .ok st' ∧
      sz g0.type + (groupMax sz g0 rest - sz g0.type) = groupMax sz g0 rest ∧
      (∀ x ∈ g0 :: rest, (st'.irField x.var).index = st'.idx) ∧
      st'.hasUnions = true ∧
      ∀ (inner : List Offset) (st2 : ScanState),
        (∀ x ∈ inner, InRange sz x ∧ x.first ≠ g0.first) →
        scanLoop sz st' inner = .ok st2 → st2.idx = st'.idx →
        (∀ x ∈ g0 :: rest, (st2.irField x.var).index = st2.idx) ∧ st2.hasUnions = true ∧
        (scanFinish st2).fieldtypes
          = st'.fieldtypes ++ slotTypes g0.type (groupMax sz g0 rest - sz g0.type) ∧
        (∀ n st3, scanStep sz st2 n = .ok st3 → st3.idx ≠ st2.idx →
          st3.fieldtypes
            = st'.fieldtypes ++ slotTypes g0.type (groupMax sz g0 rest - sz g0.type)) := by
  have hr0 : InRange sz g0 := hrange g0 (List.mem_cons_self g0 rest)
  obtain ⟨st1, h1, a1, a2, a3, a4, a5⟩ := scanStep_start sz st g0 hstart hr0
  have ho : g0.first ≠ UINT_MAX := Nat.ne_of_lt hr0.1
  obtain ⟨st', b0, b1, b2, b3, b4, b5, b6, _, b8, b9, _⟩ :=
    scanLoop_colliding sz g0.first ho rest st1 a1
      (fun x hx => ⟨hrest x hx, (hrange x (List.mem_cons_of_mem g0 hx)).2⟩)
  have hmax : st'.prevsize = groupMax sz g0 rest := by
    rw [b3, a3]
    rfl
  have hpad : st'.fieldpad = groupMax sz g0 rest - sz g0.type := by
    rw [← hmax]
    omega
  have hge : sz g0.type ≤ groupMax sz g0 rest := groupMax_ge sz rest (sz g0.type)
  have hindex : ∀ x ∈ g0 :: rest, (st'.irField x.var).index = st'.idx := by
    intro x hx
    rw [b6]
    apply b8
    rcases List.mem_cons.mp hx with hx | hx
    · left
      rw [hx]
      exact a5
    · right
      exact List.mem_map_of_mem _ hx
  refine ⟨st', ?_, by omega, hindex, b9 hne, ?_⟩
  · unfold scanLoop
    rw [h1]
    exact b0
  · intro inner st2 hinner hrun hidx
    obtain ⟨c1, c2, c3, c4, c5⟩ := scanLoop_inner sz inner st' st2 (by rw [b1]; exact ho)
      (fun x hx => by rw [b1]; exact hinner x hx) hrun hidx
    have hft : st2.fieldtype = g0.type := c1.trans (b2.trans a2)
    have hfp : st2.fieldpad = groupMax sz g0 rest - sz g0.type := c2.trans hpad
    refine ⟨?_, c4 (b9 hne), ?_, ?_⟩
    · intro x hx
      rw [hidx]
      exact c5 _ (hindex x hx)
    · rw [scanFinish_emits, c3, hft, hfp]
    · intro n st3 hn hne3
      rw [scanStep_emits sz st2 st3 n hn hne3, c3, hft, hfp]

/-- Witness for C4: a 4-byte and an 8-byte field sharing offset 12 at the start
of a scan. -/
theorem C4_union_group_witness :
    ∃ st', scanLoop sampleSize (scanInit [] [] false initialState.irField)
        ({ first := 12, var := 8, type := LLType.prim 4 }
          :: [{ first := 12, var := 9, type := LLType.prim 8 }]) = .ok st' ∧
      sampleSize (LLType.prim 4)
          + (groupMax sampleSize { first := 12, var := 8, type := LLType.prim 4 }
              [{ first := 12, var := 9, type := LLType.prim 8 }] - sampleSize (LLType.prim 4))
        = groupMax sampleSize { first := 12, var := 8, type := LLType.prim 4 }
            [{ first := 12, var := 9, type := LLType.prim 8 }] ∧
      (∀ x ∈ ({ first := 12, var := 8, type := LLType.prim 4 } : Offset)
            :: [{ first := 12, var := 9, type := LLType.prim 8 }],
          (st'.irField x.var).index = st'.idx) ∧
      st'.hasUnions = true ∧
      ∀ (inner : List Offset) (st2 : ScanState),
        (∀ x ∈ inner, InRange sampleSize x ∧ x.first ≠ 12) →
        scanLoop sampleSize st' inner = .ok st2 → st2.idx = st'.idx →
        (∀ x ∈ ({ first := 12, var := 8, type := LLType.prim 4 } : Offset)
              :: [{ first := 12, var := 9, type := LLType.prim 8 }],
            (st2.irField x.var).index = st2.idx) ∧ st2.hasUnions = true ∧
        (scanFinish st2).fieldtypes
          = st'.fieldtypes ++ slotTypes (LLType.prim 4)
              (groupMax sampleSize { first := 12, var := 8, type := LLType.prim 4 }
                [{ first := 12, var := 9, type := LLType.prim 8 }] - sampleSize (LLType.prim 4)) ∧
        (∀ n st3, scanStep sampleSize st2 n = .ok st3 → st3.idx ≠ st2.idx →
          st3.fieldtypes
            = st'.fieldtypes ++ slotTypes (LLType.prim 4)
                (groupMax sampleSize { first := 12, var := 8, type := LLType.prim 4 }
                  [{ first := 12, var := 9, type := LLType.prim 8 }]
                  - sampleSize (LLType.prim 4))) :=
  C4_union_group sampleSize (scanInit [] [] false initialState.irField)
    { first := 12, var := 8, type := LLType.prim 4 }
    [{ first := 12, var := 9, type := LLType.prim 8 }]
    (Or.inl ⟨rfl, rfl⟩) (by decide) (by decide) (by simp)

/-- C5 (the code departs from the claim): for `class C : I { int x; }` the layout
scan puts `x` at composite index 2 (the interface slot comes last, at index 3),
while `offsetToIndex` pushes 3; for `class C { union { int a; int b; } int c; }`
the scan puts `c` at composite index 3 while `offsetToIndex` pushes 4, which is
past the end of the four-element type. -/
theorem C5_offsetToIndex_recomputes :
    scanIndexAndType (DtoResolveClass oneInterfaceProgram sampleSize 3 1 initialState) 1 20
      = .ok (2, TypeHolder.struct
          [getPtrToType (LLType.vtblRef 1), getPtrToType LLType.int8, LLType.prim 4,
           getPtrToType (LLType.vtblRef 2)]) ∧
    offsetToIndex oneInterfaceProgram 3 1 8 [] = .ok [3] ∧
    scanIndexAndType (DtoResolveClass unionProgram sampleSize 3 1 initialState) 1 32
      = .ok (3, TypeHolder.struct
          [getPtrToType (LLType.vtblRef 1), getPtrToType LLType.int8, LLType.prim 4,
           LLType.prim 4]) ∧
    offsetToIndex unionProgram 3 1 12 [] = .ok [4] := by
  refine ⟨rfl, rfl, rfl, rfl⟩

/-! ## The interface table -/

theorem InterfaceMap_insert_eq (m : List IrInterface) (bc : BaseClass) :
    InterfaceMap.insert m (IrInterface.new bc)
      = if bc.base ∈ m.map (fun x => x.decl) then m else m ++ [IrInterface.new bc] := by
  unfold InterfaceMap.insert
  have e : (m.any (fun x => decide (x.decl = (IrInterface.new bc).decl)) = true)
      ↔ bc.base ∈ m.map (fun x => x.decl) := by
    simp only [List.any_eq_true, decide_eq_true_eq, List.mem_map, IrInterface.new]
  by_cases hm : bc.base ∈ m.map (fun x => x.decl)
  · rw [if_pos hm, if_pos (e.mpr hm)]
  · rw [if_neg hm, if_neg (fun h => hm (e.mp h))]

theorem insertAll_cons (m : List IrInterface) (bc : BaseClass) (vs : List BaseClass) :
    insertAll m (bc :: vs) = insertAll (InterfaceMap.insert m (IrInterface.new bc)) vs := rfl

theorem insertAll_prefix : ∀ (vs : List BaseClass) (m : List IrInterface),
    ∃ extra, insertAll m vs = m ++ extra := by
  intro vs
  induction vs with
  | nil => intro m; exact ⟨[], by simp [insertAll]⟩
  | cons bc vs ih =>
    intro m
    rw [insertAll_cons, InterfaceMap_insert_eq]
    split
    · exact ih m
    · obtain ⟨extra, he⟩ := ih (m ++ [IrInterface.new bc])
      exact ⟨IrInterface.new bc :: extra, by rw [he]; simp⟩

theorem insertAll_mem : ∀ (vs : List BaseClass) (m : List IrInterface) (i : ClassId),
    i ∈ (insertAll m vs).map (fun x => x.decl)
      ↔ i ∈ m.map (fun x => x.decl) ∨ i ∈ vs.map (fun bc => bc.base) := by
  intro vs
  induction vs with
  | nil => intro m i; simp [insertAll]
  | cons bc vs ih =>
    intro m i
    rw [insertAll_cons, ih, InterfaceMap_insert_eq]
    split
    · rename_i hm
      simp only [List.map_cons, List.mem_cons]
      constructor
      · rintro (h | h)
        · exact Or.inl h
        · exact Or.inr (Or.inr h)
      · rintro (h | h | h)
        · exact Or.inl h
        · exact Or.inl (h ▸ hm)
        · exact Or.inr h
    · simp only [List.map_append, List.map_cons, List.map_nil, List.mem_append, List.mem_singleton,
        List.mem_cons, IrInterface.new]
      tauto

theorem insertAll_nodup : ∀ (vs : List BaseClass) (m : List IrInterface),
    (m.map (fun x => x.decl)).Nodup → ((insertAll m vs).map (fun x => x.decl)).Nodup := by
  intro vs
  induction vs with
  | nil => intro m h; simpa [insertAll] using h
  | cons bc vs ih =>
    intro m h
    rw [insertAll_cons, InterfaceMap_insert_eq]
    split
    · exact ih m h
    · rename_i hm
      apply ih
      rw [List.map_append, List.nodup_append]
      refine ⟨h, by simp, ?_⟩
      intro a ha hb
      simp only [List.map_cons, List.map_nil, List.mem_singleton, IrInterface.new] at hb
      exact hm (hb ▸ ha)

theorem walkVisits_mem (P : Program) :
    ∀ (fuel : Nat) (bcs : List BaseClass) (d : BaseClass), walkComplete P fuel bcs →
      (d ∈ walkVisits P fuel bcs
        ↔ ReachesVia P bcs d ∧ (P.decl d.base).isInterfaceDeclaration = true) := by
  intro fuel
  induction fuel with
  | zero =>
    intro bcs d hc
    simp only [walkComplete] at hc
    subst hc
    simp only [walkVisits, List.not_mem_nil, false_iff, not_and]
    intro hr
    cases hr with
    | direct h => simp at h
    | through h _ => simp at h
  | succ fuel ih =>
    intro bcs d hc
    simp only [walkComplete] at hc
    simp only [walkVisits, List.mem_flatMap, List.mem_append]
    constructor
    · rintro ⟨bc, hbc, h | h⟩
      · split at h
        · rename_i hi
          simp only [List.mem_singleton] at h
          subst h
          exact ⟨ReachesVia.direct hbc, hi⟩
        · simp at h
      · obtain ⟨r1, r2⟩ := (ih _ d (hc bc hbc)).mp h
        exact ⟨ReachesVia.through hbc r1, r2⟩
    · rintro ⟨hr, hi⟩
      cases hr with
      | direct h => exact ⟨d, h, Or.inl (by simp [hi])⟩
      | through h hsub => exact ⟨_, h, Or.inr ((ih _ d (hc _ h)).mpr ⟨hsub, hi⟩)⟩

/-- In a list whose `k`-th element carries the index `f k`, the element behind a
prefix `E1` carries `f E1.length`. -/
theorem index_of_split (E : List IrInterface) (f : Nat → Int)
    (h : E.map (fun x => x.index) = (List.range E.length).map f)
    (E1 : List IrInterface) (e : IrInterface) (E2 : List IrInterface)
    (hs : E = E1 ++ e :: E2) : e.index = f E1.length := by
  have h1 : (E.map (fun x => x.index))[E1.length]? = some e.index := by
    rw [hs, List.map_append, List.map_cons]
    have hl : (E1.map (fun x => x.index)).length = E1.length := List.length_map _ _
    rw [List.getElem?_append_right (by rw [hl]), hl, Nat.sub_self]
    simp
  have h2 : ((List.range E.length).map f)[E1.length]? = some (f E1.length) := by
    have hl : E1.length < E.length := by rw [hs]; simp
    simp [List.getElem?_range hl]
  rw [h] at h1
  rw [h1] at h2
  exact Option.some.inj h2

/-- The table built from the visiting sequence `pre ++ j :: post`, when `j` is
not met within `pre`: the entries of `pre`, then `j`, then later ones. -/
theorem insertAll_split (pre post : List BaseClass) (j : BaseClass)
    (hj : j.base ∉ pre.map (fun bc => bc.base)) :
    ∃ extra, insertAll [] (pre ++ j :: post)
      = insertAll [] pre ++ IrInterface.new j :: extra := by
  rw [insertAll_append, insertAll_cons, InterfaceMap_insert_eq]
  have hn : j.base ∉ (insertAll [] pre).map (fun x => x.decl) := by
    intro hm
    rcases (insertAll_mem pre [] j.base).mp hm with h | h
    · simp at h
    · exact hj h
  rw [if_neg hn]
  obtain ⟨extra, he⟩ := insertAll_prefix post (insertAll [] pre ++ [IrInterface.new j])
  exact ⟨extra, by rw [he]; simp⟩

/-- C7: the slot indices of the interface-table entries follow the order of
first discovery by the walk of `LLVM_AddBaseClassInterfaces`: when the visiting
sequence is `pre ++ j :: post` and `j` is not met within `pre` (so `j` is first
discovered at this point), every entry for an interface met within `pre` has a
smaller index than the entry for `j`. -/
theorem C7_interface_slot_order (P : Program) (sz : LLType → Nat) (fuel : Nat) (cd : ClassId)
    (s s' : IRState) (hnew : s.llvmResolved cd = false) (hfresh : s.irStruct cd = none)
    (h : DtoResolveClass P sz (fuel + 1) cd s = .ok s') :
    ∃ irs, s'.irStruct cd = some irs ∧
      ∀ (pre post : List BaseClass) (j : BaseClass) (a b : IrInterface),
        walkVisits P fuel (P.decl cd).baseclasses = pre ++ j :: post →
        j.base ∉ pre.map (fun bc => bc.base) →
        a ∈ irs.interfaces → b ∈ irs.interfaces →
        a.decl ∈ pre.map (fun bc => bc.base) → b.decl = j.base →
        a.index < b.index := by
  unfold DtoResolveClass at h
  obtain ⟨_, _, irs6, irf, r, data, irs, _, _, _, _, hirs, _, _, _, _, _, hidx, _, htab⟩ :=
    resolveBody_result P sz fuel _ cd (DtoResolveClass_rel P sz fuel) s s' hnew h
  refine ⟨irs, hirs, ?_⟩
  intro pre post j a b hw hj ha hb hadecl hbdecl
  have hD := htab hfresh
  rw [hw] at hD
  have hnd : (irs.interfaces.map (fun x => x.decl)).Nodup := by
    rw [hD]
    exact insertAll_nodup _ [] (by simp)
  obtain ⟨extra, hsplit⟩ := insertAll_split pre post j hj
  rw [hsplit, List.map_append, List.map_cons] at hD
  obtain ⟨E1, E', hE, hE1, hE'⟩ := List.map_eq_append_iff.mp hD
  obtain ⟨eJ, E2, hE'', heJ, hE2⟩ := List.map_eq_cons_iff.mp hE'
  subst hE''
  -- the entries of `pre` are in `E1`, the entry of `j` is `eJ`
  have hnd' := hnd
  rw [hE, List.map_append, List.map_cons, List.nodup_append] at hnd'
  obtain ⟨_, hnd2, hdisj⟩ := hnd'
  have hjX : eJ.decl ∉ E2.map (fun x => x.decl) := (List.nodup_cons.mp hnd2).1
  have haD1 : a.decl ∈ E1.map (fun x => x.decl) := by
    rw [hE1]
    exact (insertAll_mem pre [] a.decl).mpr (Or.inr hadecl)
  have hjD1 : j.base ∉ E1.map (fun x => x.decl) := by
    rw [hE1]
    intro hm
    rcases (insertAll_mem pre [] j.base).mp hm with h0 | h0
    · simp at h0
    · exact hj h0
  have haE1 : a ∈ E1 := by
    rw [hE] at ha
    rcases List.mem_append.mp ha with h1 | h1
    · exact h1
    · exfalso
      exact hdisj haD1 (by
        have := List.mem_map_of_mem (fun x => x.decl) h1
        simpa using this)
  have hbeJ : b = eJ := by
    rw [hE] at hb
    rcases List.mem_append.mp hb with h1 | h1
    · exfalso
      apply hjD1
      rw [← hbdecl]
      exact List.mem_map_of_mem (fun x => x.decl) h1
    · rcases List.mem_cons.mp h1 with h2 | h2
      · exact h2
      · exfalso
        apply hjX
        have hjb : eJ.decl = b.decl := by rw [heJ, hbdecl]; rfl
        rw [hjb]
        exact List.mem_map_of_mem (fun x => x.decl) h2
  obtain ⟨A1, A2, hA⟩ := List.append_of_mem haE1
  have ia := index_of_split irs.interfaces _ hidx A1 a (A2 ++ eJ :: E2)
    (by rw [hE, hA]; simp)
  have ib := index_of_split irs.interfaces _ hidx E1 eJ E2 hE
  rw [hbeJ, ia, ib, hA]
  simp only [List.length_append, List.length_cons]
  push_cast
  omega

/-- Witness for C7: in the sample class the walk visits interface 2, then 3 (below
2), then 3 again; the entry of 2 gets a smaller index than the entry of 3. -/
theorem C7_interface_slot_order_witness :
    initialState.llvmResolved 1 = false ∧ initialState.irStruct 1 = none ∧
    walkVisits sampleProgram 4 (sampleProgram.decl 1).baseclasses
      = [{ base := 2, vtbl := [] }] ++ { base := 3, vtbl := [] } :: [{ base := 3, vtbl := [] }] ∧
    ∃ irs, (resultState (DtoResolveClass sampleProgram sampleSize (4 + 1) 1 initialState)).irStruct 1
        = some irs ∧
      ∀ (pre post : List BaseClass) (j : BaseClass) (a b : IrInterface),
        walkVisits sampleProgram 4 (sampleProgram.decl 1).baseclasses = pre ++ j :: post →
        j.base ∉ pre.map (fun bc => bc.base) →
        a ∈ irs.interfaces → b ∈ irs.interfaces →
        a.decl ∈ pre.map (fun bc => bc.base) → b.decl = j.base →
        a.index < b.index :=
  ⟨rfl, rfl, by decide,
   C7_interface_slot_order sampleProgram sampleSize 4 1 initialState _ rfl rfl sample_resolve_ok⟩

theorem declareInterfaceVtbls_spec (cd : ClassId) :
    ∀ (ifs : List IrInterface) (idx : Nat) (ifs' : List IrInterface) (gs : List GlobalName),
      declareInterfaceVtbls cd ifs idx = .ok (ifs', gs) →
      ifs'.map (fun x => x.decl) = ifs.map (fun x => x.decl) ∧
      ifs'.map (fun x => x.info)
        = (List.range ifs.length).map (fun (k : Nat) => some (Const.infoElem cd (idx + k))) := by
  intro ifs
  induction ifs with
  | nil =>
    intro idx ifs' gs h
    simp only [declareInterfaceVtbls, Except.ok.injEq, Prod.mk.injEq] at h
    obtain ⟨h1, _⟩ := h
    subst h1
    simp
  | cons iri rest ih =>
    intro idx ifs' gs h
    unfold declareInterfaceVtbls at h
    split at h
    · exact absurd h (by simp)
    · dsimp only at h
      split at h
      · exact absurd h (by simp)
      · rename_i rest1 gs1 hrec
        simp only [Except.ok.injEq, Prod.mk.injEq] at h
        obtain ⟨h1, _⟩ := h
        subst h1
        obtain ⟨a, b⟩ := ih _ _ _ hrec
        refine ⟨by simp [a], ?_⟩
        simp only [List.map_cons, b, List.length_cons, List.range_succ_eq_map, List.map_map,
          add_zero, List.cons.injEq, true_and]
        apply List.map_congr_left
        intro k _
        simp only [Function.comp_apply]
        congr 2
        omega

/-- What `DtoDeclareClassInfo` does to the record of a resolved class. -/
theorem DtoDeclareClassInfo_record (P : Program) (sz : LLType → Nat) (fuel : Nat) (cd : ClassId)
    (s s' : IRState) (irs : IrStruct) (hr : s.llvmResolved cd = true)
    (hirs : s.irStruct cd = some irs) (h : DtoDeclareClassInfo P sz fuel cd s = .ok s') :
    ∃ irs', s'.irStruct cd = some irs' ∧ irs'.interfaces = irs.interfaces ∧
      irs'.interfaceInfosTy = irs.interfaceInfosTy ∧ irs'.interfaceInfos = irs.interfaceInfos := by
  unfold DtoDeclareClassInfo at h
  rw [hirs] at h
  dsimp only at h
  split at h
  · simp only [Except.ok.injEq] at h
    subst h
    exact ⟨irs, hirs, rfl, rfl, rfl⟩
  · split at h
    · exact absurd h (by simp)
    · rename_i s1 h1
      obtain ⟨_, k2, _, _⟩ := (DtoResolveClass_rel P sz fuel _ _ _ h1).keeps cd (by exact hr)
      simp only [upd_same] at k2
      split at h
      · exact absurd h (by simp)
      · rw [k2] at h
        dsimp only at h
        simp only [Except.ok.injEq] at h
        subst h
        exact ⟨_, upd_same _ _ _, rfl, rfl, rfl⟩

/-- What `DtoDeclareClass` does to the interface table of a resolved, not yet
declared class: the entries stay, the interface-info array gets one element per
entry, and for a concrete class the `k`-th entry points at element `k`. -/
theorem DtoDeclareClass_table (P : Program) (sz : LLType → Nat) (fuel : Nat) (cd : ClassId)
    (s s' : IRState) (irs : IrStruct) (hd : s.llvmDeclared cd = false)
    (hr : s.llvmResolved cd = true) (hirs : s.irStruct cd = some irs)
    (h : DtoDeclareClass P sz fuel cd s = .ok s') :
    ∃ irs', s'.irStruct cd = some irs' ∧
      irs'.interfaces.map (fun x => x.decl) = irs.interfaces.map (fun x => x.decl) ∧
      (irs.interfaces ≠ [] → irs'.interfaceInfosTy = some irs.interfaces.length ∧
        irs'.interfaceInfos = some (GlobalName.interfaceInfos cd)) ∧
      (isConcrete P cd = true → irs'.interfaces.map (fun x => x.info)
        = (List.range irs.interfaces.length).map
            (fun (k : Nat) => some (Const.infoElem cd k))) := by
  unfold DtoDeclareClass at h
  rw [if_neg (by rw [hd]; simp)] at h
  dsimp only at h
  rw [hirs] at h
  dsimp only at h
  split at h
  · exact absurd h (by simp)
  · rename_i irs1 g1 h1
    have e1 : irs1.interfaces = irs.interfaces ∧ irs1.interfaceInfosTy = irs.interfaceInfosTy ∧
        irs1.interfaceInfos = irs.interfaceInfos := by
      unfold declareVtbl at h1
      split at h1
      · split at h1
        · exact absurd h1 (by simp)
        · exact absurd h1 (by simp)
        · simp only [Except.ok.injEq, Prod.mk.injEq] at h1
          obtain ⟨h1, _⟩ := h1
          subst h1
          exact ⟨rfl, rfl, rfl⟩
      · simp only [Except.ok.injEq, Prod.mk.injEq] at h1
        obtain ⟨h1, _⟩ := h1
        subst h1
        exact ⟨rfl, rfl, rfl⟩
    obtain ⟨e1a, e1b, e1c⟩ := e1
    have e2 : (declareInterfaceInfos cd irs1).1.interfaces = irs.interfaces ∧
        (irs.interfaces ≠ [] →
          (declareInterfaceInfos cd irs1).1.interfaceInfosTy = some irs.interfaces.length ∧
          (declareInterfaceInfos cd irs1).1.interfaceInfos
            = some (GlobalName.interfaceInfos cd)) := by
      unfold declareInterfaceInfos
      split
      · rename_i he
        refine ⟨e1a, ?_⟩
        intro hne
        rw [e1a] at he
        exact absurd (List.isEmpty_iff.mp he) hne
      · dsimp only
        exact ⟨e1a, fun _ => ⟨by rw [e1a], rfl⟩⟩
    obtain ⟨e2a, e2b⟩ := e2
    generalize hdi : declareInterfaceInfos cd irs1 = di at h e2a e2b
    obtain ⟨irs2, g2⟩ := di
    dsimp only at h e2a e2b
    split at h
    · exact absurd h (by simp)
    · rename_i irs3 g3 h3
      have e3 : irs3.interfaces.map (fun x => x.decl) = irs.interfaces.map (fun x => x.decl) ∧
          irs3.interfaceInfosTy = irs2.interfaceInfosTy ∧
          irs3.interfaceInfos = irs2.interfaceInfos ∧
          (isConcrete P cd = true → irs3.interfaces.map (fun x => x.info)
            = (List.range irs.interfaces.length).map
                (fun (k : Nat) => some (Const.infoElem cd k))) := by
        unfold declareInit at h3
        split at h3
        · split at h3
          · exact absurd h3 (by simp)
          · rename_i ifs gs hifs
            split at h3
            · exact absurd h3 (by simp)
            · simp only [Except.ok.injEq, Prod.mk.injEq] at h3
              obtain ⟨h3, _⟩ := h3
              subst h3
              obtain ⟨a, b⟩ := declareInterfaceVtbls_spec cd _ _ _ _ hifs
              rw [e2a] at a b
              refine ⟨a, rfl, rfl, fun _ => ?_⟩
              dsimp only
              rw [b]
              simp
        · rename_i hc
          simp only [Except.ok.injEq, Prod.mk.injEq] at h3
          obtain ⟨h3, _⟩ := h3
          subst h3
          exact ⟨by rw [e2a], rfl, rfl, fun hc' => absurd hc' hc⟩
      obtain ⟨e3a, e3b, e3c, e3d⟩ := e3
      obtain ⟨irs', hirs', i1, i2, i3⟩ := DtoDeclareClassInfo_record P sz fuel cd _ s' irs3
        (by exact hr) (upd_same _ _ _) h
      refine ⟨irs', hirs', by rw [i1]; exact e3a, ?_, ?_⟩
      · intro hne
        obtain ⟨x, y⟩ := e2b hne
        exact ⟨by rw [i2, e3b]; exact x, by rw [i3, e3c]; exact y⟩
      · intro hc
        rw [i1]
        exact e3d hc

theorem vtblPtr_injective :
    Function.Injective (fun (d : ClassId) => getPtrToType (LLType.vtblRef d)) := by
  intro a b hab
  simp only [getPtrToType, LLType.pointer.injEq, LLType.vtblRef.injEq] at hab
  exact hab

/-- C6: after `DtoResolveClass` the interface table of the class has exactly one
entry for each interface reachable through the base-class/interface lists and no
other entry; each such interface has exactly one dispatch-table slot in the
composite type, and after `DtoDeclareClass` the interface-info array has one
element per entry (for a concrete class the `k`-th entry points at element `k`). -/
theorem C6_interface_table_unique (P : Program) (sz : LLType → Nat) (fuel : Nat) (cd : ClassId)
    (s s' : IRState) (hnew : s.llvmResolved cd = false) (hfresh : s.irStruct cd = none)
    (h : DtoResolveClass P sz fuel cd s = .ok s') :
    ∃ (irs : IrStruct) (data : List LLType), s'.irStruct cd = some irs ∧
      (∀ i, i ∈ irs.interfaces.map (fun x => x.decl) ↔
        ((P.decl i).isInterfaceDeclaration = true ∧
          ∃ d, ReachesVia P (P.decl cd).baseclasses d ∧ d.base = i)) ∧
      (∀ i, i ∈ irs.interfaces.map (fun x => x.decl) →
        (irs.interfaces.map (fun x => x.decl)).count i = 1 ∧
        (irs.interfaces.map (fun x => getPtrToType (LLType.vtblRef x.decl))).count
          (getPtrToType (LLType.vtblRef i)) = 1) ∧
      s'.llvmType cd = TypeHolder.struct
        ([getPtrToType (LLType.vtblRef cd), getPtrToType LLType.int8] ++ data
          ++ irs.interfaces.map (fun x => getPtrToType (LLType.vtblRef x.decl))) ∧
      (∀ (fuel2 : Nat) (s2 : IRState), s'.llvmDeclared cd = false →
        DtoDeclareClass P sz fuel2 cd s' = .ok s2 →
        ∃ irs2, s2.irStruct cd = some irs2 ∧
          irs2.interfaces.map (fun x => x.decl) = irs.interfaces.map (fun x => x.decl) ∧
          (irs.interfaces ≠ [] → irs2.interfaceInfosTy = some irs.interfaces.length ∧
            irs2.interfaceInfos = some (GlobalName.interfaceInfos cd)) ∧
          (isConcrete P cd = true → irs2.interfaces.map (fun x => x.info)
            = (List.range irs.interfaces.length).map
                (fun (k : Nat) => some (Const.infoElem cd k)))) := by
  cases fuel with
  | zero => simp [DtoResolveClass, hnew] at h
  | succ fuel =>
    unfold DtoResolveClass at h
    obtain ⟨_, hres, irs6, irf, r, data, irs, _, _, _, _, hirs, _, _, _, hty, _, _, hwc, htab⟩ :=
      resolveBody_result P sz fuel _ cd (DtoResolveClass_rel P sz fuel) s s' hnew h
    have hD := htab hfresh
    have hnd : (irs.interfaces.map (fun x => x.decl)).Nodup := by
      rw [hD]
      exact insertAll_nodup _ [] (by simp)
    refine ⟨irs, data, hirs, ?_, ?_, hty, ?_⟩
    · intro i
      rw [hD, insertAll_mem]
      simp only [List.map_nil, List.not_mem_nil, false_or, List.mem_map]
      constructor
      · rintro ⟨d, hd, rfl⟩
        obtain ⟨r1, r2⟩ := (walkVisits_mem P fuel _ d hwc).mp hd
        exact ⟨r2, d, r1, rfl⟩
      · rintro ⟨hi, d, hd, rfl⟩
        exact ⟨d, (walkVisits_mem P fuel _ d hwc).mpr ⟨hd, hi⟩, rfl⟩
    · intro i hi
      have c1 : (irs.interfaces.map (fun x => x.decl)).count i = 1 :=
        List.count_eq_one_of_mem hnd hi
      refine ⟨c1, ?_⟩
      have e : irs.interfaces.map (fun x => getPtrToType (LLType.vtblRef x.decl))
          = (irs.interfaces.map (fun x => x.decl)).map
              (fun (d : ClassId) => getPtrToType (LLType.vtblRef d)) := by
        simp [List.map_map, Function.comp_def]
      rw [e, List.count_map_of_injective _ _ vtblPtr_injective]
      exact c1
    · intro fuel2 s2 hd hdecl
      exact DtoDeclareClass_table P sz fuel2 cd s' s2 irs hd hres hirs hdecl

/-- Witness for C6: the sample class reaches interface 3 both directly and
through interface 2. -/
theorem C6_interface_table_unique_witness :
    initialState.llvmResolved 1 = false ∧ initialState.irStruct 1 = none ∧
    ∃ (irs : IrStruct) (data : List LLType),
      (resultState (DtoResolveClass sampleProgram sampleSize 5 1 initialState)).irStruct 1
        = some irs ∧
      (∀ i, i ∈ irs.interfaces.map (fun x => x.decl) ↔
        ((sampleProgram.decl i).isInterfaceDeclaration = true ∧
          ∃ d, ReachesVia sampleProgram (sampleProgram.decl 1).baseclasses d ∧ d.base = i)) ∧
      (∀ i, i ∈ irs.interfaces.map (fun x => x.decl) →
        (irs.interfaces.map (fun x => x.decl)).count i = 1 ∧
        (irs.interfaces.map (fun x => getPtrToType (LLType.vtblRef x.decl))).count
          (getPtrToType (LLType.vtblRef i)) = 1) ∧
      (resultState (DtoResolveClass sampleProgram sampleSize 5 1 initialState)).llvmType 1
        = TypeHolder.struct
          ([getPtrToType (LLType.vtblRef 1), getPtrToType LLType.int8] ++ data
            ++ irs.interfaces.map (fun x => getPtrToType (LLType.vtblRef x.decl))) ∧
      (∀ (fuel2 : Nat) (s2 : IRState),
        (resultState (DtoResolveClass sampleProgram sampleSize 5 1 initialState)).llvmDeclared 1
          = false →
        DtoDeclareClass sampleProgram sampleSize fuel2 1
          (resultState (DtoResolveClass sampleProgram sampleSize 5 1 initialState)) = .ok s2 →
        ∃ irs2, s2.irStruct 1 = some irs2 ∧
          irs2.interfaces.map (fun x => x.decl) = irs.interfaces.map (fun x => x.decl) ∧
          (irs.interfaces ≠ [] → irs2.interfaceInfosTy = some irs.interfaces.length ∧
            irs2.interfaceInfos = some (GlobalName.interfaceInfos 1)) ∧
          (isConcrete sampleProgram 1 = true → irs2.interfaces.map (fun x => x.info)
            = (List.range irs.interfaces.length).map
                (fun (k : Nat) => some (Const.infoElem 1 k)))) :=
  ⟨rfl, rfl,
   C6_interface_table_unique sampleProgram sampleSize 5 1 initialState _ rfl rfl
    sample_resolve_ok⟩

theorem samplePipeline_ok : samplePipeline = .ok (resultState samplePipeline) := by
  rfl

/-- C8: each phase function called on a class whose completion flag is already
set returns the state it was given, unchanged: `DtoResolveClass`,
`DtoDeclareClass`, `DtoConstInitClass`, `DtoDefineClass` (flags on the class) and
`DtoDeclareClassInfo`, `DtoDefineClassInfo` (flags on the class's `IrStruct`). -/
theorem C8_phase_idempotent (P : Program) (sz : LLType → Nat) (T : Target) (fuel : Nat)
    (cd : ClassId) (s : IRState) :
    (s.llvmResolved cd = true → DtoResolveClass P sz fuel cd s = .ok s) ∧
    (s.llvmDeclared cd = true → DtoDeclareClass P sz fuel cd s = .ok s) ∧
    (s.llvmInitialized cd = true → DtoConstInitClass P T cd s = .ok s) ∧
    (s.llvmDefined cd = true → DtoDefineClass P sz T fuel cd s = .ok s) ∧
    (∀ irs, s.irStruct cd = some irs → irs.classDeclared = true →
      DtoDeclareClassInfo P sz fuel cd s = .ok s) ∧
    (∀ irs, s.irStruct cd = some irs → irs.classDefined = true →
      DtoDefineClassInfo P sz T fuel cd s = .ok s) := by
  refine ⟨?_, ?_, ?_, ?_, ?_, ?_⟩
  · intro h
    cases fuel with
    | zero =>
      unfold DtoResolveClass
      rw [if_pos h]
    | succ fuel =>
      unfold DtoResolveClass resolveBody
      rw [if_pos h]
  · intro h
    unfold DtoDeclareClass
    rw [if_pos h]
  · intro h
    unfold DtoConstInitClass
    rw [if_pos h]
  · intro h
    unfold DtoDefineClass
    rw [if_pos h]
  · intro irs hirs h
    unfold DtoDeclareClassInfo
    rw [hirs]
    dsimp only
    rw [if_pos h]
  · intro irs hirs h
    unfold DtoDefineClassInfo
    rw [hirs]
    dsimp only
    rw [if_pos h]

/-- Witness for C8: in the state reached by the sample pipeline every flag of
class 1 is set, and each of the six functions returns that state. -/
theorem C8_phase_idempotent_witness :
    DtoResolveClass sampleProgram sampleSize 0 1 (resultState samplePipeline)
      = .ok (resultState samplePipeline) ∧
    DtoDeclareClass sampleProgram sampleSize 0 1 (resultState samplePipeline)
      = .ok (resultState samplePipeline) ∧
    DtoConstInitClass sampleProgram sampleTarget 1 (resultState samplePipeline)
      = .ok (resultState samplePipeline) ∧
    DtoDefineClass sampleProgram sampleSize sampleTarget 0 1 (resultState samplePipeline)
      = .ok (resultState samplePipeline) ∧
    DtoDeclareClassInfo sampleProgram sampleSize 0 1 (resultState samplePipeline)
      = .ok (resultState samplePipeline) ∧
    DtoDefineClassInfo sampleProgram sampleSize sampleTarget 0 1 (resultState samplePipeline)
      = .ok (resultState samplePipeline) :=
  have w := C8_phase_idempotent sampleProgram sampleSize sampleTarget 0 1
    (resultState samplePipeline)
  ⟨w.1 rfl, w.2.1 rfl, w.2.2.1 rfl, w.2.2.2.1 rfl,
   w.2.2.2.2.1 _ rfl rfl, w.2.2.2.2.2 _ rfl rfl⟩

/-! ## The phase state machine -/

/-- A step that leaves the four flag tables alone and creates no `IrStruct`
keeps the phase invariant. -/
theorem PhaseInv.of_same {s s' : IRState} (h : PhaseInv s)
    (h1 : s'.llvmResolved = s.llvmResolved) (h2 : s'.llvmDeclared = s.llvmDeclared)
    (h3 : s'.llvmInitialized = s.llvmInitialized) (h4 : s'.llvmDefined = s.llvmDefined)
    (hi : ∀ c, s'.irStruct c ≠ none → s.irStruct c ≠ none) : PhaseInv s' := by
  obtain ⟨ho, hs⟩ := h
  refine ⟨?_, ?_⟩
  · intro c
    rw [h1, h2, h3, h4]
    exact ho c
  · intro c hc
    rw [h1]
    exact hs c (hi c hc)

theorem upd_ne_none {f : ClassId → Option IrStruct} {cd : ClassId} {v : Option IrStruct}
    (hcd : f cd ≠ none) (c : ClassId) (h : upd f cd v c ≠ none) : f c ≠ none := by
  by_cases hc : c = cd
  · rw [hc]; exact hcd
  · rwa [upd_ne _ _ _ _ hc] at h

theorem DtoResolveClass_inv (P : Program) (sz : LLType → Nat) (fuel : Nat) (cd : ClassId)
    (s s' : IRState) (hinv : PhaseInv s) (h : DtoResolveClass P sz fuel cd s = .ok s') :
    PhaseInv s' := by
  have hrel := DtoResolveClass_rel P sz fuel cd s s' h
  obtain ⟨ho, hs⟩ := hinv
  refine ⟨?_, ?_⟩
  · intro c
    rw [hrel.declared, hrel.initialized, hrel.defined]
    obtain ⟨a, b, d⟩ := ho c
    exact ⟨a, b, fun hd => (hrel.keeps c (d hd)).1⟩
  · intro c hc
    cases hr : s'.llvmResolved c with
    | true => rfl
    | false =>
      rw [hrel.untouched c hr] at hc
      have hk := (hrel.keeps c (hs c hc)).1
      rw [hr] at hk
      exact absurd hk (by simp)

theorem DtoDeclareClassInfo_inv (P : Program) (sz : LLType → Nat) (fuel : Nat) (cd : ClassId)
    (s s' : IRState) (hinv : PhaseInv s) (h : DtoDeclareClassInfo P sz fuel cd s = .ok s') :
    PhaseInv s' ∧ s'.llvmDeclared = s.llvmDeclared := by
  unfold DtoDeclareClassInfo at h
  split at h
  · exact absurd h (by simp)
  · rename_i irs hirs
    try dsimp only at h
    split at h
    · simp only [Except.ok.injEq] at h
      subst h
      exact ⟨hinv, rfl⟩
    · split at h
      · exact absurd h (by simp)
      · rename_i s1 h1
        have hsome : s.irStruct cd ≠ none := by rw [hirs]; simp
        have inv1 := DtoResolveClass_inv P sz fuel _ _ _
          (by exact hinv.of_same rfl rfl rfl rfl (fun c hc => upd_ne_none hsome c hc)) h1
        have hd1 := (DtoResolveClass_rel P sz fuel _ _ _ h1).declared
        split at h
        · exact absurd h (by simp)
        · split at h
          · exact absurd h (by simp)
          · rename_i irs2 hirs2
            simp only [Except.ok.injEq] at h
            subst h
            have hsome1 : s1.irStruct cd ≠ none := by rw [hirs2]; simp
            exact ⟨inv1.of_same rfl rfl rfl rfl (fun c hc => upd_ne_none hsome1 c hc), hd1⟩

theorem DtoDeclareClass_inv (P : Program) (sz : LLType → Nat) (fuel : Nat) (cd : ClassId)
    (s s' : IRState) (hinv : PhaseInv s) (h : DtoDeclareClass P sz fuel cd s = .ok s') :
    PhaseInv s' ∧ s'.llvmDeclared cd = true := by
  unfold DtoDeclareClass at h
  split at h
  · rename_i hd
    simp only [Except.ok.injEq] at h
    subst h
    exact ⟨hinv, hd⟩
  · dsimp only at h
    split at h
    · exact absurd h (by simp)
    · rename_i irs hirs
      try dsimp only at h
      split at h
      · exact absurd h (by simp)
      · split at h
        · exact absurd h (by simp)
        · have hsome : s.irStruct cd ≠ none := by rw [hirs]; simp
          have hres : s.llvmResolved cd = true := hinv.2 cd hsome
          obtain ⟨inv', hd'⟩ := DtoDeclareClassInfo_inv P sz fuel cd _ s' (by
            obtain ⟨ho, hs⟩ := hinv
            refine ⟨?_, ?_⟩
            · intro c
              obtain ⟨a, b, d⟩ := ho c
              refine ⟨a, ?_, ?_⟩
              · intro hi
                show upd s.llvmDeclared cd true c = true
                unfold upd
                split
                · rfl
                · exact b hi
              · intro hdc
                have hdc' : upd s.llvmDeclared cd true c = true := hdc
                unfold upd at hdc'
                split at hdc'
                · rename_i hc
                  rw [hc]; exact hres
                · exact d hdc'
            · intro c hc
              exact hs c (upd_ne_none hsome c hc)) h
          refine ⟨inv', ?_⟩
          rw [hd']
          exact upd_same _ _ _

theorem DtoConstInitClass_inv (P : Program) (T : Target) (cd : ClassId)
    (s s' : IRState) (hinv : PhaseInv s) (hdecl : s.llvmDeclared cd = true)
    (h : DtoConstInitClass P T cd s = .ok s') : PhaseInv s' := by
  have hflag : PhaseInv { s with llvmInitialized := upd s.llvmInitialized cd true } := by
    obtain ⟨ho, hs⟩ := hinv
    refine ⟨?_, hs⟩
    intro c
    obtain ⟨a, b, d⟩ := ho c
    refine ⟨?_, ?_, d⟩
    · intro hdf
      show upd s.llvmInitialized cd true c = true
      unfold upd
      split
      · rfl
      · exact a hdf
    · intro hi
      have hi' : upd s.llvmInitialized cd true c = true := hi
      unfold upd at hi'
      split at hi'
      · rename_i hc
        rw [hc]; exact hdecl
      · exact b hi'
  unfold DtoConstInitClass at h
  split at h
  · simp only [Except.ok.injEq] at h
    subst h
    exact hinv
  · dsimp only at h
    split at h
    · simp only [Except.ok.injEq] at h
      subst h
      exact hflag
    · split at h
      · exact absurd h (by simp)
      · exact absurd h (by simp)
      · split at h
        · exact absurd h (by simp)
        · rename_i irs hirs
          try dsimp only at h
          split at h
          · exact absurd h (by simp)
          · split at h
            · exact absurd h (by simp)
            · simp only [Except.ok.injEq] at h
              subst h
              have hsome : s.irStruct cd ≠ none := by
                intro h0
                rw [h0] at hirs
                exact absurd hirs (by simp)
              exact hflag.of_same rfl rfl rfl rfl (fun c hc => upd_ne_none hsome c hc)

theorem DtoForceConstInitDsymbol_inv (P : Program) (sz : LLType → Nat) (T : Target)
    (fuel : Nat) (cd : ClassId) (s s' : IRState) (hinv : PhaseInv s)
    (h : DtoForceConstInitDsymbol P sz T fuel cd s = .ok s') : PhaseInv s' := by
  unfold DtoForceConstInitDsymbol at h
  split at h
  · exact absurd h (by simp)
  · rename_i s1 h1
    split at h
    · exact absurd h (by simp)
    · rename_i s2 h2
      have inv1 := DtoResolveClass_inv P sz fuel cd s s1 hinv h1
      obtain ⟨inv2, hd2⟩ := DtoDeclareClass_inv P sz fuel cd s1 s2 inv1 h2
      exact DtoConstInitClass_inv P T cd s2 s' inv2 hd2 h

theorem baseClassInfo_inv (P : Program) (sz : LLType → Nat) (fuel : Nat) (cd : ClassId)
    (s s' : IRState) (c : Const) (hinv : PhaseInv s)
    (h : baseClassInfo P sz fuel cd s = .ok (c, s')) : PhaseInv s' := by
  unfold baseClassInfo at h
  split at h
  · split at h
    · split at h
      · exact absurd h (by simp)
      · rename_i s1 h1
        split at h
        · exact absurd h (by simp)
        · split at h
          · exact absurd h (by simp)
          · simp only [Except.ok.injEq, Prod.mk.injEq] at h
            obtain ⟨_, h⟩ := h
            subst h
            exact (DtoDeclareClassInfo_inv P sz fuel _ s s1 hinv h1).1
    · simp only [Except.ok.injEq, Prod.mk.injEq] at h
      obtain ⟨_, h⟩ := h
      subst h
      exact hinv
  · simp only [Except.ok.injEq, Prod.mk.injEq] at h
    obtain ⟨_, h⟩ := h
    subst h
    exact hinv

theorem build_offti_array_inv (P : Program) (T : Target) (fuel : Nat) (cd : ClassId)
    (s s' : IRState) (c : Const) (hinv : PhaseInv s)
    (h : build_offti_array P T fuel cd s = .ok (c, s')) : PhaseInv s' := by
  unfold build_offti_array at h
  split at h
  · exact absurd h (by simp)
  · dsimp only at h
    split at h
    · simp only [Except.ok.injEq, Prod.mk.injEq] at h
      obtain ⟨_, h⟩ := h
      subst h
      exact hinv.of_same rfl rfl rfl rfl (fun _ hc => hc)
    · simp only [Except.ok.injEq, Prod.mk.injEq] at h
      obtain ⟨_, h⟩ := h
      subst h
      exact hinv

theorem DtoDefineClassInfo_inv (P : Program) (sz : LLType → Nat) (T : Target) (fuel : Nat)
    (cd : ClassId) (s s' : IRState) (hinv : PhaseInv s)
    (h : DtoDefineClassInfo P sz T fuel cd s = .ok s') : PhaseInv s' := by
  unfold DtoDefineClassInfo at h
  split at h
  · exact absurd h (by simp)
  · rename_i irs0 hirs0
    dsimp only at h
    split at h
    · simp only [Except.ok.injEq] at h
      subst h
      exact hinv
    · have hsome : s.irStruct cd ≠ none := by rw [hirs0]; simp
      split at h
      · exact Except.noConfusion h
      split at h
      · exact Except.noConfusion h
      rename_i s1 h1
      have inv1 := DtoForceConstInitDsymbol_inv P sz T fuel _ _ s1
        (by exact hinv.of_same rfl rfl rfl rfl (fun c hc => upd_ne_none hsome c hc)) h1
      split at h
      · exact Except.noConfusion h
      split at h
      · exact Except.noConfusion h
      split at h
      · exact Except.noConfusion h
      rename_i inits s3 h3
      have inv3 : PhaseInv s3 := by
        unfold classInfoInits at h3
        split at h3
        · exact Except.noConfusion h3
        dsimp only at h3
        split at h3
        · exact Except.noConfusion h3
        rename_i c6 s2 h2
        have inv2 := baseClassInfo_inv P sz fuel cd s1 s2 c6 inv1 h2
        split at h3
        · exact Except.noConfusion h3
        split at h3
        · exact Except.noConfusion h3
        rename_i c11 s3' h4
        simp only [Except.ok.injEq, Prod.mk.injEq] at h3
        obtain ⟨_, h3⟩ := h3
        subst h3
        unfold classInfoOffTi at h4
        split at h4
        · exact build_offti_array_inv P T fuel cd s2 _ c11 inv2 h4
        · simp only [Except.ok.injEq, Prod.mk.injEq] at h4
          obtain ⟨_, h4⟩ := h4
          subst h4
          exact inv2
      unfold storeClassInfo at h
      split at h
      · exact Except.noConfusion h
      rename_i irs3 hirs3
      split at h
      · exact Except.noConfusion h
      simp only [Except.ok.injEq] at h
      subst h
      have hsome3 : s3.irStruct cd ≠ none := by rw [hirs3]; simp
      exact inv3.of_same rfl rfl rfl rfl (fun c hc => upd_ne_none hsome3 c hc)

theorem DtoDefineClass_inv (P : Program) (sz : LLType → Nat) (T : Target) (fuel : Nat)
    (cd : ClassId) (s s' : IRState) (hinv : PhaseInv s) (hini : s.llvmInitialized cd = true)
    (h : DtoDefineClass P sz T fuel cd s = .ok s') : PhaseInv s' := by
  have hflag : PhaseInv { s with llvmDefined := upd s.llvmDefined cd true } := by
    obtain ⟨ho, hs⟩ := hinv
    refine ⟨?_, hs⟩
    intro c
    obtain ⟨a, b, d⟩ := ho c
    refine ⟨?_, b, d⟩
    intro hdf
    have hdf' : upd s.llvmDefined cd true c = true := hdf
    unfold upd at hdf'
    split at hdf'
    · rename_i hc
      rw [hc]; exact hini
    · exact a hdf'
  unfold DtoDefineClass at h
  split at h
  · simp only [Except.ok.injEq] at h
    subst h
    exact hinv
  · dsimp only at h
    split at h
    · split at h
      · exact Except.noConfusion h
      · rename_i s2 h2
        refine DtoDefineClassInfo_inv P sz T fuel cd s2 s' ?_ h
        unfold defineInitializers at h2
        split at h2
        · split at h2
          · exact Except.noConfusion h2
          · split at h2
            · exact Except.noConfusion h2
            · exact Except.noConfusion h2
            · split at h2
              · exact Except.noConfusion h2
              · dsimp only at h2
                split at h2
                · simp only [Except.ok.injEq] at h2
                  subst h2
                  exact hflag.of_same rfl rfl rfl rfl (fun _ hc => hc)
                · split at h2
                  · exact Except.noConfusion h2
                  · simp only [Except.ok.injEq] at h2
                    subst h2
                    exact hflag.of_same rfl rfl rfl rfl (fun _ hc => hc)
        · simp only [Except.ok.injEq] at h2
          subst h2
          exact hflag
    · simp only [Except.ok.injEq] at h
      subst h
      exact hflag

theorem Reaches_inv (P : Program) (sz : LLType → Nat) (T : Target) (s : IRState)
    (h : Reaches P sz T InWorkListOrder s) : PhaseInv s := by
  induction h with
  | start hp =>
    refine ⟨?_, ?_⟩
    · intro c
      obtain ⟨_, h2, h3, h4, _⟩ := hp c
      refine ⟨?_, ?_, ?_⟩
      · intro hd; rw [h4] at hd; exact absurd hd (by simp)
      · intro hd; rw [h3] at hd; exact absurd hd (by simp)
      · intro hd; rw [h2] at hd; exact absurd hd (by simp)
    · intro c hc
      exact absurd (hp c).2.2.2.2 hc
  | call c fuel _ hg hrun ih =>
    cases c with
    | resolve cd => exact DtoResolveClass_inv P sz fuel cd _ _ ih hrun
    | declare cd => exact (DtoDeclareClass_inv P sz fuel cd _ _ ih hrun).1
    | constInit cd => exact DtoConstInitClass_inv P T cd _ _ ih hg hrun
    | define cd => exact DtoDefineClass_inv P sz T fuel cd _ _ ih hg hrun

theorem initialState_pristine : Pristine initialState :=
  fun _ => ⟨rfl, rfl, rfl, rfl, rfl⟩

/-- C9 (as stated, refuted): `DtoConstInitClass` called on the not yet resolved
interface 3 of the sample program succeeds and marks it const-initialized while
it is neither declared nor resolved, so the flags of a state reachable by
arbitrary successful calls need not be ordered. -/
theorem C9_unordered_after_any_calls :
    ¬ (∀ s, Reaches sampleProgram sampleSize sampleTarget AnyCall s → PhaseOrdered s) := by
  intro hall
  have hr : Reaches sampleProgram sampleSize sampleTarget AnyCall
      (resultState (DtoConstInitClass sampleProgram sampleTarget 3 initialState)) :=
    Reaches.call (PhaseCall.constInit 3) 0 (Reaches.start initialState_pristine) trivial rfl
  have ho := (hall _ hr 3).2.1
  exact absurd (ho rfl) (by decide)

/-- C9 (amended): in every state reachable from an untouched state by successful
calls of the four phase functions, where `DtoConstInitClass` is only called on a
class already marked declared and `DtoDefineClass` only on a class already marked
const-initialized, a class marked defined is marked const-initialized, a class
marked const-initialized is marked declared, and a class marked declared is
marked resolved. -/
theorem C9_phase_order (P : Program) (sz : LLType → Nat) (T : Target) (s : IRState)
    (h : Reaches P sz T InWorkListOrder s) : PhaseOrdered s :=
  (Reaches_inv P sz T s h).1

/-- Witness for C9: the state after interface 3 went through the four phases in
order is reachable in work-list order, class 3 is marked defined there, and the
flags are ordered. -/
theorem C9_phase_order_witness :
    Reaches sampleProgram sampleSize sampleTarget InWorkListOrder (resultState interfacePipeline) ∧
    (resultState interfacePipeline).llvmDefined 3 = true ∧
    PhaseOrdered (resultState interfacePipeline) :=
  have r1 : Reaches sampleProgram sampleSize sampleTarget InWorkListOrder
      (resultState (DtoResolveClass sampleProgram sampleSize 2 3 initialState)) :=
    Reaches.call (PhaseCall.resolve 3) 2 (Reaches.start initialState_pristine) trivial rfl
  have r2 : Reaches sampleProgram sampleSize sampleTarget InWorkListOrder
      (resultState (andThen (DtoResolveClass sampleProgram sampleSize 2 3 initialState)
        (DtoDeclareClass sampleProgram sampleSize 2 3))) :=
    Reaches.call (PhaseCall.declare 3) 2 r1 trivial rfl
  have r3 : Reaches sampleProgram sampleSize sampleTarget InWorkListOrder
      (resultState (andThen (andThen
        (DtoResolveClass sampleProgram sampleSize 2 3 initialState)
        (DtoDeclareClass sampleProgram sampleSize 2 3))
        (DtoConstInitClass sampleProgram sampleTarget 3))) :=
    Reaches.call (PhaseCall.constInit 3) 0 r2 rfl rfl
  have hr : Reaches sampleProgram sampleSize sampleTarget InWorkListOrder
      (resultState interfacePipeline) :=
    Reaches.call (PhaseCall.define 3) 2 r3 rfl rfl
  ⟨hr, rfl, C9_phase_order sampleProgram sampleSize sampleTarget _ hr⟩

/-! ## Termination of `DtoResolveClass` -/

theorem unresolvedCount_mono (n : Nat) (s s' : IRState)
    (h : ∀ x, s.llvmResolved x = true → s'.llvmResolved x = true) :
    unresolvedCount n s' ≤ unresolvedCount n s := by
  unfold unresolvedCount
  apply Finset.card_le_card
  intro x hx
  simp only [Finset.mem_filter, Finset.mem_range] at hx ⊢
  refine ⟨hx.1, ?_⟩
  cases hr : s.llvmResolved x with
  | false => rfl
  | true => rw [h x hr] at hx; exact absurd hx.2 (by simp)

theorem Frame.frame_resolved_mono {cd : ClassId} {s s' : IRState} (h : Frame cd s s') :
    ∀ x, s.llvmResolved x = true → s'.llvmResolved x = true := by
  intro x hx
  by_cases hc : x = cd
  · subst hc; exact h.owner hx
  · exact (h.keeps x hc hx).1

theorem ResolveRel.rel_resolved_mono {s s' : IRState} (h : ResolveRel s s') :
    ∀ x, s.llvmResolved x = true → s'.llvmResolved x = true :=
  fun x hx => (h.keeps x hx).1

theorem beginResolve_resolved (cd : ClassId) (s : IRState) :
    (beginResolve cd s).llvmResolved = upd s.llvmResolved cd true := by
  unfold beginResolve
  try dsimp only
  split <;> rfl

theorem unresolvedCount_begin (n : Nat) (cd : ClassId) (s : IRState) (hcd : cd < n)
    (hnew : s.llvmResolved cd = false) :
    unresolvedCount n (beginResolve cd s) + 1 ≤ unresolvedCount n s := by
  unfold unresolvedCount
  rw [beginResolve_resolved]
  have hmem : cd ∈ (Finset.range n).filter (fun c => s.llvmResolved c = false) := by
    simp only [Finset.mem_filter, Finset.mem_range]
    exact ⟨hcd, hnew⟩
  have hsub : (Finset.range n).filter (fun c => upd s.llvmResolved cd true c = false)
      ⊆ ((Finset.range n).filter (fun c => s.llvmResolved c = false)).erase cd := by
    intro x hx
    simp only [Finset.mem_filter, Finset.mem_range, Finset.mem_erase] at hx ⊢
    obtain ⟨h1, h2⟩ := hx
    have hne : x ≠ cd := by
      intro he
      rw [he, upd_same] at h2
      exact absurd h2 (by simp)
    rw [upd_ne _ _ _ _ hne] at h2
    exact ⟨hne, h1, h2⟩
  have h1 := Finset.card_le_card hsub
  rw [Finset.card_erase_of_mem hmem] at h1
  have h2 : 0 < ((Finset.range n).filter (fun c => s.llvmResolved c = false)).card :=
    Finset.card_pos.mpr ⟨cd, hmem⟩
  have key : ((Finset.range n).filter (fun c => upd s.llvmResolved cd true c = false)).card + 1
      ≤ ((Finset.range n).filter (fun c => s.llvmResolved c = false)).card := by
    omega
  convert key

theorem unresolvedCount_pos (n : Nat) (cd : ClassId) (s : IRState) (hcd : cd < n)
    (hnew : s.llvmResolved cd = false) : 0 < unresolvedCount n s := by
  have := unresolvedCount_begin n cd s hcd hnew
  omega

theorem forEach_fuel {α : Type} (n k : Nat) (cd : ClassId)
    (f : α → IRState → Except Fatal IRState) (l : List α)
    (hf : ∀ a, a ∈ l → ∀ s, unresolvedCount n s ≤ k → f a s ≠ .error Fatal.outOfFuel)
    (hfr : ∀ a, a ∈ l → ∀ s s', f a s = .ok s' → Frame cd s s') :
    ∀ s, unresolvedCount n s ≤ k → forEach f l s ≠ .error Fatal.outOfFuel := by
  induction l with
  | nil =>
    intro s _
    simp [forEach]
  | cons a l ih =>
    intro s hs
    unfold forEach
    cases h1 : f a s with
    | error err =>
      try dsimp only
      intro he
      have := hf a (List.mem_cons_self a l) s hs
      rw [h1] at this
      exact this he
    | ok s1 =>
      try dsimp only
      have hfr1 := hfr a (List.mem_cons_self a l) s s1 h1
      exact ih (fun b hb => hf b (List.mem_cons_of_mem a hb))
        (fun b hb => hfr b (List.mem_cons_of_mem a hb)) s1
        (le_trans (unresolvedCount_mono n s s1 hfr1.frame_resolved_mono) hs)

theorem toObjFile_fuel (n k : Nat) (rec : ClassId → IRState → Except Fatal IRState)
    (cd : ClassId)
    (hfuel : ∀ c s, c < n → unresolvedCount n s ≤ k → rec c s ≠ .error Fatal.outOfFuel)
    (v : VarDeclaration) (hv : ∀ c, v.classType = some c → c < n)
    (s : IRState) (hs : unresolvedCount n s ≤ k) :
    VarDeclaration.toObjFile rec cd v s ≠ .error Fatal.outOfFuel := by
  unfold VarDeclaration.toObjFile
  split
  · rename_i err h1
    intro he
    split at h1
    · rename_i c hc
      have := hfuel c s (hv c hc) hs
      rw [h1] at this
      simp only [Except.error.injEq] at he
      rw [he] at this
      exact this rfl
    · exact Except.noConfusion h1
  · split
    · simp
    · simp

theorem scanStep_fuel (sz : LLType → Nat) (st : ScanState) (e : Offset) :
    scanStep sz st e ≠ .error Fatal.outOfFuel := by
  unfold scanStep
  split
  · simp
  · split
    · simp
    · split
      · dsimp only
        split
        · simp
        · split <;> simp
      · simp

theorem scanLoop_fuel (sz : LLType → Nat) :
    ∀ (es : List Offset) (st : ScanState), scanLoop sz st es ≠ .error Fatal.outOfFuel := by
  intro es
  induction es with
  | nil => intro st; simp [scanLoop]
  | cons e es ih =>
    intro st
    unfold scanLoop
    cases h1 : scanStep sz st e with
    | error err =>
      try dsimp only
      intro he
      have := scanStep_fuel sz st e
      rw [h1] at this
      exact this he
    | ok st1 => exact ih st1

theorem resolveFields_fuel (sz : LLType → Nat) (offsets : List Offset) (ft : List LLType)
    (df : List (Option VarId)) (hu : Bool) (irf : VarId → IrField) :
    resolveFields sz offsets ft df hu irf ≠ .error Fatal.outOfFuel := by
  unfold resolveFields
  split
  · simp
  · cases h1 : scanLoop sz (scanInit ft df hu irf) offsets with
    | error err =>
      try dsimp only
      intro he
      have := scanLoop_fuel sz offsets (scanInit ft df hu irf)
      rw [h1] at this
      simp only [Except.error.injEq] at he
      rw [he] at this
      exact this rfl
    | ok st => simp

theorem addInterfaceVtables_fuel (vt : ClassId → TypeHolder) :
    ∀ (ifs : List IrInterface) (i : Int) (ft : List LLType),
      addInterfaceVtables vt ifs i ft ≠ .error Fatal.outOfFuel := by
  intro ifs
  induction ifs with
  | nil => intro i ft; simp [addInterfaceVtables]
  | cons iri rest ih =>
    intro i ft
    unfold addInterfaceVtables
    split
    · simp
    · dsimp only
      cases h1 : addInterfaceVtables vt rest (i + 1)
          (ft ++ [getPtrToType (LLType.vtblRef iri.decl)]) with
      | error err =>
        try dsimp only
        intro he
        have := ih (i + 1) (ft ++ [getPtrToType (LLType.vtblRef iri.decl)])
        rw [h1] at this
        exact this he
      | ok r => simp

theorem publishType_fuel (cd : ClassId) (ft : List LLType) (s : IRState) :
    publishType cd ft s ≠ .error Fatal.outOfFuel := by
  unfold publishType
  split
  · simp
  · split <;> simp

theorem vtblSlotTypes_fuel (P : Program) (s : IRState) (cd : ClassId) :
    ∀ ds : List Dsymbol, vtblSlotTypes P s cd ds ≠ .error Fatal.outOfFuel := by
  intro ds
  induction ds with
  | nil => simp [vtblSlotTypes]
  | cons d ds ih =>
    unfold vtblSlotTypes
    cases h1 : vtblSlotType P s cd d with
    | error err =>
      try dsimp only
      intro he
      simp only [Except.error.injEq] at he
      rw [he] at h1
      unfold vtblSlotType at h1
      split at h1
      · simp at h1
      · simp at h1
      · split at h1
        · simp at h1
        · split at h1
          · split at h1 <;> simp at h1
          · simp at h1
      · simp at h1
    | ok t =>
      try dsimp only
      cases h2 : vtblSlotTypes P s cd ds with
      | error err =>
        try dsimp only
        intro he
        rw [h2] at ih
        exact ih he
      | ok ts => simp

theorem finishResolve_fuel (P : Program) (cd : ClassId) (s : IRState) :
    finishResolve P cd s ≠ .error Fatal.outOfFuel := by
  unfold finishResolve
  cases h1 : vtblSlotTypes P s cd (P.decl cd).vtbl with
  | error err =>
    try dsimp only
    intro he
    have := vtblSlotTypes_fuel P s cd (P.decl cd).vtbl
    rw [h1] at this
    simp only [Except.error.injEq] at he
    rw [he] at this
    exact this rfl
  | ok ts =>
    try dsimp only
    split <;> simp

theorem LLVM_AddBaseClassData_fuel (P : Program) (n k : Nat) (depth : ClassId → Nat)
    (rec : ClassId → IRState → Except Fatal IRState) (cd : ClassId)
    (hclosed : Closed P n)
    (hdec : ∀ c, ∀ bc ∈ (P.decl c).baseclasses, depth bc.base < depth c)
    (hrel : ∀ c s s', rec c s = .ok s' → ResolveRel s s')
    (hfuel : ∀ c s, c < n → unresolvedCount n s ≤ k → rec c s ≠ .error Fatal.outOfFuel) :
    ∀ (w : Nat) (bcs : List BaseClass) (s : IRState),
      (∀ bc ∈ bcs, bc.base < n ∧ depth bc.base < w) → unresolvedCount n s ≤ k →
      LLVM_AddBaseClassData P rec cd w bcs s ≠ .error Fatal.outOfFuel := by
  intro w
  induction w with
  | zero =>
    intro bcs s hb _
    have he : bcs = [] := by
      cases bcs with
      | nil => rfl
      | cons b bs => exact absurd (hb b (List.mem_cons_self b bs)).2 (Nat.not_lt_zero _)
    subst he
    simp [LLVM_AddBaseClassData]
  | succ w ih =>
    intro bcs s hb hs
    unfold LLVM_AddBaseClassData
    refine forEach_fuel n k cd _ bcs ?_ ?_ s hs
    · intro bc hbc t ht
      try dsimp only
      split
      · simp
      · have hsub : ∀ b' ∈ (P.decl bc.base).baseclasses, b'.base < n ∧ depth b'.base < w := by
          intro b' hb'
          refine ⟨hclosed.baseclasses bc.base (hb bc hbc).1 b' hb', ?_⟩
          have h1 := hdec bc.base b' hb'
          have h2 := (hb bc hbc).2
          omega
        cases h1 : LLVM_AddBaseClassData P rec cd w (P.decl bc.base).baseclasses t with
        | error err =>
          try dsimp only
          intro he
          have := ih _ t hsub ht
          rw [h1] at this
          exact this he
        | ok t1 =>
          try dsimp only
          have hfr := LLVM_AddBaseClassData_frame P rec cd hrel _ _ _ _ h1
          refine forEach_fuel n k cd _ _ ?_ ?_ t1
            (le_trans (unresolvedCount_mono n t t1 hfr.frame_resolved_mono) ht)
          · intro v hv u hu
            exact toObjFile_fuel n k rec cd hfuel v
              (fun c hc => hclosed.fields bc.base (hb bc hbc).1 v hv c hc) u hu
          · intro v _ u u' huu
            exact toObjFile_frame rec cd hrel v u u' huu
    · intro bc _ t t' htt
      try dsimp only at htt
      split at htt
      · simp only [Except.ok.injEq] at htt
        subst htt
        exact Frame.frame_refl cd t
      · split at htt
        · exact Except.noConfusion htt
        · rename_i t1 h1
          exact (LLVM_AddBaseClassData_frame P rec cd hrel _ _ _ _ h1).frame_trans
            (forEach_frame cd _ _ (fun v _ u u' hu => toObjFile_frame rec cd hrel v u u' hu)
              t1 t' htt)

theorem addInterface_fuel (P : Program) (n k : Nat)
    (rec : ClassId → IRState → Except Fatal IRState) (cd : ClassId)
    (hfuel : ∀ c s, c < n → unresolvedCount n s ≤ k → rec c s ≠ .error Fatal.outOfFuel)
    (bc : BaseClass) (hbc : bc.base < n) (s : IRState) (hs : unresolvedCount n s ≤ k) :
    addInterface P rec cd bc s ≠ .error Fatal.outOfFuel := by
  unfold addInterface
  split
  · split
    · simp
    · dsimp only
      exact hfuel bc.base _ hbc (by exact hs)
  · simp

theorem LLVM_AddBaseClassInterfaces_fuel (P : Program) (n k : Nat) (depth : ClassId → Nat)
    (rec : ClassId → IRState → Except Fatal IRState) (cd : ClassId)
    (hclosed : Closed P n)
    (hdec : ∀ c, ∀ bc ∈ (P.decl c).baseclasses, depth bc.base < depth c)
    (hrel : ∀ c s s', rec c s = .ok s' → ResolveRel s s')
    (hfuel : ∀ c s, c < n → unresolvedCount n s ≤ k → rec c s ≠ .error Fatal.outOfFuel) :
    ∀ (w : Nat) (bcs : List BaseClass) (s : IRState),
      (∀ bc ∈ bcs, bc.base < n ∧ depth bc.base < w) → unresolvedCount n s ≤ k →
      LLVM_AddBaseClassInterfaces P rec cd w bcs s ≠ .error Fatal.outOfFuel := by
  intro w
  induction w with
  | zero =>
    intro bcs s hb _
    have he : bcs = [] := by
      cases bcs with
      | nil => rfl
      | cons b bs => exact absurd (hb b (List.mem_cons_self b bs)).2 (Nat.not_lt_zero _)
    subst he
    simp [LLVM_AddBaseClassInterfaces]
  | succ w ih =>
    intro bcs s hb hs
    unfold LLVM_AddBaseClassInterfaces
    refine forEach_fuel n k cd _ bcs ?_ ?_ s hs
    · intro bc hbc t ht
      try dsimp only
      have hsub : ∀ b' ∈ (P.decl bc.base).baseclasses, b'.base < n ∧ depth b'.base < w := by
        intro b' hb'
        refine ⟨hclosed.baseclasses bc.base (hb bc hbc).1 b' hb', ?_⟩
        have h1 := hdec bc.base b' hb'
        have h2 := (hb bc hbc).2
        omega
      cases h1 : addInterface P rec cd bc t with
      | error err =>
        try dsimp only
        intro he
        have := addInterface_fuel P n k rec cd hfuel bc (hb bc hbc).1 t ht
        rw [h1] at this
        exact this he
      | ok t1 =>
        try dsimp only
        have hfr := addInterface_frame P rec cd hrel bc t t1 h1
        exact ih _ t1 hsub (le_trans (unresolvedCount_mono n t t1 hfr.frame_resolved_mono) ht)
    · intro bc _ t t' htt
      try dsimp only at htt
      split at htt
      · exact Except.noConfusion htt
      · rename_i t1 h1
        exact (addInterface_frame P rec cd hrel bc t t1 h1).frame_trans
          (LLVM_AddBaseClassInterfaces_frame P rec cd hrel _ _ _ _ htt)

theorem resolveLayout_fuel (P : Program) (sz : LLType → Nat) (n k : Nat)
    (depth : ClassId → Nat) (fuel : Nat)
    (rec : ClassId → IRState → Except Fatal IRState) (cd : ClassId)
    (hclosed : Closed P n)
    (hdec : ∀ c, ∀ bc ∈ (P.decl c).baseclasses, depth bc.base < depth c)
    (hrel : ∀ c s s', rec c s = .ok s' → ResolveRel s s')
    (hfuel : ∀ c s, c < n → unresolvedCount n s ≤ k → rec c s ≠ .error Fatal.outOfFuel)
    (hb : ∀ bc ∈ (P.decl cd).baseclasses, bc.base < n ∧ depth bc.base < fuel)
    (ft : List LLType) (s : IRState) (hs : unresolvedCount n s ≤ k) :
    resolveLayout P sz fuel rec cd ft s ≠ .error Fatal.outOfFuel := by
  unfold resolveLayout
  split
  · simp
  · rename_i irs _
    cases h1 : resolveFields sz irs.offsets ft irs.defaultFields irs.hasUnions s.irField with
    | error err =>
      dsimp only
      intro he
      have := resolveFields_fuel sz irs.offsets ft irs.defaultFields irs.hasUnions s.irField
      rw [h1] at this
      simp only [Except.error.injEq] at he
      rw [he] at this
      exact this rfl
    | ok r =>
      dsimp only
      split
      · rename_i err h2
        intro he
        simp only [Except.error.injEq] at he
        subst he
        exact LLVM_AddBaseClassInterfaces_fuel P n k depth rec cd hclosed hdec hrel hfuel
          fuel _ _ hb (by exact hs) h2
      · split
        · simp
        · rename_i irs2 _
          split
          · rename_i err h3
            intro he
            simp only [Except.error.injEq] at he
            subst he
            exact addInterfaceVtables_fuel _ _ _ _ h3
          · exact publishType_fuel _ _ _

theorem Dsymbol_toObjFile_fuel (n k : Nat) (rec : ClassId → IRState → Except Fatal IRState)
    (cd : ClassId)
    (hfuel : ∀ c s, c < n → unresolvedCount n s ≤ k → rec c s ≠ .error Fatal.outOfFuel)
    (d : Dsymbol) (hd : ∀ v, d = Dsymbol.var v → ∀ c, v.classType = some c → c < n)
    (s : IRState) (hs : unresolvedCount n s ≤ k) :
    Dsymbol.toObjFile rec cd d s ≠ .error Fatal.outOfFuel := by
  cases d with
  | var v => exact toObjFile_fuel n k rec cd hfuel v (hd v rfl) s hs
  | null => simp [Dsymbol.toObjFile]
  | func f => simp [Dsymbol.toObjFile]
  | classDecl c => simp [Dsymbol.toObjFile]
  | other p => simp [Dsymbol.toObjFile]

theorem resolveBody_fuel (P : Program) (sz : LLType → Nat) (n k : Nat)
    (depth : ClassId → Nat) (fuel : Nat)
    (rec : ClassId → IRState → Except Fatal IRState) (cd : ClassId)
    (hclosed : Closed P n)
    (hdec : ∀ c, ∀ bc ∈ (P.decl c).baseclasses, depth bc.base < depth c)
    (hrel : ∀ c s s', rec c s = .ok s' → ResolveRel s s')
    (hfuel : ∀ c s, c < n → unresolvedCount n s ≤ k → rec c s ≠ .error Fatal.outOfFuel)
    (hcd : cd < n)
    (hb : ∀ bc ∈ (P.decl cd).baseclasses, depth bc.base < fuel)
    (s : IRState) (hs : unresolvedCount n (beginResolve cd s) ≤ k) :
    resolveBody P sz fuel rec cd s ≠ .error Fatal.outOfFuel := by
  have hb' : ∀ bc ∈ (P.decl cd).baseclasses, bc.base < n ∧ depth bc.base < fuel :=
    fun bc hbc => ⟨hclosed.baseclasses cd hcd bc hbc, hb bc hbc⟩
  unfold resolveBody
  split
  · simp
  · split
    · rename_i err h3
      intro he
      split at h3
      · rename_i b hbase
        have := hfuel b _ (hclosed.baseClass cd hcd b hbase) hs
        rw [h3] at this
        exact this he
      · exact Except.noConfusion h3
    · rename_i s3 h3
      have f3 : Frame cd (beginResolve cd s) s3 := by
        split at h3
        · exact (hrel _ _ _ h3).toFrame cd
        · simp only [Except.ok.injEq] at h3
          subst h3
          exact Frame.frame_refl cd _
      have u3 : unresolvedCount n s3 ≤ k :=
        le_trans (unresolvedCount_mono n _ s3 f3.frame_resolved_mono) hs
      have u4 : unresolvedCount n (enterScope cd s3) ≤ k := u3
      split
      · rename_i err h5
        intro he
        have := LLVM_AddBaseClassData_fuel P n k depth rec cd hclosed hdec hrel hfuel
          fuel _ _ hb' u4
        rw [h5] at this
        exact this he
      · rename_i s5 h5
        have f5 := LLVM_AddBaseClassData_frame P rec cd hrel _ _ _ _ h5
        have u5 : unresolvedCount n s5 ≤ k :=
          le_trans (unresolvedCount_mono n _ s5 f5.frame_resolved_mono) u4
        split
        · rename_i err h6
          intro he
          have := forEach_fuel n k cd (fun d s => Dsymbol.toObjFile rec cd d s)
            (P.decl cd).members
            (fun d hd u hu => Dsymbol_toObjFile_fuel n k rec cd hfuel d
              (fun v hv c hc => hclosed.members cd hcd v (hv ▸ hd) c hc) u hu)
            (fun d _ u u' huu => Dsymbol_toObjFile_frame rec cd hrel d u u' huu) s5 u5
          rw [h6] at this
          exact this he
        · rename_i s6 h6
          have f6 := forEach_frame cd _ _
            (fun d _ u u' hu => Dsymbol_toObjFile_frame rec cd hrel d u u' hu) _ _ h6
          have u6 : unresolvedCount n s6 ≤ k :=
            le_trans (unresolvedCount_mono n _ s6 f6.frame_resolved_mono) u5
          split
          · rename_i err h7
            intro he
            have := resolveLayout_fuel P sz n k depth fuel rec cd hclosed hdec hrel hfuel hb'
              (classHeader cd) s6 u6
            rw [h7] at this
            exact this he
          · exact finishResolve_fuel P cd _

/-- With a budget of at least (number of unresolved classes + depth bound of the
inheritance graph), `DtoResolveClass` never stops for lack of budget. -/
theorem DtoResolveClass_fuel (P : Program) (sz : LLType → Nat) (n D : Nat)
    (depth : ClassId → Nat) (hclosed : Closed P n) (hacyc : Acyclic P depth D) :
    ∀ (fuel : Nat) (cd : ClassId) (s : IRState), cd < n → unresolvedCount n s + D ≤ fuel →
      DtoResolveClass P sz fuel cd s ≠ .error Fatal.outOfFuel := by
  intro fuel
  induction fuel with
  | zero =>
    intro cd s hcd hs
    unfold DtoResolveClass
    cases hnew : s.llvmResolved cd with
    | true => simp
    | false =>
      have := unresolvedCount_pos n cd s hcd hnew
      omega
  | succ fuel ih =>
    intro cd s hcd hs
    unfold DtoResolveClass
    cases hnew : s.llvmResolved cd with
    | true =>
      unfold resolveBody
      rw [if_pos hnew]
      simp
    | false =>
      have hpos := unresolvedCount_begin n cd s hcd hnew
      refine resolveBody_fuel P sz n (fuel - D) depth fuel _ cd hclosed hacyc.decreases
        (DtoResolveClass_rel P sz fuel) ?_ hcd ?_ s (by omega)
      · intro c t hc ht
        exact ih c t hc (by omega)
      · intro bc hbc
        have h1 := hacyc.decreases cd bc hbc
        have h2 := hacyc.bounded cd
        omega

theorem sampleProgram_closed : Closed sampleProgram 4 := by
  refine ⟨?_, ?_, ?_, ?_⟩
  · intro c _ b hb
    unfold sampleProgram at hb
    dsimp only at hb
    split_ifs at hb <;> simp [plainClass] at hb
  · intro c _ bc hbc
    unfold sampleProgram at hbc
    dsimp only at hbc
    split_ifs at hbc <;> simp [plainClass] at hbc
    · rcases hbc with h | h <;> subst h <;> simp
    · subst hbc
      simp
  · intro c _ v hv k hk
    unfold sampleProgram at hv
    dsimp only at hv
    split_ifs at hv <;> simp [plainClass] at hv
    rcases hv with h | h | h <;> subst h <;> simp [fieldNext, fieldA, fieldB] at hk
    subst hk
    decide
  · intro c _ v hv k hk
    unfold sampleProgram at hv
    dsimp only at hv
    split_ifs at hv <;> simp [plainClass] at hv
    rcases hv with h | h | h <;> subst h <;> simp [fieldNext, fieldA, fieldB] at hk
    subst hk
    decide

theorem sampleProgram_acyclic : Acyclic sampleProgram sampleDepth 2 := by
  refine ⟨?_, ?_⟩
  · intro c bc hbc
    unfold sampleProgram at hbc
    dsimp only at hbc
    split_ifs at hbc with h1 h2 h3 <;> simp [plainClass] at hbc
    · subst h1
      rcases hbc with h | h <;> subst h <;> simp [sampleDepth]
    · subst h2
      subst hbc
      simp [sampleDepth]
  · intro c
    unfold sampleDepth
    split_ifs <;> omega

/-- Two mutually referencing classes resolve: the call for class 0 reaches class 1
through the field `b`, whose field `a` leads back to the already flagged class 0. -/
theorem mutualProgram_resolves :
    ∃ s, DtoResolveClass mutualProgram sampleSize 3 0 initialState = .ok s ∧
      s.llvmResolved 0 = true ∧ s.llvmResolved 1 = true ∧
      s.llvmType 0 = TypeHolder.struct
        (classHeader 0 ++ [LLType.pointer (LLType.classRef 1)]) ∧
      s.llvmType 1 = TypeHolder.struct
        (classHeader 1 ++ [LLType.pointer (LLType.classRef 0)]) :=
  ⟨resultState (DtoResolveClass mutualProgram sampleSize 3 0 initialState), by rfl, by rfl,
    by rfl, by rfl, by rfl⟩

/-- C10: on a closed program whose inheritance graph is acyclic (field types may
refer to any class, the class itself included), `DtoResolveClass` with a budget of
at least the number of unresolved classes plus the inheritance depth never stops
for lack of budget; the flag of the class is set by the first step, before any
nested call, and stays set while the members are processed; a call for a class
whose flag is set returns the state unchanged whatever the budget, so processing a
field of the class's own type then only enters the field in the offset map; and
after a successful outer call the published type of the class and the type
recorded in its `IrStruct` are the finalized struct type. -/
theorem C10_self_reference_terminates (P : Program) (sz : LLType → Nat) (n D : Nat)
    (depth : ClassId → Nat) (hclosed : Closed P n) (hacyc : Acyclic P depth D)
    (fuel : Nat) (cd : ClassId) (s : IRState) (hcd : cd < n)
    (hfuel : unresolvedCount n s + D ≤ fuel) (hnew : s.llvmResolved cd = false) :
    DtoResolveClass P sz fuel cd s ≠ .error Fatal.outOfFuel ∧
    (beginResolve cd s).llvmResolved cd = true ∧
    (∀ (k : Nat) (t : IRState), t.llvmResolved cd = true →
      DtoResolveClass P sz k cd t = .ok t) ∧
    (∀ (k : Nat) (d : Dsymbol) (t t' : IRState), t.llvmResolved cd = true →
      Dsymbol.toObjFile (DtoResolveClass P sz k) cd d t = .ok t' →
      t'.llvmResolved cd = true) ∧
    (∀ (k : Nat) (v : VarDeclaration) (t : IRState), v.classType = some cd →
      t.llvmResolved cd = true →
      VarDeclaration.toObjFile (DtoResolveClass P sz k) cd v t
        = VarDeclaration.toObjFile (fun _ u => .ok u) cd v t) ∧
    (∀ s', DtoResolveClass P sz fuel cd s = .ok s' →
      s'.llvmResolved cd = true ∧
      ∃ (tys : List LLType) (irs : IrStruct),
        s'.llvmType cd = TypeHolder.struct tys ∧ s'.irStruct cd = some irs ∧
        irs.recty = TypeHolder.struct tys) := by
  have hflag : ∀ (k : Nat) (t : IRState), t.llvmResolved cd = true →
      DtoResolveClass P sz k cd t = .ok t := by
    intro k t ht
    cases k with
    | zero => simp [DtoResolveClass, ht]
    | succ k => simp [DtoResolveClass, resolveBody, ht]
  refine ⟨DtoResolveClass_fuel P sz n D depth hclosed hacyc fuel cd s hcd hfuel,
    by rw [beginResolve_resolved]; exact upd_same _ _ _, hflag, ?_, ?_, ?_⟩
  · intro k d t t' ht h
    exact (Dsymbol_toObjFile_frame _ cd (DtoResolveClass_rel P sz k) d t t' h).owner ht
  · intro k v t hv ht
    unfold VarDeclaration.toObjFile
    rw [hv]
    simp only [hflag k t ht]
  · intro s' h
    cases fuel with
    | zero => simp [DtoResolveClass, hnew] at h
    | succ fuel =>
      unfold DtoResolveClass at h
      obtain ⟨_, hres, irs6, irf, r, data, irs, _, _, _, _, hirs, _, _, _, hty, hrec, _⟩ :=
        resolveBody_result P sz fuel _ cd (DtoResolveClass_rel P sz fuel) s s' hnew h
      exact ⟨hres, _, irs, hty, hirs, hrec⟩

theorem C10_self_reference_terminates_witness :
    DtoResolveClass sampleProgram sampleSize 6 1 initialState ≠ .error Fatal.outOfFuel ∧
    (beginResolve 1 initialState).llvmResolved 1 = true ∧
    (∀ (k : Nat) (t : IRState), t.llvmResolved 1 = true →
      DtoResolveClass sampleProgram sampleSize k 1 t = .ok t) ∧
    (∀ (k : Nat) (d : Dsymbol) (t t' : IRState), t.llvmResolved 1 = true →
      Dsymbol.toObjFile (DtoResolveClass sampleProgram sampleSize k) 1 d t = .ok t' →
      t'.llvmResolved 1 = true) ∧
    (∀ (k : Nat) (v : VarDeclaration) (t : IRState), v.classType = some 1 →
      t.llvmResolved 1 = true →
      VarDeclaration.toObjFile (DtoResolveClass sampleProgram sampleSize k) 1 v t
        = VarDeclaration.toObjFile (fun _ u => .ok u) 1 v t) ∧
    (∀ s', DtoResolveClass sampleProgram sampleSize 6 1 initialState = .ok s' →
      s'.llvmResolved 1 = true ∧
      ∃ (tys : List LLType) (irs : IrStruct),
        s'.llvmType 1 = TypeHolder.struct tys ∧ s'.irStruct 1 = some irs ∧
        irs.recty = TypeHolder.struct tys) :=
  C10_self_reference_terminates sampleProgram sampleSize 4 2 sampleDepth sampleProgram_closed
    sampleProgram_acyclic 6 1 initialState (by decide) (by decide) rfl

/-! ## The flags word and the field table of the descriptor -/

theorem baseChain_spec (P : Program) :
    ∀ (fuel : Nat) (cd : ClassId) (chain : List ClassId),
      baseChain P fuel cd = .ok chain → IsBaseChain P cd chain := by
  intro fuel
  induction fuel with
  | zero =>
    intro cd chain h
    simp [baseChain] at h
  | succ fuel ih =>
    intro cd chain h
    unfold baseChain at h
    split at h
    · rename_i hb
      simp only [Except.ok.injEq] at h
      subst h
      exact IsBaseChain.root hb
    · rename_i b hb
      split at h
      · exact Except.noConfusion h
      · rename_i cs hcs
        simp only [Except.ok.injEq] at h
        subst h
        exact IsBaseChain.step hb (ih b cs hcs)

/-- The chain walk ends with its result as soon as the budget covers the chain. -/
theorem baseChain_complete (P : Program) (cd : ClassId) (chain : List ClassId)
    (h : IsBaseChain P cd chain) :
    ∀ fuel, chain.length ≤ fuel → baseChain P fuel cd = .ok chain := by
  induction h with
  | root hb =>
    intro fuel hf
    cases fuel with
    | zero => simp at hf
    | succ fuel => simp [baseChain, hb]
  | step hb _ ih =>
    intro fuel hf
    cases fuel with
    | zero => simp at hf
    | succ fuel =>
      have := ih fuel (by simpa using hf)
      simp [baseChain, hb, this]

theorem flagsMembers_goto (ms : List Dsymbol) :
    ∀ h : Bool, (flagsMembers ms h).2 = true ↔ ∃ m ∈ ms, m.hasPointers = true := by
  induction ms with
  | nil => intro h; simp [flagsMembers]
  | cons m rest ih =>
    intro h
    unfold flagsMembers
    by_cases hp : m.hasPointers = true
    · simp [hp]
    · simp only [hp, Bool.false_eq_true, if_false]
      rw [ih]
      simp [hp]

theorem flagsChain_goto (P : Program) (cs : List ClassId) :
    ∀ h : Bool, (flagsChain P cs h).2 = true ↔ ∃ m ∈ chainMembers P cs, m.hasPointers = true := by
  induction cs with
  | nil => intro h; simp [flagsChain, chainMembers]
  | cons c rest ih =>
    intro h
    have hm := flagsMembers_goto (P.decl c).members h
    unfold flagsChain
    split
    · rename_i h1 heq
      have : (flagsMembers (P.decl c).members h).2 = true := by rw [heq]
      have := hm.mp this
      simp only [chainMembers, List.flatMap_cons, List.mem_append, true_iff]
      obtain ⟨m, hmem, hp⟩ := this
      exact ⟨m, Or.inl hmem, hp⟩
    · rename_i h1 heq
      have hno : ¬ ∃ m ∈ (P.decl c).members, m.hasPointers = true := by
        rw [← hm, heq]
        simp
      rw [ih]
      simp only [chainMembers, List.flatMap_cons, List.mem_append]
      constructor
      · rintro ⟨m, hmem, hp⟩
        exact ⟨m, Or.inr hmem, hp⟩
      · rintro ⟨m, hmem | hmem, hp⟩
        · exact absurd ⟨m, hmem, hp⟩ hno
        · exact ⟨m, hmem, hp⟩

theorem offtiMembers_eq (T : Target) (ms : List Dsymbol) :
    offtiMembers T ms = (ms.filterMap Dsymbol.asVar).map (build_offti_entry T) := by
  induction ms with
  | nil => simp [offtiMembers]
  | cons m rest ih =>
    cases m <;> simp [offtiMembers, Dsymbol.asVar, ih]

theorem offtiChain_eq (P : Program) (T : Target) (cs : List ClassId) :
    offtiChain P T cs = (chainFields P cs).map (build_offti_entry T) := by
  induction cs with
  | nil => simp [offtiChain, chainFields, chainMembers]
  | cons c rest ih =>
    simp only [offtiChain, ih, offtiMembers_eq, chainFields, chainMembers, List.flatMap_cons,
      List.filterMap_append, List.map_append]

theorem flagsMembers_seen (ms : List Dsymbol) :
    ∀ h : Bool, (flagsMembers ms h).2 = false →
      ((flagsMembers ms h).1 = true ↔ h = true ∨ ∃ m ∈ ms, m.isVarDeclaration = true) := by
  induction ms with
  | nil => intro h _; simp [flagsMembers]
  | cons m rest ih =>
    intro h hg
    unfold flagsMembers at hg ⊢
    by_cases hp : m.hasPointers = true
    · simp [hp] at hg
    · simp only [hp, Bool.false_eq_true, if_false] at hg ⊢
      rw [ih _ hg]
      by_cases hv : m.isVarDeclaration = true <;> simp [hv]

theorem flagsChain_seen (P : Program) (cs : List ClassId) :
    ∀ h : Bool, (flagsChain P cs h).2 = false →
      ((flagsChain P cs h).1 = true ↔
        h = true ∨ ∃ m ∈ chainMembers P cs, m.isVarDeclaration = true) := by
  induction cs with
  | nil => intro h _; simp [flagsChain, chainMembers]
  | cons c rest ih =>
    intro h hg
    unfold flagsChain at hg ⊢
    split at hg
    · simp at hg
    · rename_i h1 heq
      have hm := flagsMembers_seen (P.decl c).members h (by rw [heq])
      rw [heq] at hm
      rw [ih h1 hg, hm]
      simp only [chainMembers, List.flatMap_cons, List.mem_append]
      constructor
      · rintro ((hh | ⟨m, hmem, hv⟩) | ⟨m, hmem, hv⟩)
        · exact Or.inl hh
        · exact Or.inr ⟨m, Or.inl hmem, hv⟩
        · exact Or.inr ⟨m, Or.inr hmem, hv⟩
      · rintro (hh | ⟨m, hmem | hmem, hv⟩)
        · exact Or.inl (Or.inl hh)
        · exact Or.inl (Or.inr ⟨m, hmem, hv⟩)
        · exact Or.inr ⟨m, hmem, hv⟩

/-- The flags word in closed form: 8 for a constructor, 2 unless the scan met a
member reporting pointers, 4 if `hasOffTi` was set when the scan stopped. -/
theorem build_classinfo_flags_eq (P : Program) (fuel : Nat) (cd : ClassId)
    (chain : List ClassId) (hb : baseChain P fuel cd = .ok chain) :
    build_classinfo_flags P fuel cd
      = .ok ((if (P.decl cd).ctor = true then 8 else 0)
          + (if (flagsChain P chain false).2 = true then 0 else 2)
          + (if (flagsChain P chain false).1 = true then 4 else 0)) := by
  unfold build_classinfo_flags
  rw [hb]
  dsimp only
  generalize flagsChain P chain false = r
  obtain ⟨a, b⟩ := r
  cases (P.decl cd).ctor <;> cases a <;> cases b <;> rfl

/-- C18: the flags word of `build_classinfo_flags` (the flags slot of the descriptor
of a concrete class) has the bit of value 8 set iff the class declares a
constructor, the bit of value 2 set iff no member of the class or of a class of its
base chain reports pointers, and no bit besides 2, 4 and 8. -/
theorem C18_flags_word (P : Program) (fuel : Nat) (cd : ClassId) (chain : List ClassId)
    (hchain : IsBaseChain P cd chain) (hfuel : chain.length ≤ fuel) :
    ∃ flags, build_classinfo_flags P fuel cd = .ok flags ∧
      (isConcrete P cd = true → classInfoFlags P fuel cd = .ok (Const.uint flags)) ∧
      (flags &&& 8 = 8 ↔ (P.decl cd).ctor = true) ∧
      (flags &&& 2 = 2 ↔ ∀ m ∈ chainMembers P chain, m.hasPointers = false) ∧
      flags &&& 14 = flags := by
  have hb := baseChain_complete P cd chain hchain fuel hfuel
  have hflags := build_classinfo_flags_eq P fuel cd chain hb
  have hg := flagsChain_goto P chain false
  refine ⟨_, hflags, ?_, ?_, ?_, ?_⟩
  · intro hc
    simp only [classInfoFlags, hc, hflags, if_true]
  · generalize flagsChain P chain false = r
    obtain ⟨a, b⟩ := r
    cases (P.decl cd).ctor <;> cases a <;> cases b <;> decide
  · have hno : (∀ m ∈ chainMembers P chain, m.hasPointers = false) ↔
        (flagsChain P chain false).2 = false := by
      constructor
      · intro hall
        cases h2 : (flagsChain P chain false).2 with
        | false => rfl
        | true =>
          obtain ⟨m, hm, hp⟩ := hg.mp h2
          rw [hall m hm] at hp
          exact absurd hp (by simp)
      · intro h2 m hm
        cases hp : m.hasPointers with
        | false => rfl
        | true =>
          have := hg.mpr ⟨m, hm, hp⟩
          rw [h2] at this
          exact absurd this (by simp)
    rw [hno]
    generalize flagsChain P chain false = r
    obtain ⟨a, b⟩ := r
    cases (P.decl cd).ctor <;> cases a <;> cases b <;> decide
  · generalize flagsChain P chain false = r
    obtain ⟨a, b⟩ := r
    cases (P.decl cd).ctor <;> cases a <;> cases b <;> decide

theorem flagsProgram_chain : IsBaseChain flagsProgram 1 [1, 0] :=
  IsBaseChain.step (by rfl) (IsBaseChain.root (by rfl))

theorem C18_flags_word_witness :
    ∃ flags, build_classinfo_flags flagsProgram 2 1 = .ok flags ∧
      (isConcrete flagsProgram 1 = true →
        classInfoFlags flagsProgram 2 1 = .ok (Const.uint flags)) ∧
      (flags &&& 8 = 8 ↔ (flagsProgram.decl 1).ctor = true) ∧
      (flags &&& 2 = 2 ↔ ∀ m ∈ chainMembers flagsProgram [1, 0], m.hasPointers = false) ∧
      flags &&& 14 = flags :=
  C18_flags_word flagsProgram 2 1 [1, 0] flagsProgram_chain (by decide)

theorem flagsMembers_sound (ms : List Dsymbol) :
    ∀ h : Bool, (flagsMembers ms h).1 = true →
      h = true ∨ ∃ m ∈ ms, m.isVarDeclaration = true := by
  induction ms with
  | nil => intro h hh; exact Or.inl (by simpa [flagsMembers] using hh)
  | cons m rest ih =>
    intro h hh
    unfold flagsMembers at hh
    by_cases hv : m.isVarDeclaration = true
    · exact Or.inr ⟨m, List.mem_cons_self _ _, hv⟩
    · simp only [hv, Bool.false_eq_true, if_false] at hh
      split at hh
      · exact Or.inl hh
      · rcases ih h hh with h1 | ⟨x, hx, hxv⟩
        · exact Or.inl h1
        · exact Or.inr ⟨x, List.mem_cons_of_mem _ hx, hxv⟩

theorem flagsChain_sound (P : Program) (cs : List ClassId) :
    ∀ h : Bool, (flagsChain P cs h).1 = true →
      h = true ∨ ∃ m ∈ chainMembers P cs, m.isVarDeclaration = true := by
  induction cs with
  | nil => intro h hh; exact Or.inl (by simpa [flagsChain] using hh)
  | cons c rest ih =>
    intro h hh
    have hm := flagsMembers_sound (P.decl c).members h
    unfold flagsChain at hh
    simp only [chainMembers, List.flatMap_cons, List.mem_append]
    split at hh
    · rename_i h1 heq
      rw [heq] at hm
      rcases hm hh with h0 | ⟨x, hx, hxv⟩
      · exact Or.inl h0
      · exact Or.inr ⟨x, Or.inl hx, hxv⟩
    · rename_i h1 heq
      rw [heq] at hm
      rcases ih h1 hh with h0 | ⟨x, hx, hxv⟩
      · rcases hm h0 with h00 | ⟨x, hx, hxv⟩
        · exact Or.inl h00
        · exact Or.inr ⟨x, Or.inl hx, hxv⟩
      · exact Or.inr ⟨x, Or.inr hx, hxv⟩

/-- The bit of value 4 is only ever set for a chain with a field among its members. -/
theorem flag4_sound (P : Program) (fuel : Nat) (cd : ClassId) (chain : List ClassId)
    (hb : baseChain P fuel cd = .ok chain) (flags : Nat)
    (hf : build_classinfo_flags P fuel cd = .ok flags) (h4 : flags &&& 4 = 4) :
    ∃ m ∈ chainMembers P chain, m.isVarDeclaration = true := by
  rw [build_classinfo_flags_eq P fuel cd chain hb] at hf
  simp only [Except.ok.injEq] at hf
  subst hf
  have hs := flagsChain_sound P chain false
  cases h1 : (flagsChain P chain false).1 with
  | true =>
    rcases hs h1 with h0 | hex
    · exact absurd h0 (by simp)
    · exact hex
  | false =>
    rw [h1] at h4
    exfalso
    revert h4
    cases (P.decl cd).ctor <;> cases (flagsChain P chain false).2 <;> decide

/-- When the scan is not cut short (no member reports pointers), the bit of value 4
is set as soon as some member of the chain is a field. -/
theorem flag4_complete (P : Program) (fuel : Nat) (cd : ClassId) (chain : List ClassId)
    (hb : baseChain P fuel cd = .ok chain)
    (hno : ∀ m ∈ chainMembers P chain, m.hasPointers = false)
    (hex : ∃ m ∈ chainMembers P chain, m.isVarDeclaration = true) :
    ∃ flags, build_classinfo_flags P fuel cd = .ok flags ∧ flags &&& 4 = 4 := by
  refine ⟨_, build_classinfo_flags_eq P fuel cd chain hb, ?_⟩
  have h2 : (flagsChain P chain false).2 = false := by
    cases h : (flagsChain P chain false).2 with
    | false => rfl
    | true =>
      obtain ⟨m, hm, hp⟩ := (flagsChain_goto P chain false).mp h
      rw [hno m hm] at hp
      exact absurd hp (by simp)
  have h1 : (flagsChain P chain false).1 = true :=
    (flagsChain_seen P chain false h2).mpr (Or.inr hex)
  rw [h1, h2]
  cases (P.decl cd).ctor <;> decide

/-- C19: evaluation of `build_classinfo_flags` and `build_offti_array` on class 0 of
`flagsProgram`, whose first member is a declaration block reporting pointers and
whose second member is the field `x`: the scan of the flags leaves at the first
member with `hasOffTi` still unset, so the bit of value 4 is clear, although a
member of the class is a field and the field table built for the class has one row. -/
theorem C19_flag4_stops_at_pointer_member :
    build_classinfo_flags flagsProgram 1 0 = .ok 0 ∧
    (0 : Nat) &&& 4 ≠ 4 ∧
    Dsymbol.var fieldX ∈ chainMembers flagsProgram [0] ∧
    baseChain flagsProgram 1 0 = .ok [0] ∧
    (build_offti_array flagsProgram sampleTarget 1 0 initialState).map Prod.fst
      = .ok (Const.slice 1 (some (GlobalName.offsetTypeInfos 0))) := by
  refine ⟨by rfl, by decide, by decide, by rfl, by rfl⟩

/-- C20: `build_offti_array` builds one row per member that is a field, over the
class and the classes of its base chain, in scan order; the slice handed to the
descriptor carries the number of rows, and its pointer is null iff there is no such
field; otherwise it points at the internal global initialized with the rows. -/
theorem C20_offti_table (P : Program) (T : Target) (fuel : Nat) (cd : ClassId) (s : IRState)
    (chain : List ClassId) (hchain : IsBaseChain P cd chain) (hfuel : chain.length ≤ fuel) :
    ∃ (ptr : Option GlobalName) (s' : IRState),
      build_offti_array P T fuel cd s
        = .ok (Const.slice (chainFields P chain).length ptr, s') ∧
      (isConcrete P cd = true →
        classInfoOffTi P T fuel cd s
          = .ok (Const.slice (chainFields P chain).length ptr, s')) ∧
      (ptr = none ↔ chainFields P chain = []) ∧
      (ptr = none → s' = s) ∧
      (∀ g, ptr = some g →
        s'.initializers = s.initializers
          ++ [(g, some (Initializer.array ((chainFields P chain).map (build_offti_entry T))))] ∧
        ((chainFields P chain).map (build_offti_entry T)).length
          = (chainFields P chain).length) := by
  have hb := baseChain_complete P cd chain hchain fuel hfuel
  have hlen : (offtiChain P T chain).length = (chainFields P chain).length := by
    rw [offtiChain_eq, List.length_map]
  by_cases hpos : (offtiChain P T chain).length > 0
  · have hbuild : build_offti_array P T fuel cd s
        = .ok (Const.slice (chainFields P chain).length (some (GlobalName.offsetTypeInfos cd)),
            { s with globals := s.globals ++ [GlobalName.offsetTypeInfos cd],
                     initializers := s.initializers ++ [(GlobalName.offsetTypeInfos cd,
                       some (Initializer.array (offtiChain P T chain)))] }) := by
      unfold build_offti_array
      rw [hb]
      have hpos2 : (chainFields P chain).length > 0 := hlen ▸ hpos
      simp only [hlen, hpos2, if_true]
    refine ⟨_, _, hbuild, ?_, ?_, ?_, ?_⟩
    · intro hc
      simp only [classInfoOffTi, hc, if_true, hbuild]
    · constructor
      · intro h
        exact absurd h (by simp)
      · intro h
        rw [hlen, h] at hpos
        exact absurd hpos (by simp)
    · intro h
      exact absurd h (by simp)
    · intro g hg
      simp only [Option.some.injEq] at hg
      subst hg
      rw [offtiChain_eq]
      exact ⟨rfl, List.length_map _ _⟩
  · have hzero : (offtiChain P T chain).length = 0 := by omega
    have hbuild : build_offti_array P T fuel cd s
        = .ok (Const.slice (chainFields P chain).length none, s) := by
      unfold build_offti_array
      rw [hb]
      have hpos2 : ¬ (chainFields P chain).length > 0 := hlen ▸ hpos
      simp only [hlen, hpos2, if_false]
    refine ⟨_, _, hbuild, ?_, ?_, ?_, ?_⟩
    · intro hc
      simp only [classInfoOffTi, hc, if_true, hbuild]
    · constructor
      · intro _
        rw [hlen] at hzero
        exact List.length_eq_zero.mp hzero
      · intro _
        rfl
    · intro _
      rfl
    · intro g hg
      exact absurd hg (by simp)

theorem C20_offti_table_witness :
    ∃ (ptr : Option GlobalName) (s' : IRState),
      build_offti_array flagsProgram sampleTarget 2 1 initialState
        = .ok (Const.slice (chainFields flagsProgram [1, 0]).length ptr, s') ∧
      (isConcrete flagsProgram 1 = true →
        classInfoOffTi flagsProgram sampleTarget 2 1 initialState
          = .ok (Const.slice (chainFields flagsProgram [1, 0]).length ptr, s')) ∧
      (ptr = none ↔ chainFields flagsProgram [1, 0] = []) ∧
      (ptr = none → s' = initialState) ∧
      (∀ g, ptr = some g →
        s'.initializers = initialState.initializers
          ++ [(g, some (Initializer.array
                ((chainFields flagsProgram [1, 0]).map (build_offti_entry sampleTarget))))] ∧
        ((chainFields flagsProgram [1, 0]).map (build_offti_entry sampleTarget)).length
          = (chainFields flagsProgram [1, 0]).length) :=
  C20_offti_table flagsProgram sampleTarget 2 1 initialState [1, 0]
    (IsBaseChain.step (by rfl) (IsBaseChain.root (by rfl))) (by decide)

/-! ## The base link of the descriptor -/

theorem build_offti_array_irStruct (P : Program) (T : Target) (fuel : Nat) (cd : ClassId)
    (s s' : IRState) (c : Const) (h : build_offti_array P T fuel cd s = .ok (c, s')) :
    s'.irStruct = s.irStruct := by
  unfold build_offti_array at h
  split at h
  · exact Except.noConfusion h
  · dsimp only at h
    split at h
    · simp only [Except.ok.injEq, Prod.mk.injEq] at h
      obtain ⟨_, h⟩ := h
      subst h
      rfl
    · simp only [Except.ok.injEq, Prod.mk.injEq] at h
      obtain ⟨_, h⟩ := h
      subst h
      rfl

theorem classInfoOffTi_irStruct (P : Program) (T : Target) (fuel : Nat) (cd : ClassId)
    (s s' : IRState) (c : Const) (h : classInfoOffTi P T fuel cd s = .ok (c, s')) :
    s'.irStruct = s.irStruct := by
  unfold classInfoOffTi at h
  split at h
  · exact build_offti_array_irStruct P T fuel cd s s' c h
  · simp only [Except.ok.injEq, Prod.mk.injEq] at h
    obtain ⟨_, h⟩ := h
    subst h
    rfl

/-- What `baseClassInfo` returns: the descriptor global recorded for the base class
when the class is concrete and has one, the placeholder otherwise. -/
theorem baseClassInfo_spec (P : Program) (sz : LLType → Nat) (fuel : Nat) (cd : ClassId)
    (s s' : IRState) (c : Const) (h : baseClassInfo P sz fuel cd s = .ok (c, s')) :
    (∀ b, (P.decl cd).baseClass = some b → isConcrete P cd = true →
      ∃ g, descriptorOf s' b = some g ∧ c = Const.global g) ∧
    ((P.decl cd).baseClass = none ∨ isConcrete P cd = false → c = Const.cinfoOperand 6) := by
  unfold baseClassInfo at h
  split at h
  · rename_i b hb
    split at h
    · rename_i hconc
      split at h
      · exact Except.noConfusion h
      · rename_i s1 h1
        split at h
        · exact Except.noConfusion h
        · rename_i birs hbirs
          split at h
          · exact Except.noConfusion h
          · rename_i g hg
            simp only [Except.ok.injEq, Prod.mk.injEq] at h
            obtain ⟨hc, hs⟩ := h
            subst hc
            subst hs
            refine ⟨?_, ?_⟩
            · intro b' hb' _
              rw [hb] at hb'
              simp only [Option.some.injEq] at hb'
              subst hb'
              exact ⟨g, by simp [descriptorOf, hbirs, hg], rfl⟩
            · rintro (h0 | h0)
              · rw [hb] at h0
                exact Option.noConfusion h0
              · rw [hconc] at h0
                exact absurd h0 (by simp)
    · rename_i hconc
      simp only [Except.ok.injEq, Prod.mk.injEq] at h
      obtain ⟨hc, hs⟩ := h
      subst hc
      subst hs
      exact ⟨fun b' _ hcc => absurd hcc hconc, fun _ => rfl⟩
  · rename_i hb
    simp only [Except.ok.injEq, Prod.mk.injEq] at h
    obtain ⟨hc, hs⟩ := h
    subst hc
    subst hs
    refine ⟨fun b' hb' _ => ?_, fun _ => rfl⟩
    rw [hb] at hb'
    exact Option.noConfusion hb'

theorem classInfoInits_base (P : Program) (sz : LLType → Nat) (T : Target) (fuel : Nat)
    (cd : ClassId) (s1 s3 : IRState) (inits : List Const)
    (h : classInfoInits P sz T fuel cd s1 = .ok (inits, s3)) :
    inits.length = 13 ∧
    (∀ b, (P.decl cd).baseClass = some b → isConcrete P cd = true →
      ∃ g, descriptorOf s3 b = some g ∧ inits.get? 6 = some (Const.global g)) ∧
    ((P.decl cd).baseClass = none ∨ isConcrete P cd = false →
      inits.get? 6 = some (Const.cinfoOperand 6)) := by
  unfold classInfoInits at h
  split at h
  · exact Except.noConfusion h
  dsimp only at h
  split at h
  · exact Except.noConfusion h
  rename_i c6 s2 h2
  obtain ⟨hb1, hb2⟩ := baseClassInfo_spec P sz fuel cd s1 s2 c6 h2
  split at h
  · exact Except.noConfusion h
  split at h
  · exact Except.noConfusion h
  rename_i c11 s3x h4
  have hir := classInfoOffTi_irStruct P T fuel cd s2 s3x c11 h4
  simp only [Except.ok.injEq, Prod.mk.injEq] at h
  obtain ⟨hi, hs⟩ := h
  subst hi
  subst hs
  refine ⟨rfl, ?_, ?_⟩
  · intro b hb hc
    obtain ⟨g, hg, hc6⟩ := hb1 b hb hc
    refine ⟨g, ?_, ?_⟩
    · unfold descriptorOf at hg ⊢
      rw [hir]
      exact hg
    · rw [hc6]
      rfl
  · intro hor
    rw [hb2 hor]
    rfl

theorem storeClassInfo_spec (cd : ClassId) (inits : List Const) (s3 s' : IRState)
    (h : storeClassInfo cd inits s3 = .ok s') :
    (∀ x, descriptorOf s' x = descriptorOf s3 x) ∧
    (s'.irStruct cd).bind (fun irs => irs.constClassInfo) = some inits := by
  unfold storeClassInfo at h
  split at h
  · exact Except.noConfusion h
  rename_i irs3 hirs3
  split at h
  · exact Except.noConfusion h
  rename_i g hg
  simp only [Except.ok.injEq] at h
  subst h
  refine ⟨?_, ?_⟩
  · intro x
    unfold descriptorOf
    by_cases hx : x = cd
    · subst hx
      simp [upd_same, hirs3]
    · simp [upd_ne _ _ _ _ hx]
  · simp [upd_same]

/-- One run of `DtoDefineClassInfo` on a class not yet defined: the descriptor
constant has thirteen slots, and slot 6 is the descriptor global of the base class
when the class is concrete and has a base class, the placeholder otherwise. -/
theorem DtoDefineClassInfo_base (P : Program) (sz : LLType → Nat) (T : Target) (fuel : Nat)
    (cd : ClassId) (s s' : IRState) (hnd : NotDefined s cd)
    (h : DtoDefineClassInfo P sz T fuel cd s = .ok s') :
    (∀ b, (P.decl cd).baseClass = some b → isConcrete P cd = true →
      ∃ g, descriptorOf s' b = some g ∧ baseSlot s' cd = some (Const.global g)) ∧
    ((P.decl cd).baseClass = none ∨ isConcrete P cd = false →
      baseSlot s' cd = some (Const.cinfoOperand 6)) := by
  unfold DtoDefineClassInfo at h
  unfold NotDefined at hnd
  split at h
  · exact Except.noConfusion h
  rename_i irs0 hirs0
  rw [hirs0] at hnd
  simp only [Option.map_some', Option.some.injEq] at hnd
  dsimp only at h
  rw [if_neg (by rw [hnd]; simp)] at h
  split at h
  · exact Except.noConfusion h
  split at h
  · exact Except.noConfusion h
  split at h
  · exact Except.noConfusion h
  split at h
  · exact Except.noConfusion h
  split at h
  · exact Except.noConfusion h
  rename_i inits s3 h3
  obtain ⟨_, hb1, hb2⟩ := classInfoInits_base P sz T fuel cd _ s3 inits h3
  obtain ⟨hd, hc⟩ := storeClassInfo_spec cd inits s3 s' h
  refine ⟨?_, ?_⟩
  · intro b hb hconc
    obtain ⟨g, hg, h6⟩ := hb1 b hb hconc
    refine ⟨g, by rw [hd]; exact hg, ?_⟩
    unfold baseSlot
    rw [hc]
    exact h6
  · intro hor
    unfold baseSlot
    rw [hc]
    exact hb2 hor

/-- C17 (as stated, refuted): in the hierarchy `A <- D <- E` of `hierarchyProgram`
(classes 1, 4, 5) the middle class `D` is abstract, and the descriptor built for it
by `DtoDefineClassInfo` carries the placeholder in its base slot, not the
descriptor of `A`. -/
theorem C17_abstract_class_base_is_placeholder :
    ¬ (∀ (a b c : ClassId) (s s' : IRState),
        (hierarchyProgram.decl a).baseClass = none →
        (hierarchyProgram.decl b).baseClass = some a →
        (hierarchyProgram.decl c).baseClass = some b →
        NotDefined s b →
        DtoDefineClassInfo hierarchyProgram sampleSize sampleTarget 6 b s = .ok s' →
        ∃ g, descriptorOf s' a = some g ∧ baseSlot s' b = some (Const.global g)) := by
  intro hall
  obtain ⟨g, _, hg⟩ := hall 1 4 5 (hierarchyReady 4)
    (resultState (DtoDefineClassInfo hierarchyProgram sampleSize sampleTarget 6 4
      (hierarchyReady 4))) rfl rfl rfl rfl rfl
  have hslot : baseSlot (resultState (DtoDefineClassInfo hierarchyProgram sampleSize
      sampleTarget 6 4 (hierarchyReady 4))) 4 = some (Const.cinfoOperand 6) := rfl
  rw [hslot] at hg
  exact absurd hg (by simp)

/-- C17 (amended): for a hierarchy `A <- B <- C` in which `A` has no base class and
`B` and `C` are concrete, the descriptor constants built by `DtoDefineClassInfo`
carry in slot 6 the descriptor global of `B` (for `C`), the descriptor global of `A`
(for `B`) and the placeholder of the generic descriptor (for `A`). -/
theorem C17_descriptor_base_chain (P : Program) (sz : LLType → Nat) (T : Target) (fuel : Nat)
    (a b c : ClassId) (hA : (P.decl a).baseClass = none) (hB : (P.decl b).baseClass = some a)
    (hC : (P.decl c).baseClass = some b) (hcb : isConcrete P b = true)
    (hcc : isConcrete P c = true) (sa sa' sb sb' sc sc' : IRState)
    (hna : NotDefined sa a) (hnb : NotDefined sb b) (hnc : NotDefined sc c)
    (ha : DtoDefineClassInfo P sz T fuel a sa = .ok sa')
    (hb : DtoDefineClassInfo P sz T fuel b sb = .ok sb')
    (hc : DtoDefineClassInfo P sz T fuel c sc = .ok sc') :
    (∃ g, descriptorOf sc' b = some g ∧ baseSlot sc' c = some (Const.global g)) ∧
    (∃ g, descriptorOf sb' a = some g ∧ baseSlot sb' b = some (Const.global g)) ∧
    baseSlot sa' a = some (Const.cinfoOperand 6) :=
  ⟨(DtoDefineClassInfo_base P sz T fuel c sc sc' hnc hc).1 b hC hcc,
   (DtoDefineClassInfo_base P sz T fuel b sb sb' hnb hb).1 a hB hcb,
   (DtoDefineClassInfo_base P sz T fuel a sa sa' hna ha).2 (Or.inl hA)⟩

theorem C17_descriptor_base_chain_witness :
    (∃ g, descriptorOf (resultState (DtoDefineClassInfo hierarchyProgram sampleSize
        sampleTarget 6 3 (hierarchyReady 3))) 2 = some g ∧
      baseSlot (resultState (DtoDefineClassInfo hierarchyProgram sampleSize
        sampleTarget 6 3 (hierarchyReady 3))) 3 = some (Const.global g)) ∧
    (∃ g, descriptorOf (resultState (DtoDefineClassInfo hierarchyProgram sampleSize
        sampleTarget 6 2 (hierarchyReady 2))) 1 = some g ∧
      baseSlot (resultState (DtoDefineClassInfo hierarchyProgram sampleSize
        sampleTarget 6 2 (hierarchyReady 2))) 2 = some (Const.global g)) ∧
    baseSlot (resultState (DtoDefineClassInfo hierarchyProgram sampleSize
        sampleTarget 6 1 (hierarchyReady 1))) 1 = some (Const.cinfoOperand 6) :=
  C17_descriptor_base_chain hierarchyProgram sampleSize sampleTarget 6 1 2 3 rfl rfl rfl rfl rfl
    (hierarchyReady 1) _ (hierarchyReady 2) _ (hierarchyReady 3) _ rfl rfl rfl rfl rfl rfl

/-! ## Cast dispatch -/

theorem dynamicCastCall_code (P : Program) (F : Frontend) (fn : Callee) (val : DValue)
    (tc : ClassId) (g : GlobalName) (e : Emit) :
    (dynamicCastCall P F fn val tc g e).2.code
      = e.code ++ runtimeCastCode P F fn val tc g e.code.length ∧
    (dynamicCastCall P F fn val tc g e).2.ir = e.ir ∧
    (dynamicCastCall P F fn val tc g e).1
      = { type := DType.classType tc,
          rval := Value.reg (e.code.length + 3) (DtoType F (DType.classType tc)) } := by
  simp [dynamicCastCall, DtoBitCast, emit, runtimeCastCode]

theorem castTarget_descriptor (P : Program) (F : Frontend) (sz : LLType → Nat) (fuel : Nat)
    (tc : ClassId) (s s3 : IRState) (line : Nat) (g : GlobalName)
    (h : castTarget P F sz fuel tc s line = .ok (g, s3)) : descriptorOf s3 tc = some g := by
  unfold castTarget at h
  split at h
  · exact Except.noConfusion h
  split at h
  · exact Except.noConfusion h
  split at h
  · exact Except.noConfusion h
  rename_i s3x _
  split at h
  · exact Except.noConfusion h
  rename_i irs hirs
  split at h
  · exact Except.noConfusion h
  rename_i g1 hg1
  simp only [Except.ok.injEq, Prod.mk.injEq] at h
  obtain ⟨hg, hs⟩ := h
  subst hg
  subst hs
  simp [descriptorOf, hirs, hg1]

theorem DtoDynamicCastObject_code (P : Program) (F : Frontend) (sz : LLType → Nat) (fuel : Nat)
    (val : DValue) (tc : ClassId) (e : Emit) (r : DValue) (e' : Emit)
    (h : DtoDynamicCastObject P F sz fuel val tc e = .ok (r, e')) :
    ∃ g, descriptorOf e'.ir tc = some g ∧
      e'.code = e.code ++ runtimeCastCode P F Callee.d_dynamic_cast val tc g e.code.length ∧
      r = { type := DType.classType tc,
            rval := Value.reg (e.code.length + 3) (DtoType F (DType.classType tc)) } := by
  unfold DtoDynamicCastObject at h
  split at h
  · exact Except.noConfusion h
  rename_i g s3 hct
  simp only [Except.ok.injEq] at h
  obtain ⟨hc, hi, hr⟩ := dynamicCastCall_code P F Callee.d_dynamic_cast val tc g
    { e with ir := s3 }
  rw [h] at hc hi hr
  exact ⟨g, by rw [hi]; exact castTarget_descriptor P F sz fuel tc _ _ _ _ hct, hc, hr⟩

theorem DtoDynamicCastInterface_code (P : Program) (F : Frontend) (sz : LLType → Nat)
    (fuel : Nat) (val : DValue) (tc : ClassId) (e : Emit) (r : DValue) (e' : Emit)
    (h : DtoDynamicCastInterface P F sz fuel val tc e = .ok (r, e')) :
    ∃ g, descriptorOf e'.ir tc = some g ∧
      e'.code = e.code ++ runtimeCastCode P F Callee.d_interface_cast val tc g e.code.length ∧
      r = { type := DType.classType tc,
            rval := Value.reg (e.code.length + 3) (DtoType F (DType.classType tc)) } := by
  unfold DtoDynamicCastInterface at h
  split at h
  · exact Except.noConfusion h
  rename_i g s3 hct
  simp only [Except.ok.injEq] at h
  obtain ⟨hc, hi, hr⟩ := dynamicCastCall_code P F Callee.d_interface_cast val tc g
    { e with ir := s3 }
  rw [h] at hc hi hr
  exact ⟨g, by rw [hi]; exact castTarget_descriptor P F sz fuel tc _ _ _ _ hct, hc, hr⟩

theorem DtoCastInterfaceToObject_code (F : Frontend) (val : DValue) (tc : ClassId) (e : Emit) :
    (DtoCastInterfaceToObject F val tc e).2.code
      = e.code ++ toObjectCode F val tc e.code.length ∧
    (DtoCastInterfaceToObject F val tc e).2.ir = e.ir ∧
    (DtoCastInterfaceToObject F val tc e).1
      = { type := DType.classType tc,
          rval := Value.reg (e.code.length + 2) (DtoType F (DType.classType tc)) } := by
  simp [DtoCastInterfaceToObject, DtoBitCast, emit, toObjectCode]

theorem callsOf_runtimeCastCode (P : Program) (F : Frontend) (fn : Callee) (val : DValue)
    (tc : ClassId) (g : GlobalName) (n : Nat) :
    callsOf (runtimeCastCode P F fn val tc g n) = [fn] := by
  simp [callsOf, runtimeCastCode]

theorem callsOf_toObjectCode (F : Frontend) (val : DValue) (tc : ClassId) (n : Nat) :
    callsOf (toObjectCode F val tc n) = [Callee.d_toObject] := by
  simp [callsOf, toObjectCode]

theorem drop_emitted (a b : List Instr) : (a ++ b).drop a.length = b := by
  simp

/-- C11: `DtoCastClass` picks its lowering by the kinds of source and target. A
pointer target, and an object-to-object cast whose target class is a base of the
source class, are a single reinterpretation without a call; an object source with
any other class target goes through `_d_dynamic_cast`; an interface source goes
through `_d_toObject` to an object target and through `_d_interface_cast` to an
interface target. Each runtime lowering emits exactly one call, and a result for a
class-typed target without a call occurs only in the base-of case. -/
theorem C11_cast_dispatch (P : Program) (F : Frontend) (sz : LLType → Nat) (fuel : Nat)
    (val : DValue) (_to : DType) (e : Emit) :
    (∀ k, _to = DType.pointer k →
      DtoCastClass P F sz fuel val _to e = .ok (reinterpretResult F val _to e)) ∧
    (∀ tc fc, _to = DType.classType tc → val.type = DType.classType fc →
      ((P.decl tc).isInterfaceDeclaration = false → (P.decl fc).isInterfaceDeclaration = false →
        F.isBaseOf tc fc = true →
        DtoCastClass P F sz fuel val _to e = .ok (reinterpretResult F val _to e)) ∧
      ((P.decl fc).isInterfaceDeclaration = false →
        (P.decl tc).isInterfaceDeclaration = true ∨ F.isBaseOf tc fc = false →
        DtoCastClass P F sz fuel val _to e = DtoDynamicCastObject P F sz fuel val tc e) ∧
      ((P.decl fc).isInterfaceDeclaration = true → (P.decl tc).isInterfaceDeclaration = false →
        DtoCastClass P F sz fuel val _to e = .ok (DtoCastInterfaceToObject F val tc e)) ∧
      ((P.decl fc).isInterfaceDeclaration = true → (P.decl tc).isInterfaceDeclaration = true →
        DtoCastClass P F sz fuel val _to e = DtoDynamicCastInterface P F sz fuel val tc e)) ∧
    callsOf ((reinterpretResult F val _to e).2.code.drop e.code.length) = [] ∧
    (∀ tc r e', DtoDynamicCastObject P F sz fuel val tc e = .ok (r, e') →
      callsOf (e'.code.drop e.code.length) = [Callee.d_dynamic_cast]) ∧
    (∀ tc, callsOf ((DtoCastInterfaceToObject F val tc e).2.code.drop e.code.length)
      = [Callee.d_toObject]) ∧
    (∀ tc r e', DtoDynamicCastInterface P F sz fuel val tc e = .ok (r, e') →
      callsOf (e'.code.drop e.code.length) = [Callee.d_interface_cast]) ∧
    (∀ tc r e', _to = DType.classType tc → DtoCastClass P F sz fuel val _to e = .ok (r, e') →
      callsOf (e'.code.drop e.code.length) = [] →
      ∃ fc, val.type = DType.classType fc ∧ (P.decl tc).isInterfaceDeclaration = false ∧
        (P.decl fc).isInterfaceDeclaration = false ∧ F.isBaseOf tc fc = true) := by
  have hobj : ∀ tc r e', DtoDynamicCastObject P F sz fuel val tc e = .ok (r, e') →
      callsOf (e'.code.drop e.code.length) = [Callee.d_dynamic_cast] := by
    intro tc r e' h
    obtain ⟨g, _, hc, _⟩ := DtoDynamicCastObject_code P F sz fuel val tc e r e' h
    rw [hc, drop_emitted, callsOf_runtimeCastCode]
  have hif : ∀ tc r e', DtoDynamicCastInterface P F sz fuel val tc e = .ok (r, e') →
      callsOf (e'.code.drop e.code.length) = [Callee.d_interface_cast] := by
    intro tc r e' h
    obtain ⟨g, _, hc, _⟩ := DtoDynamicCastInterface_code P F sz fuel val tc e r e' h
    rw [hc, drop_emitted, callsOf_runtimeCastCode]
  have hto : ∀ tc, callsOf ((DtoCastInterfaceToObject F val tc e).2.code.drop e.code.length)
      = [Callee.d_toObject] := by
    intro tc
    rw [(DtoCastInterfaceToObject_code F val tc e).1, drop_emitted, callsOf_toObjectCode]
  refine ⟨?_, ?_, ?_, hobj, hto, hif, ?_⟩
  · intro k hk
    subst hk
    simp [DtoCastClass, reinterpretResult, DtoBitCast, emit]
  · intro tc fc hto2 hfrom
    subst hto2
    refine ⟨?_, ?_, ?_, ?_⟩
    · intro h1 h2 h3
      simp [DtoCastClass, hfrom, h1, h2, h3, reinterpretResult, DtoBitCast, emit]
    · intro h2 h13
      rcases h13 with h1 | h3
      · simp [DtoCastClass, hfrom, h1, h2]
      · cases h1 : (P.decl tc).isInterfaceDeclaration <;>
          simp [DtoCastClass, hfrom, h1, h2, h3]
    · intro h2 h1
      simp [DtoCastClass, hfrom, h1, h2]
    · intro h2 h1
      simp [DtoCastClass, hfrom, h1, h2]
  · simp [reinterpretResult, callsOf]
  · intro tc r e' hto2 h hcalls
    subst hto2
    unfold DtoCastClass at h
    dsimp only at h
    split at h
    · rename_i fc hfrom
      refine ⟨fc, hfrom, ?_⟩
      split at h
      · split at h
        · rw [hif tc r e' h] at hcalls
          exact absurd hcalls (by simp)
        · rw [hobj tc r e' h] at hcalls
          exact absurd hcalls (by simp)
      · rename_i h1
        split at h
        · simp only [Except.ok.injEq] at h
          have := hto tc
          rw [h] at this
          rw [this] at hcalls
          exact absurd hcalls (by simp)
        · rename_i h2
          split at h
          · rename_i h3
            simp only [Bool.and_eq_true, Bool.not_eq_true'] at h3
            exact ⟨h3.1, by simpa using h2, h3.2⟩
          · rw [hobj tc r e' h] at hcalls
            exact absurd hcalls (by simp)
    · exact Except.noConfusion h

theorem C11_cast_dispatch_witness :
    DtoCastClass hierarchyProgram sampleFrontend sampleSize 6 (objectValue 2) (DType.classType 3)
        emptyEmit
      = DtoDynamicCastObject hierarchyProgram sampleFrontend sampleSize 6 (objectValue 2) 3
          emptyEmit ∧
    callsOf ((lowered (objectValue 2, emptyEmit)
        (DtoDynamicCastObject hierarchyProgram sampleFrontend sampleSize 6 (objectValue 2) 3
          emptyEmit)).2.code.drop emptyEmit.code.length) = [Callee.d_dynamic_cast] ∧
    DtoCastClass hierarchyProgram sampleFrontend sampleSize 6 (objectValue 3) (DType.classType 2)
        emptyEmit
      = .ok (reinterpretResult sampleFrontend (objectValue 3) (DType.classType 2) emptyEmit) :=
  ⟨((C11_cast_dispatch hierarchyProgram sampleFrontend sampleSize 6 (objectValue 2)
      (DType.classType 3) emptyEmit).2.1 3 2 rfl rfl).2.1 rfl (Or.inr rfl),
   (C11_cast_dispatch hierarchyProgram sampleFrontend sampleSize 6 (objectValue 2)
      (DType.classType 3) emptyEmit).2.2.2.1 3 _ _ rfl,
   ((C11_cast_dispatch hierarchyProgram sampleFrontend sampleSize 6 (objectValue 3)
      (DType.classType 2) emptyEmit).2.1 2 3 rfl rfl).1 rfl rfl rfl⟩

/-! ## Field indexing -/

theorem indexLoop_fatal (F : Frontend) (V : VarId → FieldDecl) (sz : LLType → Nat) (t : DType)
    (os : Nat) (llt : LLType) (ptr : Value) (idxs : List Nat) (e : Emit) :
    ∀ l : List Offset,
      (∀ x ∈ l, exactMatch (V x.var) t os = false ∧ descends F (V x.var) os = false) →
      indexLoop F V sz t os llt ptr idxs e l = .error (Fatal.assertion 1099) ∨
      indexLoop F V sz t os llt ptr idxs e l = .error (Fatal.assertion 1139) := by
  intro l
  induction l with
  | nil =>
    intro _
    exact Or.inr rfl
  | cons x rest ih =>
    intro hno
    have hx := hno x (List.mem_cons_self _ _)
    unfold indexLoop
    dsimp only
    by_cases hidx : (e.ir.irField x.var).index < 0
    · exact Or.inl (by rw [if_pos hidx])
    · rw [if_neg hidx, hx.1, hx.2]
      simp only [Bool.false_eq_true, if_false]
      exact ih (fun y hy => hno y (List.mem_cons_of_mem _ hy))

theorem indexLoop_ok (F : Frontend) (V : VarId → FieldDecl) (sz : LLType → Nat) (t : DType)
    (os : Nat) (llt : LLType) (ptr : Value) (idxs : List Nat) (e : Emit) :
    ∀ (l : List Offset) (r : IndexResult × List Nat × Emit),
      indexLoop F V sz t os llt ptr idxs e l = .ok r →
      ∃ x ∈ l, exactMatch (V x.var) t os = true ∨ descends F (V x.var) os = true := by
  intro l r h
  by_contra hcon
  have hno : ∀ x ∈ l, exactMatch (V x.var) t os = false ∧ descends F (V x.var) os = false := by
    intro x hx
    constructor
    · cases hm : exactMatch (V x.var) t os with
      | false => rfl
      | true => exact absurd ⟨x, hx, Or.inl hm⟩ hcon
    · cases hm : descends F (V x.var) os with
      | false => rfl
      | true => exact absurd ⟨x, hx, Or.inr hm⟩ hcon
  rcases indexLoop_fatal F V sz t os llt ptr idxs e l hno with h1 | h1 <;>
    · rw [h1] at h
      exact Except.noConfusion h

theorem LLVM_ClassOffsetToIndex_none (P : Program) (os : Nat) (cd : ClassId)
    (chain : List ClassId) (hchain : IsBaseChain P cd chain) :
    (∀ c ∈ chain, ∀ vd ∈ (P.decl c).fields, vd.offset ≠ os) →
    ∀ fuel idx, chain.length ≤ fuel →
      ∃ idx1, LLVM_ClassOffsetToIndex P fuel cd os idx = .ok (UINT_MAX, idx1) := by
  induction hchain with
  | @root c hb =>
    intro hno fuel idx hf
    cases fuel with
    | zero => simp at hf
    | succ fuel =>
      have hnone : (P.decl c).fields.findIdx? (fun vd => decide (os = vd.offset)) = none := by
        rw [List.findIdx?_eq_none_iff]
        intro vd hvd
        have := hno c (List.mem_singleton.mpr rfl) vd hvd
        simp only [decide_eq_false_iff_not]
        exact fun h => this h.symm
      unfold LLVM_ClassOffsetToIndex
      rw [hb]
      simp only [ne_eq, not_true_eq_false, if_false, hnone]
      exact ⟨_, rfl⟩
  | @step c b cs hb _ ih =>
    intro hno fuel idx hf
    cases fuel with
    | zero => simp at hf
    | succ fuel =>
      have hnone : (P.decl c).fields.findIdx? (fun vd => decide (os = vd.offset)) = none := by
        rw [List.findIdx?_eq_none_iff]
        intro vd hvd
        have := hno c (List.mem_cons_self _ _) vd hvd
        simp only [decide_eq_false_iff_not]
        exact fun h => this h.symm
      obtain ⟨idx1, h1⟩ := ih (fun c2 hc2 => hno c2 (List.mem_cons_of_mem _ hc2)) fuel idx
        (by simpa using hf)
      unfold LLVM_ClassOffsetToIndex
      rw [hb]
      simp only [h1, ne_eq, not_true_eq_false, if_false, hnone]
      exact ⟨_, rfl⟩

/-- C13: when no entry of the offset map of the class matches the request exactly
and none is a struct entry that is descended into, `DtoIndexClass` ends in a failed
assertion; whenever it does produce a result, some entry matched or was descended
into, so the code behind the `assert(0)` at the end of the loop (the pointer
computed from `os / llt_sz`) never produces the result. Likewise `offsetToIndex`
ends in the failed assertion of line 1063 when no field of the class or of a class
of its base chain has the requested offset. -/
theorem C13_no_match_is_fatal (P : Program) (F : Frontend) (V : VarId → FieldDecl)
    (sz : LLType → Nat) (ptr : Value) (cd : ClassId) (t : DType) (os : Nat) (idxs : List Nat)
    (e : Emit) :
    ((∀ irs, e.ir.irStruct cd = some irs → ∀ x ∈ irs.offsets,
        exactMatch (V x.var) t os = false ∧ descends F (V x.var) os = false) →
      ∃ err, DtoIndexClass F V sz ptr cd t os idxs e = .error err) ∧
    (∀ r, DtoIndexClass F V sz ptr cd t os idxs e = .ok r →
      ∃ irs x, e.ir.irStruct cd = some irs ∧ x ∈ irs.offsets ∧
        (exactMatch (V x.var) t os = true ∨ descends F (V x.var) os = true)) ∧
    (∀ llt p is e1, indexLoop F V sz t os llt p is e1 [] = .error (Fatal.assertion 1139)) ∧
    (∀ chain fuel result, IsBaseChain P cd chain → chain.length ≤ fuel →
      (∀ c ∈ chain, ∀ vd ∈ (P.decl c).fields, vd.offset ≠ os) →
      offsetToIndex P fuel cd os result = .error (Fatal.assertion 1063)) := by
  have hok : ∀ r, DtoIndexClass F V sz ptr cd t os idxs e = .ok r →
      ∃ irs x, e.ir.irStruct cd = some irs ∧ x ∈ irs.offsets ∧
        (exactMatch (V x.var) t os = true ∨ descends F (V x.var) os = true) := by
    intro r h
    unfold DtoIndexClass at h
    dsimp only at h
    split at h
    · exact Except.noConfusion h
    · rename_i irs hirs
      split at h
      · split at h
        · obtain ⟨x, hx, hm⟩ := indexLoop_ok F V sz t os _ _ _ _ _ r h
          exact ⟨irs, x, hirs, hx, hm⟩
        · exact Except.noConfusion h
      · obtain ⟨x, hx, hm⟩ := indexLoop_ok F V sz t os _ _ _ _ _ r h
        exact ⟨irs, x, hirs, hx, hm⟩
  refine ⟨?_, hok, fun _ _ _ _ => rfl, ?_⟩
  · intro hno
    cases hr : DtoIndexClass F V sz ptr cd t os idxs e with
    | error err => exact ⟨err, rfl⟩
    | ok r =>
      obtain ⟨irs, x, hirs, hx, hm⟩ := hok r hr
      have := hno irs hirs x hx
      rcases hm with hm | hm
      · rw [this.1] at hm
        exact absurd hm (by simp)
      · rw [this.2] at hm
        exact absurd hm (by simp)
  · intro chain fuel result hchain hfuel hno
    obtain ⟨idx1, h1⟩ := LLVM_ClassOffsetToIndex_none P os cd chain hchain hno fuel 0 hfuel
    unfold offsetToIndex
    rw [h1]
    simp

theorem indexState_record :
    indexState.irStruct 1
      = some { IrStruct.new with
          offsets := [{ first := 8, var := 40, type := LLType.prim 4 },
                      { first := 12, var := 41, type := LLType.prim 8 }] } := rfl

theorem C13_no_match_is_fatal_witness :
    (∃ err, DtoIndexClass indexFrontend indexVars sampleSize indexPtr 1 (DType.basic 1) 24 []
        { ir := indexState, code := [] } = .error err) ∧
    offsetToIndex sampleProgram 1 1 24 [] = .error (Fatal.assertion 1063) :=
  ⟨(C13_no_match_is_fatal sampleProgram indexFrontend indexVars sampleSize
      indexPtr 1 (DType.basic 1) 24 [] { ir := indexState, code := [] }).1
      (fun irs hirs => by
        rw [show ({ ir := indexState, code := [] } : Emit).ir.irStruct 1 = indexState.irStruct 1
          from rfl, indexState_record] at hirs
        simp only [Option.some.injEq] at hirs
        subst hirs
        decide),
   (C13_no_match_is_fatal sampleProgram indexFrontend indexVars sampleSize
      indexPtr 1 (DType.basic 1) 24 [] { ir := indexState, code := [] }).2.2.2 [1] 1 []
      (IsBaseChain.root (by rfl)) (by decide) (by decide)⟩

theorem indexExact_pointer (irf : IrField) (llt : LLType) (ptr : Value) (idxs : List Nat)
    (e : Emit) : ∃ v, (indexExact irf llt ptr idxs e).1 = IndexResult.pointer v := by
  unfold indexExact
  dsimp only
  split
  · exact ⟨_, rfl⟩
  · exact ⟨_, rfl⟩

theorem indexDescend_args (F : Frontend) (vd : FieldDecl) (ssd : Nat) (irf : IrField)
    (t : DType) (os : Nat) (llt : LLType) (ptr : Value) (idxs : List Nat) (e : Emit) :
    ∃ p is, (indexDescend F vd ssd irf t os llt ptr idxs e).1
      = IndexResult.indexStruct p ssd t (usub os vd.offset) is := by
  unfold indexDescend
  dsimp only
  split
  · exact ⟨_, _, rfl⟩
  · split
    · exact ⟨_, _, rfl⟩
    · exact ⟨_, _, rfl⟩

/-- The entry behind a hand-over to `DtoIndexStruct`: the first entry in iteration
order that is not an exact match and is a struct entry ending behind `os`. -/
theorem indexLoop_descent (F : Frontend) (V : VarId → FieldDecl) (sz : LLType → Nat)
    (t : DType) (os : Nat) (llt : LLType) (ptr : Value) (idxs : List Nat) (e : Emit) :
    ∀ (l : List Offset) (r : IndexResult × List Nat × Emit) (p : Value) (ssd : Nat) (t1 : DType)
      (os1 : Nat) (is : List Nat),
      indexLoop F V sz t os llt ptr idxs e l = .ok r → r.1 = IndexResult.indexStruct p ssd t1 os1 is →
      ∃ pre x post, l = pre ++ x :: post ∧
        (∀ y ∈ pre, exactMatch (V y.var) t os = false ∧ descends F (V y.var) os = false) ∧
        exactMatch (V x.var) t os = false ∧ descends F (V x.var) os = true ∧
        (V x.var).dtype.structSym = some ssd ∧ t1 = t ∧ os1 = usub os (V x.var).offset := by
  intro l
  induction l with
  | nil =>
    intro r p ssd t1 os1 is h _
    exact Except.noConfusion h
  | cons x rest ih =>
    intro r p ssd t1 os1 is h hr
    unfold indexLoop at h
    dsimp only at h
    split at h
    · exact Except.noConfusion h
    · split at h
      · simp only [Except.ok.injEq] at h
        obtain ⟨v, hv⟩ := indexExact_pointer (e.ir.irField x.var) llt ptr idxs e
        rw [h, hr] at hv
        exact IndexResult.noConfusion hv
      · rename_i hex
        split at h
        · rename_i hde
          split at h
          · rename_i ssd1 hsym
            simp only [Except.ok.injEq] at h
            obtain ⟨p1, is1, hd⟩ := indexDescend_args F (V x.var) ssd1 (e.ir.irField x.var) t os
              llt ptr idxs e
            rw [h, hr] at hd
            simp only [IndexResult.indexStruct.injEq] at hd
            obtain ⟨_, h2, h3, h4, _⟩ := hd
            subst h2
            exact ⟨[], x, rest, rfl, by simp, by simpa using hex, hde, hsym, h3, h4⟩
          · rename_i hsym
            simp [descends, hsym] at hde
        · rename_i hde
          obtain ⟨pre, y, post, hl, hpre, hy⟩ := ih r p ssd t1 os1 is h hr
          refine ⟨x :: pre, y, post, by rw [hl]; rfl, ?_, hy⟩
          intro z hz
          rcases List.mem_cons.mp hz with hz | hz
          · subst hz
            exact ⟨by simpa using hex, by simpa using hde⟩
          · exact hpre z hz

/-- For a request that some entry of an offset map in ascending order can serve (an
exact match, or a struct entry whose span holds `os`), a hand-over to
`DtoIndexStruct` happens at a struct entry whose span holds `os`, with the offset
`os - vd->offset` below the size of the field. -/
theorem indexLoop_descent_in_span (F : Frontend) (V : VarId → FieldDecl) (sz : LLType → Nat)
    (t : DType) (os : Nat) (llt : LLType) (ptr : Value) (idxs : List Nat) (e : Emit)
    (l : List Offset)
    (hsorted : l.Pairwise (fun a b => (V a.var).offset ≤ (V b.var).offset))
    (hos : os < 4294967296)
    (hsz : ∀ x ∈ l, (V x.var).offset + F.size (V x.var).dtype < 18446744073709551616)
    (hmatch : ∃ y ∈ l, exactMatch (V y.var) t os = true ∨
      (descends F (V y.var) os = true ∧ (V y.var).offset ≤ os))
    (r : IndexResult × List Nat × Emit) (p : Value) (ssd : Nat) (t1 : DType) (os1 : Nat)
    (is : List Nat) (h : indexLoop F V sz t os llt ptr idxs e l = .ok r)
    (hr : r.1 = IndexResult.indexStruct p ssd t1 os1 is) :
    ∃ x ∈ l, (V x.var).dtype.structSym = some ssd ∧ (V x.var).offset ≤ os ∧
      os < (V x.var).offset + F.size (V x.var).dtype ∧ os1 = os - (V x.var).offset ∧
      os1 < F.size (V x.var).dtype := by
  obtain ⟨pre, x, post, hl, hpre, hex, hde, hsym, _, hos1⟩ :=
    indexLoop_descent F V sz t os llt ptr idxs e l r p ssd t1 os1 is h hr
  have hxl : x ∈ l := by rw [hl]; simp
  have hlow : (V x.var).offset ≤ os := by
    obtain ⟨y, hy, hm⟩ := hmatch
    have hyo : (V y.var).offset ≤ os := by
      rcases hm with hm | hm
      · simp only [exactMatch, Bool.and_eq_true, decide_eq_true_eq] at hm
        omega
      · exact hm.2
    rw [hl] at hy hsorted
    rcases List.mem_append.mp hy with hy | hy
    · have := hpre y hy
      rcases hm with hm | hm
      · rw [this.1] at hm
        exact absurd hm (by simp)
      · rw [this.2] at hm
        exact absurd hm.1 (by simp)
    · rcases List.mem_cons.mp hy with hy | hy
      · subst hy
        exact hyo
      · have hs2 := (List.pairwise_append.mp hsorted).2.1
        have := (List.pairwise_cons.mp hs2).1 y hy
        omega
  have hup : os < (V x.var).offset + F.size (V x.var).dtype := by
    have h64 := hsz x hxl
    simp only [descends, Bool.and_eq_true, decide_eq_true_eq] at hde
    have := hde.2
    rw [Nat.mod_eq_of_lt h64] at this
    exact this
  have husub : usub os (V x.var).offset = os - (V x.var).offset := by
    unfold usub
    have hlt : (V x.var).offset < 4294967296 := by omega
    rw [Nat.mod_eq_of_lt hlt]
    omega
  refine ⟨x, hxl, hsym, hlow, hup, by rw [hos1, husub], ?_⟩
  rw [hos1, husub]
  omega

/-- C12: evaluation of `DtoIndexClass` on a class with the fields `int a` (offset 8)
and `S s` (offset 12, 8 bytes) for the request (offset 8, a type other than that of
`a`): the entry of `a` is no exact match, the entry of `s` is a struct entry ending
behind 8, so the lookup is handed to `DtoIndexStruct` for `S` although 8 lies
before the field (12), with the offset `8 - 12` wrapped to 4294967292, which is not
below the size of the field. -/
theorem C12_descends_below_field_start :
    (DtoIndexClass indexFrontend indexVars sampleSize indexPtr 1 (DType.basic 1) 8 []
        { ir := indexState, code := [] }).map (fun r => r.1)
      = .ok (IndexResult.indexStruct
          (Value.reg 0 (getPtrToType (DtoType indexFrontend (DType.structType 7)))) 7
          (DType.basic 1) 4294967292 []) ∧
    (indexVars 41).dtype = DType.structType 7 ∧
    ¬ ((indexVars 41).offset ≤ 8) ∧
    ¬ (4294967292 < indexFrontend.size (indexVars 41).dtype) := by
  refine ⟨by rfl, by rfl, by decide, by decide⟩

/-! ## Construction -/

theorem initCopy_code (cd : ClassId) (init : GlobalName) (n : Nat) (dst : Value) (e : Emit) :
    (initCopy cd init n dst e).code
      = e.code ++ initCopyCode e.ir cd init (u32 n) dst e.code.length ∧
    (initCopy cd init n dst e).ir = e.ir := by
  simp [initCopy, initCopyCode, DtoGEPi, DtoGEP, DtoBitCast, emit, Value.type]

theorem initCopySize_exact (T : Target) (elems : List LLType)
    (hlow : 2 * sizeOfSize_t T ≤ T.structSize elems)
    (hhigh : T.structSize elems - 2 * sizeOfSize_t T < 4294967296) :
    initCopySize T elems = T.structSize elems - 2 * sizeOfSize_t T ∧
    u32 (initCopySize T elems) = T.structSize elems - 2 * sizeOfSize_t T := by
  have hp : 2 * sizeOfSize_t T < 18446744073709551616 := by
    unfold sizeOfSize_t
    split <;> omega
  have h1 : initCopySize T elems = T.structSize elems - 2 * sizeOfSize_t T := by
    unfold initCopySize
    rw [Nat.mod_eq_of_lt hp]
    omega
  refine ⟨h1, ?_⟩
  rw [h1]
  unfold u32
  exact Nat.mod_eq_of_lt hhigh

/-- C15: a successful `DtoInitClass` appends, to the code emitted so far, first the
store of the dispatch-table global of the class into slot 0 of the destination and
the store of a null into slot 1, and after them the bulk copy from slot 2 of the
default image to slot 2 of the destination if and only if `n`, the ABI size of the
composite type minus two pointer widths, is non-zero; nothing else is emitted. The
length operand of the copy is `n` as an `i32`, which is exactly the size minus the
two pointer widths when that difference fits 32 bits. -/
theorem C15_init_class (T : Target) (cd : ClassId) (dst : Value) (e e' : Emit)
    (h : DtoInitClass T cd dst e = .ok e') :
    ∃ elems irs vtbl, (e.ir.llvmType cd).elems? = some elems ∧ e.ir.irStruct cd = some irs ∧
      irs.vtbl = some vtbl ∧ e'.ir = e.ir ∧
      (initCopySize T elems = 0 →
        e'.code = e.code ++ initHeaderCode e.ir cd vtbl dst e.code.length) ∧
      (initCopySize T elems ≠ 0 → ∃ init, irs.init = some init ∧
        e'.code = e.code ++ initHeaderCode e.ir cd vtbl dst e.code.length
          ++ initCopyCode e.ir cd init (u32 (initCopySize T elems)) dst (e.code.length + 4)) ∧
      (callsOf (e'.code.drop e.code.length)
        = if initCopySize T elems = 0 then [] else [Callee.memcpy32]) ∧
      (2 * sizeOfSize_t T ≤ T.structSize elems →
        T.structSize elems - 2 * sizeOfSize_t T < 4294967296 →
        initCopySize T elems = T.structSize elems - 2 * sizeOfSize_t T ∧
        u32 (initCopySize T elems) = T.structSize elems - 2 * sizeOfSize_t T) := by
  unfold DtoInitClass at h
  split at h
  · exact Except.noConfusion h
  rename_i elems helems
  dsimp only at h
  split at h
  · exact Except.noConfusion h
  rename_i irs hirs
  split at h
  · exact Except.noConfusion h
  rename_i vtbl hvtbl
  refine ⟨elems, irs, vtbl, helems, hirs, hvtbl, ?_⟩
  have hheader : ∀ e4 : Emit,
      e4 = DtoStore (DtoGEPi (DtoStore (DtoGEPi e dst 0 0).2
          (Value.global vtbl (getPtrToType (LLType.vtblRef cd))) (DtoGEPi e dst 0 0).1) dst 0 1).2
          (Value.nullValue (pointee (DtoGEPi (DtoStore (DtoGEPi e dst 0 0).2
            (Value.global vtbl (getPtrToType (LLType.vtblRef cd))) (DtoGEPi e dst 0 0).1)
            dst 0 1).1.type))
          (DtoGEPi (DtoStore (DtoGEPi e dst 0 0).2
            (Value.global vtbl (getPtrToType (LLType.vtblRef cd))) (DtoGEPi e dst 0 0).1)
            dst 0 1).1 →
      e4.ir = e.ir ∧ e4.code = e.code ++ initHeaderCode e.ir cd vtbl dst e.code.length := by
    intro e4 he4
    subst he4
    simp [DtoStore, DtoGEPi, DtoGEP, emit, initHeaderCode, Value.type]
  obtain ⟨hir4, hcode4⟩ := hheader _ rfl
  by_cases hn : initCopySize T elems = 0
  · rw [if_pos hn] at h
    simp only [Except.ok.injEq] at h
    subst h
    refine ⟨hir4, fun _ => hcode4, fun hne => absurd hn hne, ?_,
      initCopySize_exact T elems⟩
    rw [hcode4, drop_emitted, if_pos hn]
    simp [callsOf, initHeaderCode]
  · rw [if_neg hn] at h
    split at h
    · exact Except.noConfusion h
    rename_i init hinit
    split at h
    · exact Except.noConfusion h
    simp only [Except.ok.injEq] at h
    obtain ⟨hc, hi⟩ := initCopy_code cd init (initCopySize T elems) dst
      (DtoStore (DtoGEPi (DtoStore (DtoGEPi e dst 0 0).2
          (Value.global vtbl (getPtrToType (LLType.vtblRef cd))) (DtoGEPi e dst 0 0).1) dst 0 1).2
          (Value.nullValue (pointee (DtoGEPi (DtoStore (DtoGEPi e dst 0 0).2
            (Value.global vtbl (getPtrToType (LLType.vtblRef cd))) (DtoGEPi e dst 0 0).1)
            dst 0 1).1.type))
          (DtoGEPi (DtoStore (DtoGEPi e dst 0 0).2
            (Value.global vtbl (getPtrToType (LLType.vtblRef cd))) (DtoGEPi e dst 0 0).1)
            dst 0 1).1)
    rw [h] at hc hi
    rw [hir4] at hi
    have hcode : e'.code = e.code ++ initHeaderCode e.ir cd vtbl dst e.code.length
        ++ initCopyCode e.ir cd init (u32 (initCopySize T elems)) dst (e.code.length + 4) := by
      rw [hc, hcode4, hir4]
      simp [initHeaderCode]
    refine ⟨hi, fun h0 => absurd h0 hn, fun _ => ⟨init, hinit, hcode⟩, ?_,
      initCopySize_exact T elems⟩
    rw [hcode, List.append_assoc, drop_emitted, if_neg hn]
    simp [callsOf, initHeaderCode, initCopyCode]

theorem C15_init_class_witness :
    ∃ elems irs vtbl, (declaredEmit.ir.llvmType 1).elems? = some elems ∧
      declaredEmit.ir.irStruct 1 = some irs ∧ irs.vtbl = some vtbl ∧
      (initialized declaredEmit (DtoInitClass sampleTarget 1 instancePtr declaredEmit)).ir
        = declaredEmit.ir ∧
      (initCopySize sampleTarget elems = 0 →
        (initialized declaredEmit (DtoInitClass sampleTarget 1 instancePtr declaredEmit)).code
          = declaredEmit.code
            ++ initHeaderCode declaredEmit.ir 1 vtbl instancePtr declaredEmit.code.length) ∧
      (initCopySize sampleTarget elems ≠ 0 → ∃ init, irs.init = some init ∧
        (initialized declaredEmit (DtoInitClass sampleTarget 1 instancePtr declaredEmit)).code
          = declaredEmit.code
            ++ initHeaderCode declaredEmit.ir 1 vtbl instancePtr declaredEmit.code.length
            ++ initCopyCode declaredEmit.ir 1 init (u32 (initCopySize sampleTarget elems))
                instancePtr (declaredEmit.code.length + 4)) ∧
      (callsOf ((initialized declaredEmit
          (DtoInitClass sampleTarget 1 instancePtr declaredEmit)).code.drop
            declaredEmit.code.length)
        = if initCopySize sampleTarget elems = 0 then [] else [Callee.memcpy32]) ∧
      (2 * sizeOfSize_t sampleTarget ≤ sampleTarget.structSize elems →
        sampleTarget.structSize elems - 2 * sizeOfSize_t sampleTarget < 4294967296 →
        initCopySize sampleTarget elems
          = sampleTarget.structSize elems - 2 * sizeOfSize_t sampleTarget ∧
        u32 (initCopySize sampleTarget elems)
          = sampleTarget.structSize elems - 2 * sizeOfSize_t sampleTarget) :=
  C15_init_class sampleTarget 1 instancePtr declaredEmit _ rfl

theorem castUnless_type (e : Emit) (v : Value) (ty : LLType) :
    (castUnless e v ty).1.type = ty := by
  unfold castUnless
  split
  · rfl
  · rename_i h
    simpa using h

/-- The values collected by the argument loop: one per argument, in order, each the
r-value produced by `DtoArgument` for that argument, reinterpreted unless it already
has the type of the constructor function's parameter one position further. -/
theorem ctorArgs_spec (L : Lowering) (ctor : CtorDeclaration) :
    ∀ (args : List Expr) (i : Nat) (e : Emit) (vals : List Value) (e' : Emit),
      ctorArgs L ctor args i e = .ok (vals, e') →
      vals.length = args.length ∧
      ∀ j a, vals.get? j = some a →
        ∃ ex aty dv ej ej', args.get? j = some ex ∧
          ctor.paramTypes.get? (i + j + 1) = some aty ∧ a.type = aty ∧
          L.DtoArgument (ctor.parameters.get? (i + j)) ex ej = .ok (dv, ej') ∧
          a = (castUnless ej' dv.rval aty).1 := by
  intro args
  induction args with
  | nil =>
    intro i e vals e' h
    simp only [ctorArgs, Except.ok.injEq, Prod.mk.injEq] at h
    obtain ⟨hv, _⟩ := h
    subst hv
    exact ⟨rfl, fun j a hj => by simp at hj⟩
  | cons ex rest ih =>
    intro i e vals e' h
    unfold ctorArgs at h
    split at h
    · exact Except.noConfusion h
    rename_i argval e1 harg
    split at h
    · exact Except.noConfusion h
    rename_i aty haty
    dsimp only at h
    split at h
    · exact Except.noConfusion h
    rename_i as e3 hrest
    simp only [Except.ok.injEq, Prod.mk.injEq] at h
    obtain ⟨hv, _⟩ := h
    subst hv
    obtain ⟨hlen, hall⟩ := ih (i + 1) _ as e3 hrest
    refine ⟨by simp [hlen], ?_⟩
    intro j a hj
    cases j with
    | zero =>
      simp only [List.get?_cons_zero, Option.some.injEq] at hj
      subst hj
      exact ⟨ex, aty, argval, e, e1, rfl, by simpa using haty, castUnless_type _ _ _,
        by simpa using harg, rfl⟩
    | succ j =>
      simp only [List.get?_cons_succ] at hj
      obtain ⟨ex1, aty1, dv, ej, ej', h1, h2, h3, h4, h5⟩ := hall j a hj
      refine ⟨ex1, aty1, dv, ej, ej', by simpa using h1, ?_, h3, ?_, h5⟩
      · rw [← h2]
        congr 1
        omega
      · rw [← h4]
        congr 2
        omega

/-- C16: `DtoNewClass` calls a constructor iff the `NewExp` has an argument list.
Without one the result is the initialized instance, and nothing is emitted behind
the instance set-up. With one, a missing constructor is the failed assertion of
line 840, and otherwise the last instruction emitted is the call of the
constructor function on the instance followed by one value per argument, in source
order, each of the type of the parameter one position further; the result is the
value of that call. -/
theorem C16_constructor_call (P : Program) (F : Frontend) (L : Lowering) (sz : LLType → Nat)
    (T : Target) (fuel : Nat) (cd : ClassId) (newexp : NewExp) (e : Emit) :
    (newexp.arguments = none →
      DtoNewClass P F L sz T fuel cd newexp e
        = (newInstance P F L sz T fuel cd newexp e).map
            (fun r => ({ type := DType.classType cd, rval := r.1 }, r.2))) ∧
    (∀ args mem e3, newexp.arguments = some args →
      newInstance P F L sz T fuel cd newexp e = .ok (mem, e3) →
      DtoNewClass P F L sz T fuel cd newexp e
        = DtoCallClassCtor L cd newexp.member args mem e3 ∧
      (newexp.member = none →
        DtoNewClass P F L sz T fuel cd newexp e = .error (Fatal.assertion 840)) ∧
      (∀ r e', DtoNewClass P F L sz T fuel cd newexp e = .ok (r, e') →
        ∃ ctor vals pre, newexp.member = some ctor ∧
          e'.code = pre ++ [Instr.call (Callee.func ctor.func) (mem :: vals)] ∧
          r = { type := DType.classType cd, rval := Value.reg pre.length ctor.returnType } ∧
          (mem :: vals).length = 1 + args.length ∧
          ∀ j a, vals.get? j = some a →
            ∃ ex aty dv ej ej', args.get? j = some ex ∧
              ctor.paramTypes.get? (j + 1) = some aty ∧ a.type = aty ∧
              L.DtoArgument (ctor.parameters.get? j) ex ej = .ok (dv, ej') ∧
              a = (castUnless ej' dv.rval aty).1)) := by
  refine ⟨?_, ?_⟩
  · intro hnone
    unfold DtoNewClass
    cases hni : newInstance P F L sz T fuel cd newexp e with
    | error err => rfl
    | ok r =>
      obtain ⟨mem, e3⟩ := r
      simp only [hnone, Except.map]
  · intro args mem e3 hargs hni
    have hnew : DtoNewClass P F L sz T fuel cd newexp e
        = DtoCallClassCtor L cd newexp.member args mem e3 := by
      unfold DtoNewClass
      rw [hni]
      simp only [hargs]
    refine ⟨hnew, ?_, ?_⟩
    · intro hm
      rw [hnew, hm]
      rfl
    · intro r e' h
      rw [hnew] at h
      unfold DtoCallClassCtor at h
      split at h
      · exact Except.noConfusion h
      rename_i ctor hctor
      split at h
      · exact Except.noConfusion h
      rename_i vals e1 hvals
      simp only [emit, Except.ok.injEq, Prod.mk.injEq] at h
      obtain ⟨hr, he⟩ := h
      obtain ⟨hlen, hall⟩ := ctorArgs_spec L ctor args 0 e3 vals e1 hvals
      refine ⟨ctor, vals, e1.code, hctor, by rw [← he], hr.symm, by simp [hlen]; omega, ?_⟩
      intro j a hj
      obtain ⟨ex, aty, dv, ej, ej', h1, h2, h3, h4, h5⟩ := hall j a hj
      exact ⟨ex, aty, dv, ej, ej', h1, by simpa using h2, h3, by simpa using h4, h5⟩

theorem C16_constructor_call_witness :
    ∃ ctor vals pre, newWithArgs.member = some ctor ∧
      (constructed (DtoNewClass oneInterfaceProgram sampleFrontend sampleLowering sampleSize
          sampleTarget 6 1 newWithArgs emptyEmit)).2.code
        = pre ++ [Instr.call (Callee.func ctor.func)
            ((instanceOf (newInstance oneInterfaceProgram sampleFrontend sampleLowering sampleSize
              sampleTarget 6 1 newWithArgs emptyEmit)).1 :: vals)] ∧
      (constructed (DtoNewClass oneInterfaceProgram sampleFrontend sampleLowering sampleSize
          sampleTarget 6 1 newWithArgs emptyEmit)).1
        = { type := DType.classType 1, rval := Value.reg pre.length ctor.returnType } ∧
      ((instanceOf (newInstance oneInterfaceProgram sampleFrontend sampleLowering sampleSize
          sampleTarget 6 1 newWithArgs emptyEmit)).1 :: vals).length = 1 + [1, 2].length ∧
      ∀ j a, vals.get? j = some a →
        ∃ ex aty dv ej ej', [1, 2].get? j = some ex ∧
          ctor.paramTypes.get? (j + 1) = some aty ∧ a.type = aty ∧
          sampleLowering.DtoArgument (ctor.parameters.get? j) ex ej = .ok (dv, ej') ∧
          a = (castUnless ej' dv.rval aty).1 :=
  ((C16_constructor_call oneInterfaceProgram sampleFrontend sampleLowering sampleSize
      sampleTarget 6 1 newWithArgs emptyEmit).2 [1, 2] _ _ rfl rfl).2.2 _ _ rfl

/-- C14: evaluation of `DtoNewClass` on class 1 of `oneInterfaceProgram`
(`class C : I { int x; }`), whose composite type is (dispatch table, monitor, `x`,
dispatch table of `I`) with the interface entry at index 3. With an explicit
enclosing instance, and likewise for a nested class with the context of the
enclosing function, the reference is stored through `gep mem [0, 3]`: slot
`2 + interfaces.size()` is the slot of the interface entry itself, not the slot one
behind the largest interface index (4), which the four-element type does not have. -/
theorem C14_outer_reference_slot :
    DtoNewClass oneInterfaceProgram sampleFrontend sampleLowering sampleSize sampleTarget 6 1
        newWithOuter emptyEmit
      = .ok (constructed (DtoNewClass oneInterfaceProgram sampleFrontend sampleLowering
          sampleSize sampleTarget 6 1 newWithOuter emptyEmit)) ∧
    (constructed (DtoNewClass oneInterfaceProgram sampleFrontend sampleLowering sampleSize
        sampleTarget 6 1 newWithOuter emptyEmit)).2.code.drop 11
      = [Instr.gep (Value.reg 1 (getPtrToType (LLType.classRef 1))) [0, 3],
         Instr.store (Value.param 9 (getPtrToType (LLType.classRef 3)))
           (Value.reg 11 (getPtrToType (getPtrToType (LLType.vtblRef 2))))] ∧
    (constructed (DtoNewClass oneInterfaceProgram nestedFrontend sampleLowering sampleSize
        sampleTarget 6 1 newPlain emptyEmit)).2.code.drop 11
      = [Instr.gep (Value.reg 1 (getPtrToType (LLType.classRef 1))) [0, 3],
         Instr.bitcast (Value.param 100 (getPtrToType (LLType.classRef 3)))
           (getPtrToType (LLType.vtblRef 2)),
         Instr.store (Value.reg 12 (getPtrToType (LLType.vtblRef 2)))
           (Value.reg 11 (getPtrToType (getPtrToType (LLType.vtblRef 2))))] ∧
    ((constructed (DtoNewClass oneInterfaceProgram sampleFrontend sampleLowering sampleSize
        sampleTarget 6 1 newWithOuter emptyEmit)).2.ir.irStruct 1).map
        (fun irs => irs.interfaces.map (fun x => x.index)) = some [3] ∧
    (constructed (DtoNewClass oneInterfaceProgram sampleFrontend sampleLowering sampleSize
        sampleTarget 6 1 newWithOuter emptyEmit)).2.ir.llvmType 1
      = TypeHolder.struct [getPtrToType (LLType.vtblRef 1), getPtrToType LLType.int8,
          LLType.prim 4, getPtrToType (LLType.vtblRef 2)] := by
  refine ⟨by rfl, by rfl, by rfl, by rfl, by rfl⟩

/-! ## Pointer arithmetic -/

/-- C30: on a pointer type with element size `s > 0`, `undoStrideMul` applied to a
multiple of `s` returns the quotient `q`, with `q * s = offset`, so it undoes the
multiplication of an element count by the stride; on a type that is not a pointer
type it stops at the assertion of line 23, and on an offset that is not a multiple
of `s` at the assertion of line 25. -/
theorem C30_undoStrideMul (t : ArithType) (offset : Nat) :
    (∀ s, t = ArithType.pointer s → 0 < s → s ∣ offset →
      ∃ q, undoStrideMul t offset = .ok q ∧ q * s = offset) ∧
    (∀ s n, 0 < s → undoStrideMul (ArithType.pointer s) (n * s) = .ok n) ∧
    (t.isPointer = false → undoStrideMul t offset = .error (Fatal.assertion 23)) ∧
    (∀ s, t = ArithType.pointer s → 0 < s → ¬ s ∣ offset →
      undoStrideMul t offset = .error (Fatal.assertion 25)) := by
  refine ⟨?_, ?_, ?_, ?_⟩
  · intro s ht hs hdvd
    subst ht
    have hmod : offset % s = 0 := Nat.mod_eq_zero_of_dvd hdvd
    refine ⟨offset / s, ?_, Nat.div_mul_cancel hdvd⟩
    simp [undoStrideMul, Nat.pos_iff_ne_zero.mp hs, hmod]
  · intro s n hs
    simp [undoStrideMul, Nat.pos_iff_ne_zero.mp hs, Nat.mul_div_cancel n hs]
  · intro hp
    cases t with
    | pointer s => simp [ArithType.isPointer] at hp
    | integral k => rfl
    | other k => rfl
  · intro s ht hs hndvd
    subst ht
    have hmod : offset % s ≠ 0 := fun h => hndvd (Nat.dvd_of_mod_eq_zero h)
    simp [undoStrideMul, Nat.pos_iff_ne_zero.mp hs, hmod]

theorem C30_undoStrideMul_witness :
    (∃ q, undoStrideMul (ArithType.pointer 4) 12 = .ok q ∧ q * 4 = 12) ∧
    undoStrideMul (ArithType.pointer 4) (3 * 4) = .ok 3 ∧
    undoStrideMul (ArithType.integral 0) 12 = .error (Fatal.assertion 23) ∧
    undoStrideMul (ArithType.pointer 4) 10 = .error (Fatal.assertion 25) :=
  ⟨(C30_undoStrideMul (ArithType.pointer 4) 12).1 4 rfl (by decide) (by decide),
   (C30_undoStrideMul (ArithType.pointer 4) 12).2.1 4 3 (by decide),
   (C30_undoStrideMul (ArithType.integral 0) 12).2.2.1 rfl,
   (C30_undoStrideMul (ArithType.pointer 4) 10).2.2.2 4 rfl (by decide) (by decide)⟩

/-- What `extractNoStrideInc` leaves behind: either the flag is unchanged and a
returned expression times the stride is the value of `e`, or the flag is flipped and
a returned expression times the stride is the negated value of `e`; the flag is
changed also when nothing is returned. -/
theorem extractNoStrideInc_spec (env : Nat → Int) (baseSize : Nat) :
    ∀ (e : Expression) (negate : Bool) (r : Option Expression) (negate1 : Bool),
      extractNoStrideInc e baseSize negate = (r, negate1) →
      (negate1 = negate ∧ ∀ inc, r = some inc → e.value env = inc.value env * baseSize) ∨
      (negate1 = (!negate) ∧
        ∀ inc, r = some inc → e.value env = - (inc.value env * baseSize)) := by
  intro e
  induction e with
  | integer v =>
    intro negate r negate1 h
    simp only [extractNoStrideInc, Prod.mk.injEq] at h
    obtain ⟨hr, hn⟩ := h
    subst hr
    exact Or.inl ⟨hn.symm, fun inc hinc => Option.noConfusion hinc⟩
  | other k =>
    intro negate r negate1 h
    simp only [extractNoStrideInc, Prod.mk.injEq] at h
    obtain ⟨hr, hn⟩ := h
    subst hr
    exact Or.inl ⟨hn.symm, fun inc hinc => Option.noConfusion hinc⟩
  | neg e1 ih =>
    intro negate r negate1 h
    simp only [extractNoStrideInc] at h
    rcases ih (!negate) r negate1 h with ⟨h1, h2⟩ | ⟨h1, h2⟩
    · refine Or.inr ⟨h1, fun inc hinc => ?_⟩
      simp only [Expression.value]
      rw [h2 inc hinc]
    · refine Or.inl ⟨by rw [h1]; simp, fun inc hinc => ?_⟩
      simp only [Expression.value]
      rw [h2 inc hinc]
      simp
  | mul e1 e2 _ _ =>
    intro negate r negate1 h
    cases e2 with
    | integer stride =>
      simp only [extractNoStrideInc] at h
      by_cases hs : stride = baseSize
      · simp only [hs, ne_eq, not_true_eq_false, if_false, Prod.mk.injEq] at h
        obtain ⟨hr, hn⟩ := h
        subst hr
        refine Or.inl ⟨hn.symm, fun inc hinc => ?_⟩
        simp only [Option.some.injEq] at hinc
        subst hinc
        simp [Expression.value, hs]
      · simp only [ne_eq, hs, not_false_eq_true, if_true, Prod.mk.injEq] at h
        obtain ⟨hr, hn⟩ := h
        subst hr
        exact Or.inl ⟨hn.symm, fun inc hinc => Option.noConfusion hinc⟩
    | neg x =>
      simp only [extractNoStrideInc, Prod.mk.injEq] at h
      obtain ⟨hr, hn⟩ := h
      subst hr
      exact Or.inl ⟨hn.symm, fun inc hinc => Option.noConfusion hinc⟩
    | mul x y =>
      simp only [extractNoStrideInc, Prod.mk.injEq] at h
      obtain ⟨hr, hn⟩ := h
      subst hr
      exact Or.inl ⟨hn.symm, fun inc hinc => Option.noConfusion hinc⟩
    | other k =>
      simp only [extractNoStrideInc, Prod.mk.injEq] at h
      obtain ⟨hr, hn⟩ := h
      subst hr
      exact Or.inl ⟨hn.symm, fun inc hinc => Option.noConfusion hinc⟩

/-- The address `emitPointerOffset` yields for a non-constant offset: on the stride
path it is the base advanced by the offset's value with the sign asked for; on the
byte-pointer path the sign is the one left in the flag by `extractNoStrideInc`. -/
theorem emitPointerOffset_address (env : Nat → Int) (s : Nat) (base off : Expression)
    (negate : Bool) (hoff : off.isConst = false) :
    (∀ inc n1, extractNoStrideInc off s negate = (some inc, n1) →
      addressOf env (emitPointerOffset (ArithType.pointer s) base off negate)
        = some (base.value env + (if negate = true then - off.value env else off.value env))) ∧
    (∀ n1, extractNoStrideInc off s negate = (none, n1) →
      addressOf env (emitPointerOffset (ArithType.pointer s) base off negate)
        = some (base.value env + (if n1 = true then - off.value env else off.value env))) := by
  have hshape : emitPointerOffset (ArithType.pointer s) base off negate
      = match extractNoStrideInc off s negate with
        | (some inc, negate1) =>
          .ok (strideGep (ArithType.pointer s) (LLValue.rval base) (LLValue.rval inc) negate1)
        | (none, negate1) =>
          .ok (LLValue.cast (LLValue.gep1 1 (LLValue.bitcast (LLValue.rval base))
            (if negate1 = true then LLValue.neg (LLValue.rval off) else LLValue.rval off))) := by
    cases off with
    | integer v => simp [Expression.isConst] at hoff
    | neg x => rfl
    | mul x y => rfl
    | other k => rfl
  refine ⟨?_, ?_⟩
  · intro inc n1 h
    rw [hshape, h]
    rcases extractNoStrideInc_spec env s off negate (some inc) n1 h with ⟨h1, h2⟩ | ⟨h1, h2⟩
    · subst h1
      have hv := h2 inc rfl
      cases n1 <;>
        simp [addressOf, strideGep, LLValue.value, ArithType.stride, hv]
    · subst h1
      have hv := h2 inc rfl
      cases negate <;>
        simp [addressOf, strideGep, LLValue.value, ArithType.stride, hv]
  · intro n1 h
    rw [hshape, h]
    cases n1 <;> simp [addressOf, LLValue.value]

/-- C28: evaluation of `binAdd` and `binMin` for a pointer `p` (value 1000) to
4-byte elements and the offset expression `-n` (`n` of value 3, no multiplication
by the element size): `extractNoStrideInc` returns nothing but has flipped the
flag, so the byte-pointer path negates the offset once more: `p + (-n)` yields
1003 instead of 997 and `p - (-n)` yields 997 instead of 1003. -/
theorem C28_negated_offset_flips_sign :
    extractNoStrideInc (Expression.neg (Expression.other 1)) 4 false = (none, true) ∧
    addressOf sampleEnv (binAdd (pointerOperands 4 (Expression.neg (Expression.other 1))))
      = some 1003 ∧
    sampleEnv 0 + (Expression.neg (Expression.other 1)).value sampleEnv = 997 ∧
    addressOf sampleEnv (binMin (pointerOperands 4 (Expression.neg (Expression.other 1))))
      = some 997 ∧
    sampleEnv 0 - (Expression.neg (Expression.other 1)).value sampleEnv = 1003 := by
  refine ⟨by rfl, by rfl, by rfl, by rfl, by rfl⟩

/-! ## Virtual function lookup -/

/-- C25: for a class-typed instance and a virtual method with dispatch index
`i > 0`, `DtoVirtualFunctionPointer` emits exactly four instructions, the load of
the dispatch-table pointer from slot 0 of the instance and the load of slot `i` of
that table, each behind its address computation, and returns the second loaded
value; a method that is not virtual, a dispatch index that is not above zero, and
an instance that is not of class type each stop at a failed assertion. -/
theorem C25_virtual_function_pointer (inst : DValue) (fdecl : FuncDeclaration) (e : Emit) :
    (∀ c, fdecl.isVirtual = true → 0 < fdecl.vtblIndex → inst.type = DType.classType c →
      DtoVirtualFunctionPointer inst fdecl e
        = .ok (Value.reg (e.code.length + 3)
              (virtualLookupType e.ir inst.rval fdecl.vtblIndex.toNat),
            { e with code := e.code
                ++ virtualLookupCode e.ir inst.rval fdecl.vtblIndex.toNat e.code.length }) ∧
        ((fdecl.vtblIndex.toNat : Int) = fdecl.vtblIndex)) ∧
    (fdecl.isVirtual = false →
      DtoVirtualFunctionPointer inst fdecl e = .error (Fatal.assertion 1151)) ∧
    (fdecl.isVirtual = true → fdecl.vtblIndex ≤ 0 →
      DtoVirtualFunctionPointer inst fdecl e = .error (Fatal.assertion 1152)) ∧
    (fdecl.isVirtual = true → 0 < fdecl.vtblIndex → (∀ c, inst.type ≠ DType.classType c) →
      DtoVirtualFunctionPointer inst fdecl e = .error (Fatal.assertion 1153)) := by
  refine ⟨?_, ?_, ?_, ?_⟩
  · intro c hv hi ht
    refine ⟨?_, Int.toNat_of_nonneg (le_of_lt hi)⟩
    simp [DtoVirtualFunctionPointer, hv, hi, ht, DtoGEPi, DtoGEP, DtoLoad, emit,
      virtualLookupCode, virtualLookupType, Value.type]
  · intro hv
    simp [DtoVirtualFunctionPointer, hv]
  · intro hv hi
    simp [DtoVirtualFunctionPointer, hv, not_lt.mpr hi]
  · intro hv hi ht
    unfold DtoVirtualFunctionPointer
    rw [if_neg (by simp [hv]), if_neg (by simp [hi])]
    split
    · rename_i c h
      exact absurd h (ht c)
    · rfl

theorem C25_virtual_function_pointer_witness :
    (DtoVirtualFunctionPointer (objectValue 1) sampleMethod emptyEmit
      = .ok (Value.reg (emptyEmit.code.length + 3)
            (virtualLookupType emptyEmit.ir (objectValue 1).rval sampleMethod.vtblIndex.toNat),
          { ir := emptyEmit.ir, code := emptyEmit.code
              ++ virtualLookupCode emptyEmit.ir (objectValue 1).rval sampleMethod.vtblIndex.toNat
                  emptyEmit.code.length }) ∧
      ((sampleMethod.vtblIndex.toNat : Int) = sampleMethod.vtblIndex)) ∧
    DtoVirtualFunctionPointer (objectValue 1) finalMethod emptyEmit
      = .error (Fatal.assertion 1151) :=
  ⟨(C25_virtual_function_pointer (objectValue 1) sampleMethod emptyEmit).1 1 rfl (by decide) rfl,
   (C25_virtual_function_pointer (objectValue 1) finalMethod emptyEmit).2.1 rfl⟩

/-! ## Module-level output of the phases -/

theorem forEach_output {α : Type} (f : α → IRState → Except Fatal IRState) (l : List α)
    (hf : ∀ a, a ∈ l → ∀ s s', f a s = .ok s' → moduleOutput s' = moduleOutput s) :
    ∀ s s', forEach f l s = .ok s' → moduleOutput s' = moduleOutput s := by
  induction l with
  | nil =>
    intro s s' h
    simp only [forEach, Except.ok.injEq] at h
    subst h
    rfl
  | cons a l ih =>
    intro s s' h
    unfold forEach at h
    split at h
    · rename_i s1 h1
      rw [ih (fun b hb => hf b (List.mem_cons_of_mem a hb)) s1 s' h,
        hf a (List.mem_cons_self a l) s s1 h1]
    · exact Except.noConfusion h

theorem toObjFile_output (rec : ClassId → IRState → Except Fatal IRState) (cd : ClassId)
    (hrec : ∀ c s s', rec c s = .ok s' → moduleOutput s' = moduleOutput s)
    (v : VarDeclaration) (s s' : IRState)
    (h : VarDeclaration.toObjFile rec cd v s = .ok s') : moduleOutput s' = moduleOutput s := by
  unfold VarDeclaration.toObjFile at h
  split at h
  · exact Except.noConfusion h
  · rename_i s1 h1
    have hf1 : moduleOutput s1 = moduleOutput s := by
      split at h1
      · exact hrec _ _ _ h1
      · simp only [Except.ok.injEq] at h1
        subst h1
        rfl
    split at h
    · exact Except.noConfusion h
    · dsimp only at h
      simp only [Except.ok.injEq] at h
      subst h
      exact hf1

theorem Dsymbol_toObjFile_output (rec : ClassId → IRState → Except Fatal IRState) (cd : ClassId)
    (hrec : ∀ c s s', rec c s = .ok s' → moduleOutput s' = moduleOutput s)
    (d : Dsymbol) (s s' : IRState)
    (h : Dsymbol.toObjFile rec cd d s = .ok s') : moduleOutput s' = moduleOutput s := by
  unfold Dsymbol.toObjFile at h
  split at h
  · exact toObjFile_output rec cd hrec _ s s' h
  · simp only [Except.ok.injEq] at h
    subst h
    rfl

theorem LLVM_AddBaseClassData_output (P : Program)
    (rec : ClassId → IRState → Except Fatal IRState) (cd : ClassId)
    (hrec : ∀ c s s', rec c s = .ok s' → moduleOutput s' = moduleOutput s) :
    ∀ (fuel : Nat) (bcs : List BaseClass) (s s' : IRState),
      LLVM_AddBaseClassData P rec cd fuel bcs s = .ok s' →
      moduleOutput s' = moduleOutput s := by
  intro fuel
  induction fuel with
  | zero =>
    intro bcs s s' h
    unfold LLVM_AddBaseClassData at h
    split at h
    · simp only [Except.ok.injEq] at h
      subst h
      rfl
    · exact Except.noConfusion h
  | succ fuel ih =>
    intro bcs s s' h
    unfold LLVM_AddBaseClassData at h
    refine forEach_output _ bcs ?_ s s' h
    intro bc _ t t' ht
    split at ht
    · simp only [Except.ok.injEq] at ht
      subst ht
      rfl
    · split at ht
      · exact Except.noConfusion ht
      · rename_i t1 h1
        rw [forEach_output _ _ (fun v _ u u' hu => toObjFile_output rec cd hrec v u u' hu)
          t1 t' ht, ih _ _ _ h1]

theorem addInterface_output (P : Program) (rec : ClassId → IRState → Except Fatal IRState)
    (cd : ClassId) (hrec : ∀ c s s', rec c s = .ok s' → moduleOutput s' = moduleOutput s)
    (bc : BaseClass) (s s' : IRState) (h : addInterface P rec cd bc s = .ok s') :
    moduleOutput s' = moduleOutput s := by
  unfold addInterface at h
  split at h
  · split at h
    · exact Except.noConfusion h
    · dsimp only at h
      rw [hrec _ _ _ h]
      rfl
  · simp only [Except.ok.injEq] at h
    subst h
    rfl

theorem LLVM_AddBaseClassInterfaces_output (P : Program)
    (rec : ClassId → IRState → Except Fatal IRState) (cd : ClassId)
    (hrec : ∀ c s s', rec c s = .ok s' → moduleOutput s' = moduleOutput s) :
    ∀ (fuel : Nat) (bcs : List BaseClass) (s s' : IRState),
      LLVM_AddBaseClassInterfaces P rec cd fuel bcs s = .ok s' →
      moduleOutput s' = moduleOutput s := by
  intro fuel
  induction fuel with
  | zero =>
    intro bcs s s' h
    unfold LLVM_AddBaseClassInterfaces at h
    split at h
    · simp only [Except.ok.injEq] at h
      subst h
      rfl
    · exact Except.noConfusion h
  | succ fuel ih =>
    intro bcs s s' h
    unfold LLVM_AddBaseClassInterfaces at h
    refine forEach_output _ bcs ?_ s s' h
    intro bc _ t t' ht
    split at ht
    · exact Except.noConfusion ht
    · rename_i t1 h1
      rw [ih _ _ _ ht, addInterface_output P rec cd hrec bc t t1 h1]

theorem publishType_output (cd : ClassId) (ft : List LLType) (s s' : IRState)
    (h : publishType cd ft s = .ok s') : moduleOutput s' = moduleOutput s := by
  unfold publishType at h
  split at h
  · exact Except.noConfusion h
  · split at h
    · exact Except.noConfusion h
    · exact Except.noConfusion h
    · dsimp only at h
      simp only [Except.ok.injEq] at h
      subst h
      rfl

theorem resolveLayout_output (P : Program) (sz : LLType → Nat) (fuel : Nat)
    (rec : ClassId → IRState → Except Fatal IRState) (cd : ClassId)
    (hrec : ∀ c s s', rec c s = .ok s' → moduleOutput s' = moduleOutput s)
    (ft : List LLType) (s s' : IRState)
    (h : resolveLayout P sz fuel rec cd ft s = .ok s') : moduleOutput s' = moduleOutput s := by
  unfold resolveLayout at h
  split at h
  · exact Except.noConfusion h
  split at h
  · exact Except.noConfusion h
  dsimp only at h
  split at h
  · exact Except.noConfusion h
  rename_i s2 h2
  have o2 := LLVM_AddBaseClassInterfaces_output P rec cd hrec _ _ _ _ h2
  split at h
  · exact Except.noConfusion h
  split at h
  · exact Except.noConfusion h
  try dsimp only at h
  rw [publishType_output cd _ _ s' h]
  exact o2

theorem finishResolve_output (P : Program) (cd : ClassId) (s s' : IRState)
    (h : finishResolve P cd s = .ok s') : moduleOutput s' = moduleOutput s := by
  unfold finishResolve at h
  split at h
  · exact Except.noConfusion h
  split at h
  · exact Except.noConfusion h
  simp only [Except.ok.injEq] at h
  subst h
  rfl

theorem beginResolve_output (cd : ClassId) (s : IRState) :
    moduleOutput (beginResolve cd s) = moduleOutput s := by
  unfold beginResolve
  dsimp only
  split <;> rfl

theorem resolveBody_output (P : Program) (sz : LLType → Nat) (fuel : Nat)
    (rec : ClassId → IRState → Except Fatal IRState) (cd : ClassId)
    (hrec : ∀ c s s', rec c s = .ok s' → moduleOutput s' = moduleOutput s)
    (s s' : IRState) (h : resolveBody P sz fuel rec cd s = .ok s') :
    moduleOutput s' = moduleOutput s := by
  unfold resolveBody at h
  split at h
  · simp only [Except.ok.injEq] at h
    subst h
    rfl
  split at h
  · exact Except.noConfusion h
  rename_i s3 h3
  have o3 : moduleOutput s3 = moduleOutput s := by
    split at h3
    · rw [hrec _ _ _ h3, beginResolve_output]
    · simp only [Except.ok.injEq] at h3
      subst h3
      exact beginResolve_output cd s
  split at h
  · exact Except.noConfusion h
  rename_i s5 h5
  have o5 := LLVM_AddBaseClassData_output P rec cd hrec _ _ _ _ h5
  split at h
  · exact Except.noConfusion h
  rename_i s6 h6
  have o6 := forEach_output _ _
    (fun d _ u u' hu => Dsymbol_toObjFile_output rec cd hrec d u u' hu) _ _ h6
  split at h
  · exact Except.noConfusion h
  rename_i s7 h7
  have o7 := resolveLayout_output P sz fuel rec cd hrec _ _ _ h7
  rw [finishResolve_output P cd s7 s' h, o7, o6, o5]
  exact o3

/-- `DtoResolveClass` creates no global, sets no initializer and leaves the
const-init and define work lists alone. -/
theorem DtoResolveClass_output (P : Program) (sz : LLType → Nat) :
    ∀ (fuel : Nat) (cd : ClassId) (s s' : IRState),
      DtoResolveClass P sz fuel cd s = .ok s' → moduleOutput s' = moduleOutput s := by
  intro fuel
  induction fuel with
  | zero =>
    intro cd s s' h
    unfold DtoResolveClass at h
    split at h
    · simp only [Except.ok.injEq] at h
      subst h
      rfl
    · exact Except.noConfusion h
  | succ fuel ih =>
    intro cd s s' h
    unfold DtoResolveClass at h
    exact resolveBody_output P sz fuel _ cd ih s s' h

/-- What `DtoDeclareClassInfo` does on a resolved class: nothing when the record is
marked already, otherwise it marks the record and creates the descriptor global. -/
theorem DtoDeclareClassInfo_effect (P : Program) (sz : LLType → Nat) (fuel : Nat)
    (cd : ClassId) (s s' : IRState) (irs : IrStruct) (hr : s.llvmResolved cd = true)
    (hirs : s.irStruct cd = some irs) (h : DtoDeclareClassInfo P sz fuel cd s = .ok s') :
    (irs.classDeclared = true ∧ s' = s) ∨
    (irs.classDeclared = false ∧
      s'.irStruct cd = some (irs.withClassInfo (GlobalName.classInfo cd)) ∧
      s'.globals = s.globals ++ [GlobalName.classInfo cd] ∧
      s'.constInitList = s.constInitList ∧ s'.defineList = s.defineList ∧
      s'.initializers = s.initializers) := by
  unfold DtoDeclareClassInfo at h
  rw [hirs] at h
  dsimp only at h
  split at h
  · rename_i hcd
    simp only [Except.ok.injEq] at h
    exact Or.inl ⟨hcd, h.symm⟩
  · rename_i hcd
    split at h
    · exact Except.noConfusion h
    · rename_i s1 h1
      obtain ⟨_, k2, _, _⟩ := (DtoResolveClass_rel P sz fuel _ _ _ h1).keeps cd (by exact hr)
      have ho := DtoResolveClass_output P sz fuel _ _ _ h1
      simp only [moduleOutput, Prod.mk.injEq] at ho
      obtain ⟨hg, hc, hdl, hi⟩ := ho
      simp only [upd_same] at k2
      split at h
      · exact Except.noConfusion h
      · rw [k2] at h
        dsimp only at h
        simp only [Except.ok.injEq] at h
        subst h
        refine Or.inr ⟨by simpa using hcd, ?_, ?_, hc, hdl, hi⟩
        · simp [upd_same, IrStruct.withClassInfo]
        · simp [hg]

theorem declareInterfaceVtbls_globals (cd : ClassId) :
    ∀ (ifs : List IrInterface) (idx : Nat) (ifs' : List IrInterface) (gs : List GlobalName),
      declareInterfaceVtbls cd ifs idx = .ok (ifs', gs) →
      gs = ifs.map (fun iri => GlobalName.interfaceVtbl cd iri.decl) := by
  intro ifs
  induction ifs with
  | nil =>
    intro idx ifs' gs h
    simp only [declareInterfaceVtbls, Except.ok.injEq, Prod.mk.injEq] at h
    simp [← h.2]
  | cons iri rest ih =>
    intro idx ifs' gs h
    unfold declareInterfaceVtbls at h
    split at h
    · exact absurd h (by simp)
    · dsimp only at h
      split at h
      · exact absurd h (by simp)
      · rename_i rest1 gs1 hrec
        simp only [Except.ok.injEq, Prod.mk.injEq] at h
        rw [← h.2, List.map_cons, ih _ _ _ hrec]

theorem declareVtbl_effect (P : Program) (cd : ClassId) (s : IRState) (irs irs1 : IrStruct)
    (g1 : List GlobalName) (h : declareVtbl P cd s irs = .ok (irs1, g1)) :
    g1 = (if isConcrete P cd = true then [GlobalName.vtbl cd] else []) ∧
    irs1.interfaces = irs.interfaces ∧ irs1.classDeclared = irs.classDeclared := by
  unfold declareVtbl at h
  split at h
  · rename_i hc
    split at h
    · exact absurd h (by simp)
    · exact absurd h (by simp)
    · simp only [Except.ok.injEq, Prod.mk.injEq] at h
      obtain ⟨h1, h2⟩ := h
      subst h1 h2
      exact ⟨by rw [if_pos hc], rfl, rfl⟩
  · rename_i hc
    simp only [Except.ok.injEq, Prod.mk.injEq] at h
    obtain ⟨h1, h2⟩ := h
    subst h1 h2
    exact ⟨by rw [if_neg hc], rfl, rfl⟩

theorem declareInterfaceInfos_effect (cd : ClassId) (irs : IrStruct) :
    (declareInterfaceInfos cd irs).2
      = (if irs.interfaces.isEmpty then [] else [GlobalName.interfaceInfos cd]) ∧
    (declareInterfaceInfos cd irs).1.interfaces = irs.interfaces ∧
    (declareInterfaceInfos cd irs).1.classDeclared = irs.classDeclared := by
  unfold declareInterfaceInfos
  split <;> exact ⟨rfl, rfl, rfl⟩

theorem declareInit_effect (P : Program) (cd : ClassId) (s : IRState) (irs irs3 : IrStruct)
    (g3 : List GlobalName) (h : declareInit P cd s irs = .ok (irs3, g3)) :
    g3 = (if isConcrete P cd = true then
            irs.interfaces.map (fun iri => GlobalName.interfaceVtbl cd iri.decl)
              ++ [GlobalName.init cd]
          else []) ∧
    irs3.classDeclared = irs.classDeclared := by
  unfold declareInit at h
  split at h
  · rename_i hc
    split at h
    · exact absurd h (by simp)
    · rename_i ifs gs hifs
      split at h
      · exact absurd h (by simp)
      · simp only [Except.ok.injEq, Prod.mk.injEq] at h
        obtain ⟨h1, h2⟩ := h
        subst h1 h2
        rw [if_pos hc, declareInterfaceVtbls_globals cd _ _ _ _ hifs]
        exact ⟨rfl, rfl⟩
  · rename_i hc
    simp only [Except.ok.injEq, Prod.mk.injEq] at h
    obtain ⟨h1, h2⟩ := h
    subst h1 h2
    exact ⟨by rw [if_neg hc], rfl⟩

/-- What `DtoDeclareClass` adds to the module for a resolved, not yet declared
class: the globals of `declaredGlobals`, one entry on the const-init list, one
entry on the define list when the class is owned by the current module, and no
initializer. -/
theorem DtoDeclareClass_effect (P : Program) (sz : LLType → Nat) (fuel : Nat) (cd : ClassId)
    (s s' : IRState) (irs : IrStruct) (hd : s.llvmDeclared cd = false)
    (hr : s.llvmResolved cd = true) (hirs : s.irStruct cd = some irs)
    (h : DtoDeclareClass P sz fuel cd s = .ok s') :
    s'.globals = s.globals ++ declaredGlobals P cd irs ∧
    s'.constInitList = s.constInitList ++ [cd] ∧
    s'.defineList
      = (if (P.decl cd).inModule = true then s.defineList ++ [cd] else s.defineList) ∧
    s'.initializers = s.initializers := by
  unfold DtoDeclareClass at h
  rw [if_neg (by rw [hd]; simp)] at h
  dsimp only at h
  rw [hirs] at h
  dsimp only at h
  split at h
  · exact absurd h (by simp)
  · rename_i irs1 g1 h1
    obtain ⟨e1g, e1i, e1c⟩ := declareVtbl_effect P cd _ _ _ _ h1
    obtain ⟨e2g, e2i, e2c⟩ := declareInterfaceInfos_effect cd irs1
    generalize hdi : declareInterfaceInfos cd irs1 = di at h e2g e2i e2c
    obtain ⟨irs2, g2⟩ := di
    dsimp only at h e2g e2i e2c
    split at h
    · exact absurd h (by simp)
    · rename_i irs3 g3 h3
      obtain ⟨e3g, e3c⟩ := declareInit_effect P cd _ _ _ _ h3
      have hc3 : irs3.classDeclared = irs.classDeclared := by rw [e3c, e2c, e1c]
      rcases DtoDeclareClassInfo_effect P sz fuel cd _ _ irs3 (by exact hr)
          (by exact upd_same _ _ _) h with ⟨hcd, hs⟩ | ⟨hcd, _, hg, hc, hdl, hi⟩
      · subst hs
        dsimp only
        rw [hc3] at hcd
        refine ⟨?_, rfl, ?_, rfl⟩
        · rw [e1g, e2g, e3g, e2i, e1i]
          unfold declaredGlobals
          simp [hcd]
        · by_cases hm : (P.decl cd).inModule = true <;> simp [hm]
      · rw [hc3] at hcd
        refine ⟨?_, hc, ?_, hi⟩
        · rw [hg]
          dsimp only
          rw [e1g, e2g, e3g, e2i, e1i]
          unfold declaredGlobals
          simp [hcd]
        · exact hdl

theorem DtoDefineClass_foreign (P : Program) (sz : LLType → Nat) (T : Target) (fuel : Nat)
    (cd : ClassId) (t : IRState) (hm : (P.decl cd).inModule = false) :
    ∃ t', DtoDefineClass P sz T fuel cd t = .ok t' ∧ t'.initializers = t.initializers := by
  unfold DtoDefineClass
  split
  · exact ⟨t, rfl, rfl⟩
  · dsimp only
    rw [if_neg (by rw [hm]; simp)]
    exact ⟨_, rfl, rfl⟩

/-- C24: `DtoDeclareClass`, run on a resolved and not yet declared class, appends
the class to the define work-list if and only if the class is owned by the module
being compiled; `DtoDefineClass` on a class owned by another module returns
without setting any initializer, so a run of `DtoDefineClass` that changes the
initializers is a run on a class of the current module. -/
theorem C24_definitions_follow_the_owning_module (P : Program) (sz : LLType → Nat)
    (T : Target) (fuel : Nat) (cd : ClassId) (s s' : IRState)
    (hd : s.llvmDeclared cd = false) (hr : s.llvmResolved cd = true)
    (hrec : (s.irStruct cd).isSome = true)
    (h : DtoDeclareClass P sz fuel cd s = .ok s') :
    s'.defineList
      = (if (P.decl cd).inModule = true then s.defineList ++ [cd] else s.defineList) ∧
    (∀ (fuel2 : Nat) (t : IRState), (P.decl cd).inModule = false →
      ∃ t', DtoDefineClass P sz T fuel2 cd t = .ok t' ∧ t'.initializers = t.initializers) ∧
    (∀ (fuel2 : Nat) (t t' : IRState), DtoDefineClass P sz T fuel2 cd t = .ok t' →
      t'.initializers ≠ t.initializers → (P.decl cd).inModule = true) := by
  obtain ⟨irs, hirs⟩ := Option.isSome_iff_exists.mp hrec
  refine ⟨(DtoDeclareClass_effect P sz fuel cd s s' irs hd hr hirs h).2.2.1,
    fun fuel2 t hm => DtoDefineClass_foreign P sz T fuel2 cd t hm, ?_⟩
  intro fuel2 t t' ht hne
  by_contra hm
  obtain ⟨t2, e, hi⟩ := DtoDefineClass_foreign P sz T fuel2 cd t (by simpa using hm)
  rw [ht] at e
  simp only [Except.ok.injEq] at e
  subst e
  exact hne hi

/-- Witness for C24: class 3 of `abstractProgram` is owned by another module. -/
theorem C24_definitions_follow_the_owning_module_witness :
    (resultState (DtoDeclareClass abstractProgram sampleSize 6 3 (abstractResolved 3))).defineList
      = (if (abstractProgram.decl 3).inModule = true then (abstractResolved 3).defineList ++ [3]
         else (abstractResolved 3).defineList) ∧
    (∀ (fuel2 : Nat) (t : IRState), (abstractProgram.decl 3).inModule = false →
      ∃ t', DtoDefineClass abstractProgram sampleSize sampleTarget fuel2 3 t = .ok t' ∧
        t'.initializers = t.initializers) ∧
    (∀ (fuel2 : Nat) (t t' : IRState),
      DtoDefineClass abstractProgram sampleSize sampleTarget fuel2 3 t = .ok t' →
      t'.initializers ≠ t.initializers → (abstractProgram.decl 3).inModule = true) :=
  C24_definitions_follow_the_owning_module abstractProgram sampleSize sampleTarget 6 3
    (abstractResolved 3) _ rfl rfl rfl rfl

/-- C23 as stated fails for the interface-metadata array: the abstract class 1 of
`abstractProgram` implements an interface and gets the array storage, and the
concrete class 3 implements none and gets no array storage. -/
theorem C23_interface_infos_follow_the_table :
    ((abstractResolved 1).llvmResolved 1 = true ∧ isConcrete abstractProgram 1 = false ∧
      ∃ s', DtoDeclareClass abstractProgram sampleSize 6 1 (abstractResolved 1) = .ok s' ∧
        GlobalName.interfaceInfos 1 ∈ createdGlobals (abstractResolved 1) s') ∧
    ((abstractResolved 3).llvmResolved 3 = true ∧ isConcrete abstractProgram 3 = true ∧
      ∃ s', DtoDeclareClass abstractProgram sampleSize 6 3 (abstractResolved 3) = .ok s' ∧
        GlobalName.interfaceInfos 3 ∉ createdGlobals (abstractResolved 3) s') :=
  ⟨⟨rfl, rfl, _, rfl, by decide⟩, ⟨rfl, rfl, _, rfl, by decide⟩⟩

/-- C23 (amended): `DtoDeclareClass`, run on a resolved and not yet declared class,
creates the vtable storage and the default-image storage exactly when the class
is concrete, creates the interface-metadata array storage exactly when the
interface table of the class is non-empty (concrete or not), and creates the
descriptor storage exactly when the descriptor was not declared before. -/
theorem C23_declared_storage (P : Program) (sz : LLType → Nat) (fuel : Nat) (cd : ClassId)
    (s s' : IRState) (hd : s.llvmDeclared cd = false) (hr : s.llvmResolved cd = true)
    (hrec : (s.irStruct cd).isSome = true)
    (h : DtoDeclareClass P sz fuel cd s = .ok s') :
    (GlobalName.vtbl cd ∈ createdGlobals s s' ↔ isConcrete P cd = true) ∧
    (GlobalName.init cd ∈ createdGlobals s s' ↔ isConcrete P cd = true) ∧
    (GlobalName.interfaceInfos cd ∈ createdGlobals s s' ↔ (recordOf s cd).interfaces ≠ []) ∧
    (GlobalName.classInfo cd ∈ createdGlobals s s' ↔ (recordOf s cd).classDeclared = false) := by
  obtain ⟨irs, hirs⟩ := Option.isSome_iff_exists.mp hrec
  have hg := (DtoDeclareClass_effect P sz fuel cd s s' irs hd hr hirs h).1
  have hc : createdGlobals s s' = declaredGlobals P cd irs := by
    simp [createdGlobals, hg]
  have hrecord : recordOf s cd = irs := by simp [recordOf, hirs]
  rw [hc, hrecord]
  unfold declaredGlobals
  by_cases c : isConcrete P cd = true <;> by_cases e : irs.interfaces = [] <;>
    by_cases d : irs.classDeclared = true <;> simp [c, e, d]

/-- Witness for C23: the abstract class 1 of `abstractProgram`. -/
theorem C23_declared_storage_witness :
    (GlobalName.vtbl 1 ∈ createdGlobals (abstractResolved 1)
        (resultState (DtoDeclareClass abstractProgram sampleSize 6 1 (abstractResolved 1)))
      ↔ isConcrete abstractProgram 1 = true) ∧
    (GlobalName.init 1 ∈ createdGlobals (abstractResolved 1)
        (resultState (DtoDeclareClass abstractProgram sampleSize 6 1 (abstractResolved 1)))
      ↔ isConcrete abstractProgram 1 = true) ∧
    (GlobalName.interfaceInfos 1 ∈ createdGlobals (abstractResolved 1)
        (resultState (DtoDeclareClass abstractProgram sampleSize 6 1 (abstractResolved 1)))
      ↔ (recordOf (abstractResolved 1) 1).interfaces ≠ []) ∧
    (GlobalName.classInfo 1 ∈ createdGlobals (abstractResolved 1)
        (resultState (DtoDeclareClass abstractProgram sampleSize 6 1 (abstractResolved 1)))
      ↔ (recordOf (abstractResolved 1) 1).classDeclared = false) :=
  C23_declared_storage abstractProgram sampleSize 6 1 (abstractResolved 1) _ rfl rfl rfl rfl

theorem scanStep_position (sz : LLType → Nat) (n0 : Nat) (st st' : ScanState) (e : Offset)
    (hp : SlotPosition n0 st) (h : scanStep sz st e = .ok st') : SlotPosition n0 st' := by
  unfold SlotPosition at hp ⊢
  obtain ⟨hp0, hp⟩ := hp
  unfold scanStep at h
  split at h
  · simp only [Except.ok.injEq] at h; subst h; exact ⟨hp0, hp⟩
  · split at h
    · simp only [Except.ok.injEq] at h; subst h
      by_cases hs : sz e.type > st.prevsize <;> simp [hs, hp, hp0]
    · split at h
      · dsimp only at h
        split at h
        · exact absurd h (by simp)
        · split at h
          · exact absurd h (by simp)
          · simp only [Except.ok.injEq] at h; subst h; exact ⟨hp0, hp⟩
      · simp only [Except.ok.injEq] at h; subst h
        dsimp only
        by_cases hf : st.fieldpad = 0
        · simp only [hf, ne_eq, not_true_eq_false, if_false, List.length_append,
            List.length_cons, List.length_nil]
          push_cast
          omega
        · simp only [hf, ne_eq, not_false_eq_true, if_true, List.length_append,
            List.length_cons, List.length_nil]
          push_cast
          omega

theorem scanLoop_position (sz : LLType → Nat) (n0 : Nat) :
    ∀ (xs : List Offset) (st st' : ScanState), SlotPosition n0 st →
      scanLoop sz st xs = .ok st' → SlotPosition n0 st' := by
  intro xs
  induction xs with
  | nil =>
    intro st st' hp h
    simp only [scanLoop, Except.ok.injEq] at h
    subst h
    exact hp
  | cons x xs ih =>
    intro st st' hp h
    unfold scanLoop at h
    split at h
    · rename_i st1 h1
      exact ih st1 st' (scanStep_position sz n0 st st1 x hp h1) h
    · exact absurd h (by simp)

theorem scanStep_same_slot (sz : LLType → Nat) (st st' : ScanState) (x : Offset)
    (hl : st.lastoffset ≠ UINT_MAX) (h : scanStep sz st x = .ok st')
    (hidx : st'.idx = st.idx) :
    st'.fieldtype = st.fieldtype ∧ st'.fieldtypes = st.fieldtypes ∧
    (st'.irField x.var).index = st.idx ∧
    (∀ v, (st.irField v).index = st.idx → (st'.irField v).index = st.idx) := by
  unfold scanStep at h
  rw [if_neg hl] at h
  split at h
  · simp only [Except.ok.injEq] at h; subst h
    by_cases hs : sz x.type > st.prevsize
    · rw [if_pos hs]
      exact ⟨rfl, rfl, setIndex_index_self _ _ _, fun v hv => setIndex_index_of _ _ _ _ hv⟩
    · rw [if_neg hs]
      exact ⟨rfl, rfl, setIndex_index_self _ _ _, fun v hv => setIndex_index_of _ _ _ _ hv⟩
  · split at h
    · dsimp only at h
      split at h
      · exact absurd h (by simp)
      · split at h
        · exact absurd h (by simp)
        · simp only [Except.ok.injEq] at h; subst h
          refine ⟨rfl, rfl, ?_, ?_⟩
          · dsimp only
            rw [setIndexOffset_index]
            exact setIndex_index_self _ _ _
          · intro v hv
            dsimp only
            rw [setIndexOffset_index]
            exact setIndex_index_of _ _ _ _ hv
    · simp only [Except.ok.injEq] at h; subst h
      exfalso
      dsimp only at hidx
      split at hidx <;> omega

theorem scanLoop_same_slot (sz : LLType → Nat) :
    ∀ (xs : List Offset) (st st2 : ScanState), st.lastoffset ≠ UINT_MAX →
      (∀ x ∈ xs, InRange sz x) → scanLoop sz st xs = .ok st2 → st2.idx = st.idx →
      st2.fieldtype = st.fieldtype ∧ st2.fieldtypes = st.fieldtypes ∧
      st2.lastoffset ≠ UINT_MAX ∧
      (∀ x ∈ xs, (st2.irField x.var).index = st.idx) ∧
      (∀ v, (st.irField v).index = st.idx → (st2.irField v).index = st.idx) := by
  intro xs
  induction xs with
  | nil =>
    intro st st2 hl _ h _
    simp only [scanLoop, Except.ok.injEq] at h
    subst h
    exact ⟨rfl, rfl, hl, fun x hx => absurd hx (List.not_mem_nil x), fun _ hv => hv⟩
  | cons x xs ih =>
    intro st st2 hl hr h hidx
    unfold scanLoop at h
    split at h
    · rename_i st1 h1
      obtain ⟨m1, m2, _⟩ := scanStep_mono sz st st1 x hl (hr x (List.mem_cons_self x xs)) h1
      obtain ⟨n1, _⟩ := scanLoop_mono sz xs st1 st2 m2
        (fun y hy => hr y (List.mem_cons_of_mem x hy)) h
      have e1 : st1.idx = st.idx := by omega
      have e2 : st2.idx = st1.idx := by omega
      obtain ⟨p1, p2, p3, p4⟩ := scanStep_same_slot sz st st1 x hl h1 e1
      obtain ⟨q1, q2, q3, q4, q5⟩ := ih st1 st2 m2
        (fun y hy => hr y (List.mem_cons_of_mem x hy)) h e2
      refine ⟨q1.trans p1, q2.trans p2, q3, ?_, ?_⟩
      · intro y hy
        rw [← e1]
        rcases List.mem_cons.mp hy with hy | hy
        · rw [hy]
          exact q5 _ (by rw [e1]; exact p3)
        · exact q4 y hy
      · intro v hv
        rw [← e1]
        exact q5 v (by rw [e1]; exact p4 v hv)
    · exact absurd h (by simp)

theorem scanStep_irField_other (sz : LLType → Nat) (st st' : ScanState) (x : Offset)
    (v : VarId) (h : scanStep sz st x = .ok st') (hv : x.var ≠ v) :
    st'.irField v = st.irField v := by
  have hv2 : ¬ v = x.var := fun e => hv e.symm
  unfold scanStep at h
  split at h
  · simp only [Except.ok.injEq] at h; subst h
    simp [setIndex, hv2]
  · split at h
    · simp only [Except.ok.injEq] at h; subst h
      by_cases hs : sz x.type > st.prevsize <;> simp [hs, setIndex, hv2]
    · split at h
      · dsimp only at h
        split at h
        · exact absurd h (by simp)
        · split at h
          · exact absurd h (by simp)
          · simp only [Except.ok.injEq] at h; subst h
            simp [setIndex, setIndexOffset, hv2]
      · simp only [Except.ok.injEq] at h; subst h
        simp [setIndex, hv2]

theorem scanLoop_irField_other (sz : LLType → Nat) (v : VarId) :
    ∀ (xs : List Offset) (st st' : ScanState), (∀ x ∈ xs, x.var ≠ v) →
      scanLoop sz st xs = .ok st' → st'.irField v = st.irField v := by
  intro xs
  induction xs with
  | nil =>
    intro st st' _ h
    simp only [scanLoop, Except.ok.injEq] at h
    subst h
    rfl
  | cons x xs ih =>
    intro st st' hv h
    unfold scanLoop at h
    split at h
    · rename_i st1 h1
      rw [ih st1 st' (fun y hy => hv y (List.mem_cons_of_mem x hy)) h,
        scanStep_irField_other sz st st1 x v h1 (hv x (List.mem_cons_self x xs))]
    · exact absurd h (by simp)

theorem scanFinish_irField (st : ScanState) : (scanFinish st).irField = st.irField := by
  unfold scanFinish
  dsimp only
  split <;> rfl

theorem getElem_skip_left (A B : List LLType) (k : Nat) :
    (A ++ B)[A.length + k]? = B[k]? := by
  induction A with
  | nil => simp
  | cons a A ih =>
    simp only [List.cons_append, List.length_cons]
    rw [show A.length + 1 + k = (A.length + k) + 1 by omega, List.getElem?_cons_succ]
    exact ih

theorem indexExact_path (irf : IrField) (llt : LLType) (ptr : Value) (idxs : List Nat)
    (e : Emit) (h0 : 0 ≤ irf.index) (h1 : irf.index < 2147483648) :
    (indexExact irf llt ptr idxs e).2.1 = idxs ++ [irf.index.toNat + 2] ∧
    (indexExact irf llt ptr idxs e).2.2.code
      = (castUnless (DtoGEP e ptr (idxs ++ [irf.index.toNat + 2])).2
          (DtoGEP e ptr (idxs ++ [irf.index.toNat + 2])).1 llt).2.code
        ++ (if irf.indexOffset ≠ 0 then
              [Instr.gep (castUnless (DtoGEP e ptr (idxs ++ [irf.index.toNat + 2])).2
                (DtoGEP e ptr (idxs ++ [irf.index.toNat + 2])).1 llt).1 [irf.indexOffset]]
            else []) := by
  have hu : u32 (irf.index.toNat + 2) = irf.index.toNat + 2 := by
    unfold u32
    omega
  unfold indexExact
  rw [hu]
  dsimp only
  by_cases hz : irf.indexOffset = 0
  · simp [hz]
  · simp [hz, DtoGEP, emit]

theorem indexLoop_exact (F : Frontend) (V : VarId → FieldDecl) (sz : LLType → Nat) (t : DType)
    (os : Nat) (llt : LLType) (ptr : Value) (idxs : List Nat) (e : Emit) (x : Offset)
    (rest : List Offset) (h0 : 0 ≤ (e.ir.irField x.var).index)
    (hm : exactMatch (V x.var) t os = true) :
    indexLoop F V sz t os llt ptr idxs e (x :: rest)
      = .ok (indexExact (e.ir.irField x.var) llt ptr idxs e) := by
  unfold indexLoop
  dsimp only
  rw [if_neg (by omega), if_pos hm]

/-- C26: in a layout scan over the offset map of a class, let `g0` start a slot,
let the entries `grp` after it stay in that slot, and let the slot be closed by
the end of the scan or by the next entry. Then every entry of the slot records
the same non-negative index, element `index + 2` of the composite type (the scan's
vector followed by any interface pointers `tail`) is the type of the slot-starting
field, and when the slot was widened element `index + 3` is its padding array. On
an exact match `DtoIndexClass` returns the path of that entry: it appends
`index + 2` to the access path, and it adds the micro-offset step exactly when the
micro-offset is not zero. -/
theorem C26_field_index_is_slot_position (sz : LLType → Nat) (cd : ClassId)
    (irf0 : VarId → IrField) (pre : List Offset) (g0 : Offset) (grp post : List Offset)
    (r : ScanResult) (st0 sta st1 : ScanState) (tail : List LLType)
    (hrange : ∀ x ∈ pre ++ g0 :: (grp ++ post), InRange sz x)
    (hr : resolveFields sz (pre ++ g0 :: (grp ++ post)) (classHeader cd) [] false irf0 = .ok r)
    (hpre : scanLoop sz (scanInit (classHeader cd) [] false irf0) pre = .ok st0)
    (hstart : StartsSlot st0 g0)
    (hg0 : scanStep sz st0 g0 = .ok sta)
    (hgrp : scanLoop sz sta grp = .ok st1)
    (hsame : st1.idx = sta.idx)
    (hclosed : post = [] ∨
      ∃ n rest stn, post = n :: rest ∧ scanStep sz st1 n = .ok stn ∧ stn.idx ≠ st1.idx)
    (hvars : ∀ x ∈ g0 :: grp, ∀ y ∈ post, y.var ≠ x.var) :
    0 ≤ st1.idx ∧
    (∀ x ∈ g0 :: grp, (r.irField x.var).index = st1.idx) ∧
    (r.fieldtypes ++ tail)[st1.idx.toNat + 2]? = some g0.type ∧
    (0 < st1.fieldpad →
      (r.fieldtypes ++ tail)[st1.idx.toNat + 3]?
        = some (LLType.array LLType.int8 st1.fieldpad)) ∧
    (∀ (F : Frontend) (V : VarId → FieldDecl) (t : DType) (os : Nat) (llt : LLType)
        (ptr : Value) (idxs : List Nat) (e : Emit) (x : Offset) (others : List Offset),
      0 ≤ (e.ir.irField x.var).index → (e.ir.irField x.var).index < 2147483648 →
      exactMatch (V x.var) t os = true →
      indexLoop F V sz t os llt ptr idxs e (x :: others)
        = .ok (indexExact (e.ir.irField x.var) llt ptr idxs e) ∧
      (indexExact (e.ir.irField x.var) llt ptr idxs e).2.1
        = idxs ++ [(e.ir.irField x.var).index.toNat + 2] ∧
      (indexExact (e.ir.irField x.var) llt ptr idxs e).2.2.code
        = (castUnless (DtoGEP e ptr (idxs ++ [(e.ir.irField x.var).index.toNat + 2])).2
            (DtoGEP e ptr (idxs ++ [(e.ir.irField x.var).index.toNat + 2])).1 llt).2.code
          ++ (if (e.ir.irField x.var).indexOffset ≠ 0 then
                [Instr.gep
                  (castUnless (DtoGEP e ptr (idxs ++ [(e.ir.irField x.var).index.toNat + 2])).2
                    (DtoGEP e ptr (idxs ++ [(e.ir.irField x.var).index.toNat + 2])).1 llt).1
                  [(e.ir.irField x.var).indexOffset]]
              else [])) := by
  -- the run of the whole scan
  unfold resolveFields at hr
  rw [if_neg (by simp)] at hr
  split at hr
  case h_2 => exact Except.noConfusion hr
  rename_i stF hF
  simp only [Except.ok.injEq] at hr
  subst hr
  dsimp only
  obtain ⟨st0', hpre', hmid⟩ := (scanLoop_append sz pre (g0 :: (grp ++ post)) _ stF).mp hF
  rw [hpre] at hpre'
  obtain rfl := Except.ok.inj hpre'
  unfold scanLoop at hmid
  rw [hg0] at hmid
  dsimp only at hmid
  obtain ⟨st1', hgrp', hpost⟩ := (scanLoop_append sz grp post sta stF).mp hmid
  rw [hgrp] at hgrp'
  obtain rfl := Except.ok.inj hgrp'
  -- the slot-starting step
  have hr0 : InRange sz g0 := hrange g0 (by simp)
  obtain ⟨sta', hsta', a1, a2, _, _, a5⟩ := scanStep_start sz st0 g0 hstart hr0
  rw [hg0] at hsta'
  obtain rfl := Except.ok.inj hsta'
  have hla : sta.lastoffset ≠ UINT_MAX := by rw [a1]; exact Nat.ne_of_lt hr0.1
  -- position of the open slot
  have hpos0 : SlotPosition 2 (scanInit (classHeader cd) [] false irf0) := by
    unfold SlotPosition scanInit classHeader
    simp
  obtain ⟨hnn, hlen⟩ :=
    scanStep_position sz 2 st0 sta g0 (scanLoop_position sz 2 pre _ st0 hpos0 hpre) hg0
  obtain ⟨c1, c2, _, c4, c5⟩ := scanLoop_same_slot sz grp sta st1 hla
    (fun x hx => hrange x (by simp [hx])) hgrp hsame
  have hft : st1.fieldtype = g0.type := c1.trans a2
  have hlen1 : st1.fieldtypes.length = st1.idx.toNat + 2 := by
    rw [c2, hsame]
    omega
  -- what the scan appends when the slot is closed
  have hemit : ∃ more, (scanFinish stF).fieldtypes
      = st1.fieldtypes ++ (slotTypes st1.fieldtype st1.fieldpad ++ more) := by
    rcases hclosed with hnil | ⟨n, rest, stn, hpn, hn, hne⟩
    · subst hnil
      simp only [scanLoop, Except.ok.injEq] at hpost
      subst hpost
      exact ⟨[], by rw [scanFinish_emits, List.append_nil]⟩
    · subst hpn
      unfold scanLoop at hpost
      rw [hn] at hpost
      dsimp only at hpost
      obtain ⟨d1, hd1⟩ := scanLoop_fieldtypes sz rest stn stF hpost
      obtain ⟨d2, hd2, _⟩ := scanFinish_fieldtypes stF
      refine ⟨d1 ++ d2, ?_⟩
      rw [hd2, hd1, scanStep_emits sz st1 stn n hn hne]
      simp
  obtain ⟨more, hmore⟩ := hemit
  have hall : (scanFinish stF).fieldtypes ++ tail
      = st1.fieldtypes ++ (slotTypes st1.fieldtype st1.fieldpad ++ (more ++ tail)) := by
    rw [hmore]
    simp
  refine ⟨by rw [hsame]; exact hnn, ?_, ?_, ?_, ?_⟩
  · intro x hx
    rw [scanFinish_irField,
      scanLoop_irField_other sz x.var post st1 stF (fun y hy => hvars x hx y hy) hpost]
    rcases List.mem_cons.mp hx with hx | hx
    · rw [hx, hsame]
      exact c5 _ a5
    · rw [hsame]
      exact c4 x hx
  · rw [hall, ← hlen1, ← Nat.add_zero st1.fieldtypes.length, getElem_skip_left, hft]
    unfold slotTypes
    split <;> simp
  · intro hpad
    rw [hall, show st1.idx.toNat + 3 = st1.fieldtypes.length + 1 by omega,
      getElem_skip_left]
    unfold slotTypes
    rw [if_pos hpad]
    simp
  · intro F V t os llt ptr idxs e x others h0 h1 hm
    exact ⟨indexLoop_exact F V sz t os llt ptr idxs e x others h0 hm,
      indexExact_path _ llt ptr idxs e h0 h1⟩

/-- Witness for C26: the union slot of the sample class, started by `a` at offset
12 and widened by `b`; both record index 1, element 3 of the composite type is the
type of `a` and element 4 the padding of 4 bytes. -/
theorem C26_field_index_is_slot_position_witness :
    0 ≤ sampleScanGroup.idx ∧
    (∀ x ∈ offsetA :: [offsetB], (sampleFields.irField x.var).index = sampleScanGroup.idx) ∧
    (sampleFields.fieldtypes ++ [getPtrToType (LLType.vtblRef 2)])[sampleScanGroup.idx.toNat + 2]?
      = some offsetA.type ∧
    (0 < sampleScanGroup.fieldpad →
      (sampleFields.fieldtypes ++ [getPtrToType (LLType.vtblRef 2)])[sampleScanGroup.idx.toNat + 3]?
        = some (LLType.array LLType.int8 sampleScanGroup.fieldpad)) ∧
    (∀ (F : Frontend) (V : VarId → FieldDecl) (t : DType) (os : Nat) (llt : LLType)
        (ptr : Value) (idxs : List Nat) (e : Emit) (x : Offset) (others : List Offset),
      0 ≤ (e.ir.irField x.var).index → (e.ir.irField x.var).index < 2147483648 →
      exactMatch (V x.var) t os = true →
      indexLoop F V sampleSize t os llt ptr idxs e (x :: others)
        = .ok (indexExact (e.ir.irField x.var) llt ptr idxs e) ∧
      (indexExact (e.ir.irField x.var) llt ptr idxs e).2.1
        = idxs ++ [(e.ir.irField x.var).index.toNat + 2] ∧
      (indexExact (e.ir.irField x.var) llt ptr idxs e).2.2.code
        = (castUnless (DtoGEP e ptr (idxs ++ [(e.ir.irField x.var).index.toNat + 2])).2
            (DtoGEP e ptr (idxs ++ [(e.ir.irField x.var).index.toNat + 2])).1 llt).2.code
          ++ (if (e.ir.irField x.var).indexOffset ≠ 0 then
                [Instr.gep
                  (castUnless (DtoGEP e ptr (idxs ++ [(e.ir.irField x.var).index.toNat + 2])).2
                    (DtoGEP e ptr (idxs ++ [(e.ir.irField x.var).index.toNat + 2])).1 llt).1
                  [(e.ir.irField x.var).indexOffset]]
              else [])) :=
  C26_field_index_is_slot_position sampleSize 1 initialState.irField [offsetNext] offsetA
    [offsetB] [] sampleFields sampleScanPre sampleScanStart sampleScanGroup
    [getPtrToType (LLType.vtblRef 2)] (by decide) rfl rfl
    (Or.inr ⟨by decide, by decide, by decide⟩) rfl rfl rfl (Or.inl rfl)
    (fun _ _ y hy => absurd hy (List.not_mem_nil y))

/-- The sample slot in numbers: `a` and `b` carry index 1, the composite type has
the type of `a` at position 3 and four bytes of padding at position 4. -/
theorem sampleFields_values :
    sampleScanGroup.idx = 1 ∧ sampleScanGroup.fieldpad = 4 ∧
    (sampleFields.irField 8).index = 1 ∧ (sampleFields.irField 9).index = 1 ∧
    sampleFields.fieldtypes
      = classHeader 1 ++ [LLType.pointer (LLType.classRef 1), LLType.prim 4,
          LLType.array LLType.int8 4] := by
  refine ⟨by rfl, by rfl, by rfl, by rfl, by rfl⟩

/-- The intersecting-offset branch of the scan: the recorded micro-offset is the
distance to the slot's start divided by the size of the field, rounded down. -/
theorem scanStep_micro_offset (sz : LLType → Nat) (st : ScanState) (e : Offset)
    (hl : st.lastoffset ≠ UINT_MAX) (hlo : st.lastoffset < e.first) (hr : e.first < UINT_MAX)
    (hin : e.first < u32 (st.lastoffset + st.prevsize))
    (hc : e.first + sz e.type ≤ u32 (st.lastoffset + st.prevsize)) (hs : sz e.type ≠ 0) :
    ∃ st', scanStep sz st e = .ok st' ∧ (st'.irField e.var).index = st.idx ∧
      (st'.irField e.var).indexOffset = (e.first - st.lastoffset) / sz e.type ∧
      (st'.irField e.var).indexOffset * sz e.type
        = (e.first - st.lastoffset) - (e.first - st.lastoffset) % sz e.type ∧
      (sz e.type ∣ e.first - st.lastoffset ↔
        indexedOffset st.lastoffset (sz e.type) (st'.irField e.var) = e.first) := by
  have hsub : usub e.first st.lastoffset = e.first - st.lastoffset := by
    unfold usub
    unfold UINT_MAX at hr
    omega
  unfold scanStep
  rw [if_neg hl, if_neg (by omega), if_pos hin]
  dsimp only
  rw [if_neg (by omega), if_neg hs]
  refine ⟨_, rfl, ?_, ?_, ?_, ?_⟩
  · simp [setIndexOffset, setIndex]
  · simp [setIndexOffset, hsub]
  · simp only [setIndexOffset, if_true, hsub]
    have := Nat.div_add_mod (e.first - st.lastoffset) (sz e.type)
    rw [Nat.mul_comm] at this
    omega
  · simp only [indexedOffset, setIndexOffset, if_true, hsub]
    have hdm := Nat.div_add_mod (e.first - st.lastoffset) (sz e.type)
    rw [Nat.mul_comm] at hdm
    rw [Nat.dvd_iff_mod_eq_zero]
    constructor
    · intro h0
      omega
    · intro h0
      omega

/-- C29: the entry of `b` in `packedOffsets` starts at byte 9, strictly inside the
slot opened at byte 8 (8 bytes wide), and passes the containment check
(`9 + 4 <= 8 + 8`); the scan records the micro-offset `(9 - 8) / 4 = 0`, so
micro-offset times size is 0 and not the distance 1, `DtoIndexClass` adds no
micro-offset step, and the pointer it returns is at byte 8 and not at byte 9. -/
theorem C29_micro_offset_truncates :
    ∃ st, scanLoop sampleSize (scanInit (classHeader 1) [] false initialState.irField)
        packedOffsets = .ok st ∧
      st.lastoffset = 8 ∧ st.prevsize = 8 ∧
      st.lastoffset < 9 ∧ 9 + sampleSize (LLType.prim 4) ≤ st.lastoffset + st.prevsize ∧
      st.irField 41 = { index := 0, indexOffset := 0 } ∧
      (st.irField 41).indexOffset * sampleSize (LLType.prim 4) ≠ 9 - st.lastoffset ∧
      indexedOffset st.lastoffset (sampleSize (LLType.prim 4)) (st.irField 41) = 8 ∧
      (scanFinish st).fieldtypes = classHeader 1 ++ [LLType.prim 8] ∧
      (indexExact (st.irField 41) (getPtrToType (LLType.prim 4)) indexPtr [0]
          { ir := packedState, code := [] }).2.2.code
        = [Instr.gep indexPtr [0, 2],
           Instr.bitcast (Value.reg 0 (getPtrToType (LLType.prim 8)))
             (getPtrToType (LLType.prim 4))] :=
  ⟨_, rfl, by rfl, by rfl, by decide, by decide, by rfl, by decide, by rfl, by rfl, by rfl⟩

theorem vtblSlotTypes_spec (P : Program) (s : IRState) (cd : ClassId) :
    ∀ (ds : List Dsymbol) (tys : List LLType), vtblSlotTypes P s cd ds = .ok tys →
      tys.length = ds.length ∧
      ∀ (k : Nat) (d : Dsymbol), ds[k]? = some d →
        ∃ t, vtblSlotType P s cd d = .ok t ∧ tys[k]? = some t := by
  intro ds
  induction ds with
  | nil =>
    intro tys h
    simp only [vtblSlotTypes, Except.ok.injEq] at h
    subst h
    exact ⟨rfl, fun k d hk => by simp at hk⟩
  | cons d ds ih =>
    intro tys h
    unfold vtblSlotTypes at h
    split at h
    · exact Except.noConfusion h
    rename_i t ht
    split at h
    · exact Except.noConfusion h
    rename_i ts hts
    simp only [Except.ok.injEq] at h
    subst h
    obtain ⟨hl, hk⟩ := ih ts hts
    refine ⟨by simp [hl], ?_⟩
    intro k d' hd'
    cases k with
    | zero =>
      simp only [List.getElem?_cons_zero, Option.some.injEq] at hd'
      subst hd'
      exact ⟨t, ht, by simp⟩
    | succ k =>
      simp only [List.getElem?_cons_succ] at hd'
      obtain ⟨t', h1, h2⟩ := hk k d' hd'
      exact ⟨t', h1, by simpa using h2⟩

theorem vtblInits_cons (classInfo : Option GlobalName) (d : Dsymbol) (ds : List Dsymbol) :
    vtblInits classInfo (d :: ds)
      = match (match d with
               | Dsymbol.null => Except.error (Fatal.assertion 539)
               | Dsymbol.func f => Except.ok (Const.func f)
               | Dsymbol.classDecl _ =>
                 match classInfo with
                 | none => Except.error (Fatal.assertion 552)
                 | some g => Except.ok (Const.global g)
               | _ => Except.error (Fatal.assertion 557)) with
        | .error err => .error err
        | .ok c =>
          match vtblInits classInfo ds with
          | .error err => .error err
          | .ok cs => .ok (c :: cs) := by
  rfl

theorem vtblInits_spec (classInfo : Option GlobalName) :
    ∀ (ds : List Dsymbol) (cs : List Const), vtblInits classInfo ds = .ok cs →
      cs.length = ds.length ∧
      ∀ (k : Nat),
        (∀ f, ds[k]? = some (Dsymbol.func f) → cs[k]? = some (Const.func f)) ∧
        (∀ c, ds[k]? = some (Dsymbol.classDecl c) →
          ∃ g, classInfo = some g ∧ cs[k]? = some (Const.global g)) := by
  intro ds
  induction ds with
  | nil =>
    intro cs h
    simp only [vtblInits, Except.ok.injEq] at h
    subst h
    exact ⟨rfl, fun k => ⟨fun f hk => by simp at hk, fun c hk => by simp at hk⟩⟩
  | cons d ds ih =>
    intro cs h
    rw [vtblInits_cons] at h
    split at h
    · exact Except.noConfusion h
    rename_i c0 hc0
    split at h
    · exact Except.noConfusion h
    rename_i cs1 hcs1
    simp only [Except.ok.injEq] at h
    subst h
    obtain ⟨hl, hk⟩ := ih cs1 hcs1
    refine ⟨by simp [hl], ?_⟩
    intro k
    cases k with
    | zero =>
      refine ⟨?_, ?_⟩
      · intro f hf
        simp only [List.getElem?_cons_zero, Option.some.injEq] at hf
        subst hf
        simp only [Except.ok.injEq] at hc0
        simp [hc0]
      · intro c hc
        simp only [List.getElem?_cons_zero, Option.some.injEq] at hc
        subst hc
        dsimp only at hc0
        split at hc0
        · exact Except.noConfusion hc0
        · rename_i g
          simp only [Except.ok.injEq] at hc0
          exact ⟨g, rfl, by simp [hc0]⟩
    | succ k =>
      obtain ⟨h1, h2⟩ := hk k
      refine ⟨?_, ?_⟩
      · intro f hf
        simp only [List.getElem?_cons_succ] at hf
        simpa using h1 f hf
      · intro c hc
        simp only [List.getElem?_cons_succ] at hc
        obtain ⟨g, hg, hh⟩ := h2 c hc
        exact ⟨g, hg, by simpa using hh⟩

theorem finishResolve_vtbl (P : Program) (cd : ClassId) (s s' : IRState)
    (h : finishResolve P cd s = .ok s') :
    ∃ tys, vtblSlotTypes P s cd (P.decl cd).vtbl = .ok tys ∧ tys ≠ [] ∧
      s'.llvmVtblType cd = TypeHolder.struct tys := by
  unfold finishResolve at h
  split at h
  · exact Except.noConfusion h
  rename_i tys htys
  split at h
  · exact Except.noConfusion h
  rename_i hne
  simp only [Except.ok.injEq] at h
  subst h
  refine ⟨tys, htys, ?_, by simp [upd_same]⟩
  intro he
  apply hne
  rw [he]
  rfl

theorem resolveBody_finish (P : Program) (sz : LLType → Nat) (fuel : Nat)
    (rec : ClassId → IRState → Except Fatal IRState) (cd : ClassId) (s s' : IRState)
    (hnew : s.llvmResolved cd = false) (h : resolveBody P sz fuel rec cd s = .ok s') :
    ∃ s7, finishResolve P cd s7 = .ok s' := by
  unfold resolveBody at h
  rw [if_neg (by rw [hnew]; simp)] at h
  split at h
  · exact Except.noConfusion h
  split at h
  · exact Except.noConfusion h
  split at h
  · exact Except.noConfusion h
  split at h
  · exact Except.noConfusion h
  rename_i s7 _
  exact ⟨s7, h⟩

theorem DtoResolveClass_finish (P : Program) (sz : LLType → Nat) (fuel : Nat) (cd : ClassId)
    (s s' : IRState) (hnew : s.llvmResolved cd = false)
    (h : DtoResolveClass P sz fuel cd s = .ok s') :
    ∃ s7, finishResolve P cd s7 = .ok s' := by
  cases fuel with
  | zero => simp [DtoResolveClass, hnew] at h
  | succ fuel =>
    unfold DtoResolveClass at h
    exact resolveBody_finish P sz fuel _ cd s s' hnew h

theorem DtoConstInitClass_vtbl (P : Program) (T : Target) (cd : ClassId) (s s' : IRState)
    (hc : isConcrete P cd = true) (hi : s.llvmInitialized cd = false)
    (h : DtoConstInitClass P T cd s = .ok s') :
    ∃ irs irs' sinits, s.irStruct cd = some irs ∧ s'.irStruct cd = some irs' ∧
      vtblInits irs.classInfo (P.decl cd).vtbl = .ok sinits ∧
      irs'.constVtbl = some sinits := by
  have hni : (P.decl cd).isInterfaceDeclaration = false := by
    unfold isConcrete at hc
    cases hx : (P.decl cd).isInterfaceDeclaration
    · rfl
    · rw [hx] at hc
      simp at hc
  unfold DtoConstInitClass at h
  rw [if_neg (by rw [hi]; simp)] at h
  dsimp only at h
  rw [if_neg (by rw [hni]; simp)] at h
  split at h
  · exact Except.noConfusion h
  · exact Except.noConfusion h
  split at h
  · exact Except.noConfusion h
  rename_i irs hirs
  try dsimp only at h
  split at h
  · exact Except.noConfusion h
  rename_i fieldinits _
  try dsimp only at h
  split at h
  · exact Except.noConfusion h
  rename_i irs2 h2
  simp only [Except.ok.injEq] at h
  subst h
  unfold buildVtblConsts at h2
  rw [if_pos hc] at h2
  split at h2
  · exact Except.noConfusion h2
  rename_i sinits hs
  split at h2
  · exact Except.noConfusion h2
  simp only [Except.ok.injEq] at h2
  subst h2
  exact ⟨irs, _, sinits, hirs, upd_same _ _ _, hs, rfl⟩

theorem classInfoInits_vtbl (P : Program) (sz : LLType → Nat) (T : Target) (fuel : Nat)
    (cd : ClassId) (s1 s3 : IRState) (irs : IrStruct) (inits : List Const)
    (hc : isConcrete P cd = true) (hirs : s1.irStruct cd = some irs)
    (h : classInfoInits P sz T fuel cd s1 = .ok (inits, s3)) :
    inits[4]? = some (Const.slice (irs.constVtbl.getD []).length irs.vtbl) := by
  unfold classInfoInits at h
  rw [hirs] at h
  try dsimp only at h
  split at h
  · exact Except.noConfusion h
  try dsimp only at h
  split at h
  · exact Except.noConfusion h
  split at h
  · exact Except.noConfusion h
  simp only [Except.ok.injEq, Prod.mk.injEq] at h
  obtain ⟨h, _⟩ := h
  subst h
  simp [classInfoSpans, hc]

/-- C21: for a concrete class, the dispatch-table type published by
`DtoResolveClass` and the dispatch-table constant built by `DtoConstInitClass` have
one slot per entry of `cd->vtbl`; slot `k` of the type is the pointer to the
function type for a function entry and the pointer to the descriptor type for a
class-declaration entry, slot `k` of the constant is the function for a function
entry and the descriptor global of the class itself for a class-declaration entry;
the vtable span that `DtoDefineClassInfo` puts in slot 4 of the descriptor, read
from that constant, has the length of `cd->vtbl`; and resolving a class with an
empty `cd->vtbl` never succeeds. -/
theorem C21_vtable_slots (P : Program) (sz : LLType → Nat) (T : Target) (cd : ClassId) :
    (∀ (fuel : Nat) (s s1 : IRState), isConcrete P cd = true → s.llvmResolved cd = false →
      DtoResolveClass P sz fuel cd s = .ok s1 →
      ∃ tys, s1.llvmVtblType cd = TypeHolder.struct tys ∧
        tys.length = (P.decl cd).vtbl.length ∧
        ∀ k : Nat,
          (∀ f, (P.decl cd).vtbl[k]? = some (Dsymbol.func f) →
            tys[k]? = some (getPtrToType (LLType.funcType f))) ∧
          (∀ c, (P.decl cd).vtbl[k]? = some (Dsymbol.classDecl c) →
            tys[k]? = some (getPtrToType (LLType.classRef P.classinfo)))) ∧
    (∀ (s s' : IRState), isConcrete P cd = true → s.llvmInitialized cd = false →
      DtoConstInitClass P T cd s = .ok s' →
      ∃ irs irs' sinits, s.irStruct cd = some irs ∧ s'.irStruct cd = some irs' ∧
        irs'.constVtbl = some sinits ∧ sinits.length = (P.decl cd).vtbl.length ∧
        (∀ k : Nat,
          (∀ f, (P.decl cd).vtbl[k]? = some (Dsymbol.func f) →
            sinits[k]? = some (Const.func f)) ∧
          (∀ c, (P.decl cd).vtbl[k]? = some (Dsymbol.classDecl c) →
            ∃ g, irs.classInfo = some g ∧ sinits[k]? = some (Const.global g))) ∧
        ∀ (fuel : Nat) (s1 s3 : IRState) (irs1 : IrStruct) (inits : List Const),
          s1.irStruct cd = some irs1 → irs1.constVtbl = some sinits →
          classInfoInits P sz T fuel cd s1 = .ok (inits, s3) →
          inits[4]? = some (Const.slice (P.decl cd).vtbl.length irs1.vtbl)) ∧
    (∀ (fuel : Nat) (s : IRState), (P.decl cd).vtbl = [] → s.llvmResolved cd = false →
      ∃ err, DtoResolveClass P sz fuel cd s = .error err) := by
  refine ⟨?_, ?_, ?_⟩
  · intro fuel s s1 hc hnew h
    have hni : (P.decl cd).isInterfaceDeclaration = false := by
      unfold isConcrete at hc
      cases hx : (P.decl cd).isInterfaceDeclaration
      · rfl
      · rw [hx] at hc
        simp at hc
    obtain ⟨s7, h7⟩ := DtoResolveClass_finish P sz fuel cd s s1 hnew h
    obtain ⟨tys, ht, _, hty⟩ := finishResolve_vtbl P cd s7 s1 h7
    obtain ⟨hl, hk⟩ := vtblSlotTypes_spec P s7 cd _ tys ht
    refine ⟨tys, hty, hl, fun k => ⟨?_, ?_⟩⟩
    · intro f hf
      obtain ⟨t, h1, h2⟩ := hk k _ hf
      simp only [vtblSlotType, Except.ok.injEq] at h1
      rw [h2, ← h1]
    · intro c hcl
      obtain ⟨t, h1, h2⟩ := hk k _ hcl
      rw [h2]
      simp only [vtblSlotType, hni, Bool.false_eq_true, if_false] at h1
      by_cases hcd : cd = P.classinfo
      · simp only [hcd, ne_eq, not_true_eq_false, if_false, Except.ok.injEq] at h1
        rw [← h1]
      · simp only [hcd, ne_eq, not_false_eq_true, if_true] at h1
        split at h1
        · exact Except.noConfusion h1
        · simp only [Except.ok.injEq] at h1
          rw [← h1]
  · intro s s' hc hi h
    obtain ⟨irs, irs', sinits, hirs, hirs', hs, hcv⟩ :=
      DtoConstInitClass_vtbl P T cd s s' hc hi h
    obtain ⟨hl, hk⟩ := vtblInits_spec irs.classInfo _ sinits hs
    refine ⟨irs, irs', sinits, hirs, hirs', hcv, hl, hk, ?_⟩
    intro fuel s1 s3 irs1 inits h1 hc1 hin
    rw [classInfoInits_vtbl P sz T fuel cd s1 s3 irs1 inits hc h1 hin, hc1, ← hl]
    rfl
  · intro fuel s hv hnew
    cases hr : DtoResolveClass P sz fuel cd s with
    | error err => exact ⟨err, rfl⟩
    | ok s1 =>
      exfalso
      obtain ⟨s7, h7⟩ := DtoResolveClass_finish P sz fuel cd s s1 hnew hr
      obtain ⟨tys, ht, hne, _⟩ := finishResolve_vtbl P cd s7 s1 h7
      rw [hv] at ht
      simp only [vtblSlotTypes, Except.ok.injEq] at ht
      exact hne ht.symm

/-- The runs behind C21 on `vtblProgram`: class 1 gets a dispatch-table type and
constant of three slots (descriptor, two functions), and class 2, whose
virtual-method table is empty, stops at the assertion of line 302. -/
theorem vtblProgram_runs :
    vtblDeclared.llvmVtblType 1
      = TypeHolder.struct [getPtrToType (LLType.classRef 0), getPtrToType (LLType.funcType 5),
          getPtrToType (LLType.funcType 6)] ∧
    ((resultState (DtoConstInitClass vtblProgram sampleTarget 1 vtblDeclared)).irStruct 1).bind
        (fun irs => irs.constVtbl)
      = some [Const.global (GlobalName.classInfo 1), Const.func 5, Const.func 6] ∧
    (((resultState (DtoDefineClass vtblProgram sampleSize sampleTarget 6 1
          (resultState (DtoConstInitClass vtblProgram sampleTarget 1 vtblDeclared)))).irStruct 1).bind
        (fun irs => irs.constClassInfo)).bind (fun cs => cs[4]?)
      = some (Const.slice 3 (some (GlobalName.vtbl 1))) ∧
    DtoResolveClass vtblProgram sampleSize 6 2 initialState = .error (Fatal.assertion 302) := by
  refine ⟨by rfl, by rfl, by rfl, by rfl⟩

/-- Witness for C21: class 1 of `vtblProgram` (descriptor entry and two function
entries) and class 2 (empty table). -/
theorem C21_vtable_slots_witness :
    (∃ tys, (resultState (DtoResolveClass vtblProgram sampleSize 6 1 vtblStart)).llvmVtblType 1
        = TypeHolder.struct tys ∧
        tys.length = (vtblProgram.decl 1).vtbl.length ∧
        ∀ k : Nat,
          (∀ f, (vtblProgram.decl 1).vtbl[k]? = some (Dsymbol.func f) →
            tys[k]? = some (getPtrToType (LLType.funcType f))) ∧
          (∀ c, (vtblProgram.decl 1).vtbl[k]? = some (Dsymbol.classDecl c) →
            tys[k]? = some (getPtrToType (LLType.classRef vtblProgram.classinfo)))) ∧
    (∃ irs irs' sinits, vtblDeclared.irStruct 1 = some irs ∧
        (resultState (DtoConstInitClass vtblProgram sampleTarget 1 vtblDeclared)).irStruct 1
          = some irs' ∧
        irs'.constVtbl = some sinits ∧ sinits.length = (vtblProgram.decl 1).vtbl.length ∧
        (∀ k : Nat,
          (∀ f, (vtblProgram.decl 1).vtbl[k]? = some (Dsymbol.func f) →
            sinits[k]? = some (Const.func f)) ∧
          (∀ c, (vtblProgram.decl 1).vtbl[k]? = some (Dsymbol.classDecl c) →
            ∃ g, irs.classInfo = some g ∧ sinits[k]? = some (Const.global g))) ∧
        ∀ (fuel : Nat) (s1 s3 : IRState) (irs1 : IrStruct) (inits : List Const),
          s1.irStruct 1 = some irs1 → irs1.constVtbl = some sinits →
          classInfoInits vtblProgram sampleSize sampleTarget fuel 1 s1 = .ok (inits, s3) →
          inits[4]? = some (Const.slice (vtblProgram.decl 1).vtbl.length irs1.vtbl)) ∧
    (∃ err, DtoResolveClass vtblProgram sampleSize 6 2 initialState = .error err) :=
  ⟨(C21_vtable_slots vtblProgram sampleSize sampleTarget 1).1 6 vtblStart _ rfl rfl rfl,
   (C21_vtable_slots vtblProgram sampleSize sampleTarget 1).2.1 vtblDeclared _ rfl rfl rfl,
   (C21_vtable_slots vtblProgram sampleSize sampleTarget 2).2.2 6 initialState rfl rfl⟩

theorem PairOk_mono (seen more : List Offset) (p : LLType × Option VarId)
    (h : PairOk seen p) : PairOk (seen ++ more) p := by
  unfold PairOk at h ⊢
  split
  · rename_i hn
    rw [hn] at h
    exact h
  · rename_i v hv
    rw [hv] at h
    obtain ⟨e, he, h1, h2⟩ := h
    exact ⟨e, List.mem_append_left _ he, h1, h2⟩

theorem scanStep_pairs (sz : LLType → Nat) (ft0 : List LLType) (df0 : List (Option VarId))
    (seen : List Offset) (st st' : ScanState) (e : Offset) (hp : ScanPairs ft0 df0 seen st)
    (hr : InRange sz e) (h : scanStep sz st e = .ok st') :
    ScanPairs ft0 df0 (seen ++ [e]) st' := by
  obtain ⟨⟨ps, hft, hdf, hps⟩, _, hopen⟩ := hp
  have hlast : st'.lastoffset ≠ UINT_MAX := (scanStep_contains sz st st' e hr h).2
  have hmono : ∀ p ∈ ps, PairOk (seen ++ [e]) p := fun p hp => PairOk_mono seen [e] p (hps p hp)
  have hself : e ∈ seen ++ [e] := by simp
  refine ⟨?_, fun _ => hlast, fun _ => ?_⟩
  · unfold scanStep at h
    split at h
    · simp only [Except.ok.injEq] at h; subst h
      exact ⟨ps, hft, hdf, hmono⟩
    · rename_i hl
      split at h
      · simp only [Except.ok.injEq] at h; subst h
        refine ⟨ps, ?_, ?_, hmono⟩
        · by_cases hs : sz e.type > st.prevsize <;> simp [hs, hft]
        · by_cases hs : sz e.type > st.prevsize <;> simp [hs, hdf]
      · split at h
        · dsimp only at h
          split at h
          · exact absurd h (by simp)
          · split at h
            · exact absurd h (by simp)
            · simp only [Except.ok.injEq] at h; subst h
              exact ⟨ps, hft, hdf, hmono⟩
        · simp only [Except.ok.injEq] at h; subst h
          obtain ⟨e0, he0, hi0, ht0⟩ := hopen hl
          have hp0 : PairOk (seen ++ [e]) (st.fieldtype, st.fieldinit) := by
            unfold PairOk
            rw [hi0]
            exact ⟨e0, List.mem_append_left _ he0, rfl, ht0.symm⟩
          by_cases hf : st.fieldpad = 0
          · refine ⟨ps ++ [(st.fieldtype, st.fieldinit)], ?_, ?_, ?_⟩
            · simp [hf, hft]
            · simp [hf, hdf]
            · intro p hp
              rcases List.mem_append.mp hp with hp | hp
              · exact hmono p hp
              · rw [List.mem_singleton.mp hp]
                exact hp0
          · refine ⟨ps ++ [(st.fieldtype, st.fieldinit),
              (LLType.array LLType.int8 st.fieldpad, none)], ?_, ?_, ?_⟩
            · simp [hf, hft]
            · simp [hf, hdf]
            · intro p hp
              rcases List.mem_append.mp hp with hp | hp
              · exact hmono p hp
              · simp only [List.mem_cons, List.mem_singleton, List.not_mem_nil, or_false] at hp
                rcases hp with hp | hp
                · rw [hp]
                  exact hp0
                · rw [hp]
                  exact ⟨st.fieldpad, Nat.pos_of_ne_zero hf, rfl⟩
  · unfold scanStep at h
    split at h
    · simp only [Except.ok.injEq] at h; subst h
      exact ⟨e, hself, rfl, rfl⟩
    · rename_i hl
      obtain ⟨e0, he0, hi0, ht0⟩ := hopen hl
      split at h
      · simp only [Except.ok.injEq] at h; subst h
        refine ⟨e0, List.mem_append_left _ he0, ?_, ?_⟩
        · by_cases hs : sz e.type > st.prevsize <;> simp [hs, hi0]
        · by_cases hs : sz e.type > st.prevsize <;> simp [hs, ht0]
      · split at h
        · dsimp only at h
          split at h
          · exact absurd h (by simp)
          · split at h
            · exact absurd h (by simp)
            · simp only [Except.ok.injEq] at h; subst h
              exact ⟨e0, List.mem_append_left _ he0, hi0, ht0⟩
        · simp only [Except.ok.injEq] at h; subst h
          exact ⟨e, hself, rfl, rfl⟩

theorem scanLoop_pairs (sz : LLType → Nat) (ft0 : List LLType) (df0 : List (Option VarId)) :
    ∀ (xs seen : List Offset) (st st' : ScanState), ScanPairs ft0 df0 seen st →
      (∀ x ∈ xs, InRange sz x) → scanLoop sz st xs = .ok st' →
      ScanPairs ft0 df0 (seen ++ xs) st' := by
  intro xs
  induction xs with
  | nil =>
    intro seen st st' hp _ h
    simp only [scanLoop, Except.ok.injEq] at h
    subst h
    rw [List.append_nil]
    exact hp
  | cons x xs ih =>
    intro seen st st' hp hr h
    unfold scanLoop at h
    split at h
    · rename_i st1 h1
      have := ih (seen ++ [x]) st1 st'
        (scanStep_pairs sz ft0 df0 seen st st1 x hp (hr x (List.mem_cons_self x xs)) h1)
        (fun y hy => hr y (List.mem_cons_of_mem x hy)) h
      rw [List.append_assoc] at this
      exact this
    · exact absurd h (by simp)

/-- The vectors the field resolution of a fresh record returns are parallel: entry
`i` of `defaultFields` belongs to data element `i`; a null entry sits at a padding
array, an entry with a field at the type of an offset-map entry of that field. -/
theorem resolveFields_pairs (sz : LLType → Nat) (offsets : List Offset) (ft0 : List LLType)
    (hu : Bool) (irf : VarId → IrField) (r : ScanResult)
    (hr : ∀ x ∈ offsets, InRange sz x)
    (h : resolveFields sz offsets ft0 [] hu irf = .ok r) :
    ∃ ps : List (LLType × Option VarId),
      r.fieldtypes = ft0 ++ ps.map Prod.fst ∧ r.defaultFields = ps.map Prod.snd ∧
      ∀ p ∈ ps, PairOk offsets p := by
  unfold resolveFields at h
  split at h
  · simp only [Except.ok.injEq] at h
    subst h
    exact ⟨[], by simp, by simp, fun p hp => absurd hp (List.not_mem_nil p)⟩
  · rename_i hne
    split at h
    · rename_i stF hF
      simp only [Except.ok.injEq] at h
      subst h
      dsimp only
      have h0 : ScanPairs ft0 [] [] (scanInit ft0 [] hu irf) := by
        refine ⟨⟨[], by simp [scanInit], by simp [scanInit], fun p hp => absurd hp (List.not_mem_nil p)⟩,
          fun hc => absurd rfl hc, fun hc => ?_⟩
        exact absurd rfl hc
      obtain ⟨⟨ps, hft, hdf, hps⟩, hlast, hopen⟩ :=
        scanLoop_pairs sz ft0 [] offsets [] _ stF h0 hr hF
      simp only [List.nil_append] at hdf hps hlast hopen
      have hne2 : offsets ≠ [] := by
        intro he
        apply hne
        rw [he]
        rfl
      obtain ⟨e0, he0, hi0, ht0⟩ := hopen (hlast hne2)
      have hp0 : PairOk offsets (stF.fieldtype, stF.fieldinit) := by
        unfold PairOk
        rw [hi0]
        exact ⟨e0, he0, rfl, ht0.symm⟩
      unfold scanFinish
      dsimp only
      by_cases hf : stF.fieldpad = 0
      · refine ⟨ps ++ [(stF.fieldtype, stF.fieldinit)], ?_, ?_, ?_⟩
        · simp [hf, hft]
        · simp [hf, hdf]
        · intro p hp
          rcases List.mem_append.mp hp with hp | hp
          · exact hps p hp
          · rw [List.mem_singleton.mp hp]
            exact hp0
      · refine ⟨ps ++ [(stF.fieldtype, stF.fieldinit),
          (LLType.array LLType.int8 stF.fieldpad, none)], ?_, ?_, ?_⟩
        · simp [hf, hft]
        · simp [hf, hdf]
        · intro p hp
          rcases List.mem_append.mp hp with hp | hp
          · exact hps p hp
          · simp only [List.mem_cons, List.mem_singleton, List.not_mem_nil, or_false] at hp
            rcases hp with hp | hp
            · rw [hp]
              exact hp0
            · rw [hp]
              exact ⟨stF.fieldpad, Nat.pos_of_ne_zero hf, rfl⟩
    · exact Except.noConfusion h

theorem defaultFieldInits_cons (st : Option (List LLType)) (f : VarId → Option Const)
    (d : Option VarId) (rest : List (Option VarId)) (i : Nat) :
    defaultFieldInits st f (d :: rest) i
      = match (match d with
               | some v =>
                 match f v with
                 | some c => Except.ok c
                 | none => Except.error (Fatal.assertion 480)
               | none =>
                 match st with
                 | none => Except.error (Fatal.nullDeref 483)
                 | some es =>
                   match es.get? (i + 2) with
                   | some (LLType.array _ n) => Except.ok (Const.zeroBytes n)
                   | _ => Except.error (Fatal.assertion 484)) with
        | .error err => .error err
        | .ok c =>
          match defaultFieldInits st f rest (i + 1) with
          | .error err => .error err
          | .ok cs => .ok (c :: cs) := by
  rfl

theorem defaultFieldInits_spec (st : Option (List LLType)) (f : VarId → Option Const) :
    ∀ (dfs : List (Option VarId)) (i : Nat) (cs : List Const),
      defaultFieldInits st f dfs i = .ok cs →
      cs.length = dfs.length ∧
      ∀ k : Nat,
        (dfs[k]? = some none →
          ∃ es el n, st = some es ∧ es[i + k + 2]? = some (LLType.array el n) ∧
            cs[k]? = some (Const.zeroBytes n)) ∧
        (∀ v, dfs[k]? = some (some v) → ∃ c, f v = some c ∧ cs[k]? = some c) := by
  intro dfs
  induction dfs with
  | nil =>
    intro i cs h
    simp only [defaultFieldInits, Except.ok.injEq] at h
    subst h
    exact ⟨rfl, fun k => ⟨fun hk => by simp at hk, fun v hk => by simp at hk⟩⟩
  | cons d rest ih =>
    intro i cs h
    rw [defaultFieldInits_cons] at h
    split at h
    · exact Except.noConfusion h
    rename_i c0 hc0
    split at h
    · exact Except.noConfusion h
    rename_i cs1 hcs1
    simp only [Except.ok.injEq] at h
    subst h
    obtain ⟨hl, hk⟩ := ih (i + 1) cs1 hcs1
    refine ⟨by simp [hl], ?_⟩
    intro k
    cases k with
    | zero =>
      refine ⟨?_, ?_⟩
      · intro hd
        simp only [List.getElem?_cons_zero, Option.some.injEq] at hd
        subst hd
        dsimp only at hc0
        split at hc0
        · exact Except.noConfusion hc0
        · rename_i es
          split at hc0
          · rename_i el n hget
            simp only [Except.ok.injEq] at hc0
            refine ⟨es, el, n, rfl, ?_, by simp [hc0]⟩
            rw [← List.get?_eq_getElem?]
            exact hget
          · exact Except.noConfusion hc0
      · intro v hd
        simp only [List.getElem?_cons_zero, Option.some.injEq] at hd
        subst hd
        dsimp only at hc0
        split at hc0
        · rename_i c hc
          simp only [Except.ok.injEq] at hc0
          exact ⟨c, hc, by simp [hc0]⟩
        · exact Except.noConfusion hc0
    | succ k =>
      obtain ⟨h1, h2⟩ := hk k
      refine ⟨?_, ?_⟩
      · intro hd
        simp only [List.getElem?_cons_succ] at hd
        obtain ⟨es, el, n, a, b, c⟩ := h1 hd
        refine ⟨es, el, n, a, ?_, by simpa using c⟩
        rw [← b]
        congr 1
        omega
      · intro v hd
        simp only [List.getElem?_cons_succ] at hd
        obtain ⟨c, a, b⟩ := h2 v hd
        exact ⟨c, a, by simpa using b⟩

theorem interfaceFieldInits_cons (isAbstract : Bool) (st : Option (List LLType))
    (iri : IrInterface) (rest : List IrInterface) :
    interfaceFieldInits isAbstract st (iri :: rest)
      = match (if isAbstract = true then
                 match st with
                 | none => Except.error (Fatal.nullDeref 499)
                 | some es =>
                   if iri.index < 0 then Except.error (Fatal.assertion 499)
                   else
                     match es.get? iri.index.toNat with
                     | some t => Except.ok (Const.nullValue t)
                     | none => Except.error (Fatal.assertion 499)
               else
                 match iri.vtbl with
                 | none => Except.error (Fatal.assertion 503)
                 | some g => Except.ok (Const.global g)) with
        | .error err => .error err
        | .ok c =>
          match interfaceFieldInits isAbstract st rest with
          | .error err => .error err
          | .ok cs => .ok (c :: cs) := by
  rfl

theorem interfaceFieldInits_length (isAbstract : Bool) (st : Option (List LLType)) :
    ∀ (ifs : List IrInterface) (cs : List Const),
      interfaceFieldInits isAbstract st ifs = .ok cs → cs.length = ifs.length := by
  intro ifs
  induction ifs with
  | nil =>
    intro cs h
    simp only [interfaceFieldInits, Except.ok.injEq] at h
    subst h
    rfl
  | cons iri rest ih =>
    intro cs h
    rw [interfaceFieldInits_cons] at h
    split at h
    · exact Except.noConfusion h
    split at h
    · exact Except.noConfusion h
    rename_i cs1 hcs1
    simp only [Except.ok.injEq] at h
    subst h
    simp [ih cs1 hcs1]

theorem interfaceConstInits_length (T : Target) (s : IRState) (cd : ClassId) :
    ∀ (ifs ifs' : List IrInterface),
      interfaceConstInits T s cd ifs = .ok ifs' → ifs'.length = ifs.length := by
  intro ifs
  induction ifs with
  | nil =>
    intro ifs' h
    simp only [interfaceConstInits, Except.ok.injEq] at h
    subst h
    rfl
  | cons iri rest ih =>
    intro ifs' h
    unfold interfaceConstInits at h
    split at h
    · exact Except.noConfusion h
    split at h
    · exact Except.noConfusion h
    rename_i r1 hr1
    simp only [Except.ok.injEq] at h
    subst h
    simp [ih r1 hr1]

theorem initOffsets_keep (v : VarId) :
    ∀ (es : List Offset) (g : VarId → Option Const), g v = some (Const.fieldInit v) →
      initOffsets es g v = some (Const.fieldInit v) := by
  intro es
  induction es with
  | nil => intro g hg; exact hg
  | cons e es ih =>
    intro g hg
    unfold initOffsets
    rw [List.foldl_cons]
    apply ih
    unfold upd
    split
    · rename_i he
      rw [he]
    · exact hg

theorem initOffsets_mem (v : VarId) :
    ∀ (es : List Offset) (g : VarId → Option Const), (∃ e ∈ es, e.var = v) →
      initOffsets es g v = some (Const.fieldInit v) := by
  intro es
  induction es with
  | nil =>
    intro g h
    obtain ⟨e, he, _⟩ := h
    exact absurd he (List.not_mem_nil e)
  | cons e es ih =>
    intro g h
    by_cases hev : e.var = v
    · have := initOffsets_keep v es (upd g e.var (some (Const.fieldInit e.var)))
        (by rw [hev]; exact upd_same _ _ _)
      unfold initOffsets at this ⊢
      rw [List.foldl_cons]
      exact this
    · obtain ⟨e1, he1, hv1⟩ := h
      rcases List.mem_cons.mp he1 with hh | hh
      · rw [hh] at hv1
        exact absurd hv1 hev
      · have := ih (upd g e.var (some (Const.fieldInit e.var))) ⟨e1, hh, hv1⟩
        unfold initOffsets at this ⊢
        rw [List.foldl_cons]
        exact this

/-- The default image `DtoConstInitClass` stores for a class that is no
interface: the two header initializers, the initializers of `defaultFields`, the
initializers of the interface entries. -/
theorem DtoConstInitClass_image (P : Program) (T : Target) (cd : ClassId) (s s' : IRState)
    (hni : (P.decl cd).isInterfaceDeclaration = false) (hi : s.llvmInitialized cd = false)
    (h : DtoConstInitClass P T cd s = .ok s') :
    ∃ irs irs' c0 c1 ds is, s.irStruct cd = some irs ∧ s'.irStruct cd = some irs' ∧
      irs'.constInit = some ([c0, c1] ++ ds ++ is) ∧
      irs'.offsets = irs.offsets ∧ irs'.defaultFields = irs.defaultFields ∧
      irs'.interfaces.length = irs.interfaces.length ∧
      defaultFieldInits (s.llvmType cd).elems? (initOffsets irs.offsets s.fieldConstInit)
        irs.defaultFields 0 = .ok ds ∧
      is.length = irs.interfaces.length := by
  unfold DtoConstInitClass at h
  rw [if_neg (by rw [hi]; simp)] at h
  dsimp only at h
  rw [if_neg (by rw [hni]; simp)] at h
  split at h
  · exact Except.noConfusion h
  · exact Except.noConfusion h
  split at h
  · exact Except.noConfusion h
  rename_i irs hirs
  try dsimp only at h
  split at h
  · exact Except.noConfusion h
  rename_i fieldinits hfi
  try dsimp only at h
  split at h
  · exact Except.noConfusion h
  rename_i irs2 h2
  simp only [Except.ok.injEq] at h
  subst h
  have e2 : irs2.constInit = some fieldinits ∧ irs2.offsets = irs.offsets ∧
      irs2.defaultFields = irs.defaultFields ∧
      irs2.interfaces.length = irs.interfaces.length := by
    unfold buildVtblConsts at h2
    split at h2
    · split at h2
      · exact Except.noConfusion h2
      split at h2
      · exact Except.noConfusion h2
      rename_i ifs hifs
      simp only [Except.ok.injEq] at h2
      subst h2
      exact ⟨rfl, rfl, rfl, interfaceConstInits_length T _ cd _ ifs hifs⟩
    · simp only [Except.ok.injEq] at h2
      subst h2
      exact ⟨rfl, rfl, rfl, rfl⟩
  obtain ⟨a1, a2, a3, a4⟩ := e2
  unfold buildFieldInits at hfi
  dsimp only at hfi
  split at hfi
  · exact Except.noConfusion hfi
  rename_i c0 _
  split at hfi
  · exact Except.noConfusion hfi
  rename_i ds hds
  split at hfi
  · exact Except.noConfusion hfi
  rename_i is his
  simp only [Except.ok.injEq] at hfi
  subst hfi
  exact ⟨irs, irs2, c0, _, ds, is, hirs, upd_same _ _ _, a1, a2, a3, a4, hds,
    interfaceFieldInits_length _ _ _ is his⟩

/-- C27: let `DtoResolveClass` resolve a class without a record, and let
`DtoConstInitClass` run on a state that still has the composite type and the
scan's output of that run. For a class that is no interface the default image has
as many elements as the composite type, `2 + defaultFields.size() +
interfaces.size()`; where entry `i` of `defaultFields` is null, element `i + 2` of
the type is a padding array and element `i + 2` of the image is the all-zero byte
array of that length; where the entry is a field, element `i + 2` of the image is
the default initializer of that field and element `i + 2` of the type is the type
of an offset-map entry of that field. -/
theorem C27_default_image (P : Program) (sz : LLType → Nat) (T : Target) (fuel : Nat)
    (cd : ClassId) (s0 s1 s s' : IRState)
    (hnew : s0.llvmResolved cd = false) (hfresh : s0.irStruct cd = none)
    (hres : DtoResolveClass P sz fuel cd s0 = .ok s1)
    (hrange : ∀ x ∈ (recordOf s1 cd).offsets, InRange sz x)
    (hni : (P.decl cd).isInterfaceDeclaration = false)
    (hty : s.llvmType cd = s1.llvmType cd)
    (hrec : (s.irStruct cd).map scanOutput = (s1.irStruct cd).map scanOutput)
    (hi : s.llvmInitialized cd = false)
    (h : DtoConstInitClass P T cd s = .ok s') :
    ∃ es irs' inits, s1.llvmType cd = TypeHolder.struct es ∧ s'.irStruct cd = some irs' ∧
      irs'.constInit = some inits ∧ inits.length = es.length ∧
      es.length = 2 + irs'.defaultFields.length + irs'.interfaces.length ∧
      ∀ i : Nat,
        (irs'.defaultFields[i]? = some none →
          ∃ n, 0 < n ∧ es[i + 2]? = some (LLType.array LLType.int8 n) ∧
            inits[i + 2]? = some (Const.zeroBytes n)) ∧
        (∀ v, irs'.defaultFields[i]? = some (some v) →
          inits[i + 2]? = some (Const.fieldInit v) ∧
          ∃ e ∈ irs'.offsets, e.var = v ∧ es[i + 2]? = some e.type) := by
  -- the run of `DtoResolveClass`
  have hbody : ∃ (irf : VarId → IrField) (r : ScanResult) (data : List LLType) (irs1 : IrStruct),
      resolveFields sz irs1.offsets (classHeader cd) [] false irf = .ok r ∧
      r.fieldtypes = classHeader cd ++ data ∧ s1.irStruct cd = some irs1 ∧
      irs1.defaultFields = r.defaultFields ∧
      s1.llvmType cd
        = TypeHolder.struct (classHeader cd ++ data ++ interfaceSlots irs1.interfaces) := by
    cases fuel with
    | zero => simp [DtoResolveClass, hnew] at hres
    | succ fuel =>
      unfold DtoResolveClass at hres
      obtain ⟨_, _, irs6, irf, r, data, irs1, hr, hdata, _, hinit, hirs1, ho, hd, _, hty1, _⟩ :=
        resolveBody_result P sz fuel _ cd (DtoResolveClass_rel P sz fuel) s0 s1 hnew hres
      obtain ⟨hdf, hhu⟩ := hinit hfresh
      rw [hdf, hhu, ← ho] at hr
      exact ⟨irf, r, data, irs1, hr, hdata, hirs1, hd, hty1⟩
  obtain ⟨irf, r, data, irs1, hr, hdata, hirs1, hd, hty1⟩ := hbody
  have hrange1 : ∀ x ∈ irs1.offsets, InRange sz x := by
    intro x hx
    apply hrange
    simp only [recordOf, hirs1, Option.getD_some]
    exact hx
  obtain ⟨ps, hft, hdf, hps⟩ :=
    resolveFields_pairs sz irs1.offsets (classHeader cd) false irf r hrange1 hr
  have hdata2 : data = ps.map Prod.fst := by
    rw [hdata] at hft
    exact List.append_cancel_left hft
  -- the run of `DtoConstInitClass`
  obtain ⟨irs, irs', c0, c1, ds, is, hirs, hirs', hci, ho', hd', hl', hds, hisl⟩ :=
    DtoConstInitClass_image P T cd s s' hni hi h
  rw [hirs, hirs1] at hrec
  simp only [Option.map_some', Option.some.injEq, scanOutput, Prod.mk.injEq] at hrec
  obtain ⟨ro, rd, rl⟩ := hrec
  obtain ⟨hdl, hdk⟩ := defaultFieldInits_spec _ _ _ _ ds hds
  have hdfs : irs'.defaultFields = ps.map Prod.snd := by rw [hd', rd, hd, hdf]
  have hes : (s.llvmType cd).elems?
      = some (classHeader cd ++ data ++ interfaceSlots irs1.interfaces) := by
    rw [hty, hty1]
    rfl
  have hhdr : (classHeader cd).length = 2 := rfl
  have hget : ∀ i : Nat, i < ps.length →
      (classHeader cd ++ data ++ interfaceSlots irs1.interfaces)[i + 2]?
        = (ps[i]?).map Prod.fst := by
    intro i hi2
    rw [List.append_assoc, show i + 2 = (classHeader cd).length + i by rw [hhdr]; omega,
      getElem_skip_left, List.getElem?_append_left (by rw [hdata2]; simpa using hi2), hdata2,
      List.getElem?_map]
  have hini : ∀ i : Nat, ([c0, c1] ++ ds ++ is)[i + 2]? = (ds ++ is)[i]? := by
    intro i
    simp
  refine ⟨_, irs', _, hty1, hirs', hci, ?_, ?_, ?_⟩
  · simp only [List.length_append, hdl, hisl, hhdr, interfaceSlots, List.length_map,
      List.length_cons, List.length_nil, hdata2, rl, rd, hd, hdf]
  · simp only [List.length_append, hhdr, interfaceSlots, List.length_map, hdata2, hdfs, hl', rl]
  · intro i
    refine ⟨?_, ?_⟩
    · intro hnone
      rw [hdfs, List.getElem?_map] at hnone
      obtain ⟨p, hp, hp2⟩ := Option.map_eq_some'.mp hnone
      have hilt : i < ps.length := (List.getElem?_eq_some.mp hp).1
      have hok := hps p (List.getElem?_mem hp)
      unfold PairOk at hok
      rw [hp2] at hok
      dsimp only at hok
      obtain ⟨n, hn, hpn⟩ := hok
      have htype : (classHeader cd ++ data ++ interfaceSlots irs1.interfaces)[i + 2]?
          = some (LLType.array LLType.int8 n) := by
        rw [hget i hilt, hp]
        simp [hpn]
      have hnone2 : irs.defaultFields[i]? = some none := by
        rw [rd, hd, hdf, List.getElem?_map, hp]
        simp [hp2]
      obtain ⟨es2, el, n2, a, b, c⟩ := (hdk i).1 hnone2
      rw [hes] at a
      simp only [Option.some.injEq] at a
      subst a
      rw [Nat.zero_add, htype] at b
      simp only [Option.some.injEq, LLType.array.injEq] at b
      obtain ⟨_, hnn⟩ := b
      refine ⟨n, hn, htype, ?_⟩
      rw [hini, List.getElem?_append_left (by rw [hdl, rd, hd, hdf]; simpa using hilt), c, hnn]
    · intro v hsome
      rw [hdfs, List.getElem?_map] at hsome
      obtain ⟨p, hp, hp2⟩ := Option.map_eq_some'.mp hsome
      have hilt : i < ps.length := (List.getElem?_eq_some.mp hp).1
      have hok := hps p (List.getElem?_mem hp)
      unfold PairOk at hok
      rw [hp2] at hok
      dsimp only at hok
      obtain ⟨e, he, hev, het⟩ := hok
      have hsome2 : irs.defaultFields[i]? = some (some v) := by
        rw [rd, hd, hdf, List.getElem?_map, hp]
        simp [hp2]
      obtain ⟨c, hc, hcs⟩ := (hdk i).2 v hsome2
      rw [initOffsets_mem v irs.offsets _ ⟨e, by rw [ro]; exact he, hev⟩] at hc
      simp only [Option.some.injEq] at hc
      refine ⟨?_, e, by rw [ho', ro]; exact he, hev, ?_⟩
      · rw [hini, List.getElem?_append_left (by rw [hdl, rd, hd, hdf]; simpa using hilt), hcs, hc]
      · rw [hget i hilt, hp]
        simp [het]

/-- Witness for C27: class 1 of `sampleProgram`, whose union slot carries four
bytes of padding. -/
theorem C27_default_image_witness :
    ∃ es irs' inits, sampleResolved.llvmType 1 = TypeHolder.struct es ∧
      (resultState (DtoConstInitClass sampleProgram sampleTarget 1 sampleDeclared)).irStruct 1
        = some irs' ∧
      irs'.constInit = some inits ∧ inits.length = es.length ∧
      es.length = 2 + irs'.defaultFields.length + irs'.interfaces.length ∧
      ∀ i : Nat,
        (irs'.defaultFields[i]? = some none →
          ∃ n, 0 < n ∧ es[i + 2]? = some (LLType.array LLType.int8 n) ∧
            inits[i + 2]? = some (Const.zeroBytes n)) ∧
        (∀ v, irs'.defaultFields[i]? = some (some v) →
          inits[i + 2]? = some (Const.fieldInit v) ∧
          ∃ e ∈ irs'.offsets, e.var = v ∧ es[i + 2]? = some e.type) :=
  C27_default_image sampleProgram sampleSize sampleTarget 5 1 initialState sampleResolved
    sampleDeclared _ rfl rfl rfl (by decide) rfl rfl rfl rfl rfl

/-- The default image of the sample class in full: dispatch table, monitor, the
field `next`, the field `a`, four zero bytes, and the two interface tables. -/
theorem sampleDeclared_image :
    ((resultState (DtoConstInitClass sampleProgram sampleTarget 1 sampleDeclared)).irStruct 1).bind
        (fun irs => irs.constInit)
      = some [Const.global (GlobalName.vtbl 1), Const.nullValue (getPtrToType LLType.int8),
          Const.fieldInit 7, Const.fieldInit 8, Const.zeroBytes 4,
          Const.global (GlobalName.interfaceVtbl 1 2),
          Const.global (GlobalName.interfaceVtbl 1 3)] ∧
    (recordOf sampleDeclared 1).defaultFields = [some 7, some 8, none] := by
  refine ⟨by rfl, by rfl⟩

theorem declareInterfaceVtbls_keeps (cd : ClassId) :
    ∀ (ifs : List IrInterface) (idx : Nat) (ifs' : List IrInterface) (gs : List GlobalName),
      declareInterfaceVtbls cd ifs idx = .ok (ifs', gs) →
      ifs'.map (fun x => (x.index, x.base)) = ifs.map (fun x => (x.index, x.base)) ∧
      ∀ x ∈ ifs', x.vtbl = some (GlobalName.interfaceVtbl cd x.decl) := by
  intro ifs
  induction ifs with
  | nil =>
    intro idx ifs' gs h
    simp only [declareInterfaceVtbls, Except.ok.injEq, Prod.mk.injEq] at h
    obtain ⟨h1, _⟩ := h
    subst h1
    exact ⟨rfl, fun x hx => absurd hx (List.not_mem_nil x)⟩
  | cons iri rest ih =>
    intro idx ifs' gs h
    unfold declareInterfaceVtbls at h
    split at h
    · exact absurd h (by simp)
    · dsimp only at h
      split at h
      · exact absurd h (by simp)
      · rename_i rest1 gs1 hrec
        simp only [Except.ok.injEq, Prod.mk.injEq] at h
        obtain ⟨h1, _⟩ := h
        subst h1
        obtain ⟨a, b⟩ := ih _ _ _ hrec
        refine ⟨by simp [a], ?_⟩
        intro x hx
        rcases List.mem_cons.mp hx with hx | hx
        · rw [hx]
        · exact b x hx

/-- `DtoDeclareClassInfo` leaves the composite type of a resolved class alone. -/
theorem DtoDeclareClassInfo_type (P : Program) (sz : LLType → Nat) (fuel : Nat) (cd : ClassId)
    (s s' : IRState) (hr : s.llvmResolved cd = true)
    (h : DtoDeclareClassInfo P sz fuel cd s = .ok s') :
    s'.llvmType cd = s.llvmType cd := by
  unfold DtoDeclareClassInfo at h
  split at h
  · exact Except.noConfusion h
  dsimp only at h
  split at h
  · simp only [Except.ok.injEq] at h
    subst h
    rfl
  · split at h
    · exact absurd h (by simp)
    · rename_i s1 h1
      obtain ⟨_, _, k3, _⟩ := (DtoResolveClass_rel P sz fuel _ _ _ h1).keeps cd (by exact hr)
      split at h
      · exact absurd h (by simp)
      · split at h
        · exact absurd h (by simp)
        · simp only [Except.ok.injEq] at h
          subst h
          exact k3

/-- What `DtoDeclareClass` does to the interface entries of a resolved, not yet
declared concrete class, besides `DtoDeclareClass_table`: slot index and base
table stay, every entry gets its dispatch-table global, and the composite type of
the class stays. -/
theorem DtoDeclareClass_entries (P : Program) (sz : LLType → Nat) (fuel : Nat) (cd : ClassId)
    (s s' : IRState) (irs : IrStruct) (hd : s.llvmDeclared cd = false)
    (hr : s.llvmResolved cd = true) (hirs : s.irStruct cd = some irs)
    (hc : isConcrete P cd = true)
    (h : DtoDeclareClass P sz fuel cd s = .ok s') :
    s'.llvmType cd = s.llvmType cd ∧
    ∃ irs', s'.irStruct cd = some irs' ∧
      irs'.interfaces.map (fun x => (x.index, x.base))
        = irs.interfaces.map (fun x => (x.index, x.base)) ∧
      ∀ x ∈ irs'.interfaces, x.vtbl = some (GlobalName.interfaceVtbl cd x.decl) := by
  unfold DtoDeclareClass at h
  rw [if_neg (by rw [hd]; simp)] at h
  dsimp only at h
  rw [hirs] at h
  dsimp only at h
  split at h
  · exact absurd h (by simp)
  · rename_i irs1 g1 h1
    obtain ⟨_, e1i, _⟩ := declareVtbl_effect P cd _ _ _ _ h1
    obtain ⟨_, e2i, _⟩ := declareInterfaceInfos_effect cd irs1
    generalize hdi : declareInterfaceInfos cd irs1 = di at h e2i
    obtain ⟨irs2, g2⟩ := di
    dsimp only at h e2i
    split at h
    · exact absurd h (by simp)
    · rename_i irs3 g3 h3
      have e3 : irs3.interfaces.map (fun x => (x.index, x.base))
            = irs.interfaces.map (fun x => (x.index, x.base)) ∧
          ∀ x ∈ irs3.interfaces, x.vtbl = some (GlobalName.interfaceVtbl cd x.decl) := by
        unfold declareInit at h3
        rw [if_pos hc] at h3
        split at h3
        · exact absurd h3 (by simp)
        · rename_i ifs gs hifs
          split at h3
          · exact absurd h3 (by simp)
          · simp only [Except.ok.injEq, Prod.mk.injEq] at h3
            obtain ⟨h3, _⟩ := h3
            subst h3
            obtain ⟨a, b⟩ := declareInterfaceVtbls_keeps cd _ _ _ _ hifs
            rw [e2i, e1i] at a
            exact ⟨a, b⟩
      obtain ⟨e3a, e3b⟩ := e3
      obtain ⟨irs', hirs', i1, _, _⟩ := DtoDeclareClassInfo_record P sz fuel cd _ s' irs3
        (by exact hr) (upd_same _ _ _) h
      have hty := DtoDeclareClassInfo_type P sz fuel cd _ s' (by exact hr) h
      refine ⟨hty, irs', hirs', ?_, ?_⟩
      · rw [i1]
        exact e3a
      · rw [i1]
        exact e3b

/-- What `interfaceConstInits` does to the entries: slot index, key, dispatch-table
global and array element stay, and every entry gets its metadata record and its
dispatch-table constant. -/
theorem interfaceConstInits_spec (T : Target) (s : IRState) (cd : ClassId) :
    ∀ (ifs ifs' : List IrInterface), interfaceConstInits T s cd ifs = .ok ifs' →
      ifs'.map (fun x => (x.index, x.info)) = ifs.map (fun x => (x.index, x.info)) ∧
      ∀ x ∈ ifs', ∃ ci g es info ms,
        descriptorOf s x.decl = some ci ∧ x.vtbl = some g ∧
        (s.llvmType cd).elems? = some es ∧ 0 ≤ x.index ∧
        x.infoInit = some [Const.global ci, Const.slice x.base.vtbl.length (some g),
          Const.uint (T.elementOffset es x.index.toNat)] ∧
        x.info = some info ∧ x.vtblInit = some (info :: ms) := by
  intro ifs
  induction ifs with
  | nil =>
    intro ifs' h
    simp only [interfaceConstInits, Except.ok.injEq] at h
    subst h
    exact ⟨rfl, fun x hx => absurd hx (List.not_mem_nil x)⟩
  | cons iri rest ih =>
    intro ifs' h
    unfold interfaceConstInits at h
    split at h
    · exact Except.noConfusion h
    rename_i iri1 h1
    split at h
    · exact Except.noConfusion h
    rename_i rest1 hrest
    simp only [Except.ok.injEq] at h
    subst h
    obtain ⟨a, b⟩ := ih rest1 hrest
    have hone : (iri1.index, iri1.info) = (iri.index, iri.info) ∧
        ∃ ci g es info ms,
          descriptorOf s iri1.decl = some ci ∧ iri1.vtbl = some g ∧
          (s.llvmType cd).elems? = some es ∧ 0 ≤ iri1.index ∧
          iri1.infoInit = some [Const.global ci, Const.slice iri1.base.vtbl.length (some g),
            Const.uint (T.elementOffset es iri1.index.toNat)] ∧
          iri1.info = some info ∧ iri1.vtblInit = some (info :: ms) := by
      unfold interfaceConstInit at h1
      split at h1
      · exact Except.noConfusion h1
      split at h1
      · exact Except.noConfusion h1
      rename_i idirs hidirs
      split at h1
      · exact Except.noConfusion h1
      rename_i ci hci
      split at h1
      · exact Except.noConfusion h1
      rename_i g hg
      split at h1
      · exact Except.noConfusion h1
      rename_i hidx
      split at h1
      · exact Except.noConfusion h1
      rename_i es hes
      dsimp only at h1
      split at h1
      · exact Except.noConfusion h1
      rename_i info hinfo
      split at h1
      · exact Except.noConfusion h1
      rename_i ms _
      simp only [Except.ok.injEq] at h1
      subst h1
      refine ⟨rfl, ci, g, es, info, ms, ?_, hg, hes, not_lt.mp hidx, rfl, hinfo, rfl⟩
      unfold descriptorOf
      rw [hidirs]
      exact hci
    refine ⟨by simp [a, hone.1], ?_⟩
    intro x hx
    rcases List.mem_cons.mp hx with hx | hx
    · rw [hx]
      exact hone.2
    · exact b x hx

theorem defineInterfaceVtbls_infos :
    ∀ (ifs : List IrInterface) (is : List (GlobalName × Option Initializer))
      (infos : List (List Const)),
      defineInterfaceVtbls ifs = .ok (is, infos) →
      infos.map some = ifs.map (fun x => x.infoInit) := by
  intro ifs
  induction ifs with
  | nil =>
    intro is infos h
    simp only [defineInterfaceVtbls, Except.ok.injEq, Prod.mk.injEq] at h
    rw [← h.2]
    rfl
  | cons iri rest ih =>
    intro is infos h
    unfold defineInterfaceVtbls at h
    split at h
    · exact Except.noConfusion h
    split at h
    · exact Except.noConfusion h
    rename_i info hinfo
    split at h
    · exact Except.noConfusion h
    rename_i is1 infos1 hrec
    simp only [Except.ok.injEq, Prod.mk.injEq] at h
    rw [← h.2]
    simp [ih is1 infos1 hrec, hinfo]

/-- What `DtoConstInitClass` does to the interface entries of a concrete class not
yet const-initialized. -/
theorem DtoConstInitClass_entries (P : Program) (T : Target) (cd : ClassId) (s s' : IRState)
    (hc : isConcrete P cd = true) (hi : s.llvmInitialized cd = false)
    (h : DtoConstInitClass P T cd s = .ok s') :
    ∃ irs irs', s.irStruct cd = some irs ∧ s'.irStruct cd = some irs' ∧
      irs'.interfaceInfosTy = irs.interfaceInfosTy ∧
      irs'.interfaces.map (fun x => (x.index, x.info))
        = irs.interfaces.map (fun x => (x.index, x.info)) ∧
      ∀ x ∈ irs'.interfaces, ∃ ci g es info ms,
        descriptorOf s x.decl = some ci ∧ x.vtbl = some g ∧
        (s.llvmType cd).elems? = some es ∧ 0 ≤ x.index ∧
        x.infoInit = some [Const.global ci, Const.slice x.base.vtbl.length (some g),
          Const.uint (T.elementOffset es x.index.toNat)] ∧
        x.info = some info ∧ x.vtblInit = some (info :: ms) := by
  have hni : (P.decl cd).isInterfaceDeclaration = false := by
    unfold isConcrete at hc
    cases hx : (P.decl cd).isInterfaceDeclaration
    · rfl
    · rw [hx] at hc
      simp at hc
  unfold DtoConstInitClass at h
  rw [if_neg (by rw [hi]; simp)] at h
  dsimp only at h
  rw [if_neg (by rw [hni]; simp)] at h
  split at h
  · exact Except.noConfusion h
  · exact Except.noConfusion h
  split at h
  · exact Except.noConfusion h
  rename_i irs hirs
  try dsimp only at h
  split at h
  · exact Except.noConfusion h
  rename_i fieldinits _
  try dsimp only at h
  split at h
  · exact Except.noConfusion h
  rename_i irs2 h2
  simp only [Except.ok.injEq] at h
  subst h
  unfold buildVtblConsts at h2
  rw [if_pos hc] at h2
  split at h2
  · exact Except.noConfusion h2
  split at h2
  · exact Except.noConfusion h2
  rename_i ifs hifs
  simp only [Except.ok.injEq] at h2
  subst h2
  obtain ⟨a, b⟩ := interfaceConstInits_spec T _ cd _ ifs hifs
  exact ⟨irs, _, hirs, upd_same _ _ _, rfl, a, b⟩

theorem getElem_of_map_eq {α β : Type} (f : α → β) (L : List α) (M : List β) (k : Nat)
    (x : α) (h : L.map f = M) (hx : L[k]? = some x) : M[k]? = some (f x) := by
  rw [← h, List.getElem?_map, hx]
  rfl

/-- The composite type and the slot indices `DtoResolveClass` leaves for a class
it resolves: header, data, one dispatch-table pointer per interface entry, the
entries carrying the indices `2 + d + k`. -/
theorem DtoResolveClass_slots (P : Program) (sz : LLType → Nat) (fuel : Nat) (cd : ClassId)
    (s s' : IRState) (hnew : s.llvmResolved cd = false)
    (h : DtoResolveClass P sz fuel cd s = .ok s') :
    ∃ (irs : IrStruct) (data : List LLType),
      s'.irStruct cd = some irs ∧
      s'.llvmType cd = TypeHolder.struct
        ([getPtrToType (LLType.vtblRef cd), getPtrToType LLType.int8] ++ data
          ++ irs.interfaces.map (fun x => getPtrToType (LLType.vtblRef x.decl))) ∧
      irs.interfaces.map (fun x => x.index)
        = (List.range irs.interfaces.length).map
            (fun (k : Nat) => ((2 + data.length + k : Nat) : Int)) ∧
      ([getPtrToType (LLType.vtblRef cd), getPtrToType LLType.int8] ++ data
          ++ irs.interfaces.map (fun x => getPtrToType (LLType.vtblRef x.decl))).length
        = 2 + data.length + irs.interfaces.length := by
  cases fuel with
  | zero => simp [DtoResolveClass, hnew] at h
  | succ fuel =>
    unfold DtoResolveClass at h
    obtain ⟨_, _, irs6, irf, r, data, irs', _, _, _, _, hirs', _, _, _, hty, _, hidx, _, _⟩ :=
      resolveBody_result P sz fuel _ cd (DtoResolveClass_rel P sz fuel) s s' hnew h
    refine ⟨irs', data, hirs', hty, ?_, ?_⟩
    · rw [hidx]
      apply List.map_congr_left
      intro k _
      simp only [classHeader, List.length_cons, List.length_nil]
      push_cast
      ring
    · simp
      omega

/-- C22: take a concrete class through `DtoResolveClass` (from a state in which it
is not resolved), `DtoDeclareClass` and `DtoConstInitClass`. With `n` entries in its
interface table, the interface-metadata array type has `n` elements; entry `k` has
element `k` of the array as its `info` and as the first slot of its dispatch-table
constant; the metadata record of entry `k` is the descriptor of the interface, the
slice of `b->vtbl.dim` elements over the entry's dispatch table, and the byte
offset of the entry's composite slot; `DtoDefineClass` initialises the array with
these records in table order; and two entries have different array elements and,
the target layout placing the elements behind a dispatch-table pointer at higher
offsets than the pointer, different byte offsets. -/
theorem C22_interface_metadata (P : Program) (sz : LLType → Nat) (T : Target) (fuel : Nat)
    (cd : ClassId) (s0 s1 s2 s3 : IRState) (hc : isConcrete P cd = true)
    (hnew : s0.llvmResolved cd = false)
    (hres : DtoResolveClass P sz fuel cd s0 = .ok s1)
    (hd : s1.llvmDeclared cd = false)
    (hdecl : DtoDeclareClass P sz fuel cd s1 = .ok s2)
    (hi : s2.llvmInitialized cd = false)
    (hinit : DtoConstInitClass P T cd s2 = .ok s3)
    (hlayout : ∀ es, s1.llvmType cd = TypeHolder.struct es →
      ∀ (i j : Nat) (c : ClassId), es[i]? = some (getPtrToType (LLType.vtblRef c)) →
        i < j → j < es.length → T.elementOffset es i < T.elementOffset es j) :
    ∃ irs es, s3.irStruct cd = some irs ∧ s1.llvmType cd = TypeHolder.struct es ∧
      (irs.interfaces ≠ [] → irs.interfaceInfosTy = some irs.interfaces.length) ∧
      (∀ (k : Nat) (iri : IrInterface), irs.interfaces[k]? = some iri →
        iri.info = some (Const.infoElem cd k) ∧
        (∃ ms, iri.vtblInit = some (Const.infoElem cd k :: ms)) ∧
        ∃ ci g, descriptorOf s2 iri.decl = some ci ∧ iri.vtbl = some g ∧
          iri.infoInit = some [Const.global ci, Const.slice iri.base.vtbl.length (some g),
            Const.uint (T.elementOffset es iri.index.toNat)]) ∧
      (∀ (is : List (GlobalName × Option Initializer)) (infos : List (List Const)),
        defineInterfaceVtbls irs.interfaces = .ok (is, infos) →
        infos.length = irs.interfaces.length ∧
        ∀ (k : Nat) (iri : IrInterface), irs.interfaces[k]? = some iri →
          iri.infoInit = infos[k]?) ∧
      (∀ (j k : Nat) (a b : IrInterface), j < k → irs.interfaces[j]? = some a →
        irs.interfaces[k]? = some b →
        a.info ≠ b.info ∧
        T.elementOffset es a.index.toNat < T.elementOffset es b.index.toNat) := by
  have hr1 : s1.llvmResolved cd = true := DtoResolveClass_resolved P sz fuel cd s0 s1 hres
  obtain ⟨irs1, data, hirs1, hty1, hidx1, hlen1⟩ :=
    DtoResolveClass_slots P sz fuel cd s0 s1 hnew hres
  obtain ⟨irs2t, hirs2t, _, t2, t3⟩ :=
    DtoDeclareClass_table P sz fuel cd s1 s2 irs1 hd hr1 hirs1 hdecl
  obtain ⟨hty2, irs2, hirs2, e1, _⟩ :=
    DtoDeclareClass_entries P sz fuel cd s1 s2 irs1 hd hr1 hirs1 hc hdecl
  rw [hirs2t] at hirs2
  obtain rfl := Option.some.inj hirs2
  obtain ⟨irs2', irs, hirs2', hirs, f1, f2, f3⟩ :=
    DtoConstInitClass_entries P T cd s2 s3 hc hi hinit
  rw [hirs2t] at hirs2'
  obtain rfl := Option.some.inj hirs2'
  have hinfo2 := t3 hc
  -- the three tables have the same length
  have hn2 : irs2t.interfaces.length = irs1.interfaces.length := by
    have := congrArg List.length e1
    simpa using this
  have hn3 : irs.interfaces.length = irs1.interfaces.length := by
    have := congrArg List.length f2
    simp only [List.length_map] at this
    rw [this, hn2]
  -- slot index and array element of every entry
  have hindex : irs.interfaces.map (fun x => x.index)
      = (List.range irs1.interfaces.length).map
          (fun (k : Nat) => ((2 + data.length + k : Nat) : Int)) := by
    have a : irs.interfaces.map (fun x => x.index) = irs2t.interfaces.map (fun x => x.index) := by
      have := congrArg (List.map Prod.fst) f2
      simpa [List.map_map, Function.comp_def] using this
    have b : irs2t.interfaces.map (fun x => x.index) = irs1.interfaces.map (fun x => x.index) := by
      have := congrArg (List.map Prod.fst) e1
      simpa [List.map_map, Function.comp_def] using this
    rw [a, b, hidx1]
  have hinfo : irs.interfaces.map (fun x => x.info)
      = (List.range irs1.interfaces.length).map
          (fun (k : Nat) => some (Const.infoElem cd k)) := by
    have a : irs.interfaces.map (fun x => x.info) = irs2t.interfaces.map (fun x => x.info) := by
      have := congrArg (List.map Prod.snd) f2
      simpa [List.map_map, Function.comp_def] using this
    rw [a, hinfo2]
  have hat : ∀ (k : Nat) (iri : IrInterface), irs.interfaces[k]? = some iri →
      k < irs1.interfaces.length ∧ iri.index = ((2 + data.length + k : Nat) : Int) ∧
      iri.info = some (Const.infoElem cd k) := by
    intro k iri hk
    have hk1 : k < irs1.interfaces.length := by
      rw [← hn3]
      exact (List.getElem?_eq_some.mp hk).1
    have h1 := getElem_of_map_eq _ _ _ k iri hindex hk
    have h2 := getElem_of_map_eq _ _ _ k iri hinfo hk
    rw [List.getElem?_map, List.getElem?_range hk1] at h1 h2
    simp only [Option.map_some', Option.some.injEq] at h1 h2
    exact ⟨hk1, h1.symm, h2.symm⟩
  have hes : (s2.llvmType cd).elems?
      = some ([getPtrToType (LLType.vtblRef cd), getPtrToType LLType.int8] ++ data
          ++ irs1.interfaces.map (fun x => getPtrToType (LLType.vtblRef x.decl))) := by
    rw [hty2, hty1]
    rfl
  refine ⟨irs, _, hirs, hty1, ?_, ?_, ?_, ?_⟩
  · intro hne
    have hne1 : irs1.interfaces ≠ [] := by
      intro he
      apply hne
      apply List.eq_nil_of_length_eq_zero
      rw [hn3, he]
      rfl
    rw [f1, (t2 hne1).1, hn3]
  · intro k iri hk
    obtain ⟨_, _, hinf⟩ := hat k iri hk
    obtain ⟨ci, g, es, info, ms, c1, c2, c3, _, c5, c6, c7⟩ := f3 iri (List.getElem?_mem hk)
    rw [hes] at c3
    obtain rfl := Option.some.inj c3
    rw [hinf] at c6
    obtain rfl := Option.some.inj c6
    exact ⟨hinf, ⟨ms, c7⟩, ci, g, c1, c2, c5⟩
  · intro is infos hdef
    have hm := defineInterfaceVtbls_infos irs.interfaces is infos hdef
    refine ⟨by simpa using congrArg List.length hm, ?_⟩
    intro k iri hk
    have := getElem_of_map_eq _ _ _ k iri hm.symm hk
    rw [List.getElem?_map] at this
    cases hik : infos[k]? with
    | none =>
      rw [hik] at this
      simp at this
    | some c =>
      rw [hik] at this
      simp only [Option.map_some', Option.some.injEq] at this
      exact this.symm
  · intro j k a b hjk ha hb
    obtain ⟨_, ia, fa⟩ := hat j a ha
    obtain ⟨hk1, ib, fb⟩ := hat k b hb
    refine ⟨?_, ?_⟩
    · rw [fa, fb]
      intro he
      simp only [Option.some.injEq, Const.infoElem.injEq, true_and] at he
      omega
    · rw [ia, ib]
      simp only [Int.toNat_ofNat]
      have hj1 : j < irs1.interfaces.length := by omega
      have hslot : ([getPtrToType (LLType.vtblRef cd), getPtrToType LLType.int8] ++ data
            ++ irs1.interfaces.map (fun x => getPtrToType (LLType.vtblRef x.decl)))[
              2 + data.length + j]?
          = some (getPtrToType (LLType.vtblRef (irs1.interfaces[j]).decl)) := by
        rw [show 2 + data.length + j
            = ([getPtrToType (LLType.vtblRef cd), getPtrToType LLType.int8] ++ data).length + j by
          simp only [List.length_append, List.length_cons, List.length_nil]]
        rw [getElem_skip_left, List.getElem?_map, List.getElem?_eq_getElem hj1]
        rfl
      apply hlayout _ hty1 _ _ _ hslot
      · omega
      · rw [hlen1]
        omega

/-- Witness for C22: class 1 of `sampleProgram` with its two interfaces. -/
theorem C22_interface_metadata_witness :
    ∃ irs es, classInitialized.irStruct 1 = some irs ∧
      classResolved.llvmType 1 = TypeHolder.struct es ∧
      (irs.interfaces ≠ [] → irs.interfaceInfosTy = some irs.interfaces.length) ∧
      (∀ (k : Nat) (iri : IrInterface), irs.interfaces[k]? = some iri →
        iri.info = some (Const.infoElem 1 k) ∧
        (∃ ms, iri.vtblInit = some (Const.infoElem 1 k :: ms)) ∧
        ∃ ci g, descriptorOf classDeclared iri.decl = some ci ∧ iri.vtbl = some g ∧
          iri.infoInit = some [Const.global ci, Const.slice iri.base.vtbl.length (some g),
            Const.uint (sampleTarget.elementOffset es iri.index.toNat)]) ∧
      (∀ (is : List (GlobalName × Option Initializer)) (infos : List (List Const)),
        defineInterfaceVtbls irs.interfaces = .ok (is, infos) →
        infos.length = irs.interfaces.length ∧
        ∀ (k : Nat) (iri : IrInterface), irs.interfaces[k]? = some iri →
          iri.infoInit = infos[k]?) ∧
      (∀ (j k : Nat) (a b : IrInterface), j < k → irs.interfaces[j]? = some a →
        irs.interfaces[k]? = some b →
        a.info ≠ b.info ∧
        sampleTarget.elementOffset es a.index.toNat
          < sampleTarget.elementOffset es b.index.toNat) :=
  C22_interface_metadata sampleProgram sampleSize sampleTarget 5 1 interfacesDeclared
    classResolved classDeclared classInitialized rfl rfl rfl rfl rfl rfl rfl
    (fun _ _ i j _ _ hij _ => by
      show 4 * i < 4 * j
      omega)

/-- The interface table of the sample class after const-initialization, in
numbers: two entries at the composite slots 5 and 6, with the array elements 0
and 1 and the byte offsets 20 and 24 (the frontend tables `b->vtbl` of the sample
are empty). -/
theorem classInitialized_entries :
    ((recordOf classInitialized 1).interfaces.map
        (fun x => (x.decl, x.index, x.info, x.infoInit)))
      = [(2, 5, some (Const.infoElem 1 0),
           some [Const.global (GlobalName.classInfo 2),
             Const.slice 0 (some (GlobalName.interfaceVtbl 1 2)), Const.uint 20]),
         (3, 6, some (Const.infoElem 1 1),
           some [Const.global (GlobalName.classInfo 3),
             Const.slice 0 (some (GlobalName.interfaceVtbl 1 3)), Const.uint 24])] ∧
    (recordOf classInitialized 1).interfaceInfosTy = some 2 := by
  refine ⟨by rfl, by rfl⟩

end LDC
